import Mathlib

/-!
# Portals4: target-side RDMA engine, atomic-operation argument validation,
PPE client, shared-memory transport and latency test

A shallow embedding of

* `src/ib/ptl_rdma.c`: `post_rdma`, `build_sge`, `tgt_alloc_rdma_buf`,
  `process_rdma`, `process_rdma_desc`;
* `src/mc/lib/atomic.c`: `PtlAtomic`, `PtlFetchAtomic`, `PtlSwap`,
  `PtlAtomicSync`;
* `src/ib/ptl_light_lib.c`: the free list of ppebufs, `setup_ppe`,
  `transfer_msg`, `PtlInit`, `PtlFini`, `PtlMDBind`, `PtlLEAppend`,
  `PtlMEAppend`, `PtlCTGet`, `PtlCTWait`, `PtlCTPoll`, `PtlEQGet`, `PtlEQWait`,
  `PtlEQPoll`, and the stubs `PtlFetchAtomic` and `PtlSwap`;
* `src/ib/ptl_shmem.c`: `release_shmem_resources`, `setup_shmem`,
  `shmem_enqueue`, and the three routines that build a KNEM descriptor;
* `test/test_latency.c`: the potato-passing loop of `main`.

Machine integers are natural numbers; every C operation that can wrap or
truncate carries its modulus explicitly.  Calls into code that is not part of
these files (`mr_lookup`, `buf_alloc`, `malloc`, `ibv_post_send`, the handle
and process validators, the command queue, the PPE, `create_mapping`, the
system calls) are fields of an environment record.  `int` counters are
integers, and an operation on them that would overflow is a fault.
-/

namespace Portals4

/-! ## Return codes and machine words -/

/-- Return codes of the library that the embedded functions mention; every other
value of the C `int` that carries a status is `other`.  `PTL_OK` is 0, so the C
tests `if (ret)` and `if (err)` read `ret ≠ PTL_OK`. -/
inductive ptl_ret where
  | PTL_OK
  | PTL_FAIL
  | PTL_ARG_INVALID
  | PTL_NO_INIT
  | PTL_NO_SPACE
  | PTL_IN_USE
  | other (code : Nat)
  deriving DecidableEq, Repr

/-- Ways in which a run of the C code does not return to its caller, or in which
the bounded loop of the embedding stops early: an access outside an array, a
failed `assert`, the fuel of the embedding used up, a call that waits for ever
(for a lock, a flag or a buffer that nothing will provide), a call of `abort`,
and undefined behaviour (an access through an invalid pointer, a signed
overflow). -/
inductive Fault where
  | outOfBounds
  | assertFailed
  | outOfFuel
  | blocked
  | aborted
  | undefined
  deriving DecidableEq, Repr

/-- Modulus of `ptl_size_t`, `size_t`, `uint64_t` and `uintptr_t`. -/
def U64 : Nat := 2 ^ 64

/-- Modulus of `uint32_t`, the type of `ibv_sge.length`, `ibv_sge.lkey`, `rem_size`
and `rem_key`. -/
def U32 : Nat := 2 ^ 32

/-- Unsigned 64-bit subtraction `a - b`. -/
def sub64 (a b : Nat) : Nat := (a + U64 - b % U64) % U64

/-- Unsigned 64-bit addition `a + b`. -/
def add64 (a b : Nat) : Nat := (a + b) % U64

/-! ## Data model of `ptl_rdma.c` -/

/-- The verbs scatter/gather element: `addr` is 64 bits wide, `length` and `lkey`
are 32 bits wide (`process_rdma` reads them with `le64_to_cpu` and
`le32_to_cpu`). -/
structure ibv_sge where
  addr : Nat
  length : Nat
  lkey : Nat
  deriving DecidableEq, Repr

/-- One element of a local iovec. -/
structure ptl_iovec_t where
  iov_base : Nat
  iov_len : Nat
  deriving DecidableEq, Repr

/-- The fields of the LE/ME that `build_sge` reads.  When `num_iov` is not zero
`start` points to an array of `ptl_iovec_t`, whose contents are `iov`; reading
the array past its end is a fault. -/
structure me_t where
  start : Nat
  length : Nat
  num_iov : Nat
  iov : List ptl_iovec_t
  deriving DecidableEq, Repr

/-- Direction of the data movement seen from the target. -/
inductive data_dir_t where
  | DATA_DIR_IN
  | DATA_DIR_OUT
  deriving DecidableEq, Repr

/-- Opcode of a posted work request. -/
inductive ibv_wr_opcode where
  | IBV_WR_RDMA_READ
  | IBV_WR_RDMA_WRITE
  deriving DecidableEq, Repr

/-- The send-flag bit requesting a completion. -/
def IBV_SEND_SIGNALED : Nat := 2

/-- The work request handed to `ibv_post_send`.  `wr_id` and `send_flags` are
`none` when `post_rdma` leaves the fields of its local `wr` unassigned. -/
structure ibv_send_wr where
  wr_id : Option Nat
  send_flags : Option Nat
  sg_list : List ibv_sge
  num_sge : Nat
  opcode : ibv_wr_opcode
  remote_addr : Nat
  rkey : Nat
  deriving DecidableEq, Repr

/-- A call of `post_rdma` that `ibv_post_send` accepted: the `comp` argument of
the call and the work request built from it. -/
structure rdma_post where
  comp : Nat
  wr : ibv_send_wr
  deriving DecidableEq, Repr

/-- The temporary buf that holds the MR references of one rdma operation
(`tgt_alloc_rdma_buf`), with the fields `process_rdma` sets. -/
structure rdma_buf_t where
  id : Nat
  num_mr : Nat
  mr_list : List Nat
  comp : Nat
  send_wr_flags : Option Nat
  deriving DecidableEq, Repr

/-- The `data_t` descriptor of a request: its remote scatter/gather list. -/
structure data_t where
  sge_list : List ibv_sge
  deriving DecidableEq, Repr

/-- Type tag of a buf. -/
inductive buf_type_t where
  | BUF_RDMA
  | BUF_OTHER
  deriving DecidableEq, Repr

/-- The fields of the message buf that the rdma routines read and write.
`rem_sgl` is the array `rdma.cur_rem_sge` points into and `cur_rem_sge` the index
of the pointer in it; `completion_threshold` is `conn->rdma.completion_threshold`;
`send_wr_flags` is `rdma.send_wr.send_flags` (`none` while nothing has been
stored in it).  Every field holds a value in the range of its C type. -/
structure buf_t where
  id : Nat
  rdma_dir : data_dir_t
  put_resid : Nat
  get_resid : Nat
  cur_loc_iov_index : Nat
  cur_loc_iov_off : Nat
  rem_sgl : List ibv_sge
  cur_rem_sge : Nat
  cur_rem_off : Nat
  rdma_comp : Nat
  me : me_t
  rdma_list : List rdma_buf_t
  completion_threshold : Nat
  send_wr_flags : Option Nat
  data_in : data_t
  data_out : data_t
  indir_sge : Option Nat
  mr_list : List Nat
  num_mr : Nat
  comp : Nat
  xxbuf : Option Nat
  type : buf_type_t
  deriving DecidableEq, Repr

/-- The collaborators of the rdma routines and the two tunables they read.
`mr_lookup addr len` gives the status and the lkey of the MR found;
`buf_alloc n` gives the address of a fresh buf, or `none` on failure, when `n`
rdma bufs are already pending; `malloc len` gives an address or `none`;
`ibv_post_send wr` gives the verbs error code (0 on success). -/
structure RdmaEnv where
  PTL_MAX_QP_SEND_SGE : Nat
  PTL_MAX_RDMA_WR_OUT : Nat
  PTL_MAX_SEND_COMP_THRESHOLD : Nat
  mr_lookup : Nat → Nat → ptl_ret × Nat
  buf_alloc : Nat → Option Nat
  malloc : Nat → Option Nat
  ibv_post_send : ibv_send_wr → Nat

/-- Modelled from the spec: `atomic_inc` is declared outside the files at hand;
the spec says the counter is incremented and compared with the threshold when
it "reaches" it, so the value returned is the incremented one. -/
def atomic_inc (v : Nat) : Nat := v + 1

/-! ## `post_rdma` -/

/-- Result of `post_rdma`: status, the buf with its connection counter and
`rdma.send_wr.send_flags`, and the work request handed to `ibv_post_send`. -/
structure PostResult where
  status : ptl_ret
  completion_threshold : Nat
  send_wr_flags : Option Nat
  wr : ibv_send_wr
  deriving DecidableEq, Repr

/-- Embedding of `post_rdma` (ptl_rdma.c:27-67).  `buf_id` is the address of
the buf, `thr` the connection's `completion_threshold`, `flags` the buf's
`rdma.send_wr.send_flags`. -/
def post_rdma (env : RdmaEnv) (buf_id thr : Nat) (flags : Option Nat) (dir : data_dir_t)
    (raddr rkey : Nat) (sg_list : List ibv_sge) (num_sge : Nat) (comp : Nat) : PostResult :=
  let hdr : Option Nat × Option Nat × Nat × Option Nat :=
    if comp ≠ 0 then
      (some buf_id, some IBV_SEND_SIGNALED, thr, flags)
    else if atomic_inc thr = env.PTL_MAX_SEND_COMP_THRESHOLD then
      (none, none, 0, some IBV_SEND_SIGNALED)
    else
      (some 0, some 0, atomic_inc thr, flags)
  let wr : ibv_send_wr :=
    { wr_id := hdr.1
      send_flags := hdr.2.1
      sg_list := sg_list
      num_sge := num_sge
      opcode := if dir = data_dir_t.DATA_DIR_IN then ibv_wr_opcode.IBV_WR_RDMA_READ
                else ibv_wr_opcode.IBV_WR_RDMA_WRITE
      remote_addr := raddr
      rkey := rkey }
  { status := if env.ibv_post_send wr ≠ 0 then ptl_ret.PTL_FAIL else ptl_ret.PTL_OK
    completion_threshold := hdr.2.2.1
    send_wr_flags := hdr.2.2.2
    wr := wr }

/-! ## `build_sge` -/

/-- Loop variables of `build_sge`.  `sge` holds the entries `sge[0 .. num_sge)`
already passed by the `sge` pointer; the slot the pointer stands on is written
in every iteration and belongs to the list only once the pointer moves past
it.  `mr_list` holds every MR reference stored through `*mr_list++`. -/
structure SgeState where
  cur_index : Nat
  cur_off : Nat
  cur_len : Nat
  num_sge : Nat
  resid : Nat
  sge : List ibv_sge
  mr_list : List Nat
  deriving DecidableEq, Repr

/-- Outputs of `build_sge`: the status and the values left in the out
parameters.  On an error return the C function writes none of them: the record
then repeats the cursor and the length passed in, its `num_sge` is 0, and
`mr_list` holds the MR references stored before the error. -/
structure SgeResult where
  status : ptl_ret
  cur_index : Nat
  cur_off : Nat
  sge : List ibv_sge
  num_sge : Nat
  mr_list : List Nat
  length : Nat
  deriving DecidableEq, Repr

/-- Starting address and length of the next sge entry (ptl_rdma.c:119-132),
together with the iovec element in use, if any.  An iovec index past the end
of the array and a failing `assert` are faults. -/
def sge_segment (me : me_t) (s : SgeState) : Except Fault (Nat × Nat × Option ptl_iovec_t) :=
  if me.num_iov ≠ 0 then
    match me.iov[s.cur_index]? with
    | none => .error Fault.outOfBounds
    | some iov =>
      let room := sub64 iov.iov_len s.cur_off
      .ok (add64 iov.iov_base s.cur_off, if s.resid > room then room else s.resid, some iov)
  else if s.resid ≤ sub64 me.length s.cur_off then
    .ok (add64 me.start s.cur_off, s.resid, none)
  else .error Fault.assertFailed

/-- The block "update the dma info" of `build_sge` (ptl_rdma.c:143-157), after the MR
with key `lkey` was stored through `*mr_list++`. -/
def sge_update (s : SgeState) (bytes : Nat) (iov : Option ptl_iovec_t) (lkey : Nat) :
    SgeState :=
  let off1 := add64 s.cur_off bytes
  let adv : Bool :=
    match iov with
    | some v => decide (off1 ≥ v.iov_len)
    | none => false
  { cur_index := if adv then add64 s.cur_index 1 else s.cur_index
    cur_off := if adv then 0 else off1
    cur_len := add64 s.cur_len bytes
    num_sge := s.num_sge
    resid := sub64 s.resid bytes
    sge := s.sge
    mr_list := s.mr_list ++ [lkey] }

/-- The `while (resid)` loop of `build_sge` (ptl_rdma.c:118-164); the result is the
status and the loop variables at loop exit.  The store `sge->length = bytes`
truncates to 32 bits. -/
def build_sge_loop (env : RdmaEnv) (me : me_t) (sge_size : Nat) :
    Nat → SgeState → Except Fault (ptl_ret × SgeState)
  | 0, _ => .error Fault.outOfFuel
  | fuel + 1, s =>
    if s.resid = 0 then .ok (ptl_ret.PTL_OK, s)
    else
      match sge_segment me s with
      | .error f => .error f
      | .ok (addr, bytes, iov) =>
        let look := env.mr_lookup addr bytes
        if look.1 ≠ ptl_ret.PTL_OK then .ok (look.1, s)
        else
          let s1 := sge_update s bytes iov look.2
          if bytes ≠ 0 then
            let s2 : SgeState :=
              { s1 with sge := s.sge ++ [{ addr := addr, length := bytes % U32, lkey := look.2 }],
                        num_sge := s.num_sge + 1 }
            if s2.num_sge ≥ sge_size then .ok (ptl_ret.PTL_OK, s2)
            else build_sge_loop env me sge_size fuel s2
          else build_sge_loop env me sge_size fuel s1

/-- Embedding of `build_sge` (ptl_rdma.c:96-172).  Every iteration of the loop but
the last moves to the next iovec element, so the length of the iovec plus two
bounds the number of iterations. -/
def build_sge (env : RdmaEnv) (me : me_t) (cur_index cur_off : Nat) (sge_size : Nat)
    (length : Nat) : Except Fault SgeResult :=
  let s0 : SgeState :=
    { cur_index := cur_index, cur_off := cur_off, cur_len := 0, num_sge := 0,
      resid := length, sge := [], mr_list := [] }
  match build_sge_loop env me sge_size (me.iov.length + 2) s0 with
  | .error f => .error f
  | .ok (st, s) =>
    if st ≠ ptl_ret.PTL_OK then
      .ok { status := st, cur_index := cur_index, cur_off := cur_off, sge := s.sge,
            num_sge := 0, mr_list := s.mr_list, length := length }
    else
      .ok { status := ptl_ret.PTL_OK, cur_index := s.cur_index, cur_off := s.cur_off,
            sge := s.sge, num_sge := s.num_sge, mr_list := s.mr_list, length := s.cur_len }

/-! ## `tgt_alloc_rdma_buf` and `process_rdma` -/

/-- Embedding of `tgt_alloc_rdma_buf` (ptl_rdma.c:181-199): `none` when `buf_alloc`
fails; otherwise a fresh buf, which holds no MR reference yet. -/
def tgt_alloc_rdma_buf (env : RdmaEnv) (pending : List rdma_buf_t) : Option rdma_buf_t :=
  match env.buf_alloc pending.length with
  | none => none
  | some a => some { id := a, num_mr := 0, mr_list := [], comp := 0, send_wr_flags := none }

/-- Local variables of `process_rdma` together with the parts of the buf its
loop updates, and the calls of `post_rdma` that succeeded so far. -/
structure RdmaLoop where
  resid : Nat
  iov_index : Nat
  iov_off : Nat
  rem_sge : Nat
  rem_off : Nat
  rem_size : Nat
  rem_key : Nat
  cur_rdma_ops : Nat
  comp : Nat
  rdma_comp : Nat
  rdma_list : List rdma_buf_t
  completion_threshold : Nat
  posted : List rdma_post
  deriving DecidableEq, Repr

/-- The length of the next rdma transfer (ptl_rdma.c:270-272): the residual count,
cut down to what is left of the current remote segment. -/
def rdma_request (s : RdmaLoop) : Nat :=
  if s.resid > sub64 s.rem_size s.rem_off then sub64 s.rem_size s.rem_off else s.resid

/-- How one pass through the body of the loop of `process_rdma` ends. -/
inductive LoopExit where
  | next (s : RdmaLoop)
  | brk (s : RdmaLoop)
  | ret (status : ptl_ret) (s : RdmaLoop)
  deriving DecidableEq, Repr

/-- The block "update dma info" of `process_rdma` (ptl_rdma.c:304-313) after
`bytes` bytes were put into the work request: the new `resid`, `rem_sge`,
`rem_size`, `rem_key` and `rem_off`.  Moving `rem_sge` past the end of the remote
list is a fault. -/
def rem_update (rem_sgl : List ibv_sge) (s : RdmaLoop) (bytes : Nat) :
    Except Fault (Nat × Nat × Nat × Nat × Nat) :=
  let resid1 := sub64 s.resid bytes
  let rem_off1 := add64 s.rem_off bytes
  if resid1 ≠ 0 ∧ rem_off1 ≥ s.rem_size then
    match rem_sgl[s.rem_sge + 1]? with
    | none => .error Fault.outOfBounds
    | some nxt => .ok (resid1, s.rem_sge + 1, nxt.length, nxt.lkey, 0)
  else .ok (resid1, s.rem_sge, s.rem_size, s.rem_key, rem_off1)

/-- The end of the body of the loop of `process_rdma` (ptl_rdma.c:315-336): decide
whether to request a completion, post the work request for the remote
address `addr` with the local list of `r`, and leave or continue the loop.
`t` holds the new `resid`, `rem_sge`, `rem_size`, `rem_key` and `rem_off`. -/
def rdma_post_step (env : RdmaEnv) (buf : buf_t) (s : RdmaLoop) (addr : Nat)
    (rdma_buf : rdma_buf_t) (r : SgeResult) (t : Nat × Nat × Nat × Nat × Nat) : LoopExit :=
  let resid1 := t.1
  let rem_key2 := t.2.2.2.1
  -- completion request when finished or at the limit of outstanding rdmas
  let ops2 := if resid1 = 0 then s.cur_rdma_ops else s.cur_rdma_ops + 1
  let fin : Bool := decide (resid1 = 0 ∨ ops2 ≥ env.PTL_MAX_RDMA_WR_OUT)
  let comp2 := if fin then 1 else s.comp
  let rdma_comp2 := if fin then atomic_inc s.rdma_comp else s.rdma_comp
  let p := post_rdma env rdma_buf.id s.completion_threshold
    rdma_buf.send_wr_flags buf.rdma_dir addr rem_key2 r.sge r.num_sge comp2
  let rdma_buf1 : rdma_buf_t :=
    { rdma_buf with num_mr := rdma_buf.num_mr + r.num_sge, mr_list := r.mr_list,
                    comp := comp2, send_wr_flags := p.send_wr_flags }
  let s2 : RdmaLoop :=
    { resid := resid1, iov_index := r.cur_index, iov_off := r.cur_off,
      rem_sge := t.2.1, rem_off := t.2.2.2.2, rem_size := t.2.2.1,
      rem_key := rem_key2, cur_rdma_ops := ops2, comp := comp2,
      rdma_comp := rdma_comp2,
      rdma_list := s.rdma_list ++ [rdma_buf1],
      completion_threshold := p.completion_threshold,
      posted := s.posted ++ [{ comp := comp2, wr := p.wr }] }
  if p.status ≠ ptl_ret.PTL_OK then
    LoopExit.ret p.status { s2 with rdma_list := s.rdma_list, posted := s.posted }
  else if comp2 ≠ 0 then LoopExit.brk s2
  else LoopExit.next s2

/-- The body of the `while (resid)` loop of `process_rdma` (ptl_rdma.c:266-336). -/
def process_rdma_body (env : RdmaEnv) (buf : buf_t) (s : RdmaLoop) : Except Fault LoopExit :=
  match buf.rem_sgl[s.rem_sge]? with
  | none => .error Fault.outOfBounds
  | some cur =>
    -- remote starting address and length of the next rdma transfer
    let addr := add64 cur.addr s.rem_off
    let bytes := rdma_request s
    match tgt_alloc_rdma_buf env s.rdma_list with
    | none => .ok (LoopExit.ret ptl_ret.PTL_FAIL s)
    | some rdma_buf =>
      match build_sge env buf.me s.iov_index s.iov_off env.PTL_MAX_QP_SEND_SGE bytes with
      | .error f => .error f
      | .ok r =>
        if r.status ≠ ptl_ret.PTL_OK then .ok (LoopExit.ret r.status s)
        else
          match rem_update buf.rem_sgl s r.length with
          | .error f => .error f
          | .ok t => .ok (rdma_post_step env buf s addr rdma_buf r t)

/-- The `while (resid)` loop of `process_rdma` (ptl_rdma.c:265-337).  The boolean
of the result tells whether the loop was left normally (`true`) or by a
`return` with the status given (`false`). -/
def process_rdma_loop (env : RdmaEnv) (buf : buf_t) :
    Nat → RdmaLoop → Except Fault (ptl_ret × Bool × RdmaLoop)
  | 0, _ => .error Fault.outOfFuel
  | fuel + 1, s =>
    if s.resid = 0 then .ok (ptl_ret.PTL_OK, true, s)
    else
      match process_rdma_body env buf s with
      | .error f => .error f
      | .ok (LoopExit.ret st s1) => .ok (st, false, s1)
      | .ok (LoopExit.brk s1) => .ok (ptl_ret.PTL_OK, true, s1)
      | .ok (LoopExit.next s1) => process_rdma_loop env buf fuel s1

/-- What a call of `process_rdma` leaves behind: its return value, the buf, and
the calls of `post_rdma` that succeeded during the call, in order. -/
structure RdmaResult where
  status : ptl_ret
  buf : buf_t
  posted : List rdma_post
  deriving DecidableEq, Repr

/-- The residual byte count `process_rdma` works on: `put_resid` for
`DATA_DIR_IN`, `get_resid` otherwise. -/
def stored_resid (buf : buf_t) : Nat :=
  if buf.rdma_dir = data_dir_t.DATA_DIR_IN then buf.put_resid else buf.get_resid

/-- The locals of `process_rdma` when its loop is entered (ptl_rdma.c:243-251);
`cur` is the remote entry `rdma.cur_rem_sge` points to. -/
def rdma_entry (buf : buf_t) (cur : ibv_sge) : RdmaLoop :=
  { resid := stored_resid buf, iov_index := buf.cur_loc_iov_index,
    iov_off := buf.cur_loc_iov_off, rem_sge := buf.cur_rem_sge,
    rem_off := buf.cur_rem_off, rem_size := cur.length, rem_key := cur.lkey,
    cur_rdma_ops := 0, comp := 0, rdma_comp := buf.rdma_comp,
    rdma_list := buf.rdma_list, completion_threshold := buf.completion_threshold,
    posted := [] }

/-- The fields of the buf and of its connection that the loop of `process_rdma`
updates in place: `rdma.rdma_comp`, the list of pending rdma bufs and the
connection's `completion_threshold`. -/
def rdma_inplace (buf : buf_t) (s : RdmaLoop) : buf_t :=
  { buf with rdma_comp := s.rdma_comp, rdma_list := s.rdma_list,
             completion_threshold := s.completion_threshold }

/-- The block "update the current rdma state" of `process_rdma`
(ptl_rdma.c:339-348). -/
def rdma_save (buf : buf_t) (s : RdmaLoop) : buf_t :=
  let buf2 : buf_t :=
    { buf with cur_loc_iov_index := s.iov_index, cur_loc_iov_off := s.iov_off,
               cur_rem_off := s.rem_off, cur_rem_sge := s.rem_sge }
  if buf.rdma_dir = data_dir_t.DATA_DIR_IN then { buf2 with put_resid := s.resid }
  else { buf2 with get_resid := s.resid }

/-- Embedding of `process_rdma` (ptl_rdma.c:221-351).  A pass through the loop that
does not leave it increments `cur_rdma_ops` and leaves it below
`PTL_MAX_RDMA_WR_OUT`, so that limit plus two bounds the number of passes. -/
def process_rdma (env : RdmaEnv) (buf : buf_t) : Except Fault RdmaResult :=
  match buf.rem_sgl[buf.cur_rem_sge]? with
  | none => .error Fault.outOfBounds
  | some cur =>
    if buf.rdma_comp ≠ 0 then .error Fault.assertFailed
    else
      match process_rdma_loop env buf (env.PTL_MAX_RDMA_WR_OUT + 2) (rdma_entry buf cur) with
      | .error f => .error f
      | .ok (st, finished, s) =>
        if finished then
          .ok { status := ptl_ret.PTL_OK, buf := rdma_save (rdma_inplace buf s) s,
                posted := s.posted }
        else .ok { status := st, buf := rdma_inplace buf s, posted := s.posted }

/-- The buf when the state machine re-enters `process_rdma`: the signaled send
completion has cleared `rdma.rdma_comp` (comment at ptl_rdma.c:253-261). -/
def rdma_resume (buf : buf_t) : buf_t := { buf with rdma_comp := 0 }

/-- Driver of a transfer: `process_rdma` is called again and again, at most
`rounds` times, until the stored resid is 0, resuming after each call.  The
result carries the buf after the last call and all calls of `post_rdma` that
succeeded.  A call that does not return `PTL_OK` ends the run with its status. -/
def rdma_run (env : RdmaEnv) : Nat → buf_t → Except Fault RdmaResult
  | 0, _ => .error Fault.outOfFuel
  | rounds + 1, buf =>
    match process_rdma env buf with
    | .error f => .error f
    | .ok r =>
      if r.status ≠ ptl_ret.PTL_OK then .ok r
      else if stored_resid r.buf = 0 then .ok r
      else
        match rdma_run env rounds (rdma_resume r.buf) with
        | .error f => .error f
        | .ok r2 => .ok { r2 with posted := r.posted ++ r2.posted }

/-! ## `process_rdma_desc` -/

/-- Embedding of `process_rdma_desc` (ptl_rdma.c:366-424): the buf is used as its
own rdma buf to read the indirect scatter/gather list. -/
def process_rdma_desc (env : RdmaEnv) (buf : buf_t) : Except Fault RdmaResult :=
  let data := if buf.rdma_dir = data_dir_t.DATA_DIR_IN then buf.data_in else buf.data_out
  match data.sge_list[0]? with
  | none => .error Fault.outOfBounds
  | some e0 =>
    let raddr := e0.addr
    let rkey := e0.lkey
    let rlen := e0.length
    match env.malloc rlen with
    | none => .ok { status := ptl_ret.PTL_FAIL, buf := buf, posted := [] }
    | some indir_sge =>
      let look := env.mr_lookup indir_sge rlen
      if look.1 ≠ ptl_ret.PTL_OK then
        .ok { status := ptl_ret.PTL_FAIL, buf := buf, posted := [] }
      else
        let sge : ibv_sge := { addr := indir_sge, lkey := look.2, length := rlen }
        let buf1 : buf_t :=
          { buf with indir_sge := some indir_sge, mr_list := buf.mr_list ++ [look.2],
                     num_mr := buf.num_mr + 1, comp := 1, xxbuf := some buf.id,
                     type := buf_type_t.BUF_RDMA }
        let p := post_rdma env buf1.id buf1.completion_threshold buf1.send_wr_flags
          data_dir_t.DATA_DIR_IN raddr rkey [sge] 1 1
        let buf2 : buf_t :=
          { buf1 with completion_threshold := p.completion_threshold,
                      send_wr_flags := p.send_wr_flags }
        if p.status ≠ ptl_ret.PTL_OK then
          .ok { status := ptl_ret.PTL_FAIL, buf := buf2, posted := [] }
        else .ok { status := ptl_ret.PTL_OK, buf := buf2, posted := [{ comp := 1, wr := p.wr }] }

/-! ## Data model of `mc/lib/atomic.c` -/

/-- The atomic operations the validation code names; every other value of the
enumeration is `other`. -/
inductive ptl_op_t where
  | PTL_SWAP
  | PTL_CSWAP
  | PTL_MSWAP
  | PTL_LOR
  | PTL_LAND
  | PTL_LXOR
  | PTL_BOR
  | PTL_BAND
  | PTL_BXOR
  | other (code : Nat)
  deriving DecidableEq, Repr

/-- The datatypes the validation code names; every other value of the enumeration
is `other`. -/
inductive ptl_datatype_t where
  | PTL_INT8_T
  | PTL_UINT8_T
  | PTL_INT16_T
  | PTL_UINT16_T
  | PTL_INT32_T
  | PTL_UINT32_T
  | PTL_FLOAT
  | PTL_INT64_T
  | PTL_UINT64_T
  | PTL_DOUBLE
  | PTL_FLOAT_COMPLEX
  | PTL_LONG_DOUBLE
  | PTL_DOUBLE_COMPLEX
  | PTL_LONG_DOUBLE_COMPLEX
  | other (code : Nat)
  deriving DecidableEq, Repr

/-- The target of an operation, a rank or a (nid, pid) pair. -/
structure ptl_process_t where
  rank : Nat
  nid : Nat
  pid : Nat
  deriving DecidableEq, Repr

/-- Arguments of `PtlAtomic`. -/
structure AtomicArgs where
  md_handle : Nat
  local_offset : Nat
  length : Nat
  ack_req : Nat
  target_id : ptl_process_t
  pt_index : Nat
  match_bits : Nat
  remote_offset : Nat
  user_ptr : Nat
  hdr_data : Nat
  operation : ptl_op_t
  datatype : ptl_datatype_t
  deriving DecidableEq, Repr

/-- Arguments of `PtlFetchAtomic`. -/
structure FetchAtomicArgs where
  get_md_handle : Nat
  local_get_offset : Nat
  put_md_handle : Nat
  local_put_offset : Nat
  length : Nat
  target_id : ptl_process_t
  pt_index : Nat
  match_bits : Nat
  remote_offset : Nat
  user_ptr : Nat
  hdr_data : Nat
  operation : ptl_op_t
  datatype : ptl_datatype_t
  deriving DecidableEq, Repr

/-- Arguments of `PtlSwap`. -/
structure SwapArgs where
  get_md_handle : Nat
  local_get_offset : Nat
  put_md_handle : Nat
  local_put_offset : Nat
  length : Nat
  target_id : ptl_process_t
  pt_index : Nat
  match_bits : Nat
  remote_offset : Nat
  user_ptr : Nat
  hdr_data : Nat
  operand : Nat
  operation : ptl_op_t
  datatype : ptl_datatype_t
  deriving DecidableEq, Repr

/-- The `atomic` member of a command entry, with the fields `PtlAtomic` assigns. -/
structure ptl_cqe_atomic_t where
  remote_id : Nat
  md_handle : Nat
  local_offset : Nat
  length : Nat
  ack_req : Nat
  target_id : ptl_process_t
  pt_index : Nat
  match_bits : Nat
  remote_offset : Nat
  user_ptr : Nat
  hdr_data : Nat
  operation : ptl_op_t
  datatype : ptl_datatype_t
  deriving DecidableEq, Repr

/-- The `fetchAtomic` member of a command entry, with the fields `PtlFetchAtomic`
assigns. -/
structure ptl_cqe_fetchatomic_t where
  remote_id : Nat
  get_md_handle : Nat
  local_get_offset : Nat
  put_md_handle : Nat
  length : Nat
  target_id : ptl_process_t
  pt_index : Nat
  match_bits : Nat
  remote_offset : Nat
  user_ptr : Nat
  hdr_data : Nat
  operation : ptl_op_t
  datatype : ptl_datatype_t
  deriving DecidableEq, Repr

/-- The `swap` member of a command entry, with the fields `PtlSwap` assigns. -/
structure ptl_cqe_swap_t where
  remote_id : Nat
  get_md_handle : Nat
  local_get_offset : Nat
  put_md_handle : Nat
  length : Nat
  target_id : ptl_process_t
  pt_index : Nat
  match_bits : Nat
  remote_offset : Nat
  user_ptr : Nat
  hdr_data : Nat
  operand : Nat
  operation : ptl_op_t
  datatype : ptl_datatype_t
  deriving DecidableEq, Repr

/-- A command entry, tagged by `base.type`. -/
inductive ptl_cqe_t where
  | PTLATOMIC (e : ptl_cqe_atomic_t)
  | PTLFETCHATOMIC (e : ptl_cqe_fetchatomic_t)
  | PTLSWAP (e : ptl_cqe_swap_t)
  | PTLATOMICSYNC (remote_id : Nat)
  deriving DecidableEq, Repr

/-- The collaborators of the entry points of `atomic.c`.  `NO_ARG_VALIDATION` tells
whether the macro of that name is defined at compile time; `initialized` is
`PtlInternalLibraryInitialized() != PTL_FAIL`; `handle_ni h` is the `s.ni` bit field
of the handle `h`; the validators and the two command-queue calls give their C
return values (0 means valid, respectively success). -/
structure LibEnv where
  NO_ARG_VALIDATION : Bool
  initialized : Bool
  handle_ni : Nat → Nat
  max_atomic_size : Nat → Nat
  max_pt_index : Nat → Nat
  MDHandleValidator : Nat → Nat → Nat
  LogicalProcessValidator : ptl_process_t → Nat
  PhysicalProcessValidator : ptl_process_t → Nat
  rank : Nat
  ptl_cq_entry_alloc : Nat
  ptl_cq_entry_send_block : ptl_cqe_t → Nat

/-- What a call of an entry point leaves behind: the return value, the number of
calls of `ptl_cq_entry_alloc`, and the entries handed to
`ptl_cq_entry_send_block`. -/
structure ApiResult where
  ret : ptl_ret
  alloc_calls : Nat
  sent : List ptl_cqe_t
  deriving DecidableEq, Repr

/-- The `switch (datatype)` that sets `multiple` (atomic.c:47-75, 208-236, 371-399). -/
def datatype_multiple : ptl_datatype_t → Nat
  | .PTL_INT8_T | .PTL_UINT8_T => 1
  | .PTL_INT16_T | .PTL_UINT16_T => 2
  | .PTL_INT32_T | .PTL_UINT32_T | .PTL_FLOAT => 4
  | .PTL_INT64_T | .PTL_UINT64_T | .PTL_DOUBLE | .PTL_FLOAT_COMPLEX => 8
  | .PTL_LONG_DOUBLE | .PTL_DOUBLE_COMPLEX => 16
  | .PTL_LONG_DOUBLE_COMPLEX => 32
  | .other _ => 1

/-- The `switch (md.s.ni)` that checks the target id (atomic.c:81-99, 246-264,
409-426): `true` when the call is rejected. -/
def target_rejected (env : LibEnv) (ni : Nat) (target_id : ptl_process_t) : Bool :=
  if ni = 0 ∨ ni = 1 then decide (env.LogicalProcessValidator target_id ≠ 0)
  else if ni = 2 ∨ ni = 3 then decide (env.PhysicalProcessValidator target_id ≠ 0)
  else false

/-- The tail shared by the entry points: allocate a command entry, fill it in,
send it and wait (atomic.c:142-165, 309-332, 475-499, 515-526). -/
def send_command (env : LibEnv) (entry : ptl_cqe_t) : ApiResult :=
  if env.ptl_cq_entry_alloc ≠ 0 then
    { ret := ptl_ret.PTL_FAIL, alloc_calls := 1, sent := [] }
  else if env.ptl_cq_entry_send_block entry ≠ 0 then
    { ret := ptl_ret.PTL_FAIL, alloc_calls := 1, sent := [entry] }
  else { ret := ptl_ret.PTL_OK, alloc_calls := 1, sent := [entry] }

/-- A return from the validation block: nothing was allocated or sent. -/
def rejected (r : ptl_ret) : ApiResult := { ret := r, alloc_calls := 0, sent := [] }

/-- The `switch (operation)` of `PtlAtomic` (atomic.c:100-125): `some r` when it
returns `r`, `none` when it is left by a `break`. -/
def PtlAtomic_op_check (operation : ptl_op_t) (datatype : ptl_datatype_t) : Option ptl_ret :=
  match operation with
  | .PTL_SWAP | .PTL_CSWAP | .PTL_MSWAP => some ptl_ret.PTL_ARG_INVALID
  | .PTL_LOR | .PTL_LAND | .PTL_LXOR | .PTL_BOR | .PTL_BAND | .PTL_BXOR =>
    match datatype with
    | .PTL_DOUBLE | .PTL_FLOAT => some ptl_ret.PTL_ARG_INVALID
    | _ => none
  | _ => none

/-- The validation block of `PtlAtomic` (atomic.c:33-139): `some r` when it
returns `r`, `none` when control falls through to the marshalling code. -/
def PtlAtomic_validate (env : LibEnv) (a : AtomicArgs) : Option ptl_ret :=
  let ni := env.handle_ni a.md_handle
  if env.initialized = false then some ptl_ret.PTL_NO_INIT
  else if a.length > env.max_atomic_size ni then some ptl_ret.PTL_ARG_INVALID
  else if env.MDHandleValidator a.md_handle 1 ≠ 0 then some ptl_ret.PTL_ARG_INVALID
  else if a.length % datatype_multiple a.datatype ≠ 0 then some ptl_ret.PTL_ARG_INVALID
  else if target_rejected env ni a.target_id then some ptl_ret.PTL_ARG_INVALID
  else
    match PtlAtomic_op_check a.operation a.datatype with
    | some r => some r
    | none =>
      if a.pt_index > env.max_pt_index ni then some ptl_ret.PTL_ARG_INVALID
      else if a.local_offset ≥ 2 ^ 48 then some ptl_ret.PTL_ARG_INVALID
      else if a.remote_offset ≥ 2 ^ 48 then some ptl_ret.PTL_ARG_INVALID
      else none

/-- Embedding of `PtlAtomic` (atomic.c:14-166). -/
def PtlAtomic (env : LibEnv) (a : AtomicArgs) : ApiResult :=
  match (if env.NO_ARG_VALIDATION then none else PtlAtomic_validate env a) with
  | some r => rejected r
  | none =>
    send_command env (ptl_cqe_t.PTLATOMIC
      { remote_id := env.rank, md_handle := a.md_handle, local_offset := a.local_offset,
        length := a.length, ack_req := a.ack_req, target_id := a.target_id,
        pt_index := a.pt_index, match_bits := a.match_bits,
        remote_offset := a.remote_offset, user_ptr := a.user_ptr, hdr_data := a.hdr_data,
        operation := a.operation, datatype := a.datatype })

/-- The `switch (operation)` of `PtlFetchAtomic` (atomic.c:265-288). -/
def PtlFetchAtomic_op_check (operation : ptl_op_t) (datatype : ptl_datatype_t) :
    Option ptl_ret :=
  match operation with
  | .PTL_CSWAP | .PTL_MSWAP => some ptl_ret.PTL_ARG_INVALID
  | .PTL_LOR | .PTL_LAND | .PTL_LXOR | .PTL_BOR | .PTL_BAND | .PTL_BXOR =>
    match datatype with
    | .PTL_DOUBLE | .PTL_FLOAT => some ptl_ret.PTL_ARG_INVALID
    | _ => none
  | _ => none

/-- The validation block of `PtlFetchAtomic` (atomic.c:190-306). -/
def PtlFetchAtomic_validate (env : LibEnv) (a : FetchAtomicArgs) : Option ptl_ret :=
  let ni := env.handle_ni a.get_md_handle
  if env.initialized = false then some ptl_ret.PTL_NO_INIT
  else if env.MDHandleValidator a.get_md_handle 1 ≠ 0 then some ptl_ret.PTL_ARG_INVALID
  else if env.MDHandleValidator a.put_md_handle 1 ≠ 0 then some ptl_ret.PTL_ARG_INVALID
  else if a.length > env.max_atomic_size ni then some ptl_ret.PTL_ARG_INVALID
  else if a.length % datatype_multiple a.datatype ≠ 0 then some ptl_ret.PTL_ARG_INVALID
  else if ni ≠ env.handle_ni a.put_md_handle then some ptl_ret.PTL_ARG_INVALID
  else if target_rejected env ni a.target_id then some ptl_ret.PTL_ARG_INVALID
  else
    match PtlFetchAtomic_op_check a.operation a.datatype with
    | some r => some r
    | none =>
      if a.pt_index > env.max_pt_index ni then some ptl_ret.PTL_ARG_INVALID
      else if a.local_put_offset ≥ 2 ^ 48 then some ptl_ret.PTL_ARG_INVALID
      else if a.local_get_offset ≥ 2 ^ 48 then some ptl_ret.PTL_ARG_INVALID
      else if a.remote_offset ≥ 2 ^ 48 then some ptl_ret.PTL_ARG_INVALID
      else none

/-- Embedding of `PtlFetchAtomic` (atomic.c:169-333). -/
def PtlFetchAtomic (env : LibEnv) (a : FetchAtomicArgs) : ApiResult :=
  match (if env.NO_ARG_VALIDATION then none else PtlFetchAtomic_validate env a) with
  | some r => rejected r
  | none =>
    send_command env (ptl_cqe_t.PTLFETCHATOMIC
      { remote_id := env.rank, get_md_handle := a.get_md_handle,
        local_get_offset := a.local_get_offset, put_md_handle := a.put_md_handle,
        length := a.length, target_id := a.target_id, pt_index := a.pt_index,
        match_bits := a.match_bits, remote_offset := a.remote_offset,
        user_ptr := a.user_ptr, hdr_data := a.hdr_data, operation := a.operation,
        datatype := a.datatype })

/-- The `switch (operation)` of `PtlSwap` (atomic.c:427-454); `max_size` is
`nit_limits[ni].max_atomic_size`. -/
def PtlSwap_op_check (max_size length : Nat) (operation : ptl_op_t)
    (datatype : ptl_datatype_t) : Option ptl_ret :=
  match operation with
  | .PTL_SWAP =>
    if length > max_size then some ptl_ret.PTL_ARG_INVALID else none
  | .PTL_CSWAP | .PTL_MSWAP =>
    if length > 32 then some ptl_ret.PTL_ARG_INVALID
    else
      match datatype with
      | .PTL_DOUBLE | .PTL_FLOAT => some ptl_ret.PTL_ARG_INVALID
      | _ => none
  | _ => some ptl_ret.PTL_ARG_INVALID

/-- The validation block of `PtlSwap` (atomic.c:357-473). -/
def PtlSwap_validate (env : LibEnv) (a : SwapArgs) : Option ptl_ret :=
  let ni := env.handle_ni a.get_md_handle
  if env.initialized = false then some ptl_ret.PTL_NO_INIT
  else if env.MDHandleValidator a.get_md_handle 1 ≠ 0 then some ptl_ret.PTL_ARG_INVALID
  else if env.MDHandleValidator a.put_md_handle 1 ≠ 0 then some ptl_ret.PTL_ARG_INVALID
  else if a.length % datatype_multiple a.datatype ≠ 0 then some ptl_ret.PTL_ARG_INVALID
  else if ni ≠ env.handle_ni a.put_md_handle then some ptl_ret.PTL_ARG_INVALID
  else if target_rejected env ni a.target_id then some ptl_ret.PTL_ARG_INVALID
  else
    match PtlSwap_op_check (env.max_atomic_size ni) a.length a.operation a.datatype with
    | some r => some r
    | none =>
      if a.pt_index > env.max_pt_index ni then some ptl_ret.PTL_ARG_INVALID
      else if a.local_put_offset ≥ 2 ^ 48 then some ptl_ret.PTL_ARG_INVALID
      else if a.local_get_offset ≥ 2 ^ 48 then some ptl_ret.PTL_ARG_INVALID
      else if a.remote_offset ≥ 2 ^ 48 then some ptl_ret.PTL_ARG_INVALID
      else none

/-- Embedding of `PtlSwap` (atomic.c:336-500). -/
def PtlSwap (env : LibEnv) (a : SwapArgs) : ApiResult :=
  match (if env.NO_ARG_VALIDATION then none else PtlSwap_validate env a) with
  | some r => rejected r
  | none =>
    send_command env (ptl_cqe_t.PTLSWAP
      { remote_id := env.rank, get_md_handle := a.get_md_handle,
        local_get_offset := a.local_get_offset, put_md_handle := a.put_md_handle,
        length := a.length, target_id := a.target_id, pt_index := a.pt_index,
        match_bits := a.match_bits, remote_offset := a.remote_offset,
        user_ptr := a.user_ptr, hdr_data := a.hdr_data, operand := a.operand,
        operation := a.operation, datatype := a.datatype })

/-- Embedding of `PtlAtomicSync` (atomic.c:503-527). -/
def PtlAtomicSync (env : LibEnv) : ApiResult :=
  if env.NO_ARG_VALIDATION = false ∧ env.initialized = false then rejected ptl_ret.PTL_NO_INIT
  else send_command env (ptl_cqe_t.PTLATOMICSYNC env.rank)

/-! ## Notions used to state the properties of the rdma engine -/

/-- Total byte length of a scatter/gather list. -/
def sge_bytes (l : List ibv_sge) : Nat := (l.map (fun e => e.length)).sum

/-- Bytes described by the local lists of a sequence of posted work requests. -/
def posted_bytes (l : List rdma_post) : Nat := (l.map (fun p => sge_bytes p.wr.sg_list)).sum

/-- Invariant of the loop of `build_sge` for a request of `L` bytes. -/
def SgeInv (L : Nat) (s : SgeState) : Prop :=
  s.cur_len + s.resid = L ∧ s.num_sge = s.sge.length ∧
    (L < U32 → (∀ e ∈ s.sge, e.length ≠ 0) ∧ sge_bytes s.sge = s.cur_len)

/-- The loop variables a pass through the body of `process_rdma` ends with. -/
def LoopExit.state : LoopExit → RdmaLoop
  | .next s => s
  | .brk s => s
  | .ret _ s => s

/-- A sample environment in which every collaborator succeeds: the lkey of an
address is the address divided by 1000, bufs are allocated at 900, 901, ... -/
def envOk (sge_size max_ops : Nat) : RdmaEnv :=
  { PTL_MAX_QP_SEND_SGE := sge_size, PTL_MAX_RDMA_WR_OUT := max_ops,
    PTL_MAX_SEND_COMP_THRESHOLD := 1000,
    mr_lookup := fun a _ => (ptl_ret.PTL_OK, a / 1000), buf_alloc := fun n => some (900 + n),
    malloc := fun _ => some 5000, ibv_post_send := fun _ => 0 }

/-- A sample contiguous ME of `len` bytes at address 100000. -/
def meContig (len : Nat) : me_t := { start := 100000, length := len, num_iov := 0, iov := [] }

/-- A sample ME with an iovec of three elements, the middle one empty. -/
def meIovec : me_t :=
  { start := 7, length := 0, num_iov := 3, iov := [⟨1000, 10⟩, ⟨2000, 0⟩, ⟨3000, 20⟩] }

/-- A sample message buf at the start of a transfer of `L` bytes in direction
`DATA_DIR_IN` between the ME `me` and the remote list `rem`. -/
def bufStart (me : me_t) (rem : List ibv_sge) (L : Nat) : buf_t :=
  { id := 1, rdma_dir := .DATA_DIR_IN, put_resid := L, get_resid := 0, cur_loc_iov_index := 0,
    cur_loc_iov_off := 0, rem_sgl := rem, cur_rem_sge := 0, cur_rem_off := 0, rdma_comp := 0,
    me := me, rdma_list := [], completion_threshold := 0, send_wr_flags := none,
    data_in := ⟨rem⟩, data_out := ⟨[]⟩, indir_sge := none, mr_list := [], num_mr := 0,
    comp := 0, xxbuf := none, type := .BUF_OTHER }

/-- A sample remote list of three segments, the middle one empty. -/
def remThree : List ibv_sge := [⟨50000, 7, 1⟩, ⟨60000, 0, 2⟩, ⟨70000, 30, 3⟩]

/-- The result of `build_sge` for 25 bytes on the sample iovec with room for 16
entries. -/
def sgeIovec25 : SgeResult :=
  { status := .PTL_OK, cur_index := 2, cur_off := 15, sge := [⟨1000, 10, 1⟩, ⟨3000, 15, 3⟩],
    num_sge := 2, mr_list := [1, 2, 3], length := 25 }

/-- The result of the first call of `process_rdma` for 30 bytes between the sample
iovec and the sample remote list, with at most two requests per call. -/
def resThreeFirst : RdmaResult :=
  { status := .PTL_OK,
    buf := { bufStart meIovec remThree 30 with
      put_resid := 23, cur_loc_iov_off := 7, cur_rem_sge := 2, rdma_comp := 1,
      rdma_list := [⟨900, 1, [1], 0, none⟩, ⟨901, 0, [], 1, none⟩],
      completion_threshold := 1 },
    posted := [⟨0, ⟨some 0, some 0, [⟨1000, 7, 1⟩], 1, .IBV_WR_RDMA_READ, 50000, 2⟩⟩,
      ⟨1, ⟨some 901, some 2, [], 0, .IBV_WR_RDMA_READ, 60000, 3⟩⟩] }

/-- The loop variables that locate the transfer: what `process_rdma` saves in the
buf, with the length and key of the current remote segment. -/
structure Cursor where
  resid : Nat
  iov_index : Nat
  iov_off : Nat
  rem_sge : Nat
  rem_off : Nat
  rem_size : Nat
  rem_key : Nat
  deriving DecidableEq, Repr

/-- The cursor part of the loop variables. -/
def RdmaLoop.cursor (s : RdmaLoop) : Cursor :=
  { resid := s.resid, iov_index := s.iov_index, iov_off := s.iov_off, rem_sge := s.rem_sge,
    rem_off := s.rem_off, rem_size := s.rem_size, rem_key := s.rem_key }

/-- The cursor a pass through the body ends with, from the result `r` of
`build_sge` and the result `t` of `rem_update`. -/
def step_cursor (r : SgeResult) (t : Nat × Nat × Nat × Nat × Nat) : Cursor :=
  { resid := t.1, iov_index := r.cur_index, iov_off := r.cur_off, rem_sge := t.2.1,
    rem_off := t.2.2.2.2, rem_size := t.2.2.1, rem_key := t.2.2.2.1 }

/-- The part of a posted work request that does not depend on signaling. -/
def wr_data (p : rdma_post) : Nat × Nat × List ibv_sge :=
  (p.wr.remote_addr, p.wr.rkey, p.wr.sg_list)

/-- Invariant of the loop head of `process_rdma` within one call, for C3. -/
def OpsInv (m : Nat) (s : RdmaLoop) : Prop :=
  s.resid ≠ 0 ∧ s.comp = 0 ∧ s.rdma_comp = 0 ∧ s.cur_rdma_ops = s.posted.length ∧
    s.cur_rdma_ops < m ∧ ∀ p ∈ s.posted, p.comp = 0

/-- What C3 says of the loop variables at the end of a call. -/
def OpsExit (m : Nat) (res : ptl_ret × Bool × RdmaLoop) : Prop :=
  res.2.2.posted.length ≤ m ∧ (∀ p ∈ res.2.2.posted.dropLast, p.comp = 0) ∧
    (res.2.1 = true → res.2.2.rdma_comp = 1 ∧
      (res.2.2.resid = 0 ∨ res.2.2.posted.length = m) ∧
      ∃ last, res.2.2.posted.getLast? = some last ∧ last.comp = 1) ∧
    (res.2.1 = false → res.1 ≠ ptl_ret.PTL_OK)

/-- The descriptor `process_rdma_desc` reads: `data_in` for `DATA_DIR_IN`, `data_out`
otherwise. -/
def desc_data (buf : buf_t) : data_t :=
  if buf.rdma_dir = data_dir_t.DATA_DIR_IN then buf.data_in else buf.data_out

/-- The work request C5 describes: a signaled RDMA READ of the remote segment `e0`
into the single local segment at `indir_sge`, of the same length, registered
under `lkey`. -/
def desc_wr (buf : buf_t) (e0 : ibv_sge) (indir_sge lkey : Nat) : ibv_send_wr :=
  { wr_id := some buf.id, send_flags := some IBV_SEND_SIGNALED,
    sg_list := [{ addr := indir_sge, length := e0.length, lkey := lkey }], num_sge := 1,
    opcode := ibv_wr_opcode.IBV_WR_RDMA_READ, remote_addr := e0.addr, rkey := e0.lkey }

/-- A sample buf in direction `DATA_DIR_OUT` whose `data_out` holds an indirect
descriptor of 640 bytes at remote address 80000 with key 9. -/
def bufIndirect : buf_t :=
  { bufStart (meContig 163840) [] 163840 with
    rdma_dir := .DATA_DIR_OUT, data_in := ⟨[]⟩, data_out := ⟨[⟨80000, 640, 9⟩]⟩ }

/-- Bytes in the elements of an iovec from index `idx` on. -/
def iov_cap (iov : List ptl_iovec_t) (idx : Nat) : Nat :=
  ((iov.drop idx).map (fun v => v.iov_len)).sum

/-- Remaining capacity of the local ME at the position (`idx`, `off`). -/
def loc_cap (me : me_t) (idx off : Nat) : Nat :=
  if me.num_iov ≠ 0 then iov_cap me.iov idx - off else me.length - off

/-- The local position (`idx`, `off`) lies inside the ME, and the sizes of the ME
are in the range of their C types. -/
def LocalOk (me : me_t) (idx off : Nat) : Prop :=
  if me.num_iov ≠ 0 then
    (∀ v ∈ me.iov, v.iov_len < U64) ∧ me.iov.length < U64 ∧
      off ≤ (me.iov.getD idx ⟨0, 0⟩).iov_len
  else me.length < U64 ∧ off ≤ me.length

/-- Bytes in the segments of a remote list from index `i` on. -/
def sgl_cap (rem : List ibv_sge) (i : Nat) : Nat :=
  ((rem.drop i).map (fun e => e.length)).sum

/-- Bytes left in a remote list at the position (`i`, `off`). -/
def rem_cap (rem : List ibv_sge) (i off : Nat) : Nat := sgl_cap rem i - off

/-- The position of a cursor is inside the local ME and inside the remote list,
`rem_size` and `rem_key` are those of the current remote segment, and both
sides have room for `resid` more bytes. -/
def CursorOk (me : me_t) (rem : List ibv_sge) (c : Cursor) : Prop :=
  c.resid < U64 ∧ LocalOk me c.iov_index c.iov_off ∧
    c.resid ≤ loc_cap me c.iov_index c.iov_off ∧ (∀ e ∈ rem, e.length < U32) ∧
    (∃ cur, rem[c.rem_sge]? = some cur ∧ cur.length = c.rem_size ∧ cur.lkey = c.rem_key) ∧
    c.rem_off ≤ c.rem_size ∧ c.resid ≤ rem_cap rem c.rem_sge c.rem_off

/-- What bounds the number of passes still to make: the bytes left plus the
remote segments left. -/
def Cursor.work (rem : List ibv_sge) (c : Cursor) : Nat := c.resid + (rem.length - c.rem_sge)

/-- Every collaborator of the rdma engine succeeds, and the two limits are at
least 1. -/
def EnvOk (env : RdmaEnv) : Prop :=
  1 ≤ env.PTL_MAX_QP_SEND_SGE ∧ 1 ≤ env.PTL_MAX_RDMA_WR_OUT ∧
    (∀ a n, (env.mr_lookup a n).1 = ptl_ret.PTL_OK) ∧ (∀ n, env.buf_alloc n ≠ none) ∧
    ∀ wr, env.ibv_post_send wr = 0

/-- The state of a transfer saved in the buf is in order: no completion is
pending, the local position lies inside the ME and the remote position inside
the remote list, the lengths are in the range of their C types, and both sides
have room for the stored resid. -/
def TransferOk (buf : buf_t) : Prop :=
  buf.rdma_comp = 0 ∧ stored_resid buf < U64 ∧
    LocalOk buf.me buf.cur_loc_iov_index buf.cur_loc_iov_off ∧
    stored_resid buf ≤ loc_cap buf.me buf.cur_loc_iov_index buf.cur_loc_iov_off ∧
    (∀ e ∈ buf.rem_sgl, e.length < U32) ∧ buf.cur_rem_sge < buf.rem_sgl.length ∧
    buf.cur_rem_off ≤ (buf.rem_sgl.getD buf.cur_rem_sge ⟨0, 0, 0⟩).length ∧
    stored_resid buf ≤ rem_cap buf.rem_sgl buf.cur_rem_sge buf.cur_rem_off

instance (me : me_t) (idx off : Nat) : Decidable (LocalOk me idx off) := by
  unfold LocalOk
  infer_instance

instance (buf : buf_t) : Decidable (TransferOk buf) := by
  unfold TransferOk
  infer_instance

/-- What bounds the number of passes a transfer still needs: the bytes left plus
the remote segments left. -/
def buf_work (buf : buf_t) : Nat :=
  stored_resid buf + (buf.rem_sgl.length - buf.cur_rem_sge)

/-- The environment with `PTL_MAX_RDMA_WR_OUT` set to `m`. -/
def with_limit (env : RdmaEnv) (m : Nat) : RdmaEnv := { env with PTL_MAX_RDMA_WR_OUT := m }

/-- Loop variables that hold a cursor and nothing else. -/
def Cursor.toLoop (c : Cursor) : RdmaLoop :=
  { resid := c.resid, iov_index := c.iov_index, iov_off := c.iov_off, rem_sge := c.rem_sge,
    rem_off := c.rem_off, rem_size := c.rem_size, rem_key := c.rem_key, cur_rdma_ops := 0,
    comp := 0, rdma_comp := 0, rdma_list := [], completion_threshold := 0, posted := [] }

/-- One pass of the transfer on the cursor alone, with `pending` rdma bufs on the
list: the next cursor and the remote address, rkey and local list of the work
request; `none` when anything but the post fails. -/
def rdma_pass (env : RdmaEnv) (me : me_t) (rem : List ibv_sge) (c : Cursor)
    (pending : Nat) : Option (Cursor × (Nat × Nat × List ibv_sge)) :=
  match rem[c.rem_sge]? with
  | none => none
  | some cur =>
    match env.buf_alloc pending with
    | none => none
    | some _ =>
      match build_sge env me c.iov_index c.iov_off env.PTL_MAX_QP_SEND_SGE
          (rdma_request c.toLoop) with
      | .error _ => none
      | .ok r =>
        if r.status ≠ ptl_ret.PTL_OK then none
        else
          match rem_update rem c.toLoop r.length with
          | .error _ => none
          | .ok t => some (step_cursor r t, (add64 cur.addr c.rem_off, t.2.2.2.1, r.sge))

/-- The passes of a transfer from a cursor until resid is 0, at most `n` of them:
the list of what is posted and the final cursor. -/
def rdma_unroll (env : RdmaEnv) (me : me_t) (rem : List ibv_sge) : Nat → Cursor → Nat →
    Option (List (Nat × Nat × List ibv_sge) × Cursor)
  | 0, c, _ => if c.resid = 0 then some ([], c) else none
  | n + 1, c, pending =>
    if c.resid = 0 then some ([], c)
    else
      match rdma_pass env me rem c pending with
      | none => none
      | some (c1, d) =>
        match rdma_unroll env me rem n c1 (pending + 1) with
        | none => none
        | some (l, cf) => some (d :: l, cf)

/-- The current remote segment of a cursor exists and has the size and key the
cursor carries. -/
def CurSeg (rem : List ibv_sge) (c : Cursor) : Prop :=
  ∃ cur, rem[c.rem_sge]? = some cur ∧ cur.length = c.rem_size ∧ cur.lkey = c.rem_key

/-- The result of a single call of `process_rdma` with a limit of ten requests for
30 bytes between the sample iovec and the sample remote list. -/
def resThreeWhole : RdmaResult :=
  { status := .PTL_OK,
    buf := { bufStart meIovec remThree 30 with
      put_resid := 0, cur_loc_iov_index := 3, cur_loc_iov_off := 0, cur_rem_sge := 2,
      cur_rem_off := 23, rdma_comp := 1,
      rdma_list := [⟨900, 1, [1], 0, none⟩, ⟨901, 0, [], 0, none⟩, ⟨902, 2, [1, 2, 3], 1, none⟩],
      completion_threshold := 2 },
    posted := [⟨0, ⟨some 0, some 0, [⟨1000, 7, 1⟩], 1, .IBV_WR_RDMA_READ, 50000, 2⟩⟩,
      ⟨0, ⟨some 0, some 0, [], 0, .IBV_WR_RDMA_READ, 60000, 3⟩⟩,
      ⟨1, ⟨some 902, some 2, [⟨1007, 3, 1⟩, ⟨3000, 20, 3⟩], 2, .IBV_WR_RDMA_READ, 70000, 3⟩⟩] }

/-- The transfer fills a contiguous ME from whole remote segments, none of them
empty, and `k` of them are still to be moved. -/
def SegCount (me : me_t) (rem : List ibv_sge) (c : Cursor) (k : Nat) : Prop :=
  CursorOk me rem c ∧ me.num_iov = 0 ∧ (∀ e ∈ rem, e.length ≠ 0) ∧
    ((c.resid = 0 ∧ k = 0) ∨
      (c.resid ≠ 0 ∧ c.rem_off = 0 ∧ c.resid = sgl_cap rem c.rem_sge ∧
        k = rem.length - c.rem_sge))

/-- The remote list of the indirect-SGL scenario: 40 segments of 4096 bytes. -/
def remForty : List ibv_sge :=
  (List.range 40).map (fun i => { addr := 500000 + 4096 * i, length := 4096, lkey := 77 })

/-- The buf of the indirect-SGL scenario at the start of the data transfer: a
contiguous ME of 163840 bytes, the remote list of 40 segments, 163840 bytes to
move. -/
def bufForty : buf_t := bufStart (meContig 163840) remForty 163840

/-- The value of `MAX_QP_SEND_SGE` in `ptl_ni.h`. -/
def MAX_QP_SEND_SGE : Nat := 16

/-- The remote position of the loop of `process_rdma` is in the range of its C
types: `rem_size`, a `uint32_t`, is below 2^32, and `rem_off` has not passed it. -/
def RemoteInRange (s : RdmaLoop) : Prop := s.rem_size < U32 ∧ s.rem_off ≤ s.rem_size

instance (s : RdmaLoop) : Decidable (RemoteInRange s) := by
  unfold RemoteInRange
  infer_instance

/-! ## Sample inputs for `atomic.c` -/

/-- The six logical and binary operations. -/
def is_logical_or_binary (op : ptl_op_t) : Prop :=
  op = ptl_op_t.PTL_LOR ∨ op = ptl_op_t.PTL_LAND ∨ op = ptl_op_t.PTL_LXOR ∨
    op = ptl_op_t.PTL_BOR ∨ op = ptl_op_t.PTL_BAND ∨ op = ptl_op_t.PTL_BXOR

/-- An environment in which validation is compiled in, the library is initialised
and every collaborator accepts. -/
def envAccept : LibEnv :=
  { NO_ARG_VALIDATION := false, initialized := true, handle_ni := fun h => h % 4,
    max_atomic_size := fun _ => 512, max_pt_index := fun _ => 63,
    MDHandleValidator := fun _ _ => 0, LogicalProcessValidator := fun _ => 0,
    PhysicalProcessValidator := fun _ => 0, rank := 0, ptl_cq_entry_alloc := 0,
    ptl_cq_entry_send_block := fun _ => 0 }

/-- A `PtlSwap` call of 8 bytes with the operation and datatype given. -/
def swapCall (op : ptl_op_t) (dt : ptl_datatype_t) : SwapArgs :=
  { get_md_handle := 0, local_get_offset := 0, put_md_handle := 0, local_put_offset := 0,
    length := 8, target_id := ⟨1, 0, 0⟩, pt_index := 3, match_bits := 0, remote_offset := 0,
    user_ptr := 0, hdr_data := 0, operand := 0, operation := op, datatype := dt }

/-- A `PtlFetchAtomic` call of 8 bytes with the operation and datatype given. -/
def fetchCall (op : ptl_op_t) (dt : ptl_datatype_t) : FetchAtomicArgs :=
  { get_md_handle := 0, local_get_offset := 0, put_md_handle := 0, local_put_offset := 0,
    length := 8, target_id := ⟨1, 0, 0⟩, pt_index := 3, match_bits := 0, remote_offset := 0,
    user_ptr := 0, hdr_data := 0, operation := op, datatype := dt }

/-- A `PtlAtomic` call of 8 bytes with the operation and datatype given. -/
def atomicCall (op : ptl_op_t) (dt : ptl_datatype_t) : AtomicArgs :=
  { md_handle := 0, local_offset := 0, length := 8, ack_req := 0, target_id := ⟨1, 0, 0⟩,
    pt_index := 3, match_bits := 0, remote_offset := 0, user_ptr := 0, hdr_data := 0,
    operation := op, datatype := dt }

/-- The environment `envAccept` with an NI whose `max_atomic_size` is 8 bytes. -/
def envAtomic8 : LibEnv := { envAccept with max_atomic_size := fun _ => 8 }

/-- The accepting environment in a build with `NO_ARG_VALIDATION` defined. -/
def envNoValidation : LibEnv := { envAccept with NO_ARG_VALIDATION := true }

/-- The build with `NO_ARG_VALIDATION` defined, the library not initialised. -/
def envNoValidationNoInit : LibEnv := { envNoValidation with initialized := false }

/-- The call `swapCall op dt` with the length replaced by `len`. -/
def swapCallLen (len : Nat) (op : ptl_op_t) (dt : ptl_datatype_t) : SwapArgs :=
  { swapCall op dt with length := len }

/-- The return-code discipline of an entry point of `atomic.c`, for a call that
left `r` behind; `passed` says that the validation block let the call through. -/
def FailsFast (env : LibEnv) (passed : Prop) (r : ApiResult) : Prop :=
  ((r.ret = ptl_ret.PTL_ARG_INVALID ∨ r.ret = ptl_ret.PTL_NO_INIT) →
      r.alloc_calls = 0 ∧ r.sent = []) ∧
  (r.ret = ptl_ret.PTL_NO_INIT ↔ env.initialized = false) ∧
  (r.ret = ptl_ret.PTL_FAIL ↔
    passed ∧ (env.ptl_cq_entry_alloc ≠ 0 ∨
      ∃ e, r.sent = [e] ∧ env.ptl_cq_entry_send_block e ≠ 0)) ∧
  (r.ret = ptl_ret.PTL_OK ↔
    passed ∧ env.ptl_cq_entry_alloc = 0 ∧
      ∃ e, r.sent = [e] ∧ env.ptl_cq_entry_send_block e = 0)

/-! ## Data model of the PPE client, `ptl_light_lib.c` -/

/-- The value `(void *)-1` that `mmap` returns on failure. -/
def MAP_FAILED : Nat := U64 - 1

/-- Largest value of a C `int`. -/
def INT_MAX : Int := 2 ^ 31 - 1

/-- Conversion of a 64-bit unsigned value to `int`, as at the calls
`create_iovec_mapping(md->start, md->length)`. -/
def to_int (n : Nat) : Int :=
  if n % U32 < 2 ^ 31 then ((n % U32 : Nat) : Int) else ((n % U32 : Nat) : Int) - 2 ^ 32

/-- Modelled from the spec: `union counted_ptr` is declared outside the files at
hand; the spec describes the free-list word as a 128-bit pair of a head pointer
and a monotonic counter.  `obj` is an address in the address space of the PPE, 0
for `NULL`; `counter` is 64 bits wide. -/
structure counted_ptr where
  obj : Nat
  counter : Nat
  deriving DecidableEq, Repr

/-- The field of `pool_t` that the free-list routines use. -/
structure pool_t where
  free_list : counted_ptr
  deriving DecidableEq, Repr

/-- The memory the client shares with the PPE: the pool of ppebufs inside the comm
pad, and the field `next` of the object at each client address (`obj_next a` is
`((obj_t *)a)->next`, an address in the address space of the PPE). -/
structure shared_t where
  ppebuf_pool : pool_t
  obj_next : Nat → Nat

/-- The static struct `ppe` (ptl_light_lib.c:20-46); pointers are addresses, 0 for
`NULL`. -/
structure ppe_t where
  comm_pad : Nat
  ppe_comm_pad : Nat
  cookie : Nat
  ref_cnt : Int
  finalized : Int
  ppebufs_ppeaddr : Nat
  ppebufs_addr : Nat
  deriving DecidableEq, Repr

/-- Modelled from the spec: `PtlInternalAtomicCas128` is declared outside the files
at hand; the spec has the free list updated by an atomic compare-and-swap of the
128-bit word.  Given the word found at the address and the two operands it gives
the word left at the address and the word found. -/
def PtlInternalAtomicCas128 (found oldv newv : counted_ptr) : counted_ptr × counted_ptr :=
  if found = oldv then (newv, found) else (found, found)

/-- The translation `ppe.ppebufs_addr - ppe.ppebufs_ppeaddr` from an address of the
PPE to an address of the client. -/
def ppe_offset (ppe : ppe_t) : Nat := sub64 ppe.ppebufs_addr ppe.ppebufs_ppeaddr

/-- Store `v` in the word the free list of the pool occupies. -/
def shared_t.set_free_list (m : shared_t) (v : counted_ptr) : shared_t :=
  { m with ppebuf_pool := { free_list := v } }

/-- One pass through the body of the loop of `dequeue_free_obj`
(ptl_light_lib.c:87-96), starting with `retv`: the new head is read from the
object, then the other threads make the move `g` on the shared memory, then the
compare-and-swap runs.  The result is the memory, `oldv` and the new `retv`. -/
def dequeue_pass (ppe : ppe_t) (m : shared_t) (retv : counted_ptr)
    (g : shared_t → shared_t) : shared_t × counted_ptr × counted_ptr :=
  let oldv := retv
  let newv : counted_ptr :=
    { obj := if retv.obj ≠ 0 then m.obj_next (add64 retv.obj (ppe_offset ppe)) else 0
      counter := add64 oldv.counter 1 }
  let m1 := g m
  let r := PtlInternalAtomicCas128 m1.ppebuf_pool.free_list oldv newv
  (m1.set_free_list r.1, oldv, r.2)

/-- The `do ... while` loop of `dequeue_free_obj`.  `others` lists the moves the
other threads and the PPE still make on the shared memory, one before each
compare-and-swap of this thread; once the list is used up nobody interferes.
The result is the final `retv`, the memory and the moves left. -/
def dequeue_loop (ppe : ppe_t) : List (shared_t → shared_t) → shared_t → counted_ptr →
    Except Fault (counted_ptr × shared_t × List (shared_t → shared_t))
  | [], m, retv =>
    let p := dequeue_pass ppe m retv id
    if p.2.2 ≠ p.2.1 then .error .outOfFuel else .ok (p.2.2, p.1, [])
  | g :: rest, m, retv =>
    let p := dequeue_pass ppe m retv g
    if p.2.2 ≠ p.2.1 then dequeue_loop ppe rest p.1 p.2.2 else .ok (p.2.2, p.1, rest)

/-- Embedding of `dequeue_free_obj` (ptl_light_lib.c:80-100): the pointer returned
(an address of the client), the memory and the moves left. -/
def dequeue_free_obj (ppe : ppe_t) (others : List (shared_t → shared_t)) (m : shared_t) :
    Except Fault (Nat × shared_t × List (shared_t → shared_t)) :=
  match dequeue_loop ppe others m m.ppebuf_pool.free_list with
  | .error f => .error f
  | .ok (retv, m1, rest) => .ok (add64 retv.obj (ppe_offset ppe), m1, rest)

/-- One pass through the body of the loop of `enqueue_free_obj`
(ptl_light_lib.c:134-138). -/
def enqueue_pass (ppe : ppe_t) (obj : Nat) (m : shared_t) (tmpv : counted_ptr)
    (g : shared_t → shared_t) : shared_t × counted_ptr × counted_ptr :=
  let ppe_obj := add64 (sub64 obj ppe.ppebufs_addr) ppe.ppebufs_ppeaddr
  let oldv := tmpv
  let m0 : shared_t := { m with obj_next := Function.update m.obj_next obj tmpv.obj }
  let newv : counted_ptr := { obj := ppe_obj, counter := add64 oldv.counter 1 }
  let m1 := g m0
  let r := PtlInternalAtomicCas128 m1.ppebuf_pool.free_list oldv newv
  (m1.set_free_list r.1, oldv, r.2)

/-- The `do ... while` loop of `enqueue_free_obj`. -/
def enqueue_loop (ppe : ppe_t) (obj : Nat) : List (shared_t → shared_t) → shared_t →
    counted_ptr → Except Fault (shared_t × List (shared_t → shared_t))
  | [], m, tmpv =>
    let p := enqueue_pass ppe obj m tmpv id
    if p.2.2 ≠ p.2.1 then .error .outOfFuel else .ok (p.1, [])
  | g :: rest, m, tmpv =>
    let p := enqueue_pass ppe obj m tmpv g
    if p.2.2 ≠ p.2.1 then enqueue_loop ppe obj rest p.1 p.2.2 else .ok (p.1, rest)

/-- Embedding of `enqueue_free_obj` (ptl_light_lib.c:126-140). -/
def enqueue_free_obj (ppe : ppe_t) (others : List (shared_t → shared_t)) (m : shared_t)
    (obj : Nat) : Except Fault (shared_t × List (shared_t → shared_t)) :=
  enqueue_loop ppe obj others m m.ppebuf_pool.free_list


/-- A memory descriptor; when `options` has `PTL_IOVEC` set, `start` points to an
array of `length` elements of `ptl_iovec_t`. -/
structure ptl_md_t where
  start : Nat
  length : Nat
  options : Nat
  eq_handle : Nat
  ct_handle : Nat
  deriving DecidableEq, Repr

/-- A list entry. -/
structure ptl_le_t where
  start : Nat
  length : Nat
  ct_handle : Nat
  uid : Nat
  options : Nat
  deriving DecidableEq, Repr

/-- A match list entry. -/
structure ptl_me_t where
  start : Nat
  length : Nat
  ct_handle : Nat
  uid : Nat
  options : Nat
  match_id : Nat
  match_bits : Nat
  ignore_bits : Nat
  min_free : Nat
  deriving DecidableEq, Repr

/-- The operation and the arguments a client writes into a ppebuf before it hands
the buffer to the PPE. -/
inductive ppe_msg where
  | OP_PtlInit
  | OP_PtlMDBind (ni_handle : Nat) (md : ptl_md_t)
  | OP_PtlLEAppend (ni_handle pt_index : Nat) (le : ptl_le_t) (ptl_list user_ptr : Nat)
  | OP_PtlMEAppend (ni_handle pt_index : Nat) (me : ptl_me_t) (ptl_list user_ptr : Nat)
  | OP_PtlFetchAtomic (args : FetchAtomicArgs)
  | OP_PtlSwap (args : SwapArgs)
  deriving DecidableEq, Repr

/-- What the PPE writes back into the buffer: `msg.ret` and the handle of the object
created. -/
structure ppe_reply_t where
  ret : ptl_ret
  handle : Nat
  deriving DecidableEq, Repr

/-- What the PPE writes into the command field of the comm pad during the
handshake of `setup_ppe`. -/
structure ppe_hello_t where
  cookie : Nat
  ppebufs_ppeaddr : Nat
  ppebufs_mapping : Nat
  deriving DecidableEq, Repr

/-- The `struct xpmem_map` a call of `create_mapping` or `delete_mapping` is given:
the field `mapping` of the message in the ppebuf, or element `i` of the array
`create_iovec_mapping` allocates. -/
inductive map_slot where
  | msg
  | iov (i : Nat)
  deriving DecidableEq, Repr

/-- The calls into the collaborators that the client makes, in order. -/
inductive light_event where
  | alloc (buf : Nat)
  | release (buf : Nat)
  | transfer (buf cookie : Nat) (msg : ppe_msg)
  | create_mapping (slot : map_slot) (addr len : Nat) (err : ptl_ret)
  | delete_mapping (slot : map_slot)
  | calloc (nmemb : Int) (p : Nat)
  | free (p : Nat)
  | mmap (addr : Nat)
  | munmap (addr : Nat)
  | close (fd : Nat)
  | switch_cmd_level (old new : Nat)
  | write_pid (pid : Nat)
  | wait_level (level : Nat)
  | read_reply (hello : ppe_hello_t)
  | map_segment (mapping addr : Nat)
  deriving DecidableEq, Repr

/-- The collaborators of the client during one call.  `pthread_mutex_lock` is the
value the call returns when the mutex is free; `misc_init_once` the status of that
function; `shm_open k` and `fstat k` the outcome of the attempt number `k` (`none`
for -1, otherwise the descriptor, respectively `st_size`); `mmap` the address
returned; `ppe_hello` what the PPE answers to the handshake (`none` when the level
never becomes 3); `map_segment` the address a mapping is imported at (0 on
failure); `ppe_reply msg` the reply to a message (`none` when the PPE never sets
`completed`); `create_mapping addr len` the status of that call; `calloc n size`
the address returned (0 on failure).  `PTL_IOVEC`, `sizeof_xpmem_map` and
`sizeof_ppe_comm_pad` are constants of headers that are not at hand. -/
structure LightEnv where
  NO_ARG_VALIDATION : Bool
  PTL_IOVEC : Nat
  sizeof_xpmem_map : Nat
  sizeof_ppe_comm_pad : Nat
  pthread_mutex_lock : Nat
  misc_init_once : ptl_ret
  shm_open : Nat → Option Nat
  fstat : Nat → Option Nat
  mmap : Nat
  getpid : Nat
  ppe_hello : Option ppe_hello_t
  map_segment : Nat → Nat
  ppe_reply : ppe_msg → Option ppe_reply_t
  create_mapping : Nat → Nat → ptl_ret
  calloc : Int → Nat → Nat

/-- The state of the client process: the static struct `ppe`, whether
`per_proc_gbl_mutex` is held, the memory shared with the PPE, the moves the other
threads and the PPE still make on that memory, and the calls made so far. -/
structure LightState where
  ppe : ppe_t
  mutex_held : Bool
  mem : shared_t
  others : List (shared_t → shared_t)
  log : List light_event

/-- Append an event to the log. -/
def LightState.emit (s : LightState) (e : light_event) : LightState :=
  { s with log := s.log ++ [e] }

/-- Replace the shared memory and the moves left to the other threads. -/
def LightState.with_mem (s : LightState) (m : shared_t) (others : List (shared_t → shared_t)) :
    LightState :=
  { s with mem := m, others := others }

/-- Whether `ppe.ppe_comm_pad` can be dereferenced: it is neither `NULL` nor
`MAP_FAILED`, the only other values it takes being addresses returned by
`mmap`. -/
def pad_mapped (s : LightState) : Bool :=
  decide (s.ppe.ppe_comm_pad ≠ 0) && decide (s.ppe.ppe_comm_pad ≠ MAP_FAILED)

/-- The loop of `ppebuf_alloc` (ptl_light_lib.c:118-120).  When the free list is
found empty and nobody is left to refill it the loop spins for ever. -/
def ppebuf_spin (ppe : ppe_t) : Nat → List (shared_t → shared_t) → shared_t →
    Except Fault (Nat × shared_t × List (shared_t → shared_t))
  | 0, _, _ => .error .outOfFuel
  | fuel + 1, others, m =>
    match dequeue_free_obj ppe others m with
    | .error f => .error f
    | .ok (obj, m1, rest) =>
      if obj ≠ 0 then .ok (obj, m1, rest)
      else if rest.isEmpty then .error .blocked
      else ppebuf_spin ppe fuel rest m1

/-- Embedding of `ppebuf_alloc` (ptl_light_lib.c:109-124): the status, `*buf_p`
and the state.  `container_of(obj, ppebuf_t, obj)` is `obj`, the object header
being the first member of a ppebuf (`ppebuf_release` casts the buffer back to
`obj_t *`). -/
def ppebuf_alloc (env : LightEnv) (s : LightState) : Except Fault (ptl_ret × Nat × LightState) :=
  if env.NO_ARG_VALIDATION = false ∧ s.ppe.ppe_comm_pad = 0 then
    .ok (ptl_ret.PTL_NO_INIT, 0, s)
  else if pad_mapped s = false then .error .undefined
  else
    match ppebuf_spin s.ppe (s.others.length + 1) s.others s.mem with
    | .error f => .error f
    | .ok (obj, m1, rest) =>
      .ok (ptl_ret.PTL_OK, obj, (s.with_mem m1 rest).emit (.alloc obj))

/-- Embedding of `ppebuf_release` (ptl_light_lib.c:152-159). -/
def ppebuf_release (s : LightState) (buf : Nat) : Except Fault LightState :=
  if pad_mapped s = false then .error .undefined
  else
    match enqueue_free_obj s.ppe s.others s.mem buf with
    | .error f => .error f
    | .ok (m1, rest) =>
      .ok ((s.with_mem m1 rest).emit (.release buf))

/-- Embedding of `transfer_msg` (ptl_light_lib.c:276-290) for a buffer that holds
the message `msg`: the reply the PPE left in the buffer, and the state. -/
def transfer_msg (env : LightEnv) (s : LightState) (buf : Nat) (msg : ppe_msg) :
    Except Fault (ppe_reply_t × LightState) :=
  if pad_mapped s = false then .error .undefined
  else
    let m1 : shared_t := { s.mem with obj_next := Function.update s.mem.obj_next buf 0 }
    let s1 := (s.with_mem m1 s.others).emit (.transfer buf s.ppe.cookie msg)
    match env.ppe_reply msg with
    | none => .error .blocked
    | some r => .ok (r, s1)


/-- Embedding of `release_ppe_resources` (ptl_light_lib.c:67-78). -/
def release_ppe_resources (s : LightState) : LightState :=
  let s1 : LightState :=
    if s.ppe.ppe_comm_pad ≠ MAP_FAILED then
      { s with ppe := { s.ppe with ppe_comm_pad := MAP_FAILED },
               log := s.log ++ [.munmap s.ppe.ppe_comm_pad] }
    else s
  if s1.ppe.comm_pad ≠ 0 then
    { s1 with ppe := { s1.ppe with comm_pad := 0 }, log := s1.log ++ [.free s1.ppe.comm_pad] }
  else s1

/-- The first loop of `setup_ppe` (ptl_light_lib.c:181-190), entered with
`try_count` tries left before attempt number `k`: the descriptor, or `none` when
`shm_fd` is still -1 at the end. -/
def shm_open_loop (env : LightEnv) : Nat → Nat → Option Nat
  | 0, _ => none
  | t + 1, k =>
    match env.shm_open k with
    | some fd => some fd
    | none => shm_open_loop env t (k + 1)

/-- The second loop of `setup_ppe` (ptl_light_lib.c:198-212): `none` when `fstat`
fails, otherwise the value of `try_count` at the end of the loop. -/
def fstat_loop (env : LightEnv) : Nat → Nat → Option Nat
  | 0, _ => some 0
  | t + 1, k =>
    match env.fstat k with
    | none => none
    | some size =>
      if size ≥ env.sizeof_ppe_comm_pad then some (t + 1) else fstat_loop env t (k + 1)

/-- The label `exit_fail` of `setup_ppe` (ptl_light_lib.c:266-272). -/
def setup_ppe_exit_fail (s : LightState) (shm_fd : Option Nat) : ptl_ret × LightState :=
  let s1 : LightState :=
    match shm_fd with
    | some fd => s.emit (.close fd)
    | none => s
  (ptl_ret.PTL_FAIL, release_ppe_resources s1)

/-- The state after the client has read the answer `h` of the PPE from the command
field, imported the slab at `addr` and given the command field back
(ptl_light_lib.c:245-256). -/
def setup_ppe_reply (s : LightState) (h : ppe_hello_t) (addr : Nat) : LightState :=
  { s with
    ppe := { s.ppe with cookie := h.cookie, ppebufs_ppeaddr := h.ppebufs_ppeaddr,
                        ppebufs_addr := addr },
    log := s.log ++ [.wait_level 3, .read_reply h, .map_segment h.ppebufs_mapping addr,
                     .switch_cmd_level 3 0] }

/-- The handshake of `setup_ppe` with the PPE (ptl_light_lib.c:232-264), entered
with the comm pad mapped.  Modelled from the spec: `switch_cmd_level` is declared
outside the files at hand; the spec has it move the level field of the command
from one value to the next. -/
def setup_ppe_hello (env : LightEnv) (s : LightState) : Except Fault (ptl_ret × LightState) :=
  let s1 := ((s.emit (.switch_cmd_level 0 1)).emit (.write_pid env.getpid)).emit
    (.switch_cmd_level 1 2)
  match env.ppe_hello with
  | none => .error .blocked
  | some h =>
    let addr := env.map_segment h.ppebufs_mapping
    if addr = 0 then .ok (setup_ppe_exit_fail (setup_ppe_reply s1 h addr) none)
    else .ok (ptl_ret.PTL_OK, setup_ppe_reply s1 h addr)

/-- The assignment `ppe.ppe_comm_pad = MAP_FAILED` at the start of `setup_ppe`
(ptl_light_lib.c:172). -/
def setup_ppe_start (s : LightState) : LightState :=
  { s with ppe := { s.ppe with ppe_comm_pad := MAP_FAILED } }

/-- The call of `mmap` in `setup_ppe` (ptl_light_lib.c:220-221). -/
def setup_ppe_mmap (env : LightEnv) (s : LightState) : LightState :=
  { s with ppe := { s.ppe with ppe_comm_pad := env.mmap }, log := s.log ++ [.mmap env.mmap] }

/-- Embedding of `setup_ppe` (ptl_light_lib.c:166-273). -/
def setup_ppe (env : LightEnv) (s : LightState) : Except Fault (ptl_ret × LightState) :=
  let s0 := setup_ppe_start s
  match shm_open_loop env 100 0 with
  | none => .ok (setup_ppe_exit_fail s0 none)
  | some fd =>
    match fstat_loop env 100 0 with
    | none => .ok (setup_ppe_exit_fail s0 (some fd))
    | some try_count =>
      if try_count ≥ 100000 then .ok (setup_ppe_exit_fail s0 (some fd))
      else
        let s1 := setup_ppe_mmap env s0
        if env.mmap = MAP_FAILED then .ok (setup_ppe_exit_fail s1 (some fd))
        else setup_ppe_hello env (s1.emit (.close fd))

/-- Acquire `per_proc_gbl_mutex`. -/
def mutex_lock (s : LightState) : LightState := { s with mutex_held := true }

/-- Release `per_proc_gbl_mutex`. -/
def mutex_unlock (s : LightState) : LightState := { s with mutex_held := false }

/-- Add `d` to `ppe.ref_cnt`. -/
def ref_cnt_add (s : LightState) (d : Int) : LightState :=
  { s with ppe := { s.ppe with ref_cnt := s.ppe.ref_cnt + d } }

/-- The assignment `ppe.finalized = 1`. -/
def set_finalized (s : LightState) : LightState :=
  { s with ppe := { s.ppe with finalized := 1 } }

/-- The part of `PtlInit` that talks to the PPE (ptl_light_lib.c:322-343). -/
def PtlInit_call (env : LightEnv) (s : LightState) : Except Fault (ptl_ret × LightState) :=
  match ppebuf_alloc env s with
  | .error f => .error f
  | .ok (ret, buf, s1) =>
    if ret ≠ ptl_ret.PTL_OK then .ok (ret, mutex_unlock s1)
    else
      match transfer_msg env s1 buf ppe_msg.OP_PtlInit with
      | .error f => .error f
      | .ok (reply, s2) =>
        match ppebuf_release s2 buf with
        | .error f => .error f
        | .ok s3 =>
          if reply.ret ≠ ptl_ret.PTL_OK then .ok (reply.ret, s3)
          else if s3.ppe.ref_cnt = INT_MAX then .error .undefined
          else .ok (ptl_ret.PTL_OK, mutex_unlock (ref_cnt_add s3 1))

/-- Embedding of `PtlInit` (ptl_light_lib.c:292-349).  A call that finds the mutex
held by an earlier call of this thread never returns.  After the lock is taken
`ret` holds 0, which is `PTL_OK`. -/
def PtlInit (env : LightEnv) (s : LightState) : Except Fault (ptl_ret × LightState) :=
  if s.mutex_held then .error .blocked
  else if env.pthread_mutex_lock ≠ 0 then .ok (ptl_ret.PTL_FAIL, s)
  else
    let s1 := mutex_lock s
    if s1.ppe.finalized ≠ 0 then .ok (ptl_ret.PTL_FAIL, mutex_unlock s1)
    else if s1.ppe.ref_cnt = 0 then
      if env.misc_init_once ≠ ptl_ret.PTL_OK then .ok (ptl_ret.PTL_OK, mutex_unlock s1)
      else
        match setup_ppe env s1 with
        | .error f => .error f
        | .ok (ret, s2) =>
          if ret ≠ ptl_ret.PTL_OK then .ok (ret, mutex_unlock s2)
          else PtlInit_call env s2
    else PtlInit_call env s1

/-- Smallest value of a C `int`. -/
def INT_MIN : Int := -(2 ^ 31)

/-- Embedding of `PtlFini` (ptl_light_lib.c:351-384). -/
def PtlFini (env : LightEnv) (s : LightState) : Except Fault LightState :=
  if s.mutex_held then .error .blocked
  else if env.pthread_mutex_lock ≠ 0 then .error .aborted
  else
    let s1 := mutex_lock s
    if s1.ppe.ref_cnt = 0 then .ok (mutex_unlock s1)
    else if s1.ppe.ref_cnt = INT_MIN then .error .undefined
    else
      let s2 := ref_cnt_add s1 (-1)
      if s2.ppe.ref_cnt = 0 then .ok (mutex_unlock (set_finalized s2))
      else .ok (mutex_unlock s2)


/-- The loop of `create_iovec_mapping` (ptl_light_lib.c:772-778) with `n` passes
left before index `i`; the flag tells whether every `create_mapping` succeeded. -/
def create_iovec_loop (env : LightEnv) (iov_list : List ptl_iovec_t) :
    Nat → Nat → LightState → Except Fault (Bool × LightState)
  | 0, _, s => .ok (true, s)
  | n + 1, i, s =>
    match iov_list[i]? with
    | none => .error .outOfBounds
    | some iov =>
      let err := env.create_mapping iov.iov_base iov.iov_len
      let s1 := s.emit (.create_mapping (.iov i) iov.iov_base iov.iov_len err)
      if err ≠ ptl_ret.PTL_OK then .ok (false, s1)
      else create_iovec_loop env iov_list n (i + 1) s1

/-- The loop `for (i = 0; i < num_iov; i++) delete_mapping(&mapping[i])`
(ptl_light_lib.c:783-785 and 796-798) with `n` passes left before index `i`. -/
def delete_iovec_loop : Nat → Nat → LightState → LightState
  | 0, _, s => s
  | n + 1, i, s => delete_iovec_loop n (i + 1) (s.emit (.delete_mapping (.iov i)))

/-- Embedding of `create_iovec_mapping` (ptl_light_lib.c:760-790); `iov_list` is
the content of the array the first argument points to.  The result is the
address of the array of mappings, 0 for `NULL`. -/
def create_iovec_mapping (env : LightEnv) (s : LightState) (iov_list : List ptl_iovec_t)
    (num_iov : Int) : Except Fault (Nat × LightState) :=
  let mapping := env.calloc num_iov env.sizeof_xpmem_map
  let s0 := s.emit (.calloc num_iov mapping)
  if mapping = 0 then .ok (0, s0)
  else
    match create_iovec_loop env iov_list num_iov.toNat 0 s0 with
    | .error f => .error f
    | .ok (true, s1) => .ok (mapping, s1)
    | .ok (false, s1) => .ok (0, (delete_iovec_loop num_iov.toNat 0 s1).emit (.free mapping))

/-- Embedding of `destroy_iovec_mapping` (ptl_light_lib.c:792-801). -/
def destroy_iovec_mapping (s : LightState) (mapping : Nat) (num_iov : Int) : LightState :=
  (delete_iovec_loop num_iov.toNat 0 s).emit (.free mapping)

/-- The block of `PtlMDBind`, `PtlLEAppend` and `PtlMEAppend` that maps the memory
of the descriptor (ptl_light_lib.c:821-837, 905-921, 1020-1036), the same in the
three functions: the value of `err` (not `PTL_OK` when control goes to `done`),
`iovec_mapping`, and the state. -/
def map_descriptor (env : LightEnv) (s : LightState) (start length options : Nat)
    (iov_list : List ptl_iovec_t) : Except Fault (ptl_ret × Nat × LightState) :=
  if Nat.land options env.PTL_IOVEC ≠ 0 then
    match create_iovec_mapping env s iov_list (to_int length) with
    | .error f => .error f
    | .ok (iovec_mapping, s1) =>
      if iovec_mapping = 0 then .ok (ptl_ret.PTL_NO_SPACE, 0, s1)
      else
        let len := (length * env.sizeof_xpmem_map) % U64
        let err := env.create_mapping iovec_mapping len
        let s2 := s1.emit (.create_mapping .msg iovec_mapping len err)
        if err ≠ ptl_ret.PTL_OK then
          .ok (err, iovec_mapping, destroy_iovec_mapping s2 iovec_mapping (to_int length))
        else .ok (ptl_ret.PTL_OK, iovec_mapping, s2)
  else
    let err := env.create_mapping start length
    .ok (err, 0, s.emit (.create_mapping .msg start length err))

/-- The clean-up after a reply with an error (ptl_light_lib.c:842-846, 926-930,
1041-1045). -/
def unmap_descriptor (env : LightEnv) (s : LightState) (length options iovec_mapping : Nat) :
    LightState :=
  let s1 := s.emit (.delete_mapping .msg)
  if Nat.land options env.PTL_IOVEC ≠ 0 then
    destroy_iovec_mapping s1 iovec_mapping (to_int length)
  else s1

/-- The body the three functions share once the ppebuf `buf` is allocated and the
message `msg` written into it: the status, the handle stored through the last
argument (if any), and the state. -/
def marshal_call (env : LightEnv) (s : LightState) (buf : Nat) (msg : ppe_msg)
    (start length options : Nat) (iov_list : List ptl_iovec_t) :
    Except Fault (ptl_ret × Option Nat × LightState) :=
  match map_descriptor env s start length options iov_list with
  | .error f => .error f
  | .ok (err, iovec_mapping, s1) =>
    if err ≠ ptl_ret.PTL_OK then
      match ppebuf_release s1 buf with
      | .error f => .error f
      | .ok s2 => .ok (err, none, s2)
    else
      match transfer_msg env s1 buf msg with
      | .error f => .error f
      | .ok (reply, s2) =>
        if reply.ret ≠ ptl_ret.PTL_OK then
          match ppebuf_release (unmap_descriptor env s2 length options iovec_mapping) buf with
          | .error f => .error f
          | .ok s3 => .ok (reply.ret, none, s3)
        else
          match ppebuf_release s2 buf with
          | .error f => .error f
          | .ok s3 => .ok (ptl_ret.PTL_OK, some reply.handle, s3)

/-- Embedding of `PtlMDBind` (ptl_light_lib.c:803-854); `iov_list` is the content
of the array `md->start` points to when the descriptor is an iovec. -/
def PtlMDBind (env : LightEnv) (s : LightState) (ni_handle : Nat) (md : ptl_md_t)
    (iov_list : List ptl_iovec_t) : Except Fault (ptl_ret × Option Nat × LightState) :=
  match ppebuf_alloc env s with
  | .error f => .error f
  | .ok (err, buf, s1) =>
    if err ≠ ptl_ret.PTL_OK then .ok (err, none, s1)
    else
      marshal_call env s1 buf (.OP_PtlMDBind ni_handle md) md.start md.length md.options iov_list

/-- Embedding of `PtlLEAppend` (ptl_light_lib.c:881-938). -/
def PtlLEAppend (env : LightEnv) (s : LightState) (ni_handle pt_index : Nat) (le : ptl_le_t)
    (ptl_list user_ptr : Nat) (iov_list : List ptl_iovec_t) :
    Except Fault (ptl_ret × Option Nat × LightState) :=
  match ppebuf_alloc env s with
  | .error f => .error f
  | .ok (err, buf, s1) =>
    if err ≠ ptl_ret.PTL_OK then .ok (err, none, s1)
    else
      marshal_call env s1 buf (.OP_PtlLEAppend ni_handle pt_index le ptl_list user_ptr)
        le.start le.length le.options iov_list

/-- Embedding of `PtlMEAppend` (ptl_light_lib.c:996-1053). -/
def PtlMEAppend (env : LightEnv) (s : LightState) (ni_handle pt_index : Nat) (me : ptl_me_t)
    (ptl_list user_ptr : Nat) (iov_list : List ptl_iovec_t) :
    Except Fault (ptl_ret × Option Nat × LightState) :=
  match ppebuf_alloc env s with
  | .error f => .error f
  | .ok (err, buf, s1) =>
    if err ≠ ptl_ret.PTL_OK then .ok (err, none, s1)
    else
      marshal_call env s1 buf (.OP_PtlMEAppend ni_handle pt_index me ptl_list user_ptr)
        me.start me.length me.options iov_list


/-! ## The potato-passing loop of `test/test_latency.c` -/

/-- The macro `LOOPS` (test_latency.c:10). -/
def LOOPS : Nat := 1000

/-- A counting event. -/
structure ptl_ct_event_t where
  success : Nat
  failure : Nat
  deriving DecidableEq, Repr

/-- Where a rank stands in `main` from line 149 on: before the first `PtlPut` of
rank 0 (`start`), at the test of the loop (`loop`), at the wait for the last send
(`flush`), at the wait of rank 0 for the last potato (`last`), after it (`done`),
or stopped by a failed `assert` (`aborted`). -/
inductive potato_pc where
  | start
  | loop
  | flush
  | last
  | done
  | aborted
  deriving DecidableEq, Repr

/-- One rank of the test: its place in `main`, its variable `waitfor`, the counting
events of `potato_launcher` (sends) and of `potato_catcher` (puts received), and
the puts not yet counted on either. -/
structure potato_rank where
  pc : potato_pc
  waitfor : Nat
  send_ct : ptl_ct_event_t
  recv_ct : ptl_ct_event_t
  send_pending : Nat
  recv_pending : Nat
  deriving DecidableEq, Repr

/-- The two ranks of a run with `PORTALS4_NUM_PROCS = 2` (`maxrank = 1`). -/
structure potato_state where
  r0 : potato_rank
  r1 : potato_rank
  deriving DecidableEq, Repr

/-- The value of `maxrank` in a run on two ranks. -/
def maxrank : Nat := 1

/-- The rank with number `r`. -/
def potato_state.get (s : potato_state) (r : Nat) : potato_rank := if r = 0 then s.r0 else s.r1

/-- Replace the rank with number `r`. -/
def potato_state.set (s : potato_state) (r : Nat) (x : potato_rank) : potato_state :=
  if r = 0 then { s with r0 := x } else { s with r1 := x }

/-- The target of the puts of a rank (test_latency.c:152-153 and 163-164):
`rank + 1`, multiplied by the truth value of `rank + 1 <= maxrank`. -/
def nextrank (rank : Nat) : Nat := (rank + 1) * (if rank + 1 ≤ maxrank then 1 else 0)

/-- Modelled from the spec: `PtlPut` is executed by the PPE, outside the files at
hand; every put is delivered and counted once on the send counting event of the
sender and once on the counting event of the list entry of the receiver.  The
call itself leaves both counts pending. -/
def potato_put (s : potato_state) (r : Nat) : potato_state :=
  let s1 := s.set r { s.get r with send_pending := (s.get r).send_pending + 1 }
  s1.set (nextrank r) { s1.get (nextrank r) with
    recv_pending := (s1.get (nextrank r)).recv_pending + 1 }

/-- Modelled from the spec: `PtlCTWait(ct, test, &ctc)` returns once the counting
event has reached `test` or recorded a failure. -/
def ct_reached (ct : ptl_ct_event_t) (test : Nat) : Bool :=
  decide (test ≤ ct.success) || decide (ct.failure ≠ 0)

/-- What moves the run on: rank `r` executes its next statement, a pending send of
rank `r` is counted, or a pending put to rank `r` is counted. -/
inductive potato_action where
  | run (r : Nat)
  | send_event (r : Nat)
  | deliver (r : Nat)
  deriving DecidableEq, Repr

/-- The next statement of rank `r` (test_latency.c:149-189); `none` when the rank
is blocked in `PtlCTWait` or has left the block. -/
def potato_run_rank (s : potato_state) (r : Nat) : Option potato_state :=
  let p := s.get r
  match p.pc with
  | .start =>
    let s1 := if r = 0 then potato_put s r else s
    some (s1.set r { s1.get r with pc := .loop, waitfor := 1 })
  | .loop =>
    if p.waitfor < LOOPS then
      if ct_reached p.recv_ct p.waitfor then
        if p.recv_ct.failure ≠ 0 then some (s.set r { p with pc := .aborted })
        else
          let s1 := s.set r { p with waitfor := p.waitfor + 1 }
          some (potato_put s1 r)
      else none
    else some (s.set r { p with pc := .flush })
  | .flush =>
    if ct_reached p.send_ct (p.waitfor - 1) then
      if p.send_ct.failure ≠ 0 then some (s.set r { p with pc := .aborted })
      else if r = 0 then some (s.set r { p with pc := .last })
      else some (s.set r { p with pc := .done })
    else none
  | .last =>
    if ct_reached p.recv_ct 1 then
      if p.recv_ct.failure ≠ 0 then some (s.set r { p with pc := .aborted })
      else some (s.set r { p with pc := .done })
    else none
  | .done => none
  | .aborted => none

/-- One move of the run; `none` when the move is not possible. -/
def potato_step (s : potato_state) : potato_action → Option potato_state
  | .run r => if r ≤ maxrank then potato_run_rank s r else none
  | .send_event r =>
    if r ≤ maxrank ∧ 0 < (s.get r).send_pending then
      some (s.set r { s.get r with
        send_pending := (s.get r).send_pending - 1,
        send_ct := { (s.get r).send_ct with success := (s.get r).send_ct.success + 1 } })
    else none
  | .deliver r =>
    if r ≤ maxrank ∧ 0 < (s.get r).recv_pending then
      some (s.set r { s.get r with
        recv_pending := (s.get r).recv_pending - 1,
        recv_ct := { (s.get r).recv_ct with success := (s.get r).recv_ct.success + 1 } })
    else none

/-- A run: the moves of a schedule one after the other, the impossible ones
skipped. -/
def potato_exec : List potato_action → potato_state → potato_state
  | [], s => s
  | a :: as, s =>
    match potato_step s a with
    | some s1 => potato_exec as s1
    | none => potato_exec as s

/-- A rank before line 149. -/
def potato_rank_init : potato_rank :=
  { pc := .start, waitfor := 1, send_ct := ⟨0, 0⟩, recv_ct := ⟨0, 0⟩, send_pending := 0,
    recv_pending := 0 }

/-- The two ranks before line 149. -/
def potato_init : potato_state := { r0 := potato_rank_init, r1 := potato_rank_init }

/-- The run is over: both ranks have left the block and every put is counted. -/
def potato_finished (s : potato_state) : Prop :=
  s.r0.pc = .done ∧ s.r1.pc = .done ∧ s.r0.send_pending = 0 ∧ s.r0.recv_pending = 0 ∧
    s.r1.send_pending = 0 ∧ s.r1.recv_pending = 0

/-- One round of a fair schedule. -/
def potato_round : List potato_action :=
  [.run 0, .send_event 0, .deliver 1, .run 1, .send_event 1, .deliver 0]

/-- A fair schedule of `n` rounds. -/
def potato_rounds : Nat → List potato_action
  | 0 => []
  | n + 1 => potato_round ++ potato_rounds n


/-! ## Notions used to state the properties of the PPE client -/

/-- A call of `PtlInit` or of `PtlFini`, with the collaborators it meets. -/
inductive light_call where
  | init (env : LightEnv)
  | fini (env : LightEnv)

/-- Run one call; the status is `none` for `PtlFini`, which returns nothing. -/
def light_step (c : light_call) (s : LightState) : Except Fault (Option ptl_ret × LightState) :=
  match c with
  | .init env =>
    match PtlInit env s with
    | .error f => .error f
    | .ok (r, s1) => .ok (some r, s1)
  | .fini env =>
    match PtlFini env s with
    | .error f => .error f
    | .ok s1 => .ok (none, s1)

/-- Run a sequence of calls, one after the other, as long as each returns. -/
def run_calls : List light_call → LightState → Except Fault LightState
  | [], s => .ok s
  | c :: cs, s =>
    match light_step c s with
    | .error f => .error f
    | .ok (_, s1) => run_calls cs s1

/-- The state of a process at start-up: the static struct `ppe` is zero and the
mutex is free; `m` is the memory shared with the PPE and `others` the moves of the
other threads. -/
def light_init (m : shared_t) (others : List (shared_t → shared_t)) : LightState :=
  { ppe := { comm_pad := 0, ppe_comm_pad := 0, cookie := 0, ref_cnt := 0, finalized := 0,
             ppebufs_ppeaddr := 0, ppebufs_addr := 0 },
    mutex_held := false, mem := m, others := others, log := [] }

/-- Invariant of the use count between calls. -/
def UseCountInv (s : LightState) : Prop :=
  0 ≤ s.ppe.ref_cnt ∧ (s.ppe.finalized = 0 ∨ s.ppe.finalized = 1) ∧
    (s.ppe.finalized ≠ 0 → s.ppe.ref_cnt = 0 ∧ s.mutex_held = false)

/-- The use count, the flag `finalized` and the mutex are the same in `s1` as in
`s`. -/
def SameUse (s s1 : LightState) : Prop :=
  s1.ppe.ref_cnt = s.ppe.ref_cnt ∧ s1.ppe.finalized = s.ppe.finalized ∧
    s1.mutex_held = s.mutex_held

/-- A sample comm pad: two free ppebufs at the PPE addresses 4096 and 4352, which
a client that maps the slab at 20480 sees at 20480 and 20736. -/
def memTwo : shared_t :=
  { ppebuf_pool := { free_list := ⟨4096, 0⟩ },
    obj_next := fun a => if a = 20480 then 4352 else 0 }

/-- A sample of collaborators that all succeed: the PPE hands out cookie 42, has
its slab at 4096, and the client maps it at 20480. -/
def lightEnvOk : LightEnv :=
  { NO_ARG_VALIDATION := false, PTL_IOVEC := 4, sizeof_xpmem_map := 32,
    sizeof_ppe_comm_pad := 4096, pthread_mutex_lock := 0, misc_init_once := .PTL_OK,
    shm_open := fun _ => some 3, fstat := fun _ => some 8192, mmap := 28672, getpid := 77,
    ppe_hello := some ⟨42, 4096, 9⟩, map_segment := fun _ => 20480,
    ppe_reply := fun _ => some ⟨.PTL_OK, 5⟩, create_mapping := fun _ _ => .PTL_OK,
    calloc := fun _ _ => 36864 }


/-- The result of a run of calls that all return; the start state otherwise. -/
def run_calls_state (cs : List light_call) (s : LightState) : LightState :=
  match run_calls cs s with
  | .ok s1 => s1
  | .error _ => s

/-- A sample sequence: two calls of `PtlInit`, two of `PtlFini`, and a late
`PtlInit`. -/
def callsInitFini : List light_call :=
  [.init lightEnvOk, .init lightEnvOk, .fini lightEnvOk, .fini lightEnvOk, .init lightEnvOk]


/-- A client after a successful `PtlInit`: the comm pad is mapped at 28672, the
slab of the PPE at 4096 is seen at 20480, and the pool is the sample one. -/
def lightReady : LightState :=
  { ppe := { comm_pad := 0, ppe_comm_pad := 28672, cookie := 42, ref_cnt := 1, finalized := 0,
             ppebufs_ppeaddr := 4096, ppebufs_addr := 20480 },
    mutex_held := false, mem := memTwo, others := [], log := [] }

/-- The sample collaborators, except that `create_mapping` fails for the memory at
address 2000. -/
def lightEnvMapFail : LightEnv :=
  { lightEnvOk with create_mapping := fun addr _ => if addr = 2000 then .PTL_FAIL else .PTL_OK }

/-- A sample iovec descriptor of two elements. -/
def mdIovecTwo : ptl_md_t :=
  { start := 500, length := 2, options := 4, eq_handle := 0, ct_handle := 0 }

/-- The array the sample iovec descriptor points to. -/
def iovTwo : List ptl_iovec_t := [⟨1000, 10⟩, ⟨2000, 20⟩]

/-- The status and the log of a call. -/
def call_trace (r : Except Fault (ptl_ret × Option Nat × LightState)) :
    Option (ptl_ret × List light_event) :=
  match r with
  | .ok (ret, _, s) => some (ret, s.log)
  | .error _ => none


/-- A call a thread makes on the free list: `dequeue_free_obj`, or
`enqueue_free_obj` of the object at client address `obj`. -/
inductive pool_call where
  | dequeue (caller : Nat)
  | enqueue (caller : Nat) (obj : Nat)
  deriving DecidableEq, Repr

/-- Run calls on the free list one after the other, none overlapping another;
`held` lists the pointers handed out and not yet given back, each with the caller
it was handed to.  A `NULL` result hands out nothing; a caller gives back only
what it holds. -/
def run_pool_calls (ppe : ppe_t) : List pool_call → shared_t → List (Nat × Nat) →
    Except Fault (shared_t × List (Nat × Nat))
  | [], m, held => .ok (m, held)
  | .dequeue c :: cs, m, held =>
    match dequeue_free_obj ppe [] m with
    | .error f => .error f
    | .ok (obj, m1, _) =>
      run_pool_calls ppe cs m1 (if obj ≠ 0 then held ++ [(c, obj)] else held)
  | .enqueue c obj :: cs, m, held =>
    if (c, obj) ∈ held then
      match enqueue_free_obj ppe [] m obj with
      | .error f => .error f
      | .ok (m1, _) => run_pool_calls ppe cs m1 (held.erase (c, obj))
    else .error .assertFailed

/-- The pointers held at the end of a run of calls on the free list. -/
def pool_held (r : Except Fault (shared_t × List (Nat × Nat))) : Option (List (Nat × Nat)) :=
  match r with
  | .ok (_, held) => some held
  | .error _ => none

/-- A comm pad whose free list is empty: every ppebuf is in use. -/
def memEmpty : shared_t :=
  { ppebuf_pool := { free_list := ⟨0, 6⟩ }, obj_next := fun _ => 0 }

/-- The sample client with every ppebuf in use. -/
def lightReadyEmpty : LightState := { lightReady with mem := memEmpty }

/-- The status and the buffer of a call of `ppebuf_alloc`. -/
def alloc_result (r : Except Fault (ptl_ret × Nat × LightState)) : Option (ptl_ret × Nat) :=
  match r with
  | .ok (ret, buf, _) => some (ret, buf)
  | .error _ => none

/-- The pointer returned by a call of `dequeue_free_obj` and the free-list word it
leaves. -/
def dequeue_result (r : Except Fault (Nat × shared_t × List (shared_t → shared_t))) :
    Option (Nat × counted_ptr) :=
  match r with
  | .ok (obj, m, _) => some (obj, m.ppebuf_pool.free_list)
  | .error _ => none


/-! ## Notions used to state the properties of the potato-passing test -/

/-- The number of calls of `PtlPut` rank `r` has made when it stands at `p`. -/
def potato_puts (r : Nat) (p : potato_rank) : Nat :=
  (if r = 0 ∧ p.pc ≠ .start then 1 else 0) + (p.waitfor - 1)

/-- What holds of the variables of one rank during the run. -/
def PotatoRankInv (p : potato_rank) : Prop :=
  1 ≤ p.waitfor ∧ p.waitfor ≤ LOOPS ∧ (p.pc = .start → p.waitfor = 1) ∧
    (p.pc = .flush ∨ p.pc = .last ∨ p.pc = .done → p.waitfor = LOOPS) ∧ p.pc ≠ .aborted ∧
    p.send_ct.failure = 0 ∧ p.recv_ct.failure = 0

/-- Invariant of the run: every put made is counted or pending, once at its sender
and once at its receiver. -/
def PotatoInv (s : potato_state) : Prop :=
  s.r0.send_ct.success + s.r0.send_pending = potato_puts 0 s.r0 ∧
  s.r1.recv_ct.success + s.r1.recv_pending = potato_puts 0 s.r0 ∧
  s.r1.send_ct.success + s.r1.send_pending = potato_puts 1 s.r1 ∧
  s.r0.recv_ct.success + s.r0.recv_pending = potato_puts 1 s.r1 ∧
  PotatoRankInv s.r0 ∧ PotatoRankInv s.r1


/-- The state of the fair run when rank 0 stands at the test of the loop with
`waitfor = j` and rank 1 with `waitfor = j + 1`, every put counted. -/
def potato_mid (j : Nat) : potato_state :=
  { r0 := { pc := .loop, waitfor := j, send_ct := ⟨j, 0⟩, recv_ct := ⟨j, 0⟩,
            send_pending := 0, recv_pending := 0 },
    r1 := { pc := .loop, waitfor := j + 1, send_ct := ⟨j, 0⟩, recv_ct := ⟨j, 0⟩,
            send_pending := 0, recv_pending := 0 } }

/-- The state at the end of the fair run. -/
def potato_final : potato_state :=
  { r0 := { pc := .done, waitfor := 1000, send_ct := ⟨1000, 0⟩, recv_ct := ⟨999, 0⟩,
            send_pending := 0, recv_pending := 0 },
    r1 := { pc := .done, waitfor := 1000, send_ct := ⟨999, 0⟩, recv_ct := ⟨1000, 0⟩,
            send_pending := 0, recv_pending := 0 } }

/-! ## The counting-event and event-queue calls of `ptl_light_lib.c` that work on
shared pages -/

/-- An entry of `CTs_list` (ptl_light_lib.c:1112-1117): the handle of the counting
event, its mapping, and the address `info` its shared page is mapped at. -/
structure light_ct where
  ct_handle : Nat
  ct_mapping : Nat
  info : Nat
  deriving DecidableEq, Repr

/-- An entry of `EQs_list` (ptl_light_lib.c:1617-1622). -/
structure light_eq where
  eq_handle : Nat
  eqe_list_map : Nat
  eqe_list : Nat
  deriving DecidableEq, Repr

/-- The collaborators of the calls that work on shared pages.  `ct_event info` is
the value of `info->event`; the functions `..._work` are declared outside the
files at hand and give the status and what they store through their out
parameters, `none` standing for a call that waits for ever; `malloc n` gives the
address returned (0 on failure). -/
structure LightWorkEnv where
  sizeof_ct_info : Nat
  sizeof_eqe_list : Nat
  malloc : Nat → Nat
  ct_event : Nat → ptl_ct_event_t
  PtlCTWait_work : Nat → Nat → Option (ptl_ret × ptl_ct_event_t)
  PtlCTPoll_work : List Nat → List Nat → Nat → Nat → Option (ptl_ret × ptl_ct_event_t × Nat)
  PtlEQGet_work : Nat → ptl_ret × Nat
  PtlEQWait_work : Nat → Option (ptl_ret × Nat)
  PtlEQPoll_work : List Nat → Nat → Nat → Option (ptl_ret × Nat × Nat)

/-- Embedding of `get_light_ct` (ptl_light_lib.c:1120-1132): the first entry of the
list with the handle, `none` for `NULL`. -/
def get_light_ct (cts : List light_ct) (ct_handle : Nat) : Option light_ct :=
  cts.find? (fun ct => decide (ct.ct_handle = ct_handle))

/-- Embedding of `PtlCTGet` (ptl_light_lib.c:1237-1257): the status and the value
stored through `event`, if any. -/
def PtlCTGet (env : LightEnv) (w : LightWorkEnv) (s : LightState) (cts : List light_ct)
    (ct_handle : Nat) : Except Fault (ptl_ret × Option ptl_ct_event_t) :=
  if env.NO_ARG_VALIDATION = false ∧ s.ppe.ppe_comm_pad = 0 then .ok (ptl_ret.PTL_NO_INIT, none)
  else
    match get_light_ct cts ct_handle with
    | some ct => .ok (ptl_ret.PTL_OK, some (w.ct_event ct.info))
    | none => .ok (ptl_ret.PTL_ARG_INVALID, none)

/-- Embedding of `PtlCTWait` (ptl_light_lib.c:1259-1278). -/
def PtlCTWait (env : LightEnv) (w : LightWorkEnv) (s : LightState) (cts : List light_ct)
    (ct_handle test : Nat) : Except Fault (ptl_ret × Option ptl_ct_event_t) :=
  if env.NO_ARG_VALIDATION = false ∧ s.ppe.ppe_comm_pad = 0 then .ok (ptl_ret.PTL_NO_INIT, none)
  else
    match get_light_ct cts ct_handle with
    | some ct =>
      match w.PtlCTWait_work ct.info test with
      | none => .error Fault.blocked
      | some (err, ev) => .ok (err, some ev)
    | none => .ok (ptl_ret.PTL_ARG_INVALID, none)

/-- The loop of `PtlCTPoll` (ptl_light_lib.c:1307-1314) with `n` passes left before
index `i`: the addresses stored in `cts_info`, or `none` when a handle is not in
the list.  `i` is an `int`: incrementing it past `INT_MAX` is undefined. -/
def ct_poll_loop (cts : List light_ct) (ct_handles : List Nat) :
    Nat → Nat → List Nat → Except Fault (Option (List Nat))
  | 0, _, acc => .ok (some acc)
  | n + 1, i, acc =>
    match ct_handles[i]? with
    | none => .error Fault.outOfBounds
    | some h =>
      match get_light_ct cts h with
      | none => .ok none
      | some ct =>
        if i + 1 ≥ 2 ^ 31 then .error Fault.undefined
        else ct_poll_loop cts ct_handles n (i + 1) (acc ++ [ct.info])

/-- Embedding of `PtlCTPoll` (ptl_light_lib.c:1280-1323); `ct_handles` and `tests`
are the contents of the arrays of those names.  The result is the status and the
values stored through `event` and `which`, if any. -/
def PtlCTPoll (env : LightEnv) (w : LightWorkEnv) (s : LightState) (cts : List light_ct)
    (ct_handles tests : List Nat) (size timeout : Nat) :
    Except Fault (ptl_ret × Option (ptl_ct_event_t × Nat)) :=
  if env.NO_ARG_VALIDATION = false ∧ s.ppe.ppe_comm_pad = 0 then .ok (ptl_ret.PTL_NO_INIT, none)
  else if size = 0 then .ok (ptl_ret.PTL_ARG_INVALID, none)
  else if w.malloc ((size * w.sizeof_ct_info) % U64) = 0 then .ok (ptl_ret.PTL_NO_SPACE, none)
  else
    match ct_poll_loop cts ct_handles size 0 [] with
    | .error f => .error f
    | .ok none => .ok (ptl_ret.PTL_ARG_INVALID, none)
    | .ok (some cts_info) =>
      match w.PtlCTPoll_work cts_info tests size timeout with
      | none => .error Fault.blocked
      | some (err, ev, which) => .ok (err, some (ev, which))

/-- Embedding of `get_light_eq` (ptl_light_lib.c:1625-1637). -/
def get_light_eq (eqs : List light_eq) (eq_handle : Nat) : Option light_eq :=
  eqs.find? (fun eq => decide (eq.eq_handle = eq_handle))

/-- Embedding of `PtlEQGet` (ptl_light_lib.c:1731-1750): the status and the event
stored through `event`, if any. -/
def PtlEQGet (env : LightEnv) (w : LightWorkEnv) (s : LightState) (eqs : List light_eq)
    (eq_handle : Nat) : Except Fault (ptl_ret × Option Nat) :=
  if env.NO_ARG_VALIDATION = false ∧ s.ppe.ppe_comm_pad = 0 then .ok (ptl_ret.PTL_NO_INIT, none)
  else
    match get_light_eq eqs eq_handle with
    | some eq => .ok ((w.PtlEQGet_work eq.eqe_list).1, some (w.PtlEQGet_work eq.eqe_list).2)
    | none => .ok (ptl_ret.PTL_ARG_INVALID, none)

/-- Embedding of `PtlEQWait` (ptl_light_lib.c:1752-1770). -/
def PtlEQWait (env : LightEnv) (w : LightWorkEnv) (s : LightState) (eqs : List light_eq)
    (eq_handle : Nat) : Except Fault (ptl_ret × Option Nat) :=
  if env.NO_ARG_VALIDATION = false ∧ s.ppe.ppe_comm_pad = 0 then .ok (ptl_ret.PTL_NO_INIT, none)
  else
    match get_light_eq eqs eq_handle with
    | some eq =>
      match w.PtlEQWait_work eq.eqe_list with
      | none => .error Fault.blocked
      | some (err, ev) => .ok (err, some ev)
    | none => .ok (ptl_ret.PTL_ARG_INVALID, none)

/-- The loop of `PtlEQPoll` (ptl_light_lib.c:1798-1805). -/
def eq_poll_loop (eqs : List light_eq) (eq_handles : List Nat) :
    Nat → Nat → List Nat → Except Fault (Option (List Nat))
  | 0, _, acc => .ok (some acc)
  | n + 1, i, acc =>
    match eq_handles[i]? with
    | none => .error Fault.outOfBounds
    | some h =>
      match get_light_eq eqs h with
      | none => .ok none
      | some eq =>
        if i + 1 ≥ 2 ^ 31 then .error Fault.undefined
        else eq_poll_loop eqs eq_handles n (i + 1) (acc ++ [eq.eqe_list])

/-- Embedding of `PtlEQPoll` (ptl_light_lib.c:1772-1815). -/
def PtlEQPoll (env : LightEnv) (w : LightWorkEnv) (s : LightState) (eqs : List light_eq)
    (eq_handles : List Nat) (size timeout : Nat) :
    Except Fault (ptl_ret × Option (Nat × Nat)) :=
  if env.NO_ARG_VALIDATION = false ∧ s.ppe.ppe_comm_pad = 0 then .ok (ptl_ret.PTL_NO_INIT, none)
  else if size = 0 then .ok (ptl_ret.PTL_ARG_INVALID, none)
  else if w.malloc ((size * w.sizeof_eqe_list) % U64) = 0 then .ok (ptl_ret.PTL_NO_SPACE, none)
  else
    match eq_poll_loop eqs eq_handles size 0 [] with
    | .error f => .error f
    | .ok none => .ok (ptl_ret.PTL_ARG_INVALID, none)
    | .ok (some eqes_list) =>
      match w.PtlEQPoll_work eqes_list size timeout with
      | none => .error Fault.blocked
      | some (err, ev, which) => .ok (err, some (ev, which))

/-! ## Data model of the shared-memory transport, `ptl_shmem.c` -/

/-- Conversion of an `int` to a 64-bit unsigned type (`size_t`, `unsigned long`, a
pointer offset): negative values wrap. -/
def int_to_u64 (x : Int) : Nat := (x % (2 ^ 64 : Int)).toNat

/-- Modelled from the spec: the macro `ROUND_UP` is defined outside the files at
hand; the spec has the pid table "page-aligned", the size rounded up to the next
multiple of the page size.  The operands are `unsigned long`, as `pagesize` is
(ptl_misc.h:3). -/
def ROUND_UP (x y : Nat) : Nat := (((x + y - 1) % U64) / y * y) % U64

/-- The name of the shared memory file (ptl_shmem.c:222-232):
`/portals4-shmem-pid<pid>-<options>` for a physical NI,
`/portals4-shmem-<hash>-<options>` for a logical one. -/
inductive shm_name where
  | phys (pid options : Nat)
  | logical (hash options : Nat)
  deriving DecidableEq, Repr

/-- The fields of `ni_t` that `setup_shmem` and `shmem_enqueue` read and write:
`ni->options`, `ni->id`, `ni->mem.index`, `ni->mem.node_size`, `ni->mem.hash`, the
fields of `ni->sbuf_pool` (but for its four callbacks) and those of `ni->shmem`.
Pointers are addresses; `comm_pad_shm_name` is `none` for `NULL`.  The structures
are declared outside the files at hand: their size fields are taken to be 64 bits
wide. -/
structure shmem_ni_t where
  options : Nat
  id : ptl_process_t
  index : Nat
  node_size : Nat
  hash : Nat
  use_pre_alloc_buffer : Nat
  round_size : Nat
  slab_size : Nat
  pre_alloc_buffer : Nat
  per_proc_comm_buf_numbers : Nat
  per_proc_comm_buf_size : Nat
  comm_pad_shm_name : Option shm_name
  comm_pad_size : Nat
  comm_pad : Nat
  first_queue : Nat
  queue : Nat
  deriving DecidableEq, Repr

/-- The calls `setup_shmem` makes into its collaborators, and its stores into the
shared pid table. -/
inductive shmem_event where
  | shm_unlink (name : shm_name)
  | ftruncate (fd size : Nat)
  | close (fd : Nat)
  | mmap (size addr : Nat)
  | munmap (addr size : Nat)
  | queue_init (queue : Nat)
  | pool_init (pre_alloc_buffer : Nat)
  | pool_fini
  | knem_fini
  | announce (index : Nat) (id : ptl_process_t)
  | connect (conn : Nat) (local_rank : Option Nat)
  | conn_put (conn : Nat)
  | free_name
  deriving DecidableEq, Repr

/-- The collaborators of `setup_shmem` during one call.  `PTL_NUM_SBUF` is
`get_param(PTL_NUM_SBUF)`; `knem_init`, `ftruncate size` and `pool_init` give the C
return values (0 on success); `shm_open_creat` is the outcome of the `shm_open`
of rank 0 and `shm_open k`, `fstat k` those of attempt number `k` of another rank
(`none` for -1, otherwise the descriptor, respectively `st_size`); `mmap` is the
address returned; `pid_table_valid i` tells whether sibling `i` ever sets its
`valid` flag and `pid_table_id i` the id it announces; `get_conn id` is the
connection found, `none` for `NULL`. -/
structure ShmemEnv where
  PTL_NUM_SBUF : Nat
  real_buf_t_size : Nat
  sizeof_queue_t : Nat
  sizeof_shmem_pid_table : Nat
  pagesize : Nat
  PTL_NI_PHYSICAL : Nat
  PTL_NI_LOGICAL : Nat
  knem_init : Nat
  shm_open_creat : Option Nat
  ftruncate : Nat → Nat
  shm_open : Nat → Option Nat
  fstat : Nat → Option Nat
  mmap : Nat
  pool_init : Nat
  pid_table_valid : Nat → Bool
  pid_table_id : Nat → ptl_process_t
  get_conn : ptl_process_t → Option Nat

/-- The NI and the calls made so far. -/
structure ShmemState where
  ni : shmem_ni_t
  log : List shmem_event
  deriving DecidableEq, Repr

/-- Append an event to the log. -/
def ShmemState.emit (s : ShmemState) (e : shmem_event) : ShmemState :=
  { s with log := s.log ++ [e] }

/-- Embedding of `release_shmem_resources` (ptl_shmem.c:128-147). -/
def release_shmem_resources (s : ShmemState) : ShmemState :=
  let s1 := s.emit .pool_fini
  let s2 : ShmemState :=
    if s1.ni.comm_pad ≠ MAP_FAILED then
      { ni := { s1.ni with comm_pad := MAP_FAILED },
        log := s1.log ++ [.munmap s1.ni.comm_pad s1.ni.comm_pad_size] }
    else s1
  let s3 : ShmemState :=
    match s2.ni.comm_pad_shm_name with
    | some name =>
      { ni := { s2.ni with comm_pad_shm_name := none },
        log := s2.log ++ [.shm_unlink name, .free_name] }
    | none => s2
  s3.emit .knem_fini

/-- The label `exit_fail` of `setup_shmem` (ptl_shmem.c:404-410). -/
def setup_shmem_exit_fail (s : ShmemState) (shm_fd : Option Nat) : ptl_ret × ShmemState :=
  let s1 : ShmemState :=
    match shm_fd with
    | some fd => s.emit (.close fd)
    | none => s
  (ptl_ret.PTL_FAIL, release_shmem_resources s1)

/-- The sizes of the pool of buffers (ptl_shmem.c:205-214). -/
def setup_shmem_pool (env : ShmemEnv) (ni : shmem_ni_t) : shmem_ni_t :=
  { ni with
    per_proc_comm_buf_numbers := env.PTL_NUM_SBUF
    use_pre_alloc_buffer := 1
    round_size := env.real_buf_t_size
    slab_size := (env.PTL_NUM_SBUF * env.real_buf_t_size) % U64 }

/-- The name given to the shared memory file (ptl_shmem.c:222-233). -/
def setup_shmem_name (env : ShmemEnv) (ni : shmem_ni_t) : shm_name :=
  if Nat.land ni.options env.PTL_NI_PHYSICAL ≠ 0 then .phys ni.id.pid ni.options
  else .logical ni.hash ni.options

/-- The local `pid_table_size` of `setup_shmem`, an `int` (ptl_shmem.c:240-241). -/
def pid_table_size (env : ShmemEnv) (ni : shmem_ni_t) : Int :=
  to_int (ROUND_UP (int_to_u64 (to_int ((ni.node_size * env.sizeof_shmem_pid_table) % U64)))
    env.pagesize)

/-- The sizes of the comm pad (ptl_shmem.c:236-244). -/
def setup_shmem_sizes (env : ShmemEnv) (ni : shmem_ni_t) : shmem_ni_t :=
  let per_proc := (env.sizeof_queue_t + ni.slab_size) % U64
  { ni with
    per_proc_comm_buf_size := per_proc
    comm_pad_size := int_to_u64 (pid_table_size env ni + ((per_proc * ni.node_size) % U64 : Nat)) }

/-- The first loop of a rank other than 0 (ptl_shmem.c:275-285), entered with
`try_count` tries left before attempt number `k`. -/
def shmem_open_loop (env : ShmemEnv) : Nat → Nat → Option Nat
  | 0, _ => none
  | t + 1, k =>
    match env.shm_open k with
    | some fd => some fd
    | none => shmem_open_loop env t (k + 1)

/-- The second loop of a rank other than 0 (ptl_shmem.c:294-308): `none` when
`fstat` fails, otherwise the value of `try_count` at the end of the loop. -/
def shmem_fstat_loop (env : ShmemEnv) (comm_pad_size : Nat) : Nat → Nat → Option Nat
  | 0, _ => some 0
  | t + 1, k =>
    match env.fstat k with
    | none => none
    | some size =>
      if size ≥ comm_pad_size then some (t + 1)
      else shmem_fstat_loop env comm_pad_size t (k + 1)

/-- The wait for the siblings and the set-up of the connections to them
(ptl_shmem.c:358-380) with `n` passes left before index `i`: `false` when
`get_conn` fails.  The own slot is valid, as it was written just before. -/
def shmem_connect_loop (env : ShmemEnv) (ni : shmem_ni_t) :
    Nat → Nat → ShmemState → Except Fault (Bool × ShmemState)
  | 0, _, s => .ok (true, s)
  | n + 1, i, s =>
    if i ≠ ni.index ∧ env.pid_table_valid i = false then .error Fault.blocked
    else
      match env.get_conn (if i = ni.index then ni.id else env.pid_table_id i) with
      | none => .ok (false, s)
      | some conn =>
        shmem_connect_loop env ni n (i + 1) ((s.emit (.connect conn (some i))).emit (.conn_put conn))

/-- The end of `setup_shmem` (ptl_shmem.c:346-402): the NI announces itself and
is connected to its siblings, or to itself when it is physical. -/
def setup_shmem_connect (env : ShmemEnv) (s : ShmemState) : Except Fault (ptl_ret × ShmemState) :=
  if Nat.land s.ni.options env.PTL_NI_LOGICAL ≠ 0 then
    match shmem_connect_loop env s.ni s.ni.node_size 0 (s.emit (.announce s.ni.index s.ni.id)) with
    | .error f => .error f
    | .ok (false, s1) => .ok (setup_shmem_exit_fail s1 none)
    | .ok (true, s1) =>
      match s1.ni.comm_pad_shm_name with
      | none => .error Fault.undefined
      | some name =>
        .ok (ptl_ret.PTL_OK,
          { ni := { s1.ni with comm_pad_shm_name := none },
            log := s1.log ++ [.shm_unlink name, .free_name] })
  else
    match env.get_conn s.ni.id with
    | none => .ok (setup_shmem_exit_fail s none)
    | some conn => .ok (ptl_ret.PTL_OK, (s.emit (.connect conn none)).emit (.conn_put conn))

/-- The store of the addresses of the queues (ptl_shmem.c:331-337), `comm_pad`
being mapped: `first_queue` is `comm_pad + pid_table_size`, `queue` the queue of
this rank, and the slab of buffers starts right after the queue header. -/
def setup_shmem_queue (env : ShmemEnv) (ni : shmem_ni_t) : shmem_ni_t :=
  let first_queue := add64 ni.comm_pad (int_to_u64 (pid_table_size env ni))
  let queue := add64 first_queue ((ni.per_proc_comm_buf_size * ni.index) % U64)
  { ni with first_queue := first_queue, queue := queue,
            pre_alloc_buffer := add64 queue env.sizeof_queue_t }

/-- The part of `setup_shmem` from the call of `mmap` on (ptl_shmem.c:316-402),
entered with the descriptor `fd` open. -/
def setup_shmem_map (env : ShmemEnv) (s : ShmemState) (fd : Nat) :
    Except Fault (ptl_ret × ShmemState) :=
  let s1 : ShmemState :=
    { ni := { s.ni with comm_pad := env.mmap }, log := s.log ++ [.mmap s.ni.comm_pad_size env.mmap] }
  if env.mmap = MAP_FAILED then .ok (setup_shmem_exit_fail s1 (some fd))
  else
    let s2 := s1.emit (.close fd)
    let s3 : ShmemState := { ni := setup_shmem_queue env s2.ni, log := s2.log }
    let s4 := (s3.emit (.queue_init s3.ni.queue)).emit (.pool_init s3.ni.pre_alloc_buffer)
    if env.pool_init ≠ 0 then .ok (setup_shmem_exit_fail s4 none)
    else setup_shmem_connect env s4

/-- The NI once the sizes are computed and the name of the file is stored
(ptl_shmem.c:205-244). -/
def setup_shmem_prepare (env : ShmemEnv) (ni : shmem_ni_t) : shmem_ni_t :=
  setup_shmem_sizes env
    { setup_shmem_pool env ni with comm_pad_shm_name := some (setup_shmem_name env ni) }

/-- Embedding of `setup_shmem` (ptl_shmem.c:192-411).  The `assert`s are compiled
in. -/
def setup_shmem (env : ShmemEnv) (s : ShmemState) : Except Fault (ptl_ret × ShmemState) :=
  if env.knem_init ≠ 0 then
    .ok (setup_shmem_exit_fail { s with ni := setup_shmem_pool env s.ni } none)
  else
    let name := setup_shmem_name env s.ni
    let s1 : ShmemState := { s with ni := setup_shmem_prepare env s.ni }
    if s1.ni.comm_pad ≠ MAP_FAILED then .error Fault.assertFailed
    else if s1.ni.index = 0 then
      let s2 := s1.emit (.shm_unlink name)
      match env.shm_open_creat with
      | none => .error Fault.assertFailed
      | some fd =>
        let s3 := s2.emit (.ftruncate fd s2.ni.comm_pad_size)
        if env.ftruncate s2.ni.comm_pad_size ≠ 0 then
          .ok (setup_shmem_exit_fail (s3.emit (.shm_unlink name)) (some fd))
        else setup_shmem_map env s3 fd
    else
      match shmem_open_loop env 100 0 with
      | none => .ok (setup_shmem_exit_fail s1 none)
      | some fd =>
        match shmem_fstat_loop env s1.ni.comm_pad_size 100 0 with
        | none => .ok (setup_shmem_exit_fail s1 (some fd))
        | some try_count =>
          if try_count ≥ 100000 then .ok (setup_shmem_exit_fail s1 (some fd))
          else setup_shmem_map env s1 fd

/-- Embedding of the address computation of `shmem_enqueue` (ptl_shmem.c:432-433):
the queue of the rank `dest`, in the address space of the caller. -/
def shmem_enqueue_queue (ni : shmem_ni_t) (dest : Nat) : Nat :=
  add64 ni.first_queue ((ni.per_proc_comm_buf_size * dest) % U64)

/-! ## The KNEM descriptors of `ptl_shmem.c` -/

/-- One element of the list a KNEM descriptor carries: the cookie of a registered
region, an offset into the region and a length; the fields are taken to be 64
bits wide. -/
structure mem_iovec where
  cookie : Nat
  offset : Nat
  length : Nat
  deriving DecidableEq, Repr

/-- The formats of a data descriptor that `ptl_shmem.c` writes. -/
inductive data_fmt_t where
  | DATA_FMT_KNEM_DMA
  | DATA_FMT_KNEM_INDIRECT
  deriving DecidableEq, Repr

/-- The fields of `mr_t` the routines read: the KNEM cookie of the region and the
address it starts at. -/
structure mr_t where
  knem_cookie : Nat
  addr : Nat
  deriving DecidableEq, Repr

/-- The fields of `md_t` the routines read: the address `mem_iovecs` of the array
of KNEM elements of the descriptor, the contents `mem_iovec_list` of that array,
and the MR that covers it. -/
structure md_t where
  mem_iovecs : Nat
  mem_iovec_list : List mem_iovec
  sge_list_mr : mr_t
  deriving DecidableEq, Repr

/-- The format of a data descriptor and its `mem` member, as the routines fill
them in. -/
structure data_mem_t where
  data_fmt : data_fmt_t
  num_mem_iovecs : Int
  mem_iovec : List mem_iovec
  deriving DecidableEq, Repr

/-- The two sizes the routines use: `sizeof(data_t)` and
`sizeof(struct mem_iovec)`. -/
structure KnemEnv where
  sizeof_data_t : Nat
  sizeof_mem_iovec : Nat

/-- Embedding of `append_init_data_shmem_direct` (ptl_shmem.c:39-49): the
descriptor written and the new value of `buf->length`. -/
def append_init_data_shmem_direct (env : KnemEnv) (mr : mr_t) (addr length buf_length : Nat) :
    data_mem_t × Nat :=
  ({ data_fmt := .DATA_FMT_KNEM_DMA, num_mem_iovecs := 1,
     mem_iovec := [{ cookie := mr.knem_cookie, offset := sub64 addr mr.addr, length := length }] },
   buf_length + env.sizeof_data_t + env.sizeof_mem_iovec)

/-- Embedding of `append_init_data_shmem_iovec_direct` (ptl_shmem.c:51-62).  The
`memcpy` reads the elements `iov_start .. iov_start + num_iov` of the array; a
read outside the array is a fault. -/
def append_init_data_shmem_iovec_direct (env : KnemEnv) (md : md_t) (iov_start num_iov : Int)
    (length buf_length : Nat) : Except Fault (data_mem_t × Nat) :=
  if iov_start < 0 ∨ num_iov < 0 ∨
      iov_start.toNat + num_iov.toNat > md.mem_iovec_list.length then
    .error Fault.outOfBounds
  else
    .ok ({ data_fmt := .DATA_FMT_KNEM_DMA, num_mem_iovecs := num_iov,
           mem_iovec := (md.mem_iovec_list.drop iov_start.toNat).take num_iov.toNat },
         buf_length + env.sizeof_data_t + num_iov.toNat * env.sizeof_mem_iovec)

/-- Embedding of `append_init_data_shmem_iovec_indirect` (ptl_shmem.c:64-80).  The
product `num_iov * sizeof(struct mem_iovec)` is taken in `size_t`. -/
def append_init_data_shmem_iovec_indirect (env : KnemEnv) (md : md_t) (iov_start num_iov : Int)
    (length buf_length : Nat) : data_mem_t × Nat :=
  ({ data_fmt := .DATA_FMT_KNEM_INDIRECT, num_mem_iovecs := num_iov,
     mem_iovec :=
       [{ cookie := md.sge_list_mr.knem_cookie
          offset := sub64 md.mem_iovecs md.sge_list_mr.addr
          length := int_to_u64 (num_iov * (env.sizeof_mem_iovec : Int)) }] },
   buf_length + env.sizeof_data_t + env.sizeof_mem_iovec)

/-- The bytes a KNEM element describes in the region of `mr`: the address of the
first one and their number. -/
def described_range (mr : mr_t) (e : mem_iovec) : Nat × Nat := (add64 mr.addr e.offset, e.length)

/-- The bytes the elements `iov_start .. iov_start + num_iov` of the array of the
descriptor occupy: the address `&md->mem_iovecs[iov_start]` and their number. -/
def entries_range (env : KnemEnv) (md : md_t) (iov_start num_iov : Int) : Nat × Nat :=
  (int_to_u64 ((md.mem_iovecs : Int) + iov_start * (env.sizeof_mem_iovec : Int)),
   int_to_u64 (num_iov * (env.sizeof_mem_iovec : Int)))

/-- A sample descriptor: four KNEM elements of 24 bytes each in an array at 8192,
inside a region that starts at 4096. -/
def mdFour : md_t :=
  { mem_iovecs := 8192,
    mem_iovec_list := [⟨1, 0, 100⟩, ⟨2, 0, 200⟩, ⟨3, 0, 300⟩, ⟨4, 0, 400⟩],
    sge_list_mr := ⟨77, 4096⟩ }

/-- The sample sizes: a `data_t` of 16 bytes and a `struct mem_iovec` of 24. -/
def knemEnv : KnemEnv := { sizeof_data_t := 16, sizeof_mem_iovec := 24 }

/-! ## Notions used to state further properties of the PPE client -/

/-- A sample of collaborators where `misc_init_once` fails. -/
def lightEnvMiscFail : LightEnv := { lightEnvOk with misc_init_once := .PTL_FAIL }

/-- A sample of collaborators where the PPE answers `OP_PtlInit` with `PTL_FAIL`. -/
def lightEnvReplyFail : LightEnv :=
  { lightEnvOk with ppe_reply := fun _ => some ⟨.PTL_FAIL, 0⟩ }

/-- The state a call leaves when it returns; the state of a process at start-up
otherwise. -/
def init_state (r : Except Fault (ptl_ret × LightState)) : LightState :=
  match r with
  | .ok (_, s) => s
  | .error _ => light_init memEmpty []

/-- The status of a call that returns. -/
def call_status {α : Type} (r : Except Fault (ptl_ret × α)) : Option ptl_ret :=
  match r with
  | .ok (ret, _) => some ret
  | .error _ => none

/-- A sample of collaborators where no PPE is running: `shm_open` fails at every
attempt. -/
def lightEnvNoPpe : LightEnv := { lightEnvOk with shm_open := fun _ => none }

/-- A sample of collaborators for the calls that work on shared pages. -/
def lightWorkOk : LightWorkEnv :=
  { sizeof_ct_info := 16, sizeof_eqe_list := 64, malloc := fun _ => 40960,
    ct_event := fun _ => ⟨0, 0⟩, PtlCTWait_work := fun _ _ => some (.PTL_OK, ⟨0, 0⟩),
    PtlCTPoll_work := fun _ _ _ _ => some (.PTL_OK, ⟨0, 0⟩, 0),
    PtlEQGet_work := fun _ => (.PTL_OK, 0), PtlEQWait_work := fun _ => some (.PTL_OK, 0),
    PtlEQPoll_work := fun _ _ _ => some (.PTL_OK, 0, 0) }

/-- The calls of the handshake of `setup_ppe` with a PPE that answers `hello`, in
the order of ptl_light_lib.c:236-256. -/
def handshake_events (env : LightEnv) (hello : ppe_hello_t) : List light_event :=
  [.switch_cmd_level 0 1, .write_pid env.getpid, .switch_cmd_level 1 2, .wait_level 3,
   .read_reply hello, .map_segment hello.ppebufs_mapping (env.map_segment hello.ppebufs_mapping),
   .switch_cmd_level 3 0]

/-- The events that touch the command field of the comm pad: a change of level,
the store of the pid, the wait for a level, and the reads of the reply. -/
def is_handshake_event : light_event → Bool
  | .switch_cmd_level _ _ => true
  | .write_pid _ => true
  | .wait_level _ => true
  | .read_reply _ => true
  | .map_segment _ _ => true
  | _ => false

/-- The calls `release_ppe_resources` makes in the state `s`. -/
def release_events (s : LightState) : List light_event :=
  (if s.ppe.ppe_comm_pad ≠ MAP_FAILED then [light_event.munmap s.ppe.ppe_comm_pad] else []) ++
    (if s.ppe.comm_pad ≠ 0 then [light_event.free s.ppe.comm_pad] else [])

/-- The log of a call that returns. -/
def call_log (r : Except Fault (ptl_ret × LightState)) : List light_event :=
  match r with
  | .ok (_, s) => s.log
  | .error _ => []

/-- A sample of collaborators where the PPE answers the handshake but
`map_segment` fails. -/
def lightEnvSegFail : LightEnv := { lightEnvOk with map_segment := fun _ => 0 }

/-! ## Notions used to state the properties of the shared-memory transport -/

/-- The size `T` of the pid table of a node of `n` ranks: `n` entries, rounded up
to a multiple of the page size. -/
def layout_T (env : ShmemEnv) (n : Nat) : Nat :=
  (n * env.sizeof_shmem_pid_table + env.pagesize - 1) / env.pagesize * env.pagesize

/-- The size `P` of the part of one rank: the queue header and the slab of
buffers. -/
def layout_P (env : ShmemEnv) : Nat :=
  env.sizeof_queue_t + env.PTL_NUM_SBUF * env.real_buf_t_size

/-- The part of rank `i` in a comm pad for `n` ranks, as the offsets of its first
byte and of the byte after its last. -/
def rank_range (env : ShmemEnv) (n i : Nat) : Nat × Nat :=
  (layout_T env n + i * layout_P env, layout_T env n + (i + 1) * layout_P env)

/-- Two ranges of offsets have no byte in common. -/
def ranges_disjoint (a b : Nat × Nat) : Prop := a.2 ≤ b.1 ∨ b.2 ≤ a.1

/-- Two runs of `setup_shmem` meet the same constants. -/
def same_constants (e1 e2 : ShmemEnv) : Prop :=
  e1.PTL_NUM_SBUF = e2.PTL_NUM_SBUF ∧ e1.real_buf_t_size = e2.real_buf_t_size ∧
    e1.sizeof_queue_t = e2.sizeof_queue_t ∧
    e1.sizeof_shmem_pid_table = e2.sizeof_shmem_pid_table ∧ e1.pagesize = e2.pagesize

/-- An NI before `setup_shmem`, as `PtlNIInit_shmem` and `PtlSetMap` leave it: a
logical NI (option bit 1) of rank `index` on a node of `node_size` ranks. -/
def shmemNi (index node_size : Nat) : shmem_ni_t :=
  { options := 1, id := ⟨index, 0, 0⟩, index := index, node_size := node_size, hash := 99,
    use_pre_alloc_buffer := 0, round_size := 0, slab_size := 0, pre_alloc_buffer := 0,
    per_proc_comm_buf_numbers := 0, per_proc_comm_buf_size := 0, comm_pad_shm_name := none,
    comm_pad_size := 0, comm_pad := MAP_FAILED, first_queue := 0, queue := 0 }

/-- A sample of collaborators that all succeed: 4 buffers of 512 bytes, a queue
header of 64 bytes, pid table entries of 16 bytes, pages of 4096 bytes; the file
has its full size at once, and the comm pad is mapped at `base`. -/
def shmemEnvOk (base : Nat) : ShmemEnv :=
  { PTL_NUM_SBUF := 4, real_buf_t_size := 512, sizeof_queue_t := 64,
    sizeof_shmem_pid_table := 16, pagesize := 4096, PTL_NI_PHYSICAL := 2, PTL_NI_LOGICAL := 1,
    knem_init := 0, shm_open_creat := some 3, ftruncate := fun _ => 0,
    shm_open := fun _ => some 3, fstat := fun _ => some 8320, mmap := base, pool_init := 0,
    pid_table_valid := fun _ => true, pid_table_id := fun i => ⟨i, 0, 0⟩,
    get_conn := fun id => some (7000 + id.rank) }

/-- The sample collaborators, except that the file never grows: `fstat` reports
size 0 at every poll. -/
def shmemEnvSmall (base : Nat) : ShmemEnv := { shmemEnvOk base with fstat := fun _ => some 0 }

/-- The sample collaborators of the PPE client, except that the file never grows. -/
def lightEnvSmall : LightEnv := { lightEnvOk with fstat := fun _ => some 0 }

/-- The status and the log of a call of `setup_shmem` that returns. -/
def shmem_trace (r : Except Fault (ptl_ret × ShmemState)) : Option (ptl_ret × List shmem_event) :=
  match r with
  | .ok (ret, s) => some (ret, s.log)
  | .error _ => none

/-- The state a call of `setup_shmem` leaves when it returns; an empty state
otherwise. -/
def shmem_state_after (r : Except Fault (ptl_ret × ShmemState)) : ShmemState :=
  match r with
  | .ok (_, s) => s
  | .error _ => ⟨shmemNi 0 0, []⟩

/-- Two ranks of a node of two, after `setup_shmem`: rank 0, whose comm pad is
mapped at 1048576, and rank 1, whose comm pad is mapped at 2097152. -/
def shmemRank0 : ShmemState :=
  shmem_state_after (setup_shmem (shmemEnvOk 1048576) ⟨shmemNi 0 2, []⟩)

/-- The second of the two sample ranks. -/
def shmemRank1 : ShmemState :=
  shmem_state_after (setup_shmem (shmemEnvOk 2097152) ⟨shmemNi 1 2, []⟩)

/-- The address in the address space of the PPE of the object the client sees at
`obj`, as `enqueue_free_obj` computes it (ptl_light_lib.c:129). -/
def ppe_address (ppe : ppe_t) (obj : Nat) : Nat :=
  add64 (sub64 obj ppe.ppebufs_addr) ppe.ppebufs_ppeaddr

/-- The free list that starts at the PPE address `head` holds the objects at the
client addresses `l`, in this order, and ends with `NULL`. -/
def free_chain (ppe : ppe_t) (m : shared_t) : Nat → List Nat → Prop
  | head, [] => head = 0
  | head, a :: l =>
    head ≠ 0 ∧ a = add64 head (ppe_offset ppe) ∧ free_chain ppe m (m.obj_next a) l

/-- The memory a call on the free list leaves when it returns; the memory it found
otherwise. -/
def enqueue_mem (r : Except Fault (shared_t × List (shared_t → shared_t))) (m : shared_t) :
    shared_t :=
  match r with
  | .ok (m1, _) => m1
  | .error _ => m

/-- The memory a call of `dequeue_free_obj` leaves when it returns; the memory it
found otherwise. -/
def dequeue_mem (r : Except Fault (Nat × shared_t × List (shared_t → shared_t))) (m : shared_t) :
    shared_t :=
  match r with
  | .ok (_, m1, _) => m1
  | .error _ => m

/-- The object at the PPE address 4608, which the sample client sees at 20992. -/
def objThird : Nat := 20992

/-! ## The stubs `PtlFetchAtomic` and `PtlSwap` of `ptl_light_lib.c` -/

/-- The message `PtlFetchAtomic` of `ptl_light_lib.c` writes into the ppebuf
(ptl_light_lib.c:1521-1535): the operation code and one field for each
argument. -/
def light_PtlFetchAtomic_msg (a : FetchAtomicArgs) : ppe_msg :=
  .OP_PtlFetchAtomic
    { get_md_handle := a.get_md_handle, local_get_offset := a.local_get_offset,
      put_md_handle := a.put_md_handle, local_put_offset := a.local_put_offset,
      length := a.length, target_id := a.target_id, pt_index := a.pt_index,
      match_bits := a.match_bits, remote_offset := a.remote_offset, user_ptr := a.user_ptr,
      hdr_data := a.hdr_data, operation := a.operation, datatype := a.datatype }

/-- Embedding of `PtlFetchAtomic` of `ptl_light_lib.c` (lines 1499-1544). -/
def light_PtlFetchAtomic (env : LightEnv) (s : LightState) (a : FetchAtomicArgs) :
    Except Fault (ptl_ret × LightState) :=
  match ppebuf_alloc env s with
  | .error f => .error f
  | .ok (err, buf, s1) =>
    if err ≠ ptl_ret.PTL_OK then .ok (err, s1)
    else
      match transfer_msg env s1 buf (light_PtlFetchAtomic_msg a) with
      | .error f => .error f
      | .ok (reply, s2) =>
        match ppebuf_release s2 buf with
        | .error f => .error f
        | .ok s3 => .ok (reply.ret, s3)

/-- The message `PtlSwap` of `ptl_light_lib.c` writes into the ppebuf
(ptl_light_lib.c:1569-1584). -/
def light_PtlSwap_msg (a : SwapArgs) : ppe_msg :=
  .OP_PtlSwap
    { get_md_handle := a.get_md_handle, local_get_offset := a.local_get_offset,
      put_md_handle := a.put_md_handle, local_put_offset := a.local_put_offset,
      length := a.length, target_id := a.target_id, pt_index := a.pt_index,
      match_bits := a.match_bits, remote_offset := a.remote_offset, user_ptr := a.user_ptr,
      hdr_data := a.hdr_data, operand := a.operand, operation := a.operation,
      datatype := a.datatype }

/-- Embedding of `PtlSwap` of `ptl_light_lib.c` (lines 1546-1593). -/
def light_PtlSwap (env : LightEnv) (s : LightState) (a : SwapArgs) :
    Except Fault (ptl_ret × LightState) :=
  match ppebuf_alloc env s with
  | .error f => .error f
  | .ok (err, buf, s1) =>
    if err ≠ ptl_ret.PTL_OK then .ok (err, s1)
    else
      match transfer_msg env s1 buf (light_PtlSwap_msg a) with
      | .error f => .error f
      | .ok (reply, s2) =>
        match ppebuf_release s2 buf with
        | .error f => .error f
        | .ok s3 => .ok (reply.ret, s3)

/-- The sample call of `PtlFetchAtomic` with `local_put_offset` replaced by `x`. -/
def fetchCallPut (x : Nat) : FetchAtomicArgs :=
  { fetchCall (.other 0) .PTL_UINT64_T with local_put_offset := x }

/-- The sample call of `PtlSwap` with `local_put_offset` replaced by `x`. -/
def swapCallPut (x : Nat) : SwapArgs :=
  { swapCall .PTL_SWAP .PTL_UINT64_T with local_put_offset := x }

/-- Invariant of the loop of `build_sge` on the ME `me`: every entry counted in
`num_sge` has its MR reference in `mr_list`, and on a contiguous ME there are no
other references. -/
def MrInv (me : me_t) (s : SgeState) : Prop :=
  s.num_sge ≤ s.mr_list.length ∧ (me.num_iov = 0 → s.mr_list.length = s.num_sge)

/-- The rdma bufs a call of `process_rdma` leaves on `buf->rdma_list`, each with
the number of MR references it counts (`num_mr`) and the references stored in
it. -/
def rdma_mr_counts (r : Except Fault RdmaResult) : Option (List (Nat × List Nat)) :=
  match r with
  | .ok res => some (res.buf.rdma_list.map (fun b => (b.num_mr, b.mr_list)))
  | .error _ => none

/-- A sample remote list of one segment of 30 bytes. -/
def remOne : List ibv_sge := [⟨50000, 30, 1⟩]

/-! # Theorems -/

/-! ## The rdma engine: `build_sge` -/

theorem sub64_of_le {a b : Nat} (ha : a < U64) (hb : b ≤ a) : sub64 a b = a - b := by
  unfold sub64
  have hb2 : b < U64 := lt_of_le_of_lt hb ha
  rw [Nat.mod_eq_of_lt hb2]
  have : a + U64 - b = (a - b) + U64 := by omega
  rw [this, Nat.add_mod_right, Nat.mod_eq_of_lt (by omega)]

theorem sub64_lt (a b : Nat) : sub64 a b < U64 := by
  unfold sub64
  exact Nat.mod_lt _ (by decide)

theorem add64_of_lt {a b : Nat} (h : a + b < U64) : add64 a b = a + b := by
  unfold add64
  exact Nat.mod_eq_of_lt h

theorem sge_bytes_append (l : List ibv_sge) (e : ibv_sge) :
    sge_bytes (l ++ [e]) = sge_bytes l + e.length := by
  simp [sge_bytes]

theorem posted_bytes_append (l k : List rdma_post) :
    posted_bytes (l ++ k) = posted_bytes l + posted_bytes k := by
  simp [posted_bytes]

theorem sge_segment_bytes_le {me : me_t} {s : SgeState} {addr bytes : Nat}
    {iov : Option ptl_iovec_t} (h : sge_segment me s = .ok (addr, bytes, iov)) :
    bytes ≤ s.resid := by
  unfold sge_segment at h
  split_ifs at h with h1 h2
  · split at h
    · cases h
    · simp only [Except.ok.injEq, Prod.mk.injEq] at h
      obtain ⟨-, hb, -⟩ := h
      rw [← hb]
      split_ifs with h3
      · omega
      · exact le_refl _
  · simp only [Except.ok.injEq, Prod.mk.injEq] at h
    omega

theorem SgeInv_update {L : Nat} {s : SgeState} (hL : L < U64) (hinv : SgeInv L s)
    (iov : Option ptl_iovec_t) (lkey : Nat) :
    SgeInv L (sge_update s 0 iov lkey) := by
  obtain ⟨h1, h2, h3⟩ := hinv
  have hr : s.resid < U64 := by omega
  have hc : s.cur_len < U64 := by omega
  refine ⟨?_, h2, ?_⟩
  · simp only [sge_update]
    rw [sub64_of_le hr (Nat.zero_le _), add64_of_lt (by omega)]
    omega
  · intro hl
    simp only [sge_update]
    rw [add64_of_lt (by omega)]
    exact h3 hl

theorem SgeInv_append {L : Nat} {s : SgeState} (hL : L < U64) (hinv : SgeInv L s)
    {bytes : Nat} (hb : bytes ≤ s.resid) (hb0 : bytes ≠ 0)
    (iov : Option ptl_iovec_t) (addr lkey : Nat) :
    SgeInv L { sge_update s bytes iov lkey with
      sge := s.sge ++ [{ addr := addr, length := bytes % U32, lkey := lkey }],
      num_sge := s.num_sge + 1 } := by
  obtain ⟨h1, h2, h3⟩ := hinv
  have hr : s.resid < U64 := by omega
  refine ⟨?_, ?_, ?_⟩
  · simp only [sge_update]
    rw [sub64_of_le hr hb, add64_of_lt (by omega)]
    omega
  · simp [h2]
  · intro hl
    obtain ⟨h4, h5⟩ := h3 hl
    have hbl : bytes % U32 = bytes := Nat.mod_eq_of_lt (by omega)
    refine ⟨?_, ?_⟩
    · intro e he
      simp only [List.mem_append, List.mem_singleton] at he
      rcases he with he | he
      · exact h4 e he
      · subst he
        simpa [hbl] using hb0
    · simp only [sge_update]
      rw [sge_bytes_append, add64_of_lt (by omega), h5, hbl]

/-- The invariant holds when the loop of `build_sge` ends with `PTL_OK`, and the
number of entries is then within the size of the array. -/
theorem build_sge_loop_inv (env : RdmaEnv) (me : me_t) (sge_size L : Nat) (hL : L < U64) :
    ∀ (fuel : Nat) (s s1 : SgeState), SgeInv L s → s.num_sge < sge_size →
      build_sge_loop env me sge_size fuel s = .ok (ptl_ret.PTL_OK, s1) →
      SgeInv L s1 ∧ s1.num_sge ≤ sge_size := by
  intro fuel
  induction fuel with
  | zero => intro s s1 _ _ h; simp [build_sge_loop] at h
  | succ n ih =>
    intro s s1 hinv hn h
    rw [build_sge_loop] at h
    split_ifs at h with h0
    · simp only [Except.ok.injEq, Prod.mk.injEq, true_and] at h
      subst h
      exact ⟨hinv, le_of_lt hn⟩
    · split at h
      · cases h
      · rename_i addr bytes iov hseg
        have hb := sge_segment_bytes_le hseg
        simp only at h
        split_ifs at h with h1 h2 h3
        · simp only [Except.ok.injEq, Prod.mk.injEq] at h
          exact absurd h.1 h1
        · simp only [Except.ok.injEq, Prod.mk.injEq, true_and] at h
          subst h
          exact ⟨SgeInv_append hL hinv hb h2 iov addr _, Nat.succ_le_of_lt hn⟩
        · exact ih _ _ (SgeInv_append hL hinv hb h2 iov addr _) (by simpa using h3) h
        · have hz : bytes = 0 := by simpa using h2
          subst hz
          exact ih _ _ (SgeInv_update hL hinv iov _) hn h

/-- What a successful `build_sge` returns, for every input. -/
theorem build_sge_ok_bounds {env : RdmaEnv} {me : me_t} {cur_index cur_off sge_size length : Nat}
    {r : SgeResult} (hs : 1 ≤ sge_size) (hlen : length < U64)
    (h : build_sge env me cur_index cur_off sge_size length = .ok r)
    (hok : r.status = ptl_ret.PTL_OK) :
    r.num_sge ≤ sge_size ∧ r.sge.length = r.num_sge ∧ r.length ≤ length ∧
      (length < U32 → (∀ e ∈ r.sge, e.length ≠ 0) ∧ r.length = sge_bytes r.sge) := by
  unfold build_sge at h
  simp only at h
  split at h
  · cases h
  · rename_i st s hloop
    split_ifs at h with hst
    · simp only [Except.ok.injEq] at h
      subst h
      exact absurd hok hst
    · have hst2 : st = ptl_ret.PTL_OK := by simpa using hst
      subst hst2
      simp only [Except.ok.injEq] at h
      subst h
      obtain ⟨⟨h1, h2, h3⟩, h4⟩ :=
        build_sge_loop_inv env me sge_size length hlen _ _ _
          (by refine ⟨by simp, by simp, ?_⟩; intro _; simp [sge_bytes])
          (by simpa using hs) hloop
      refine ⟨h4, h2.symm, by simp only; omega, ?_⟩
      intro hl
      obtain ⟨h5, h6⟩ := h3 hl
      exact ⟨h5, h6.symm⟩

/-! ## The rdma engine: the loop of `process_rdma` -/

theorem rdma_request_lt (s : RdmaLoop) : rdma_request s < U64 := by
  unfold rdma_request
  have := sub64_lt s.rem_size s.rem_off
  split_ifs <;> omega

theorem rdma_request_le (s : RdmaLoop) : rdma_request s ≤ s.resid := by
  unfold rdma_request
  split_ifs <;> omega

/-- Case analysis of a pass through the body that does not fault: the allocation
failed, or `build_sge` returned an error, or the pass reached its end. -/
theorem process_rdma_body_cases {env : RdmaEnv} {buf : buf_t} {s : RdmaLoop} {e : LoopExit}
    (h : process_rdma_body env buf s = .ok e) :
    e = LoopExit.ret ptl_ret.PTL_FAIL s ∨
    (∃ r : SgeResult, r.status ≠ ptl_ret.PTL_OK ∧ e = LoopExit.ret r.status s) ∨
    (∃ cur rdma_buf r t, buf.rem_sgl[s.rem_sge]? = some cur ∧
      tgt_alloc_rdma_buf env s.rdma_list = some rdma_buf ∧
      build_sge env buf.me s.iov_index s.iov_off env.PTL_MAX_QP_SEND_SGE (rdma_request s)
        = .ok r ∧ r.status = ptl_ret.PTL_OK ∧
      rem_update buf.rem_sgl s r.length = .ok t ∧
      e = rdma_post_step env buf s (add64 cur.addr s.rem_off) rdma_buf r t) := by
  unfold process_rdma_body at h
  cases hcur : buf.rem_sgl[s.rem_sge]? with
  | none => simp [hcur] at h
  | some cur =>
    simp only [hcur] at h
    cases hal : tgt_alloc_rdma_buf env s.rdma_list with
    | none =>
      simp only [hal, Except.ok.injEq] at h
      exact Or.inl h.symm
    | some rdma_buf =>
      simp only [hal] at h
      cases hr : build_sge env buf.me s.iov_index s.iov_off env.PTL_MAX_QP_SEND_SGE
          (rdma_request s) with
      | error f => simp [hr] at h
      | ok r =>
        simp only [hr] at h
        split_ifs at h with hst
        · simp only [Except.ok.injEq] at h
          exact Or.inr (Or.inl ⟨r, hst, h.symm⟩)
        · cases ht : rem_update buf.rem_sgl s r.length with
          | error f => simp [ht] at h
          | ok t =>
            simp only [ht, Except.ok.injEq] at h
            exact Or.inr (Or.inr ⟨cur, rdma_buf, r, t, rfl, rfl, rfl, by simpa using hst, ht,
              h.symm⟩)

/-- Induction over the loop of `process_rdma`: an invariant `I` of the loop head
that every continuing pass keeps, and a property `E` that every exit
establishes. -/
theorem process_rdma_loop_induct (env : RdmaEnv) (buf : buf_t) (I : RdmaLoop → Prop)
    (E : ptl_ret × Bool × RdmaLoop → Prop)
    (h0 : ∀ s, I s → s.resid = 0 → E (ptl_ret.PTL_OK, true, s))
    (hnext : ∀ s s1, I s → s.resid ≠ 0 →
      process_rdma_body env buf s = .ok (LoopExit.next s1) → I s1)
    (hbrk : ∀ s s1, I s → s.resid ≠ 0 →
      process_rdma_body env buf s = .ok (LoopExit.brk s1) → E (ptl_ret.PTL_OK, true, s1))
    (hret : ∀ s st s1, I s → s.resid ≠ 0 →
      process_rdma_body env buf s = .ok (LoopExit.ret st s1) → E (st, false, s1)) :
    ∀ (fuel : Nat) (s : RdmaLoop) (res : ptl_ret × Bool × RdmaLoop), I s →
      process_rdma_loop env buf fuel s = .ok res → E res := by
  intro fuel
  induction fuel with
  | zero => intro s res _ h; simp [process_rdma_loop] at h
  | succ n ih =>
    intro s res hI h
    rw [process_rdma_loop] at h
    split_ifs at h with hz
    · simp only [Except.ok.injEq] at h
      subst h
      exact h0 s hI hz
    · split at h
      · cases h
      · rename_i st s1 hb
        simp only [Except.ok.injEq] at h
        subst h
        exact hret s st s1 hI hz hb
      · rename_i s1 hb
        simp only [Except.ok.injEq] at h
        subst h
        exact hbrk s s1 hI hz hb
      · rename_i s1 hb
        exact ih s1 res (hnext s s1 hI hz hb) h


/-- What a pass through the end of the body adds to the posted requests. -/
theorem rdma_post_step_posted (env : RdmaEnv) (buf : buf_t) (s : RdmaLoop) (addr : Nat)
    (rdma_buf : rdma_buf_t) (r : SgeResult) (t : Nat × Nat × Nat × Nat × Nat) :
    (rdma_post_step env buf s addr rdma_buf r t).state.posted = s.posted ∨
    ∃ new : rdma_post,
      (rdma_post_step env buf s addr rdma_buf r t).state.posted = s.posted ++ [new] ∧
      new.wr.num_sge = r.num_sge ∧ new.wr.sg_list = r.sge ∧ new.wr.remote_addr = addr ∧
      new.wr.rkey = t.2.2.2.1 := by
  simp only [rdma_post_step]
  split_ifs <;> first | exact Or.inl rfl | exact Or.inr ⟨_, rfl, rfl, rfl, rfl, rfl⟩

/-- What a pass through the body adds to the posted requests. -/
theorem process_rdma_body_posted {env : RdmaEnv} {buf : buf_t} {s : RdmaLoop} {e : LoopExit}
    (h : process_rdma_body env buf s = .ok e) :
    e.state.posted = s.posted ∨
    ∃ (new : rdma_post) (r : SgeResult), e.state.posted = s.posted ++ [new] ∧
      build_sge env buf.me s.iov_index s.iov_off env.PTL_MAX_QP_SEND_SGE (rdma_request s)
        = .ok r ∧ r.status = ptl_ret.PTL_OK ∧
      new.wr.num_sge = r.num_sge ∧ new.wr.sg_list = r.sge := by
  rcases process_rdma_body_cases h with h1 | ⟨r, -, h1⟩ | ⟨cur, rb, r, t, -, -, hr, hok, -, h1⟩
  · subst h1; exact Or.inl rfl
  · subst h1; exact Or.inl rfl
  · subst h1
    rcases rdma_post_step_posted env buf s (add64 cur.addr s.rem_off) rb r t with
      h2 | ⟨new, h2, h3, h4, -, -⟩
    · exact Or.inl h2
    · exact Or.inr ⟨new, r, h2, hr, hok, h3, h4⟩

/-- Every work request a call of `process_rdma` posts has at most
`PTL_MAX_QP_SEND_SGE` local entries. -/
theorem process_rdma_num_sge {env : RdmaEnv} {buf : buf_t} {res : RdmaResult}
    (hq : 1 ≤ env.PTL_MAX_QP_SEND_SGE) (h : process_rdma env buf = .ok res) :
    ∀ p ∈ res.posted, p.wr.num_sge ≤ env.PTL_MAX_QP_SEND_SGE ∧
      p.wr.sg_list.length = p.wr.num_sge := by
  have step : ∀ (s : RdmaLoop) (e : LoopExit),
      (∀ p ∈ s.posted, p.wr.num_sge ≤ env.PTL_MAX_QP_SEND_SGE ∧
        p.wr.sg_list.length = p.wr.num_sge) →
      process_rdma_body env buf s = .ok e →
      ∀ p ∈ e.state.posted, p.wr.num_sge ≤ env.PTL_MAX_QP_SEND_SGE ∧
        p.wr.sg_list.length = p.wr.num_sge := by
    intro s e hI hb
    rcases process_rdma_body_posted hb with h1 | ⟨new, r, h1, hr, hok, h3, h4⟩
    · rw [h1]; exact hI
    · rw [h1]
      intro p hp
      simp only [List.mem_append, List.mem_singleton] at hp
      rcases hp with hp | hp
      · exact hI p hp
      · subst hp
        obtain ⟨b1, b2, -, -⟩ := build_sge_ok_bounds hq (rdma_request_lt s) hr hok
        rw [h3, h4]
        exact ⟨b1, b2⟩
  have loop := process_rdma_loop_induct env buf
    (fun s => ∀ p ∈ s.posted, p.wr.num_sge ≤ env.PTL_MAX_QP_SEND_SGE ∧
      p.wr.sg_list.length = p.wr.num_sge)
    (fun res => ∀ p ∈ res.2.2.posted, p.wr.num_sge ≤ env.PTL_MAX_QP_SEND_SGE ∧
      p.wr.sg_list.length = p.wr.num_sge)
    (fun s hI _ => hI)
    (fun s s1 hI _ hb => step s _ hI hb)
    (fun s s1 hI _ hb => step s _ hI hb)
    (fun s st s1 hI _ hb => step s _ hI hb)
  unfold process_rdma at h
  cases hcur : buf.rem_sgl[buf.cur_rem_sge]? with
  | none => simp [hcur] at h
  | some cur =>
    simp only [hcur] at h
    split_ifs at h with hc
    cases hl : process_rdma_loop env buf (env.PTL_MAX_RDMA_WR_OUT + 2) (rdma_entry buf cur) with
    | error f => simp [hl] at h
    | ok x =>
      obtain ⟨st, fin, s⟩ := x
      have hp := loop _ _ _ (by simp [rdma_entry]) hl
      simp only [hl] at h
      split_ifs at h <;> (simp only [Except.ok.injEq] at h; subst h; exact hp)

theorem post_rdma_wr (env : RdmaEnv) (id thr : Nat) (fl : Option Nat) (dir : data_dir_t)
    (addr rkey : Nat) (sg : List ibv_sge) (n comp : Nat) :
    (post_rdma env id thr fl dir addr rkey sg n comp).wr.num_sge = n ∧
    (post_rdma env id thr fl dir addr rkey sg n comp).wr.sg_list = sg ∧
    (post_rdma env id thr fl dir addr rkey sg n comp).wr.remote_addr = addr ∧
    (post_rdma env id thr fl dir addr rkey sg n comp).wr.rkey = rkey :=
  ⟨rfl, rfl, rfl, rfl⟩

/-- A pass that continues the loop. -/
theorem rdma_post_step_next {env : RdmaEnv} {buf : buf_t} {s s1 : RdmaLoop} {addr : Nat}
    {rb : rdma_buf_t} {r : SgeResult} {t : Nat × Nat × Nat × Nat × Nat}
    (h : rdma_post_step env buf s addr rb r t = LoopExit.next s1) :
    t.1 ≠ 0 ∧ s.cur_rdma_ops + 1 < env.PTL_MAX_RDMA_WR_OUT ∧ s.comp = 0 ∧
    s1.cursor = step_cursor r t ∧ s1.cur_rdma_ops = s.cur_rdma_ops + 1 ∧ s1.comp = 0 ∧
    s1.rdma_comp = s.rdma_comp ∧ s1.rdma_list.length = s.rdma_list.length + 1 ∧
    ∃ w : ibv_send_wr, s1.posted = s.posted ++ [⟨0, w⟩] ∧ w.num_sge = r.num_sge ∧
      w.sg_list = r.sge ∧ w.remote_addr = addr ∧ w.rkey = t.2.2.2.1 := by
  simp only [rdma_post_step] at h
  split_ifs at h <;> simp_all [RdmaLoop.cursor, step_cursor]
  subst h
  simp only [List.length_append, List.length_singleton, and_true, true_and]
  exact ⟨_, rfl, post_rdma_wr _ _ _ _ _ _ _ _ _ _⟩

/-- A pass that leaves the loop by `break`, entered with `comp = 0`. -/
theorem rdma_post_step_brk {env : RdmaEnv} {buf : buf_t} {s s1 : RdmaLoop} {addr : Nat}
    {rb : rdma_buf_t} {r : SgeResult} {t : Nat × Nat × Nat × Nat × Nat} (hc : s.comp = 0)
    (h : rdma_post_step env buf s addr rb r t = LoopExit.brk s1) :
    (t.1 = 0 ∨ s.cur_rdma_ops + 1 ≥ env.PTL_MAX_RDMA_WR_OUT) ∧
    s1.cursor = step_cursor r t ∧ s1.comp = 1 ∧
    s1.rdma_comp = s.rdma_comp + 1 ∧ s1.rdma_list.length = s.rdma_list.length + 1 ∧
    ∃ w : ibv_send_wr, s1.posted = s.posted ++ [⟨1, w⟩] ∧ w.num_sge = r.num_sge ∧
      w.sg_list = r.sge ∧ w.remote_addr = addr ∧ w.rkey = t.2.2.2.1 := by
  simp only [rdma_post_step] at h
  split_ifs at h <;> simp_all [RdmaLoop.cursor, step_cursor, atomic_inc]
  all_goals
    subst h
    simp only [List.length_append, List.length_singleton, and_true, true_and]
    exact ⟨_, rfl, post_rdma_wr _ _ _ _ _ _ _ _ _ _⟩

/-- A pass that leaves the function because `post_rdma` failed. -/
theorem rdma_post_step_ret {env : RdmaEnv} {buf : buf_t} {s s1 : RdmaLoop} {addr : Nat}
    {rb : rdma_buf_t} {r : SgeResult} {t : Nat × Nat × Nat × Nat × Nat} {st : ptl_ret}
    (h : rdma_post_step env buf s addr rb r t = LoopExit.ret st s1) :
    st ≠ ptl_ret.PTL_OK ∧ s1.posted = s.posted ∧ s1.rdma_list = s.rdma_list := by
  simp only [rdma_post_step] at h
  split_ifs at h <;> simp_all
  all_goals
    obtain ⟨h1, h2⟩ := h
    subst h2
    subst h1
    simp_all

/-- A pass through the body that returns leaves the posted requests as they
were, with a status other than `PTL_OK`. -/
theorem process_rdma_body_ret {env : RdmaEnv} {buf : buf_t} {s s1 : RdmaLoop} {st : ptl_ret}
    (h : process_rdma_body env buf s = .ok (LoopExit.ret st s1)) :
    st ≠ ptl_ret.PTL_OK ∧ s1.posted = s.posted ∧ s1.rdma_list = s.rdma_list := by
  rcases process_rdma_body_cases h with h1 | ⟨r, hr, h1⟩ | ⟨cur, rb, r, t, -, -, -, -, -, h1⟩
  · simp only [LoopExit.ret.injEq] at h1
    obtain ⟨h2, h3⟩ := h1
    subst h2; subst h3
    exact ⟨by decide, rfl, rfl⟩
  · simp only [LoopExit.ret.injEq] at h1
    obtain ⟨h2, h3⟩ := h1
    subst h2; subst h3
    exact ⟨hr, rfl, rfl⟩
  · exact rdma_post_step_ret h1.symm

/-- A pass through the body that does not return went through all its steps. -/
theorem process_rdma_body_steps {env : RdmaEnv} {buf : buf_t} {s : RdmaLoop} {e : LoopExit}
    (h : process_rdma_body env buf s = .ok e) (hne : ∀ st s1, e ≠ LoopExit.ret st s1) :
    ∃ cur rdma_buf r t, buf.rem_sgl[s.rem_sge]? = some cur ∧
      tgt_alloc_rdma_buf env s.rdma_list = some rdma_buf ∧
      build_sge env buf.me s.iov_index s.iov_off env.PTL_MAX_QP_SEND_SGE (rdma_request s)
        = .ok r ∧ r.status = ptl_ret.PTL_OK ∧
      rem_update buf.rem_sgl s r.length = .ok t ∧
      rdma_post_step env buf s (add64 cur.addr s.rem_off) rdma_buf r t = e := by
  rcases process_rdma_body_cases h with h1 | ⟨r, -, h1⟩ | ⟨cur, rb, r, t, h1, h2, h3, h4, h5, h6⟩
  · exact absurd h1 (hne _ _)
  · exact absurd h1 (hne _ _)
  · exact ⟨cur, rb, r, t, h1, h2, h3, h4, h5, h6.symm⟩

theorem process_rdma_loop_ops (env : RdmaEnv) (buf : buf_t) (fuel : Nat) (s : RdmaLoop)
    (res : ptl_ret × Bool × RdmaLoop) (hI : OpsInv env.PTL_MAX_RDMA_WR_OUT s)
    (h : process_rdma_loop env buf fuel s = .ok res) : OpsExit env.PTL_MAX_RDMA_WR_OUT res := by
  refine process_rdma_loop_induct env buf (OpsInv env.PTL_MAX_RDMA_WR_OUT)
    (OpsExit env.PTL_MAX_RDMA_WR_OUT) ?_ ?_ ?_ ?_ fuel s res hI h
  · intro s hI hz
    exact absurd hz hI.1
  · intro s s1 hI _ hb
    obtain ⟨cur, rb, r, t, -, -, -, -, -, hp⟩ := process_rdma_body_steps hb (by simp)
    obtain ⟨h1, h2, h3, h4, h5, h6, h7, -, w, h9, -⟩ := rdma_post_step_next hp
    obtain ⟨i1, i2, i3, i4, i5, i6⟩ := hI
    have hres : s1.resid = t.1 := by
      have := congrArg Cursor.resid h4
      simpa [RdmaLoop.cursor, step_cursor] using this
    refine ⟨by rw [hres]; exact h1, h6, by rw [h7]; exact i3, ?_, by omega, ?_⟩
    · rw [h5, h9, i4]; simp
    · intro p hp
      rw [h9] at hp
      simp only [List.mem_append, List.mem_singleton] at hp
      rcases hp with hp | hp
      · exact i6 p hp
      · subst hp; rfl
  · intro s s1 hI _ hb
    obtain ⟨cur, rb, r, t, -, -, -, -, -, hp⟩ := process_rdma_body_steps hb (by simp)
    obtain ⟨i1, i2, i3, i4, i5, i6⟩ := hI
    obtain ⟨h1, h4, h6, h7, -, w, h9, -⟩ := rdma_post_step_brk i2 hp
    have hres : s1.resid = t.1 := by
      have := congrArg Cursor.resid h4
      simpa [RdmaLoop.cursor, step_cursor] using this
    refine ⟨?_, ?_, ?_, by simp⟩
    · simp only [h9, List.length_append, List.length_singleton]; omega
    · simp only [h9, List.dropLast_concat]; exact i6
    · intro _
      refine ⟨by rw [h7, i3], ?_, ⟨⟨1, w⟩, by simp [h9], rfl⟩⟩
      rcases h1 with h1 | h1
      · exact Or.inl (by rw [hres]; exact h1)
      · right
        simp only [h9, List.length_append, List.length_singleton]; omega
  · intro s st s1 hI _ hb
    obtain ⟨h1, h2, -⟩ := process_rdma_body_ret hb
    obtain ⟨i1, i2, i3, i4, i5, i6⟩ := hI
    refine ⟨by simp only [h2]; omega, ?_, by simp, fun _ => h1⟩
    intro p hp
    simp only [h2] at hp
    exact i6 p (List.mem_of_mem_dropLast hp)

theorem stored_resid_rdma_save (buf : buf_t) (s : RdmaLoop) :
    stored_resid (rdma_save buf s) = s.resid := by
  unfold rdma_save stored_resid
  by_cases hd : buf.rdma_dir = data_dir_t.DATA_DIR_IN <;> simp [hd]

/-- Unfolding of a call of `process_rdma` that does not fault. -/
theorem process_rdma_ok {env : RdmaEnv} {buf : buf_t} {res : RdmaResult}
    (h : process_rdma env buf = .ok res) :
    buf.rdma_comp = 0 ∧ ∃ cur st fin s, buf.rem_sgl[buf.cur_rem_sge]? = some cur ∧
      process_rdma_loop env buf (env.PTL_MAX_RDMA_WR_OUT + 2) (rdma_entry buf cur)
        = .ok (st, fin, s) ∧
      res.posted = s.posted ∧
      (fin = true → res.status = ptl_ret.PTL_OK ∧
        res.buf = rdma_save (rdma_inplace buf s) s) ∧
      (fin = false → res.status = st ∧
        res.buf = rdma_inplace buf s) := by
  unfold process_rdma at h
  cases hcur : buf.rem_sgl[buf.cur_rem_sge]? with
  | none => simp [hcur] at h
  | some cur =>
    simp only [hcur] at h
    split_ifs at h with hc
    refine ⟨by simpa using hc, ?_⟩
    cases hl : process_rdma_loop env buf (env.PTL_MAX_RDMA_WR_OUT + 2) (rdma_entry buf cur) with
    | error f => simp [hl] at h
    | ok x =>
      obtain ⟨st, fin, s⟩ := x
      simp only [hl] at h
      refine ⟨cur, st, fin, s, rfl, hl, ?_⟩
      split_ifs at h with hf <;> (simp only [Except.ok.injEq] at h; subst h; simp [hf])

/-- With the remote position in range, the request of a pass is below 2^32 and
within what is left of the current remote segment. -/
theorem rdma_request_in_range {s : RdmaLoop} (h : RemoteInRange s) :
    rdma_request s < U32 ∧ s.rem_off + rdma_request s ≤ s.rem_size := by
  obtain ⟨h1, h2⟩ := h
  have h64 : s.rem_size < U64 := lt_trans h1 (by decide)
  unfold rdma_request
  rw [sub64_of_le h64 h2]
  constructor <;> split_ifs <;> omega

/-- The update of the remote position keeps it in range when the bytes moved fit
what is left of the current remote segment. -/
theorem rem_update_in_range {rem : List ibv_sge} {s : RdmaLoop} {bytes : Nat}
    {t : Nat × Nat × Nat × Nat × Nat} (hU : ∀ x ∈ rem, x.length < U32)
    (h : RemoteInRange s) (hb : s.rem_off + bytes ≤ s.rem_size)
    (ht : rem_update rem s bytes = .ok t) : t.2.2.1 < U32 ∧ t.2.2.2.2 ≤ t.2.2.1 := by
  obtain ⟨h1, h2⟩ := h
  have e2 : add64 s.rem_off bytes = s.rem_off + bytes :=
    add64_of_lt (lt_of_le_of_lt hb (lt_trans h1 (by decide)))
  unfold rem_update at ht
  simp only [e2] at ht
  split_ifs at ht with hadv
  · cases hn : rem[s.rem_sge + 1]? with
    | none => simp [hn] at ht
    | some nxt =>
      simp only [hn, Except.ok.injEq] at ht
      subst ht
      exact ⟨hU nxt (List.getElem?_mem hn), Nat.zero_le _⟩
  · simp only [Except.ok.injEq] at ht
    subst ht
    exact ⟨h1, hb⟩

/-- A pass through the body of the loop of `process_rdma` keeps the remote
position in range. -/
theorem process_rdma_body_in_range {env : RdmaEnv} {buf : buf_t} {s : RdmaLoop} {e : LoopExit}
    (hq : 1 ≤ env.PTL_MAX_QP_SEND_SGE) (hU : ∀ x ∈ buf.rem_sgl, x.length < U32)
    (h : RemoteInRange s) (hb : process_rdma_body env buf s = .ok e) :
    RemoteInRange e.state := by
  rcases process_rdma_body_cases hb with h1 | ⟨r, -, h1⟩ | ⟨cur, rb, r, t, -, -, hr, hok, ht, h1⟩
  · subst h1; exact h
  · subst h1; exact h
  · subst h1
    obtain ⟨-, hroom⟩ := rdma_request_in_range h
    obtain ⟨-, -, b3, -⟩ := build_sge_ok_bounds hq (rdma_request_lt s) hr hok
    have key := rem_update_in_range hU h (by omega) ht
    unfold RemoteInRange
    simp only [rdma_post_step]
    split_ifs <;> exact key

/-- C2 (`MAX_QP_SEND_SGE` is never exceeded): for every input with `sge_size >= 1`
and a requested length below 2^32 on which `build_sge` returns `PTL_OK`, the
returned `num_sge` is at most `sge_size` and counts the entries written, every
entry written has a non-zero length, and the returned length is the sum of the
lengths of the entries and at most the requested length; every work request
posted by `process_rdma` has `num_sge <= PTL_MAX_QP_SEND_SGE`.  The requested
lengths are those `build_sge` receives: it is static and `process_rdma`, its only
caller, cuts each request to `rem_size - rem_off`, where `rem_size` is a `uint32_t`
and `rem_off` has not passed it; this holds when the loop is entered on a remote
list of 32-bit lengths with `cur_rem_off` inside the current segment, every pass
through the body keeps it, and it puts the request below 2^32. -/
theorem sge_limit_never_exceeded (env : RdmaEnv) (me : me_t)
    (cur_index cur_off sge_size length : Nat) (r : SgeResult) (buf : buf_t) (res : RdmaResult)
    (hs : 1 ≤ sge_size) (hlen : length < U32)
    (h : build_sge env me cur_index cur_off sge_size length = .ok r)
    (hok : r.status = ptl_ret.PTL_OK)
    (hq : 1 ≤ env.PTL_MAX_QP_SEND_SGE) (hp : process_rdma env buf = .ok res) :
    (r.num_sge ≤ sge_size ∧ r.sge.length = r.num_sge ∧ (∀ e ∈ r.sge, e.length ≠ 0) ∧
      r.length = sge_bytes r.sge ∧ r.length ≤ length) ∧
    (∀ p ∈ res.posted, p.wr.num_sge ≤ env.PTL_MAX_QP_SEND_SGE) ∧
    (∀ cur, buf.rem_sgl[buf.cur_rem_sge]? = some cur → (∀ x ∈ buf.rem_sgl, x.length < U32) →
      buf.cur_rem_off ≤ cur.length → RemoteInRange (rdma_entry buf cur)) ∧
    (∀ s e, (∀ x ∈ buf.rem_sgl, x.length < U32) → RemoteInRange s →
      process_rdma_body env buf s = .ok e → RemoteInRange e.state) ∧
    (∀ s, RemoteInRange s → rdma_request s < U32) := by
  obtain ⟨b1, b2, b3, b4⟩ := build_sge_ok_bounds hs (lt_trans hlen (by decide)) h hok
  obtain ⟨b5, b6⟩ := b4 hlen
  refine ⟨⟨b1, b2, b5, b6, b3⟩, fun p hp2 => (process_rdma_num_sge hq hp p hp2).1, ?_, ?_, ?_⟩
  · intro cur hc hU hoff
    exact ⟨hU cur (List.getElem?_mem hc), hoff⟩
  · intro s e hU hs2 hb
    exact process_rdma_body_in_range hq hU hs2 hb
  · intro s hs2
    exact (rdma_request_in_range hs2).1

/-- Witness of C2: a request of 25 bytes on the sample iovec, the first call of
`process_rdma` for 30 bytes on the same iovec, and the request of its first
pass. -/
theorem sge_limit_never_exceeded_witness :
    (sgeIovec25.num_sge ≤ 16 ∧ sgeIovec25.sge.length = sgeIovec25.num_sge ∧
      (∀ e ∈ sgeIovec25.sge, e.length ≠ 0) ∧
      sgeIovec25.length = sge_bytes sgeIovec25.sge ∧ sgeIovec25.length ≤ 25) ∧
    (∀ p ∈ resThreeFirst.posted, p.wr.num_sge ≤ (envOk 16 2).PTL_MAX_QP_SEND_SGE) ∧
    rdma_request (rdma_entry (bufStart meIovec remThree 30) ⟨50000, 7, 1⟩) < U32 :=
  ⟨(sge_limit_never_exceeded (envOk 16 2) meIovec 0 0 16 25 sgeIovec25
      (bufStart meIovec remThree 30) resThreeFirst
      (by decide) (by decide) rfl rfl (by decide) rfl).1,
    (sge_limit_never_exceeded (envOk 16 2) meIovec 0 0 16 25 sgeIovec25
      (bufStart meIovec remThree 30) resThreeFirst
      (by decide) (by decide) rfl rfl (by decide) rfl).2.1,
    (sge_limit_never_exceeded (envOk 16 2) meIovec 0 0 16 25 sgeIovec25
      (bufStart meIovec remThree 30) resThreeFirst
      (by decide) (by decide) rfl rfl (by decide) rfl).2.2.2.2 _ (by decide)⟩

theorem rdma_save_rdma_comp (buf : buf_t) (s : RdmaLoop) :
    (rdma_save (rdma_inplace buf s) s).rdma_comp = s.rdma_comp := by
  unfold rdma_save rdma_inplace
  by_cases hd : buf.rdma_dir = data_dir_t.DATA_DIR_IN <;> simp [hd]

/-- C3 (bounded outstanding work requests): in every call of `process_rdma` with
`PTL_MAX_RDMA_WR_OUT = m >= 1` and resid > 0, on whatever path it returns, at most `m`
work requests are posted and all of them but the last carry `comp = 0`, so that
none is posted after a signaled one; and when the call returns `PTL_OK`, that is
when every pass reaches its post and the post succeeds, the last request posted
carries `comp = 1`, it is posted when resid has reached 0 or it is the `m`-th
request of the call, and `rdma.rdma_comp` goes from 0 to 1. -/
theorem bounded_outstanding_requests (env : RdmaEnv) (buf : buf_t) (res : RdmaResult)
    (hm : 1 ≤ env.PTL_MAX_RDMA_WR_OUT) (hres : stored_resid buf ≠ 0)
    (h : process_rdma env buf = .ok res) :
    buf.rdma_comp = 0 ∧ res.posted.length ≤ env.PTL_MAX_RDMA_WR_OUT ∧
    (∀ p ∈ res.posted.dropLast, p.comp = 0) ∧
    (res.status = ptl_ret.PTL_OK →
      (∃ init last, res.posted = init ++ [last] ∧ last.comp = 1 ∧ ∀ p ∈ init, p.comp = 0) ∧
      (stored_resid res.buf = 0 ∨ res.posted.length = env.PTL_MAX_RDMA_WR_OUT) ∧
      res.buf.rdma_comp = 1) := by
  obtain ⟨hc, cur, st, fin, s, -, hl, hp, hfin, hnf⟩ := process_rdma_ok h
  have hI : OpsInv env.PTL_MAX_RDMA_WR_OUT (rdma_entry buf cur) := by
    refine ⟨hres, rfl, hc, rfl, ?_, ?_⟩
    · simp only [rdma_entry]; omega
    · intro p hp; simp [rdma_entry] at hp
  obtain ⟨e1, e2, e3, e4⟩ := process_rdma_loop_ops env buf _ _ _ hI hl
  simp only at e1 e2 e3 e4
  refine ⟨hc, by rw [hp]; exact e1, by rw [hp]; exact e2, ?_⟩
  intro hok
  have hf : fin = true := by
    cases fin with
    | true => rfl
    | false => exact absurd ((hnf rfl).1.symm.trans hok) (e4 rfl)
  obtain ⟨-, hb⟩ := hfin hf
  obtain ⟨e5, e6, last, e7, e8⟩ := e3 hf
  rw [hp, hb, stored_resid_rdma_save, rdma_save_rdma_comp]
  refine ⟨⟨s.posted.dropLast, last, ?_, e8, e2⟩, e6, e5⟩
  exact (List.dropLast_append_getLast? last (by simp [e7])).symm

/-- Witness of C3: the first call for 30 bytes on the sample iovec with a limit of
two requests posts two requests, the second one with `comp = 1`. -/
theorem bounded_outstanding_requests_witness :
    (bufStart meIovec remThree 30).rdma_comp = 0 ∧
    resThreeFirst.posted.length ≤ (envOk 16 2).PTL_MAX_RDMA_WR_OUT ∧
    (∀ p ∈ resThreeFirst.posted.dropLast, p.comp = 0) ∧
    (resThreeFirst.status = ptl_ret.PTL_OK →
      (∃ init last, resThreeFirst.posted = init ++ [last] ∧ last.comp = 1 ∧
        ∀ p ∈ init, p.comp = 0) ∧
      (stored_resid resThreeFirst.buf = 0 ∨
        resThreeFirst.posted.length = (envOk 16 2).PTL_MAX_RDMA_WR_OUT) ∧
      resThreeFirst.buf.rdma_comp = 1) :=
  bounded_outstanding_requests (envOk 16 2) (bufStart meIovec remThree 30) resThreeFirst
    (by decide) (by decide) rfl

/-! ## The rdma engine: `process_rdma_desc` -/

/-- C5 (indirect SGL fetch): let `e0` be entry 0 of the SGL of `data_in` (direction
`DATA_DIR_IN`) or `data_out` (otherwise).  When `malloc`, `mr_lookup` and
`ibv_post_send` succeed, `process_rdma_desc` returns `PTL_OK` and posts exactly one
work request, with `comp = 1`: an RDMA READ, whatever the direction, of remote
address `e0.addr` with rkey `e0.lkey` into one local entry of length `e0.length`.
When one of the three steps fails it returns `PTL_FAIL` and nothing is posted. -/
theorem process_rdma_desc_posts_one_read (env : RdmaEnv) (buf : buf_t) (e0 : ibv_sge)
    (hd : (desc_data buf).sge_list[0]? = some e0) :
    (env.malloc e0.length = none →
      ∃ res, process_rdma_desc env buf = .ok res ∧ res.status = ptl_ret.PTL_FAIL ∧
        res.posted = []) ∧
    (∀ a, env.malloc e0.length = some a →
      ((env.mr_lookup a e0.length).1 ≠ ptl_ret.PTL_OK →
        ∃ res, process_rdma_desc env buf = .ok res ∧ res.status = ptl_ret.PTL_FAIL ∧
          res.posted = []) ∧
      ((env.mr_lookup a e0.length).1 = ptl_ret.PTL_OK →
        (env.ibv_post_send (desc_wr buf e0 a (env.mr_lookup a e0.length).2) ≠ 0 →
          ∃ res, process_rdma_desc env buf = .ok res ∧ res.status = ptl_ret.PTL_FAIL ∧
            res.posted = []) ∧
        (env.ibv_post_send (desc_wr buf e0 a (env.mr_lookup a e0.length).2) = 0 →
          ∃ res, process_rdma_desc env buf = .ok res ∧ res.status = ptl_ret.PTL_OK ∧
            res.posted = [⟨1, desc_wr buf e0 a (env.mr_lookup a e0.length).2⟩]))) := by
  have hd2 : (if buf.rdma_dir = data_dir_t.DATA_DIR_IN then buf.data_in
      else buf.data_out).sge_list[0]? = some e0 := hd
  refine ⟨?_, ?_⟩
  · intro hm
    simp [process_rdma_desc, hd2, hm]
  · intro a hm
    refine ⟨?_, ?_⟩
    · intro hl
      simp [process_rdma_desc, hd2, hm, hl]
    · intro hl
      have hw : (post_rdma env buf.id buf.completion_threshold buf.send_wr_flags
          data_dir_t.DATA_DIR_IN e0.addr e0.lkey
          [{ addr := a, length := e0.length, lkey := (env.mr_lookup a e0.length).2 }] 1 1).wr
          = desc_wr buf e0 a (env.mr_lookup a e0.length).2 := by
        simp [post_rdma, desc_wr]
      refine ⟨?_, ?_⟩
      · intro hp
        have hs : (post_rdma env buf.id buf.completion_threshold buf.send_wr_flags
            data_dir_t.DATA_DIR_IN e0.addr e0.lkey
            [{ addr := a, length := e0.length, lkey := (env.mr_lookup a e0.length).2 }] 1 1).status
            = ptl_ret.PTL_FAIL := by
          have := hw
          simp only [post_rdma] at this ⊢
          rw [this]
          simp [hp]
        simp [process_rdma_desc, hd2, hm, hl, hs]
      · intro hp
        have hs : (post_rdma env buf.id buf.completion_threshold buf.send_wr_flags
            data_dir_t.DATA_DIR_IN e0.addr e0.lkey
            [{ addr := a, length := e0.length, lkey := (env.mr_lookup a e0.length).2 }] 1 1).status
            = ptl_ret.PTL_OK := by
          have := hw
          simp only [post_rdma] at this ⊢
          rw [this]
          simp [hp]
        simp [process_rdma_desc, hd2, hm, hl, hs, hw]

/-- Witness of C5: the sample buf in direction `DATA_DIR_OUT`, whose descriptor is
read from `data_out`; in the sample environment the three steps succeed and the
request posted is a READ of 640 bytes at 80000 with rkey 9. -/
theorem process_rdma_desc_posts_one_read_witness :
    (desc_data bufIndirect).sge_list[0]? = some ⟨80000, 640, 9⟩ ∧
    process_rdma_desc (envOk 16 4) bufIndirect =
      .ok { status := ptl_ret.PTL_OK,
            buf := { bufIndirect with indir_sge := some 5000, mr_list := [5], num_mr := 1,
                                      comp := 1, xxbuf := some 1, type := .BUF_RDMA },
            posted := [⟨1, ⟨some 1, some 2, [⟨5000, 640, 5⟩], 1, .IBV_WR_RDMA_READ, 80000, 9⟩⟩] } ∧
    ∃ res, process_rdma_desc (envOk 16 4) bufIndirect = .ok res ∧
      res.status = ptl_ret.PTL_OK ∧
      res.posted = [⟨1, desc_wr bufIndirect ⟨80000, 640, 9⟩ 5000
        ((envOk 16 4).mr_lookup 5000 640).2⟩] :=
  ⟨rfl, rfl,
    ((process_rdma_desc_posts_one_read (envOk 16 4) bufIndirect ⟨80000, 640, 9⟩ rfl).2 5000
      rfl).2 rfl |>.2 rfl⟩

theorem iov_cap_of_some {iov : List ptl_iovec_t} {idx : Nat} {v : ptl_iovec_t}
    (h : iov[idx]? = some v) : iov_cap iov idx = v.iov_len + iov_cap iov (idx + 1) := by
  unfold iov_cap
  obtain ⟨hlt, hv⟩ := List.getElem?_eq_some_iff.mp h
  rw [List.drop_eq_getElem_cons hlt, hv]
  simp

theorem iov_cap_of_none {iov : List ptl_iovec_t} {idx : Nat}
    (h : iov[idx]? = none) : iov_cap iov idx = 0 := by
  unfold iov_cap
  rw [List.drop_eq_nil_of_le (List.getElem?_eq_none_iff.mp h)]
  simp

/-- One pass through the body of the loop of `build_sge` from a position inside the
ME with enough capacity left: the segment is found, and the update keeps the
position inside the ME and consumes `bytes` of capacity. -/
theorem sge_segment_total {me : me_t} {s : SgeState}
    (hloc : LocalOk me s.cur_index s.cur_off)
    (hcap : s.resid ≤ loc_cap me s.cur_index s.cur_off) (hr : s.resid < U64)
    (hnz : s.resid ≠ 0) :
    ∃ addr bytes iov, sge_segment me s = .ok (addr, bytes, iov) ∧ bytes ≤ s.resid ∧
      (me.num_iov ≠ 0 → s.cur_index < me.iov.length) ∧
      ∀ lk, (sge_update s bytes iov lk).resid = s.resid - bytes ∧
        LocalOk me (sge_update s bytes iov lk).cur_index (sge_update s bytes iov lk).cur_off ∧
        loc_cap me (sge_update s bytes iov lk).cur_index (sge_update s bytes iov lk).cur_off
          + bytes = loc_cap me s.cur_index s.cur_off ∧
        ((bytes = 0 ∨ bytes < s.resid) →
          me.num_iov ≠ 0 ∧ (sge_update s bytes iov lk).cur_index = s.cur_index + 1) := by
  unfold LocalOk at hloc
  unfold loc_cap at hcap
  by_cases hiov : me.num_iov ≠ 0
  · rw [if_pos hiov] at hloc hcap
    obtain ⟨hv, hlen, hoff⟩ := hloc
    cases hget : me.iov[s.cur_index]? with
    | none =>
      rw [iov_cap_of_none hget] at hcap
      omega
    | some v =>
      have hlt : s.cur_index < me.iov.length := (List.getElem?_eq_some_iff.mp hget).1
      have hvlt : v.iov_len < U64 := hv v (List.getElem?_mem hget)
      have hd : me.iov.getD s.cur_index ⟨0, 0⟩ = v := by
        simp [List.getD, hget]
      rw [hd] at hoff
      rw [iov_cap_of_some hget] at hcap
      have hroom : sub64 v.iov_len s.cur_off = v.iov_len - s.cur_off := sub64_of_le hvlt hoff
      refine ⟨add64 v.iov_base s.cur_off,
        if s.resid > v.iov_len - s.cur_off then v.iov_len - s.cur_off else s.resid, some v,
        ?_, ?_, fun _ => hlt, ?_⟩
      · simp [sge_segment, hiov, hget, hroom]
      · split_ifs <;> omega
      · intro lk
        by_cases hbig : s.resid > v.iov_len - s.cur_off
        · -- the element is used up
          simp only [hbig, if_true]
          have hoff1 : add64 s.cur_off (v.iov_len - s.cur_off) = v.iov_len := by
            rw [add64_of_lt (by omega)]; omega
          have hidx : add64 s.cur_index 1 = s.cur_index + 1 := add64_of_lt (by omega)
          have hres : sub64 s.resid (v.iov_len - s.cur_off) = s.resid - (v.iov_len - s.cur_off) :=
            sub64_of_le hr (by omega)
          simp only [sge_update, hoff1, hidx, hres, ge_iff_le, le_refl, decide_True, if_true]
          refine ⟨trivial, ?_, ?_, fun _ => ⟨hiov, trivial⟩⟩
          · simp only [LocalOk, if_pos hiov]
            exact ⟨hv, hlen, Nat.zero_le _⟩
          · simp only [loc_cap, if_pos hiov, iov_cap_of_some hget]
            omega
        · -- the request ends inside the element
          simp only [hbig, if_false]
          have hle : s.resid ≤ v.iov_len - s.cur_off := by omega
          have hoff1 : add64 s.cur_off s.resid = s.cur_off + s.resid :=
            add64_of_lt (by omega)
          have hidx : add64 s.cur_index 1 = s.cur_index + 1 := add64_of_lt (by omega)
          have hres : sub64 s.resid s.resid = s.resid - s.resid := sub64_of_le hr (le_refl _)
          by_cases hadv : s.cur_off + s.resid ≥ v.iov_len
          · simp only [sge_update, hoff1, hidx, hres, hadv, decide_True, if_true]
            refine ⟨trivial, ?_, ?_, fun h => by omega⟩
            · simp only [LocalOk, if_pos hiov]
              exact ⟨hv, hlen, Nat.zero_le _⟩
            · simp only [loc_cap, if_pos hiov, iov_cap_of_some hget]
              omega
          · simp only [sge_update, hoff1, hidx, hres, hadv, decide_False, Bool.false_eq_true,
              if_false]
            refine ⟨trivial, ?_, ?_, fun h => by omega⟩
            · simp only [LocalOk, if_pos hiov, hd]
              exact ⟨hv, hlen, by omega⟩
            · simp only [loc_cap, if_pos hiov, iov_cap_of_some hget]
              omega
  · rw [if_neg hiov] at hloc hcap
    obtain ⟨hml, hoff⟩ := hloc
    have hroom : sub64 me.length s.cur_off = me.length - s.cur_off := sub64_of_le hml hoff
    have hoff1 : add64 s.cur_off s.resid = s.cur_off + s.resid := add64_of_lt (by omega)
    have hres : sub64 s.resid s.resid = s.resid - s.resid := sub64_of_le hr (le_refl _)
    refine ⟨add64 me.start s.cur_off, s.resid, none, ?_, le_refl _, fun h => absurd h hiov, ?_⟩
    · simp [sge_segment, hiov, hroom, hcap]
    · intro lk
      simp only [sge_update, hoff1, hres, Bool.false_eq_true, if_false]
      refine ⟨trivial, ?_, ?_, fun h => by omega⟩
      · simp only [LocalOk, if_neg hiov]
        exact ⟨hml, by omega⟩
      · simp only [loc_cap, if_neg hiov]
        omega

/-- From a position inside the ME with enough capacity left, and with `mr_lookup`
succeeding, the loop of `build_sge` ends with `PTL_OK` within the fuel given,
inside the ME, having consumed as much capacity as it took off `resid`, and
having taken something if anything was requested. -/
theorem build_sge_loop_total (env : RdmaEnv) (me : me_t) (sge_size : Nat)
    (hmr : ∀ a n, (env.mr_lookup a n).1 = ptl_ret.PTL_OK) :
    ∀ (fuel : Nat) (s : SgeState), LocalOk me s.cur_index s.cur_off →
      s.resid ≤ loc_cap me s.cur_index s.cur_off → s.resid < U64 → 1 ≤ fuel →
      (s.resid ≠ 0 →
        (if me.num_iov ≠ 0 then me.iov.length - s.cur_index else 1) + 1 ≤ fuel) →
      ∃ s1, build_sge_loop env me sge_size fuel s = .ok (ptl_ret.PTL_OK, s1) ∧
        LocalOk me s1.cur_index s1.cur_off ∧ s1.resid ≤ s.resid ∧
        loc_cap me s1.cur_index s1.cur_off + (s.resid - s1.resid)
          = loc_cap me s.cur_index s.cur_off ∧
        (s.resid ≠ 0 → s1.resid < s.resid) := by
  intro fuel
  induction fuel with
  | zero => intro s _ _ _ h; omega
  | succ n ih =>
    intro s hloc hcap hr _ hfuel
    rw [build_sge_loop]
    by_cases hz : s.resid = 0
    · rw [if_pos hz]
      exact ⟨s, rfl, hloc, le_refl _, by omega, fun h => absurd hz h⟩
    · rw [if_neg hz]
      obtain ⟨addr, bytes, iov, hseg, hble, hidx, hup⟩ := sge_segment_total hloc hcap hr hz
      have hf := hfuel hz
      have hn1 : 1 ≤ n := by
        by_cases hiov : me.num_iov ≠ 0
        · rw [if_pos hiov] at hf
          have := hidx hiov
          omega
        · rw [if_neg hiov] at hf
          omega
      simp only [hseg, hmr, ne_eq, not_true_eq_false, if_false]
      obtain ⟨u1, u2, u3, u4⟩ := hup (env.mr_lookup addr bytes).2
      by_cases hb : bytes = 0
      · -- an empty element is skipped
        simp only [hb, not_true_eq_false, if_false]
        subst hb
        obtain ⟨hiov, hnext⟩ := u4 (Or.inl rfl)
        obtain ⟨s1, h1, h2, h3, h4, h5⟩ := ih _ u2 (by omega) (by omega) hn1 (by
          intro _
          rw [if_pos hiov] at hf ⊢
          rw [hnext]
          have := hidx hiov
          omega)
        exact ⟨s1, h1, h2, by omega, by omega, fun _ => by
          have := h5 (by omega)
          omega⟩
      · simp only [hb, not_false_eq_true, if_true]
        by_cases hfull : s.num_sge + 1 ≥ sge_size
        · rw [if_pos hfull]
          exact ⟨_, rfl, u2, by simp only [u1]; omega, by simp only [u1]; omega,
            fun _ => by simp only [u1]; omega⟩
        · rw [if_neg hfull]
          obtain ⟨s1, h1, h2, h3, h4, h5⟩ := ih
            { sge_update s bytes iov (env.mr_lookup addr bytes).2 with
              sge := s.sge ++ [{ addr := addr, length := bytes % U32,
                                 lkey := (env.mr_lookup addr bytes).2 }],
              num_sge := s.num_sge + 1 }
            u2 (by simp only [u1]; omega) (by simp only [u1]; omega) hn1 (by
              simp only [u1]
              intro hne
              obtain ⟨hiov, hnext⟩ := u4 (Or.inr (by omega))
              rw [if_pos hiov] at hf ⊢
              rw [hnext]
              have := hidx hiov
              omega)
          simp only [u1] at h3 h4 h5
          exact ⟨s1, h1, h2, by omega, by omega, fun _ => by omega⟩

/-- With `mr_lookup` succeeding, a request that fits below 2^32 and into the
capacity left from a position inside the ME makes `build_sge` return `PTL_OK`;
the bytes it returns are those of its entries, are taken off the capacity, and
are not zero unless the request was. -/
theorem build_sge_total {env : RdmaEnv} {me : me_t} {idx off sge_size len : Nat}
    (hmr : ∀ a n, (env.mr_lookup a n).1 = ptl_ret.PTL_OK) (hs : 1 ≤ sge_size)
    (hloc : LocalOk me idx off) (hcap : len ≤ loc_cap me idx off) (hlen : len < U32) :
    ∃ r, build_sge env me idx off sge_size len = .ok r ∧ r.status = ptl_ret.PTL_OK ∧
      r.length ≤ len ∧ (len ≠ 0 → r.length ≠ 0) ∧ r.length = sge_bytes r.sge ∧
      LocalOk me r.cur_index r.cur_off ∧
      loc_cap me r.cur_index r.cur_off + r.length = loc_cap me idx off := by
  have hlen64 : len < U64 := lt_trans hlen (by decide)
  obtain ⟨s1, h1, h2, h3, h4, h5⟩ := build_sge_loop_total env me sge_size hmr
    (me.iov.length + 2)
    { cur_index := idx, cur_off := off, cur_len := 0, num_sge := 0, resid := len, sge := [],
      mr_list := [] }
    hloc hcap hlen64 (by omega) (by
      intro _
      by_cases hiov : me.num_iov ≠ 0
      · rw [if_pos hiov]; simp only; omega
      · rw [if_neg hiov]; omega)
  obtain ⟨⟨i1, -, i3⟩, -⟩ := build_sge_loop_inv env me sge_size len hlen64 _ _ _
    (by refine ⟨by simp, by simp, ?_⟩; intro _; simp [sge_bytes]) (by simpa using hs) h1
  obtain ⟨-, i5⟩ := i3 hlen
  simp only at h3 h4 h5
  refine ⟨_, by simp only [build_sge, h1]; rfl, rfl, ?_, ?_, ?_, h2, ?_⟩
  · simp only; omega
  · intro hne
    have := h5 hne
    simp only; omega
  · simp only; exact i5.symm
  · simp only; omega

theorem sgl_cap_of_some {rem : List ibv_sge} {i : Nat} {e : ibv_sge}
    (h : rem[i]? = some e) : sgl_cap rem i = e.length + sgl_cap rem (i + 1) := by
  unfold sgl_cap
  obtain ⟨hlt, hv⟩ := List.getElem?_eq_some_iff.mp h
  rw [List.drop_eq_getElem_cons hlt, hv]
  simp

theorem sgl_cap_of_none {rem : List ibv_sge} {i : Nat}
    (h : rem[i]? = none) : sgl_cap rem i = 0 := by
  unfold sgl_cap
  rw [List.drop_eq_nil_of_le (List.getElem?_eq_none_iff.mp h)]
  simp

theorem rdma_request_eq {me : me_t} {rem : List ibv_sge} {s : RdmaLoop}
    (h : CursorOk me rem s.cursor) :
    rdma_request s = min s.resid (s.rem_size - s.rem_off) ∧ rdma_request s < U32 := by
  obtain ⟨-, -, -, hU, ⟨cur, hc, hl, -⟩, hoff, -⟩ := h
  simp only [RdmaLoop.cursor] at hc hl hoff
  have h32 : s.rem_size < U32 := hl ▸ hU cur (List.getElem?_mem hc)
  have h64 : s.rem_size < U64 := lt_trans h32 (by decide)
  unfold rdma_request
  rw [sub64_of_le h64 hoff]
  constructor
  · split_ifs <;> omega
  · split_ifs <;> omega

/-- The update of the remote position after `bytes` bytes, when `bytes` is within
the request and not zero unless the request is: it does not fault, the new
cursor is in order, and the work left has decreased. -/
theorem rem_update_total {me : me_t} {rem : List ibv_sge} {s : RdmaLoop} {r : SgeResult}
    (h : CursorOk me rem s.cursor) (hnz : s.resid ≠ 0)
    (hb : r.length ≤ rdma_request s) (hprog : rdma_request s ≠ 0 → r.length ≠ 0)
    (hloc : LocalOk me r.cur_index r.cur_off)
    (hcap : loc_cap me r.cur_index r.cur_off + r.length = loc_cap me s.iov_index s.iov_off) :
    ∃ t, rem_update rem s r.length = .ok t ∧ t.1 = s.resid - r.length ∧
      r.length ≤ s.resid ∧ CursorOk me rem (step_cursor r t) ∧
      (step_cursor r t).work rem < s.cursor.work rem := by
  obtain ⟨hreq, -⟩ := rdma_request_eq h
  obtain ⟨hres, -, hlcap, hU, ⟨cur, hc, hl, hk⟩, hoff, hrcap⟩ := h
  simp only [RdmaLoop.cursor] at hres hlcap hc hl hk hoff hrcap
  have h32 : s.rem_size < U32 := hl ▸ hU cur (List.getElem?_mem hc)
  have hU3264 : U32 < U64 := by decide
  have hlt : s.rem_sge < rem.length := (List.getElem?_eq_some_iff.mp hc).1
  have hble : r.length ≤ s.resid := by omega
  have e1 : sub64 s.resid r.length = s.resid - r.length := sub64_of_le hres hble
  have e2 : add64 s.rem_off r.length = s.rem_off + r.length := add64_of_lt (by omega)
  unfold rem_cap at hrcap
  rw [sgl_cap_of_some hc, hl] at hrcap
  unfold rem_update
  simp only [e1, e2]
  by_cases hadv : s.resid - r.length ≠ 0 ∧ s.rem_off + r.length ≥ s.rem_size
  · rw [if_pos hadv]
    cases hn : rem[s.rem_sge + 1]? with
    | none =>
      rw [sgl_cap_of_none hn] at hrcap
      omega
    | some nxt =>
      refine ⟨_, rfl, rfl, hble, ?_, ?_⟩
      · refine ⟨by simp only [step_cursor]; omega, hloc, by simp only [step_cursor]; omega, hU,
          ⟨nxt, hn, rfl, rfl⟩, Nat.zero_le _, ?_⟩
        simp only [step_cursor, rem_cap]
        omega
      · simp only [Cursor.work, step_cursor, RdmaLoop.cursor]
        omega
  · rw [if_neg hadv]
    refine ⟨_, rfl, rfl, hble, ?_, ?_⟩
    · refine ⟨by simp only [step_cursor]; omega, hloc, by simp only [step_cursor]; omega, hU,
        ⟨cur, hc, hl, hk⟩, by simp only [step_cursor]; omega, ?_⟩
      simp only [step_cursor, rem_cap]
      rw [sgl_cap_of_some hc, hl]
      omega
    · simp only [Cursor.work, step_cursor, RdmaLoop.cursor]
      have : r.length ≠ 0 := by
        by_cases hq : rdma_request s = 0
        · exfalso
          apply hadv
          omega
        · exact hprog hq
      omega

theorem tgt_alloc_rdma_buf_ok {env : RdmaEnv} (h : ∀ n, env.buf_alloc n ≠ none)
    (l : List rdma_buf_t) : ∃ rb, tgt_alloc_rdma_buf env l = some rb := by
  unfold tgt_alloc_rdma_buf
  cases ha : env.buf_alloc l.length with
  | none => exact absurd ha (h _)
  | some a => exact ⟨_, rfl⟩

theorem post_rdma_ok {env : RdmaEnv} (h : ∀ wr, env.ibv_post_send wr = 0) (id thr : Nat)
    (fl : Option Nat) (dir : data_dir_t) (addr rkey : Nat) (sg : List ibv_sge) (n comp : Nat) :
    (post_rdma env id thr fl dir addr rkey sg n comp).status = ptl_ret.PTL_OK := by
  simp [post_rdma, h]

/-- When `ibv_post_send` succeeds the end of the body continues or breaks. -/
theorem rdma_post_step_ok {env : RdmaEnv} (h : ∀ wr, env.ibv_post_send wr = 0) (buf : buf_t)
    (s : RdmaLoop) (addr : Nat) (rb : rdma_buf_t) (r : SgeResult)
    (t : Nat × Nat × Nat × Nat × Nat) :
    ∃ s1, rdma_post_step env buf s addr rb r t = LoopExit.next s1 ∨
      rdma_post_step env buf s addr rb r t = LoopExit.brk s1 := by
  cases hx : rdma_post_step env buf s addr rb r t with
  | next s1 => exact ⟨s1, Or.inl rfl⟩
  | brk s1 => exact ⟨s1, Or.inr rfl⟩
  | ret st s1 =>
    exfalso
    simp only [rdma_post_step, post_rdma_ok h, ne_eq, not_true_eq_false, if_false] at hx
    split_ifs at hx

/-- The cursor and the posted requests after the end of the body, when it does
not return. -/
theorem rdma_post_step_state {env : RdmaEnv} {buf : buf_t} {s : RdmaLoop} {addr : Nat}
    {rb : rdma_buf_t} {r : SgeResult} {t : Nat × Nat × Nat × Nat × Nat}
    (hne : ∀ st s1, rdma_post_step env buf s addr rb r t ≠ LoopExit.ret st s1) :
    (rdma_post_step env buf s addr rb r t).state.cursor = step_cursor r t ∧
    ∃ c w, (rdma_post_step env buf s addr rb r t).state.posted = s.posted ++ [⟨c, w⟩] ∧
      w.sg_list = r.sge := by
  simp only [rdma_post_step] at hne ⊢
  split_ifs at hne ⊢ <;>
    first
    | exact ⟨rfl, _, _, rfl, rfl⟩
    | exact absurd rfl (hne _ _)

/-- What a pass through the body does to a cursor in order when every
collaborator succeeds: it continues or breaks, the new cursor is in order, the
bytes posted are taken off `resid`, and the work left has decreased. -/
theorem process_rdma_body_total {env : RdmaEnv} {buf : buf_t} {s : RdmaLoop}
    (henv : EnvOk env) (h : CursorOk buf.me buf.rem_sgl s.cursor) (hnz : s.resid ≠ 0) :
    ∃ e, process_rdma_body env buf s = .ok e ∧ (∀ st s1, e ≠ LoopExit.ret st s1) ∧
      CursorOk buf.me buf.rem_sgl e.state.cursor ∧
      e.state.resid + posted_bytes e.state.posted = s.resid + posted_bytes s.posted ∧
      e.state.cursor.work buf.rem_sgl < s.cursor.work buf.rem_sgl := by
  obtain ⟨hq, hm, hmr, hal, hpost⟩ := henv
  obtain ⟨hreq, hreq32⟩ := rdma_request_eq h
  have h' := h
  obtain ⟨hres, hloc, hlcap, hU, ⟨cur, hc, hl, hk⟩, hoff, hrcap⟩ := h'
  simp only [RdmaLoop.cursor] at hres hloc hlcap hc hl hk hoff hrcap
  obtain ⟨rb, hrb⟩ := tgt_alloc_rdma_buf_ok hal s.rdma_list
  obtain ⟨r, hr, hok, b1, b2, b3, b4, b5⟩ := @build_sge_total env buf.me s.iov_index
    s.iov_off env.PTL_MAX_QP_SEND_SGE (rdma_request s) hmr hq hloc (by omega) hreq32
  obtain ⟨t, ht, t1, t2, t3, t4⟩ := rem_update_total h hnz b1 b2 b4 b5
  have hbody : process_rdma_body env buf s =
      .ok (rdma_post_step env buf s (add64 cur.addr s.rem_off) rb r t) := by
    simp [process_rdma_body, hc, hrb, hr, hok, ht]
  have hne : ∀ st s1, rdma_post_step env buf s (add64 cur.addr s.rem_off) rb r t
      ≠ LoopExit.ret st s1 := by
    intro st s2 he
    obtain ⟨s1, hs1⟩ := rdma_post_step_ok hpost buf s (add64 cur.addr s.rem_off) rb r t
    rcases hs1 with hs1 | hs1 <;> rw [hs1] at he <;> cases he
  obtain ⟨k1, c, w, k2, k3⟩ := rdma_post_step_state hne
  refine ⟨_, hbody, hne, by rw [k1]; exact t3, ?_, by rw [k1]; exact t4⟩
  have hres1 : (rdma_post_step env buf s (add64 cur.addr s.rem_off) rb r t).state.resid
      = t.1 := by
    have := congrArg Cursor.resid k1
    simpa [RdmaLoop.cursor, step_cursor] using this
  rw [hres1, k2, posted_bytes_append, t1]
  simp only [posted_bytes, List.map_cons, List.map_nil, List.sum_cons, List.sum_nil, k3, ← b3]
  omega

/-- With every collaborator succeeding, the loop of `process_rdma` entered with a
cursor in order ends normally within the fuel given; the cursor is still in
order, the bytes posted are those taken off `resid`, and the work left has
decreased unless there was none. -/
theorem process_rdma_loop_total {env : RdmaEnv} {buf : buf_t} (henv : EnvOk env) :
    ∀ (fuel : Nat) (s : RdmaLoop), CursorOk buf.me buf.rem_sgl s.cursor → s.comp = 0 →
      (s.resid ≠ 0 → s.cur_rdma_ops < env.PTL_MAX_RDMA_WR_OUT) →
      (env.PTL_MAX_RDMA_WR_OUT - s.cur_rdma_ops) + 1 ≤ fuel →
      ∃ s1, process_rdma_loop env buf fuel s = .ok (ptl_ret.PTL_OK, true, s1) ∧
        CursorOk buf.me buf.rem_sgl s1.cursor ∧
        s1.resid + posted_bytes s1.posted = s.resid + posted_bytes s.posted ∧
        (s.resid ≠ 0 → s1.cursor.work buf.rem_sgl < s.cursor.work buf.rem_sgl) := by
  intro fuel
  induction fuel with
  | zero => intro s _ _ _ h; omega
  | succ n ih =>
    intro s hc hcomp hops hfuel
    rw [process_rdma_loop]
    by_cases hz : s.resid = 0
    · rw [if_pos hz]
      exact ⟨s, rfl, hc, rfl, fun h => absurd hz h⟩
    · rw [if_neg hz]
      obtain ⟨e, he, hne, e1, e2, e3⟩ := process_rdma_body_total henv hc hz
      obtain ⟨cur, rb, r, t, -, -, -, -, -, hp⟩ := process_rdma_body_steps he hne
      rw [he]
      cases e with
      | ret st s1 => exact absurd rfl (hne st s1)
      | brk s1 => exact ⟨s1, rfl, e1, e2, fun _ => e3⟩
      | next s1 =>
        obtain ⟨-, n2, -, -, n5, n6, -⟩ := rdma_post_step_next hp
        simp only [LoopExit.state] at e1 e2 e3
        obtain ⟨s2, h1, h2, h3, h4⟩ := ih s1 e1 n6 (fun _ => by omega) (by omega)
        refine ⟨s2, h1, h2, by omega, fun _ => ?_⟩
        by_cases hz1 : s1.resid = 0
        · have : s2 = s1 := by
            cases n with
            | zero => omega
            | succ k =>
              rw [process_rdma_loop, if_pos hz1] at h1
              simp only [Except.ok.injEq, Prod.mk.injEq, true_and] at h1
              exact h1.symm
          rw [this]; exact e3
        · exact lt_trans (h4 hz1) e3

theorem resume_save_fields (buf : buf_t) (s : RdmaLoop) :
    (rdma_resume (rdma_save (rdma_inplace buf s) s)).rdma_comp = 0 ∧
    stored_resid (rdma_resume (rdma_save (rdma_inplace buf s) s)) = s.resid ∧
    (rdma_resume (rdma_save (rdma_inplace buf s) s)).cur_loc_iov_index = s.iov_index ∧
    (rdma_resume (rdma_save (rdma_inplace buf s) s)).cur_loc_iov_off = s.iov_off ∧
    (rdma_resume (rdma_save (rdma_inplace buf s) s)).cur_rem_sge = s.rem_sge ∧
    (rdma_resume (rdma_save (rdma_inplace buf s) s)).cur_rem_off = s.rem_off ∧
    (rdma_resume (rdma_save (rdma_inplace buf s) s)).me = buf.me ∧
    (rdma_resume (rdma_save (rdma_inplace buf s) s)).rem_sgl = buf.rem_sgl := by
  unfold rdma_resume rdma_save rdma_inplace stored_resid
  by_cases hd : buf.rdma_dir = data_dir_t.DATA_DIR_IN <;> simp [hd]

theorem stored_resid_resume (buf : buf_t) : stored_resid (rdma_resume buf) = stored_resid buf :=
  rfl

/-- With every collaborator succeeding, a call of `process_rdma` on a state in
order returns `PTL_OK`; the stored resid has gone down by the bytes posted, the
state saved is in order again, and the work left has decreased unless there
was none. -/
theorem process_rdma_total {env : RdmaEnv} {buf : buf_t} (henv : EnvOk env)
    (h : TransferOk buf) :
    ∃ res, process_rdma env buf = .ok res ∧ res.status = ptl_ret.PTL_OK ∧
      stored_resid res.buf + posted_bytes res.posted = stored_resid buf ∧
      TransferOk (rdma_resume res.buf) ∧
      (stored_resid buf ≠ 0 → buf_work (rdma_resume res.buf) < buf_work buf) := by
  obtain ⟨hcomp, hres, hloc, hlcap, hU, hlt, hoff, hrcap⟩ := h
  have hget : buf.rem_sgl[buf.cur_rem_sge]? = some (buf.rem_sgl[buf.cur_rem_sge]) :=
    List.getElem?_eq_getElem hlt
  have hd : buf.rem_sgl.getD buf.cur_rem_sge ⟨0, 0, 0⟩ = buf.rem_sgl[buf.cur_rem_sge] := by
    simp [List.getD, hget]
  rw [hd] at hoff
  have hc0 : CursorOk buf.me buf.rem_sgl
      (rdma_entry buf (buf.rem_sgl[buf.cur_rem_sge])).cursor :=
    ⟨hres, hloc, hlcap, hU, ⟨_, hget, rfl, rfl⟩, hoff, hrcap⟩
  obtain ⟨s1, h1, h2, h3, h4⟩ := process_rdma_loop_total henv (env.PTL_MAX_RDMA_WR_OUT + 2)
    (rdma_entry buf (buf.rem_sgl[buf.cur_rem_sge])) hc0 rfl
    (fun _ => by simp only [rdma_entry]; exact henv.2.1) (by simp only [rdma_entry]; omega)
  obtain ⟨f1, f2, f3, f4, f5, f6, f7, f8⟩ := resume_save_fields buf s1
  refine ⟨⟨ptl_ret.PTL_OK, rdma_save (rdma_inplace buf s1) s1, s1.posted⟩,
    by simp only [process_rdma, hget, hcomp, ne_eq, not_true_eq_false, if_false, h1, if_true],
    rfl, ?_, ?_, ?_⟩
  · simp only [stored_resid_rdma_save]
    simpa [rdma_entry, posted_bytes] using h3
  · obtain ⟨c1, c2, c3, c4, ⟨cur, c5, c6, c7⟩, c8, c9⟩ := h2
    simp only [RdmaLoop.cursor] at c1 c2 c3 c5 c6 c7 c8 c9
    have hlt1 : s1.rem_sge < buf.rem_sgl.length := (List.getElem?_eq_some_iff.mp c5).1
    have hd1 : buf.rem_sgl.getD s1.rem_sge ⟨0, 0, 0⟩ = cur := by
      simp [List.getD, c5]
    refine ⟨f1, by rw [f2]; exact c1, by rw [f3, f4, f7]; exact c2,
      by rw [f2, f3, f4, f7]; exact c3, by rw [f8]; exact c4, by rw [f5, f8]; exact hlt1,
      by rw [f5, f6, f8, hd1, c6]; exact c8, by rw [f2, f5, f6, f8]; exact c9⟩
  · intro hnz
    have := h4 (by simpa [rdma_entry] using hnz)
    simp only [Cursor.work, RdmaLoop.cursor, rdma_entry] at this
    simp only [buf_work, f2, f5, f8]
    exact this

/-- With every collaborator succeeding, the driver completes a transfer in
order within as many rounds as there is work: it ends with `PTL_OK` and a stored
resid of 0, and the requests posted carry exactly the bytes of the resid it
started from. -/
theorem rdma_run_total {env : RdmaEnv} (henv : EnvOk env) :
    ∀ (rounds : Nat) (buf : buf_t), TransferOk buf → buf_work buf < rounds →
      ∃ res, rdma_run env rounds buf = .ok res ∧ res.status = ptl_ret.PTL_OK ∧
        stored_resid res.buf = 0 ∧ posted_bytes res.posted = stored_resid buf := by
  intro rounds
  induction rounds with
  | zero => intro buf _ h; omega
  | succ n ih =>
    intro buf hok hw
    obtain ⟨r1, h1, h2, h3, h4, h5⟩ := process_rdma_total henv hok
    rw [rdma_run, h1]
    simp only [h2, ne_eq, not_true_eq_false, if_false]
    by_cases hz : stored_resid r1.buf = 0
    · rw [if_pos hz]
      exact ⟨r1, rfl, h2, hz, by omega⟩
    · rw [if_neg hz]
      have hnz : stored_resid buf ≠ 0 := by omega
      obtain ⟨r2, g1, g2, g3, g4⟩ := ih (rdma_resume r1.buf) h4 (by have := h5 hnz; omega)
      rw [g1]
      refine ⟨_, rfl, g2, g3, ?_⟩
      simp only [posted_bytes_append, g4, stored_resid_resume]
      omega

/-- C1 (RDMA conservation): let the buf hold a transfer in order (stored resid `L`,
at least `L` bytes left in the remote list and in the local ME, contiguous or
iovec) and let `PTL_MAX_QP_SEND_SGE >= 1`, `PTL_MAX_RDMA_WR_OUT >= 1` and `mr_lookup`,
buffer allocation and `ibv_post_send` always succeed.  Then calling `process_rdma`
until the stored resid is 0 ends, with `PTL_OK`, and the local lists of the work
requests posted sum to exactly `L` bytes; and a single call returns `PTL_OK`,
leaves as stored resid the previous resid minus the bytes posted in the call,
and leaves the transfer in order for the next call. -/
theorem rdma_conservation (env : RdmaEnv) (buf : buf_t) (henv : EnvOk env)
    (hbuf : TransferOk buf) :
    (∃ res, rdma_run env (buf_work buf + 1) buf = .ok res ∧ res.status = ptl_ret.PTL_OK ∧
      stored_resid res.buf = 0 ∧ posted_bytes res.posted = stored_resid buf) ∧
    (∃ res, process_rdma env buf = .ok res ∧ res.status = ptl_ret.PTL_OK ∧
      stored_resid res.buf = stored_resid buf - posted_bytes res.posted ∧
      posted_bytes res.posted ≤ stored_resid buf ∧ TransferOk (rdma_resume res.buf)) := by
  refine ⟨rdma_run_total henv _ buf hbuf (Nat.lt_succ_self _), ?_⟩
  obtain ⟨res, h1, h2, h3, h4, -⟩ := process_rdma_total henv hbuf
  exact ⟨res, h1, h2, by omega, by omega, h4⟩

theorem envOk_EnvOk (sge_size max_ops : Nat) (h1 : 1 ≤ sge_size) (h2 : 1 ≤ max_ops) :
    EnvOk (envOk sge_size max_ops) :=
  ⟨h1, h2, fun _ _ => rfl, fun _ => by simp [envOk], fun _ => rfl⟩

/-- Witness of C1: 30 bytes between the sample iovec and the sample remote list,
both with an empty segment in the middle, at most two requests per call. -/
theorem rdma_conservation_witness :
    EnvOk (envOk 16 2) ∧ TransferOk (bufStart meIovec remThree 30) ∧
    (∃ res, rdma_run (envOk 16 2) (buf_work (bufStart meIovec remThree 30) + 1)
        (bufStart meIovec remThree 30) = .ok res ∧ res.status = ptl_ret.PTL_OK ∧
      stored_resid res.buf = 0 ∧
      posted_bytes res.posted = stored_resid (bufStart meIovec remThree 30)) ∧
    (∃ res, process_rdma (envOk 16 2) (bufStart meIovec remThree 30) = .ok res ∧
      res.status = ptl_ret.PTL_OK ∧
      stored_resid res.buf
        = stored_resid (bufStart meIovec remThree 30) - posted_bytes res.posted ∧
      posted_bytes res.posted ≤ stored_resid (bufStart meIovec remThree 30) ∧
      TransferOk (rdma_resume res.buf)) :=
  ⟨envOk_EnvOk 16 2 (by decide) (by decide), by decide,
    rdma_conservation (envOk 16 2) (bufStart meIovec remThree 30)
      (envOk_EnvOk 16 2 (by decide) (by decide)) (by decide)⟩

theorem rdma_request_toLoop (s : RdmaLoop) : rdma_request s.cursor.toLoop = rdma_request s :=
  rfl

theorem rem_update_toLoop (rem : List ibv_sge) (s : RdmaLoop) (bytes : Nat) :
    rem_update rem s.cursor.toLoop bytes = rem_update rem s bytes :=
  rfl

theorem rem_update_CurSeg {rem : List ibv_sge} {s : RdmaLoop} {bytes : Nat}
    {t : Nat × Nat × Nat × Nat × Nat} {r : SgeResult} (hc : CurSeg rem s.cursor)
    (h : rem_update rem s bytes = .ok t) : CurSeg rem (step_cursor r t) := by
  unfold rem_update at h
  simp only at h
  split_ifs at h with hadv
  · cases hn : rem[s.rem_sge + 1]? with
    | none => simp [hn] at h
    | some nxt =>
      simp only [hn, Except.ok.injEq] at h
      subst h
      exact ⟨nxt, hn, rfl, rfl⟩
  · simp only [Except.ok.injEq] at h
    subst h
    exact hc

/-- The requests posted and the list of pending bufs after the end of the body,
when it does not return. -/
theorem rdma_post_step_data {env : RdmaEnv} {buf : buf_t} {s : RdmaLoop} {addr : Nat}
    {rb : rdma_buf_t} {r : SgeResult} {t : Nat × Nat × Nat × Nat × Nat}
    (hne : ∀ st s1, rdma_post_step env buf s addr rb r t ≠ LoopExit.ret st s1) :
    (rdma_post_step env buf s addr rb r t).state.cursor = step_cursor r t ∧
    (rdma_post_step env buf s addr rb r t).state.rdma_list.length = s.rdma_list.length + 1 ∧
    ∃ p, (rdma_post_step env buf s addr rb r t).state.posted = s.posted ++ [p] ∧
      wr_data p = (addr, t.2.2.2.1, r.sge) := by
  simp only [rdma_post_step] at hne ⊢
  split_ifs at hne ⊢ <;>
    first
    | exact ⟨rfl, by simp [LoopExit.state], _, rfl, rfl⟩
    | exact absurd rfl (hne _ _)

/-- A pass through the body that does not return is a pass on the cursor. -/
theorem process_rdma_body_pass {env : RdmaEnv} {buf : buf_t} {s : RdmaLoop} {e : LoopExit}
    (h : process_rdma_body env buf s = .ok e) (hne : ∀ st s1, e ≠ LoopExit.ret st s1)
    (hc : CurSeg buf.rem_sgl s.cursor) :
    CurSeg buf.rem_sgl e.state.cursor ∧
    e.state.rdma_list.length = s.rdma_list.length + 1 ∧
    ∃ p, e.state.posted = s.posted ++ [p] ∧
      rdma_pass env buf.me buf.rem_sgl s.cursor s.rdma_list.length = some (e.state.cursor, wr_data p) := by
  obtain ⟨cur, rb, r, t, h1, h2, h3, h4, h5, h6⟩ := process_rdma_body_steps h hne
  subst h6
  obtain ⟨k1, k2, p, k3, k4⟩ := rdma_post_step_data hne
  refine ⟨by rw [k1]; exact rem_update_CurSeg hc h5, k2, p, k3, ?_⟩
  have hal : ∃ a, env.buf_alloc s.rdma_list.length = some a := by
    unfold tgt_alloc_rdma_buf at h2
    cases ha : env.buf_alloc s.rdma_list.length with
    | none => simp [ha] at h2
    | some a => exact ⟨a, rfl⟩
  obtain ⟨a, ha⟩ := hal
  have h1' : buf.rem_sgl[s.cursor.rem_sge]? = some cur := h1
  have h3' : build_sge env buf.me s.cursor.iov_index s.cursor.iov_off env.PTL_MAX_QP_SEND_SGE
      (rdma_request s.cursor.toLoop) = .ok r := h3
  have h5' : rem_update buf.rem_sgl s.cursor.toLoop r.length = .ok t := h5
  simp only [rdma_pass, h1', ha, h3', h4, ne_eq, not_true_eq_false, if_false, h5', k1, k4]
  rfl

/-- When a pass on the cursor succeeds and `ibv_post_send` succeeds, the body of
the loop of `process_rdma` goes through and does not return. -/
theorem process_rdma_body_of_pass {env : RdmaEnv} {buf : buf_t} {s : RdmaLoop}
    {c1 : Cursor} {d : Nat × Nat × List ibv_sge}
    (hpost : ∀ wr, env.ibv_post_send wr = 0)
    (h : rdma_pass env buf.me buf.rem_sgl s.cursor s.rdma_list.length = some (c1, d)) :
    ∃ e, process_rdma_body env buf s = .ok e ∧ ∀ st s1, e ≠ LoopExit.ret st s1 := by
  unfold rdma_pass at h
  cases hcur : buf.rem_sgl[s.cursor.rem_sge]? with
  | none => simp [hcur] at h
  | some cur =>
    simp only [hcur] at h
    cases ha : env.buf_alloc s.rdma_list.length with
    | none => simp [ha] at h
    | some a =>
      simp only [ha] at h
      cases hr : build_sge env buf.me s.cursor.iov_index s.cursor.iov_off
          env.PTL_MAX_QP_SEND_SGE (rdma_request s.cursor.toLoop) with
      | error f => simp [hr] at h
      | ok r =>
        simp only [hr] at h
        split_ifs at h with hst
        cases ht : rem_update buf.rem_sgl s.cursor.toLoop r.length with
        | error f => simp [ht] at h
        | ok t =>
          have hcur' : buf.rem_sgl[s.rem_sge]? = some cur := hcur
          have hr' : build_sge env buf.me s.iov_index s.iov_off env.PTL_MAX_QP_SEND_SGE
              (rdma_request s) = .ok r := hr
          have ht' : rem_update buf.rem_sgl s r.length = .ok t := ht
          have hst' : r.status = ptl_ret.PTL_OK := by simpa using hst
          have hal : tgt_alloc_rdma_buf env s.rdma_list
              = some { id := a, num_mr := 0, mr_list := [], comp := 0, send_wr_flags := none } := by
            simp [tgt_alloc_rdma_buf, ha]
          refine ⟨_, by simp only [process_rdma_body, hcur', hal, hr', hst', ht', ne_eq,
            not_true_eq_false, if_false]; rfl, ?_⟩
          intro st s2 he
          obtain ⟨s1, hs1⟩ := rdma_post_step_ok hpost buf s (add64 cur.addr s.rem_off)
            { id := a, num_mr := 0, mr_list := [], comp := 0, send_wr_flags := none } r t
          rcases hs1 with hs1 | hs1 <;> rw [hs1] at he <;> cases he

theorem rdma_unroll_zero_resid {env : RdmaEnv} {me : me_t} {rem : List ibv_sge} {n : Nat}
    {c cf : Cursor} {pending : Nat} {X : List (Nat × Nat × List ibv_sge)} (hz : c.resid = 0)
    (h : rdma_unroll env me rem n c pending = some (X, cf)) : X = [] ∧ cf = c := by
  cases n with
  | zero =>
    simp only [rdma_unroll, hz, if_true, Option.some.injEq, Prod.mk.injEq] at h
    exact ⟨h.1.symm, h.2.symm⟩
  | succ k =>
    simp only [rdma_unroll, hz, if_true, Option.some.injEq, Prod.mk.injEq] at h
    exact ⟨h.1.symm, h.2.symm⟩

/-- A call of the loop of `process_rdma` that completes the transfer posts what the
passes on the cursor post. -/
theorem process_rdma_loop_unroll {env : RdmaEnv} {buf : buf_t} :
    ∀ (fuel : Nat) (s sf : RdmaLoop), CurSeg buf.rem_sgl s.cursor →
      process_rdma_loop env buf fuel s = .ok (ptl_ret.PTL_OK, true, sf) → sf.resid = 0 →
      ∃ n X, rdma_unroll env buf.me buf.rem_sgl n s.cursor s.rdma_list.length = some (X, sf.cursor) ∧
        sf.posted.map wr_data = s.posted.map wr_data ++ X := by
  intro fuel
  induction fuel with
  | zero => intro s sf _ h; simp [process_rdma_loop] at h
  | succ k ih =>
    intro s sf hc h hz
    rw [process_rdma_loop] at h
    by_cases h0 : s.resid = 0
    · rw [if_pos h0] at h
      simp only [Except.ok.injEq, Prod.mk.injEq, true_and] at h
      subst h
      exact ⟨0, [], by simp [rdma_unroll, RdmaLoop.cursor, h0], by simp⟩
    · rw [if_neg h0] at h
      cases hb : process_rdma_body env buf s with
      | error f => simp [hb] at h
      | ok e =>
        simp only [hb] at h
        have h0' : ¬ s.cursor.resid = 0 := h0
        cases e with
        | ret st s1 => simp at h
        | brk s1 =>
          simp only [Except.ok.injEq, Prod.mk.injEq, true_and] at h
          subst h
          obtain ⟨-, -, p, k3, k4⟩ := process_rdma_body_pass hb (by simp) hc
          simp only [LoopExit.state] at k3 k4
          refine ⟨1, [wr_data p], ?_, by simp [k3]⟩
          have hz' : s1.cursor.resid = 0 := hz
          simp [rdma_unroll, h0', k4, hz']
        | next s1 =>
          simp only at h
          obtain ⟨k1, k2, p, k3, k4⟩ := process_rdma_body_pass hb (by simp) hc
          simp only [LoopExit.state] at k1 k2 k3 k4
          obtain ⟨n, X, g1, g2⟩ := ih s1 sf k1 h hz
          rw [k2] at g1
          refine ⟨n + 1, wr_data p :: X, ?_, by simp [g2, k3]⟩
          simp [rdma_unroll, h0', k4, g1]

/-- When `ibv_post_send` succeeds, a call of the loop of `process_rdma` with any
limit posts an initial part of what the passes on the cursor post, and the
passes from the cursor it ends with post the rest. -/
theorem process_rdma_loop_of_unroll {env : RdmaEnv} {buf : buf_t}
    (hpost : ∀ wr, env.ibv_post_send wr = 0) :
    ∀ (fuel : Nat) (s : RdmaLoop) (n : Nat) (X : List (Nat × Nat × List ibv_sge))
      (cf : Cursor), CurSeg buf.rem_sgl s.cursor →
      rdma_unroll env buf.me buf.rem_sgl n s.cursor s.rdma_list.length = some (X, cf) → s.comp = 0 →
      (s.resid ≠ 0 → s.cur_rdma_ops < env.PTL_MAX_RDMA_WR_OUT) →
      (env.PTL_MAX_RDMA_WR_OUT - s.cur_rdma_ops) + 1 ≤ fuel →
      ∃ s1 X1 X2 n1, process_rdma_loop env buf fuel s = .ok (ptl_ret.PTL_OK, true, s1) ∧
        CurSeg buf.rem_sgl s1.cursor ∧ X = X1 ++ X2 ∧
        s1.posted.map wr_data = s.posted.map wr_data ++ X1 ∧
        rdma_unroll env buf.me buf.rem_sgl n1 s1.cursor s1.rdma_list.length = some (X2, cf) ∧
        n1 ≤ n ∧ (s.resid ≠ 0 → n1 < n) := by
  intro fuel
  induction fuel with
  | zero => intro s n X cf _ _ _ _ h; omega
  | succ k ih =>
    intro s n X cf hc hu hcomp hops hfuel
    rw [process_rdma_loop]
    by_cases h0 : s.resid = 0
    · rw [if_pos h0]
      exact ⟨s, [], X, n, rfl, hc, rfl, by simp, hu, le_refl _, fun h => absurd h0 h⟩
    · rw [if_neg h0]
      have h0' : ¬ s.cursor.resid = 0 := h0
      cases n with
      | zero => simp [rdma_unroll, h0'] at hu
      | succ j =>
        simp only [rdma_unroll, h0', if_false] at hu
        cases hp : rdma_pass env buf.me buf.rem_sgl s.cursor s.rdma_list.length with
        | none => simp [hp] at hu
        | some cd =>
          obtain ⟨c1, d⟩ := cd
          simp only [hp] at hu
          cases hu1 : rdma_unroll env buf.me buf.rem_sgl j c1 (s.rdma_list.length + 1) with
          | none => simp [hu1] at hu
          | some lc =>
            obtain ⟨l, cf1⟩ := lc
            simp only [hu1, Option.some.injEq, Prod.mk.injEq] at hu
            obtain ⟨hX, hcf⟩ := hu
            subst hX; subst hcf
            obtain ⟨e, hb, hne⟩ := process_rdma_body_of_pass hpost hp
            obtain ⟨k1, k2, p, k3, k4⟩ := process_rdma_body_pass hb hne hc
            rw [hp] at k4
            simp only [Option.some.injEq, Prod.mk.injEq] at k4
            obtain ⟨k5, k6⟩ := k4
            obtain ⟨cur, rb, r, t, -, -, -, -, -, hstep⟩ := process_rdma_body_steps hb hne
            rw [hb]
            cases e with
            | ret st s1 => exact absurd rfl (hne st s1)
            | brk s1 =>
              simp only [LoopExit.state] at k1 k2 k3 k5
              refine ⟨s1, [d], l, j, rfl, k1, rfl, by simp [k3, k6], ?_, by omega,
                fun _ => by omega⟩
              rw [← k5, k2]; exact hu1
            | next s1 =>
              simp only [LoopExit.state] at k1 k2 k3 k5
              obtain ⟨-, n2, -, -, n5, n6, -⟩ := rdma_post_step_next hstep
              obtain ⟨s2, X1, X2, n1, g1, g2, g3, g4, g5, g6, -⟩ := ih s1 j l cf1 k1
                (by rw [← k5, k2]; exact hu1) n6 (fun _ => by omega) (by omega)
              refine ⟨s2, d :: X1, X2, n1, g1, g2, by simp [g3], by simp [g4, k3, k6], g5,
                by omega, fun _ => by omega⟩

theorem build_sge_loop_with_limit (env : RdmaEnv) (m : Nat) (me : me_t) (sge_size : Nat) :
    ∀ (fuel : Nat) (s : SgeState),
      build_sge_loop (with_limit env m) me sge_size fuel s = build_sge_loop env me sge_size fuel s := by
  intro fuel
  induction fuel with
  | zero => intro s; rfl
  | succ k ih =>
    intro s
    rw [build_sge_loop, build_sge_loop]
    simp only [ih]
    rfl

theorem build_sge_with_limit (env : RdmaEnv) (m : Nat) (me : me_t) (i o sge_size len : Nat) :
    build_sge (with_limit env m) me i o sge_size len = build_sge env me i o sge_size len := by
  simp only [build_sge, build_sge_loop_with_limit]

theorem rdma_pass_with_limit (env : RdmaEnv) (m : Nat) (me : me_t) (rem : List ibv_sge)
    (c : Cursor) (pending : Nat) :
    rdma_pass (with_limit env m) me rem c pending = rdma_pass env me rem c pending := by
  simp only [rdma_pass, build_sge_with_limit]
  rfl

theorem rdma_unroll_with_limit (env : RdmaEnv) (m : Nat) (me : me_t) (rem : List ibv_sge) :
    ∀ (n : Nat) (c : Cursor) (pending : Nat),
      rdma_unroll (with_limit env m) me rem n c pending = rdma_unroll env me rem n c pending := by
  intro n
  induction n with
  | zero => intro c p; rfl
  | succ k ih =>
    intro c p
    simp only [rdma_unroll, rdma_pass_with_limit, ih]

/-- A return from the loop of `process_rdma` carries a status other than `PTL_OK`. -/
theorem process_rdma_loop_ret_status {env : RdmaEnv} {buf : buf_t} {fuel : Nat}
    {s s1 : RdmaLoop} {st : ptl_ret}
    (h : process_rdma_loop env buf fuel s = .ok (st, false, s1)) : st ≠ ptl_ret.PTL_OK := by
  have := process_rdma_loop_induct env buf (fun _ => True)
    (fun res => res.2.1 = false → res.1 ≠ ptl_ret.PTL_OK)
    (fun _ _ _ => by simp) (fun _ _ _ _ _ => trivial) (fun _ _ _ _ _ => by simp)
    (fun _ _ _ _ _ hb _ => (process_rdma_body_ret hb).1) fuel s _ trivial h
  exact this rfl

/-- A normal exit from the loop of `process_rdma` carries `PTL_OK`. -/
theorem process_rdma_loop_fin_status {env : RdmaEnv} {buf : buf_t} {fuel : Nat}
    {s s1 : RdmaLoop} {st : ptl_ret}
    (h : process_rdma_loop env buf fuel s = .ok (st, true, s1)) : st = ptl_ret.PTL_OK := by
  have := process_rdma_loop_induct env buf (fun _ => True)
    (fun res => res.2.1 = true → res.1 = ptl_ret.PTL_OK)
    (fun _ _ _ => by simp) (fun _ _ _ _ _ => trivial) (fun _ _ _ _ _ => by simp)
    (fun _ _ _ _ _ _ => by simp) fuel s _ trivial h
  exact this rfl

theorem resume_save_rdma_list (buf : buf_t) (s : RdmaLoop) :
    (rdma_resume (rdma_save (rdma_inplace buf s) s)).rdma_list = s.rdma_list := by
  unfold rdma_resume rdma_save rdma_inplace
  by_cases hd : buf.rdma_dir = data_dir_t.DATA_DIR_IN <;> simp [hd]

theorem rdma_save_fields (buf : buf_t) (s : RdmaLoop) :
    (rdma_save (rdma_inplace buf s) s).cur_loc_iov_index = s.iov_index ∧
    (rdma_save (rdma_inplace buf s) s).cur_loc_iov_off = s.iov_off ∧
    (rdma_save (rdma_inplace buf s) s).cur_rem_sge = s.rem_sge ∧
    (rdma_save (rdma_inplace buf s) s).cur_rem_off = s.rem_off := by
  unfold rdma_save rdma_inplace
  by_cases hd : buf.rdma_dir = data_dir_t.DATA_DIR_IN <;> simp [hd]

/-- When `ibv_post_send` succeeds and the limit is at least 1, the driver posts
what the passes on the cursor post, and saves the cursor they end with. -/
theorem rdma_run_of_unroll {env : RdmaEnv} (hpost : ∀ wr, env.ibv_post_send wr = 0)
    (hm : 1 ≤ env.PTL_MAX_RDMA_WR_OUT) :
    ∀ (rounds : Nat) (buf : buf_t) (n : Nat) (X : List (Nat × Nat × List ibv_sge))
      (cf : Cursor) (cur : ibv_sge), n < rounds → buf.rdma_comp = 0 →
      buf.rem_sgl[buf.cur_rem_sge]? = some cur →
      rdma_unroll env buf.me buf.rem_sgl n (rdma_entry buf cur).cursor buf.rdma_list.length
        = some (X, cf) →
      ∃ res, rdma_run env rounds buf = .ok res ∧ res.status = ptl_ret.PTL_OK ∧
        stored_resid res.buf = 0 ∧ res.posted.map wr_data = X ∧
        res.buf.cur_loc_iov_index = cf.iov_index ∧ res.buf.cur_loc_iov_off = cf.iov_off ∧
        res.buf.cur_rem_sge = cf.rem_sge ∧ res.buf.cur_rem_off = cf.rem_off := by
  intro rounds
  induction rounds with
  | zero => intro buf n X cf cur h; omega
  | succ k ih =>
    intro buf n X cf cur hn hcomp hcur hu
    obtain ⟨s1, X1, X2, n1, g1, g2, g3, g4, g5, g6, g7⟩ :=
      process_rdma_loop_of_unroll hpost (env.PTL_MAX_RDMA_WR_OUT + 2) (rdma_entry buf cur) n X cf
        ⟨cur, hcur, rfl, rfl⟩ hu rfl (fun _ => hm) (by simp only [rdma_entry]; omega)
    have hpr : process_rdma env buf
        = .ok ⟨ptl_ret.PTL_OK, rdma_save (rdma_inplace buf s1) s1, s1.posted⟩ := by
      simp only [process_rdma, hcur, hcomp, ne_eq, not_true_eq_false, if_false, g1, if_true]
    have hposted : s1.posted.map wr_data = X1 := by simpa [rdma_entry] using g4
    obtain ⟨v1, v2, v3, v4⟩ := rdma_save_fields buf s1
    rw [rdma_run, hpr]
    simp only [ne_eq, not_true_eq_false, if_false, stored_resid_rdma_save]
    by_cases hz : s1.resid = 0
    · rw [if_pos hz]
      obtain ⟨e1, e2⟩ := rdma_unroll_zero_resid (show s1.cursor.resid = 0 from hz) g5
      subst e1; subst e2
      refine ⟨_, rfl, rfl, by simp only [stored_resid_rdma_save]; exact hz,
        by simp [g3, hposted], v1, v2, v3, v4⟩
    · rw [if_neg hz]
      obtain ⟨f1, f2, f3, f4, f5, f6, f7, f8⟩ := resume_save_fields buf s1
      obtain ⟨cur1, c1, c2, c3⟩ := g2
      have hs0 : (rdma_entry buf cur).resid ≠ 0 := by
        intro h0
        rw [process_rdma_loop, if_pos h0] at g1
        simp only [Except.ok.injEq, Prod.mk.injEq, true_and] at g1
        exact hz (g1 ▸ h0)
      have hlt := g7 hs0
      have hcurs : (rdma_entry (rdma_resume (rdma_save (rdma_inplace buf s1) s1)) cur1).cursor
          = s1.cursor := by
        simp only [rdma_entry, RdmaLoop.cursor, f2, f3, f4, f5, f6, c2, c3]
      obtain ⟨r2, q1, q2, q3, q4, q5⟩ := ih (rdma_resume (rdma_save (rdma_inplace buf s1) s1))
        n1 X2 cf cur1 (by omega) f1 (by rw [f5, f8]; exact c1)
        (by rw [f7, f8, hcurs, resume_save_rdma_list]; exact g5)
      rw [q1]
      exact ⟨_, rfl, q2, q3, by simp [hposted, q4, g3], q5⟩

/-- C4 (re-entrant resume): let a single call of `process_rdma` with a limit `M` that
does not stop it complete the transfer (it returns `PTL_OK` with resid 0), and let
`ibv_post_send` succeed.  Then for every limit `m >= 1` the successive calls with
`PTL_MAX_RDMA_WR_OUT = m`, each resuming from the state the previous one saved,
reach resid 0 with `PTL_OK`; the remote address, rkey and local list of the
requests they post, taken in order, are those of the requests of the single
call, and the state saved at the end is the same. -/
theorem reentrant_resume (env : RdmaEnv) (buf : buf_t) (m M : Nat) (res : RdmaResult)
    (hm : 1 ≤ m) (hpost : ∀ wr, env.ibv_post_send wr = 0)
    (h : process_rdma (with_limit env M) buf = .ok res) (hok : res.status = ptl_ret.PTL_OK)
    (hz : stored_resid res.buf = 0) :
    ∃ rounds res1, rdma_run (with_limit env m) rounds buf = .ok res1 ∧
      res1.status = ptl_ret.PTL_OK ∧ stored_resid res1.buf = 0 ∧
      res1.posted.map wr_data = res.posted.map wr_data ∧
      res1.buf.cur_loc_iov_index = res.buf.cur_loc_iov_index ∧
      res1.buf.cur_loc_iov_off = res.buf.cur_loc_iov_off ∧
      res1.buf.cur_rem_sge = res.buf.cur_rem_sge ∧
      res1.buf.cur_rem_off = res.buf.cur_rem_off := by
  obtain ⟨hc, cur, st, fin, s, hcur, hl, hp, hfin, hnf⟩ := process_rdma_ok h
  have hf : fin = true := by
    cases fin with
    | true => rfl
    | false => exact absurd ((hnf rfl).1.symm.trans hok) (process_rdma_loop_ret_status hl)
  subst hf
  have hst := process_rdma_loop_fin_status hl
  subst hst
  obtain ⟨-, hb⟩ := hfin rfl
  have hsz : s.resid = 0 := by
    rw [hb, stored_resid_rdma_save] at hz
    exact hz
  obtain ⟨n, X, u1, u2⟩ := process_rdma_loop_unroll _ (rdma_entry buf cur) _
    ⟨cur, hcur, rfl, rfl⟩ hl hsz
  rw [rdma_unroll_with_limit, ← rdma_unroll_with_limit env m] at u1
  obtain ⟨res1, q1, q2, q3, q4, q5, q6, q7, q8⟩ :=
    @rdma_run_of_unroll (with_limit env m) hpost hm (n + 1) buf n X s.cursor cur
      (Nat.lt_succ_self _) hc hcur u1
  obtain ⟨v1, v2, v3, v4⟩ := rdma_save_fields buf s
  refine ⟨n + 1, res1, q1, q2, q3, ?_, ?_, ?_, ?_, ?_⟩
  · rw [q4, hp]
    simpa [rdma_entry] using u2.symm
  · rw [hb, v1]; exact q5
  · rw [hb, v2]; exact q6
  · rw [hb, v3]; exact q7
  · rw [hb, v4]; exact q8

/-- Witness of C4: the transfer of 30 bytes between the sample iovec and the sample
remote list, done by one call with a limit of ten requests, against calls with
a limit of two. -/
theorem reentrant_resume_witness :
    process_rdma (with_limit (envOk 16 2) 10) (bufStart meIovec remThree 30)
      = .ok resThreeWhole ∧
    stored_resid resThreeWhole.buf = 0 ∧
    ∃ rounds res1,
      rdma_run (with_limit (envOk 16 2) 2) rounds (bufStart meIovec remThree 30) = .ok res1 ∧
      res1.status = ptl_ret.PTL_OK ∧ stored_resid res1.buf = 0 ∧
      res1.posted.map wr_data = resThreeWhole.posted.map wr_data ∧
      res1.buf.cur_loc_iov_index = resThreeWhole.buf.cur_loc_iov_index ∧
      res1.buf.cur_loc_iov_off = resThreeWhole.buf.cur_loc_iov_off ∧
      res1.buf.cur_rem_sge = resThreeWhole.buf.cur_rem_sge ∧
      res1.buf.cur_rem_off = resThreeWhole.buf.cur_rem_off :=
  ⟨rfl, rfl,
    reentrant_resume (envOk 16 2) (bufStart meIovec remThree 30) 2 10 resThreeWhole (by decide)
      (fun _ => rfl) rfl rfl rfl⟩

/-- On a contiguous ME the loop of `build_sge` ends with nothing left to take. -/
theorem build_sge_loop_contig (env : RdmaEnv) (me : me_t) (sge_size : Nat)
    (hme : me.num_iov = 0) :
    ∀ (fuel : Nat) (s s1 : SgeState), s.resid < U64 →
      build_sge_loop env me sge_size fuel s = .ok (ptl_ret.PTL_OK, s1) → s1.resid = 0 := by
  intro fuel
  induction fuel with
  | zero => intro s s1 _ h; simp [build_sge_loop] at h
  | succ n ih =>
    intro s s1 hr h
    rw [build_sge_loop] at h
    by_cases hz : s.resid = 0
    · rw [if_pos hz] at h
      simp only [Except.ok.injEq, Prod.mk.injEq, true_and] at h
      subst h; exact hz
    · rw [if_neg hz] at h
      have hseg : sge_segment me s = (if s.resid ≤ sub64 me.length s.cur_off then
          .ok (add64 me.start s.cur_off, s.resid, none) else .error Fault.assertFailed) := by
        simp [sge_segment, hme]
      rw [hseg] at h
      split_ifs at h with ha
      · simp only at h
        have hres : (sge_update s s.resid none (env.mr_lookup (add64 me.start s.cur_off)
            s.resid).2).resid = 0 := by
          simp only [sge_update]
          rw [sub64_of_le hr (le_refl _)]
          omega
        split_ifs at h with h1 h2
        · simp only [Except.ok.injEq, Prod.mk.injEq] at h
          exact absurd h.1 h1
        · simp only [Except.ok.injEq, Prod.mk.injEq, true_and] at h
          subst h
          exact hres
        · exact ih _ _ (by simp only [hres]; decide) h

/-- On a contiguous ME a successful `build_sge` returns the whole request. -/
theorem build_sge_contig {env : RdmaEnv} {me : me_t} {idx off sge_size len : Nat}
    {r : SgeResult} (hme : me.num_iov = 0) (hs : 1 ≤ sge_size) (hlen : len < U64)
    (h : build_sge env me idx off sge_size len = .ok r) (hok : r.status = ptl_ret.PTL_OK) :
    r.length = len := by
  unfold build_sge at h
  simp only at h
  cases hl : build_sge_loop env me sge_size (me.iov.length + 2)
      { cur_index := idx, cur_off := off, cur_len := 0, num_sge := 0, resid := len, sge := [],
        mr_list := [] } with
  | error f => simp [hl] at h
  | ok x =>
    obtain ⟨st, s⟩ := x
    simp only [hl] at h
    split_ifs at h with hst
    · simp only [Except.ok.injEq] at h
      subst h
      exact absurd hok hst
    · have hst2 : st = ptl_ret.PTL_OK := by simpa using hst
      subst hst2
      simp only [Except.ok.injEq] at h
      subst h
      have hz := build_sge_loop_contig env me sge_size hme _ _ _ hlen hl
      obtain ⟨⟨i1, -, -⟩, -⟩ := build_sge_loop_inv env me sge_size len hlen _ _ _
        (by refine ⟨by simp, by simp, ?_⟩; intro _; simp [sge_bytes]) (by simpa using hs) hl
      simp only
      omega

theorem sgl_cap_eq_zero {rem : List ibv_sge} {j : Nat} (hnz : ∀ e ∈ rem, e.length ≠ 0)
    (h : sgl_cap rem j = 0) : rem.length ≤ j := by
  by_contra hlt
  have hj : j < rem.length := by omega
  have hget : rem[j]? = some rem[j] := List.getElem?_eq_getElem hj
  rw [sgl_cap_of_some hget] at h
  have := hnz _ (List.getElem?_mem hget)
  omega

/-- On a contiguous ME a pass moves one whole remote segment. -/
theorem rdma_pass_contig {env : RdmaEnv} {me : me_t} {rem : List ibv_sge} {c : Cursor}
    {k : Nat} (henv : EnvOk env) (h : SegCount me rem c k) (hnz : c.resid ≠ 0) (pending : Nat) :
    ∃ c1 d, rdma_pass env me rem c pending = some (c1, d) ∧ SegCount me rem c1 (k - 1) ∧
      1 ≤ k := by
  obtain ⟨hq, -, hmr, hal, -⟩ := henv
  obtain ⟨hc, hme, hne, hk⟩ := h
  rcases hk with ⟨h0, -⟩ | ⟨-, hoff0, hres, hk⟩
  · exact absurd h0 hnz
  have hc' : CursorOk me rem c.toLoop.cursor := hc
  obtain ⟨hreq, hreq32⟩ := rdma_request_eq hc'
  obtain ⟨h64, hloc, hlcap, hU, ⟨cur, hcur, hl, hkey⟩, hoff, hrcap⟩ := hc
  have hlt : c.rem_sge < rem.length := (List.getElem?_eq_some_iff.mp hcur).1
  have hcap := sgl_cap_of_some hcur
  have hreqv : rdma_request c.toLoop = c.rem_size := by
    rw [hreq]
    simp only [Cursor.toLoop]
    omega
  cases ha : env.buf_alloc pending with
  | none => exact absurd ha (hal _)
  | some a =>
    obtain ⟨r, hr, hok, b1, b2, b3, b4, b5⟩ := @build_sge_total env me c.iov_index
      c.iov_off env.PTL_MAX_QP_SEND_SGE (rdma_request c.toLoop) hmr hq hloc
      (by rw [hreqv]; omega) hreq32
    have hrl : r.length = c.rem_size := by
      rw [← hreqv]
      exact build_sge_contig hme hq (lt_trans hreq32 (by decide)) hr hok
    obtain ⟨t, ht, t1, t2, t3, t4⟩ := rem_update_total (s := c.toLoop) hc' hnz b1 b2 b4 b5
    refine ⟨step_cursor r t, (add64 cur.addr c.rem_off, t.2.2.2.1, r.sge),
      by simp only [rdma_pass, hcur, ha, hr, hok, ne_eq, not_true_eq_false, if_false, ht],
      ⟨t3, hme, hne, ?_⟩, by omega⟩
    have hres1 : t.1 = sgl_cap rem (c.rem_sge + 1) := by
      rw [t1, hrl]
      simp only [Cursor.toLoop]
      omega
    unfold rem_update at ht
    simp only [Cursor.toLoop, hrl, hoff0] at ht
    by_cases hz : t.1 = 0
    · left
      refine ⟨hz, ?_⟩
      have := sgl_cap_eq_zero hne (hres1 ▸ hz)
      omega
    · right
      have hadv : sub64 c.resid c.rem_size ≠ 0 ∧ add64 0 c.rem_size ≥ c.rem_size := by
        have e1 : sub64 c.resid c.rem_size = c.resid - c.rem_size :=
          sub64_of_le h64 (by omega)
        have e2 : add64 0 c.rem_size = c.rem_size := by
          rw [add64_of_lt (by have : U32 < U64 := by decide
                              omega)]
          omega
        rw [e1, e2]
        constructor
        · have : t.1 = c.resid - c.rem_size := by
            rw [t1, hrl]; rfl
          omega
        · exact le_refl _
      rw [if_pos hadv] at ht
      cases hn : rem[c.rem_sge + 1]? with
      | none => simp [hn] at ht
      | some nxt =>
        simp only [hn, Except.ok.injEq] at ht
        subst ht
        simp only at hz hres1
        exact ⟨hz, rfl, hres1, by simp only [step_cursor]; omega⟩

/-- On a contiguous ME the passes post one request for each remote segment still
to be moved. -/
theorem rdma_unroll_contig {env : RdmaEnv} {me : me_t} {rem : List ibv_sge}
    (henv : EnvOk env) :
    ∀ (k : Nat) (c : Cursor) (pending : Nat), SegCount me rem c k →
      ∃ X cf, rdma_unroll env me rem k c pending = some (X, cf) ∧ X.length = k := by
  intro k
  induction k with
  | zero =>
    intro c pending h
    by_cases hz : c.resid = 0
    · exact ⟨[], c, by simp [rdma_unroll, hz], rfl⟩
    · obtain ⟨-, -, -, -, hk⟩ := rdma_pass_contig henv h hz pending
      omega
  | succ j ih =>
    intro c pending h
    by_cases hz : c.resid = 0
    · obtain ⟨-, -, -, hk⟩ := h
      rcases hk with ⟨-, hk⟩ | ⟨hk, -⟩
      · omega
      · exact absurd hz hk
    · obtain ⟨c1, d, hp, h1, -⟩ := rdma_pass_contig henv h hz pending
      obtain ⟨X, cf, hu, hX⟩ := ih c1 (pending + 1) (by simpa using h1)
      exact ⟨d :: X, cf, by simp [rdma_unroll, hz, hp, hu], by simp [hX]⟩

/-- A transfer that fills a contiguous ME from whole remote segments, none of
them empty, posts exactly one work request for each remote segment, whatever
the limits are. -/
theorem contig_one_request_per_segment {env : RdmaEnv} {buf : buf_t} (henv : EnvOk env)
    (hbuf : TransferOk buf) (hme : buf.me.num_iov = 0)
    (hne : ∀ e ∈ buf.rem_sgl, e.length ≠ 0) (hoff : buf.cur_rem_off = 0)
    (hall : stored_resid buf = sgl_cap buf.rem_sgl buf.cur_rem_sge) :
    ∃ res, rdma_run env (buf.rem_sgl.length - buf.cur_rem_sge + 1) buf = .ok res ∧
      res.status = ptl_ret.PTL_OK ∧ stored_resid res.buf = 0 ∧
      res.posted.length = buf.rem_sgl.length - buf.cur_rem_sge := by
  obtain ⟨hcomp, hres, hloc, hlcap, hU, hlt, hoffle, hrcap⟩ := hbuf
  have hget : buf.rem_sgl[buf.cur_rem_sge]? = some (buf.rem_sgl[buf.cur_rem_sge]) :=
    List.getElem?_eq_getElem hlt
  have hd : buf.rem_sgl.getD buf.cur_rem_sge ⟨0, 0, 0⟩ = buf.rem_sgl[buf.cur_rem_sge] := by
    simp [List.getD, hget]
  rw [hd] at hoffle
  have hcur : CursorOk buf.me buf.rem_sgl
      (rdma_entry buf (buf.rem_sgl[buf.cur_rem_sge])).cursor :=
    ⟨hres, hloc, hlcap, hU, ⟨_, hget, rfl, rfl⟩, hoffle, hrcap⟩
  have hnz : stored_resid buf ≠ 0 := by
    rw [hall, sgl_cap_of_some hget]
    have := hne _ (List.getElem?_mem hget)
    omega
  have hseg : SegCount buf.me buf.rem_sgl
      (rdma_entry buf (buf.rem_sgl[buf.cur_rem_sge])).cursor
      (buf.rem_sgl.length - buf.cur_rem_sge) :=
    ⟨hcur, hme, hne, Or.inr ⟨hnz, hoff, hall, rfl⟩⟩
  obtain ⟨X, cf, hu, hX⟩ := rdma_unroll_contig henv _ _ buf.rdma_list.length hseg
  obtain ⟨res, q1, q2, q3, q4, -⟩ := rdma_run_of_unroll henv.2.2.2.2 henv.2.1
    (buf.rem_sgl.length - buf.cur_rem_sge + 1) buf _ X cf _ (Nat.lt_succ_self _) hcomp hget hu
  refine ⟨res, q1, q2, q3, ?_⟩
  rw [← hX, ← q4, List.length_map]

/-- C6, as stated, fails: with `PTL_MAX_QP_SEND_SGE` = 16, the value of `MAX_QP_SEND_SGE` in
`ptl_ni.h`, and at most 4 requests per call, the scenario runs to completion and
posts 40 data work requests, more than ceil(40 / 16) = 3. -/
theorem indirect_scenario_exceeds_ceiling :
    ∃ res, rdma_run (envOk MAX_QP_SEND_SGE 4) 41 bufForty = .ok res ∧
      res.status = ptl_ret.PTL_OK ∧ stored_resid res.buf = 0 ∧ res.posted.length = 40 ∧
      ¬ (res.posted.length ≤ (40 + MAX_QP_SEND_SGE - 1) / MAX_QP_SEND_SGE) := by
  obtain ⟨res, h1, h2, h3, h4⟩ := @contig_one_request_per_segment _ bufForty
    (envOk_EnvOk MAX_QP_SEND_SGE 4 (by decide) (by decide))
    (by decide) rfl (by decide) rfl (by decide)
  exact ⟨res, h1, h2, h3, h4, by rw [h4]; decide⟩

/-- C6, amended: for a remote SGL of 40 entries of 4096 bytes each and a contiguous
local ME of 163840 bytes, with L = 163840, running `process_rdma` to completion
posts exactly 40 data work requests, one for each remote entry, for every
`PTL_MAX_QP_SEND_SGE >= 1` and every `PTL_MAX_RDMA_WR_OUT >= 1`, when the collaborators
succeed. -/
theorem indirect_scenario_posts_forty (env : RdmaEnv) (henv : EnvOk env) :
    ∃ res, rdma_run env 41 bufForty = .ok res ∧ res.status = ptl_ret.PTL_OK ∧
      stored_resid res.buf = 0 ∧ res.posted.length = 40 :=
  @contig_one_request_per_segment env bufForty henv (by decide) rfl (by decide) rfl
    (by decide)

/-- Witness of the amended C6: the scenario with room for 16 local entries in a
request and at most 4 requests per call. -/
theorem indirect_scenario_posts_forty_witness :
    EnvOk (envOk MAX_QP_SEND_SGE 4) ∧
    ∃ res, rdma_run (envOk MAX_QP_SEND_SGE 4) 41 bufForty = .ok res ∧
      res.status = ptl_ret.PTL_OK ∧ stored_resid res.buf = 0 ∧ res.posted.length = 40 :=
  ⟨envOk_EnvOk MAX_QP_SEND_SGE 4 (by decide) (by decide),
    indirect_scenario_posts_forty (envOk MAX_QP_SEND_SGE 4)
      (envOk_EnvOk MAX_QP_SEND_SGE 4 (by decide) (by decide))⟩

/-! ## Argument validation in `atomic.c` -/

theorem PtlSwap_op_check_float (m len : Nat) (op : ptl_op_t) (dt : ptl_datatype_t)
    (hop : op = ptl_op_t.PTL_CSWAP ∨ op = ptl_op_t.PTL_MSWAP)
    (hdt : dt = ptl_datatype_t.PTL_FLOAT ∨ dt = ptl_datatype_t.PTL_DOUBLE) :
    PtlSwap_op_check m len op dt = some ptl_ret.PTL_ARG_INVALID := by
  rcases hop with h | h <;> rcases hdt with h2 | h2 <;> subst h <;> subst h2 <;>
    simp [PtlSwap_op_check]

theorem PtlSwap_op_check_not_swap (m len : Nat) (op : ptl_op_t) (dt : ptl_datatype_t)
    (h1 : op ≠ ptl_op_t.PTL_SWAP) (h2 : op ≠ ptl_op_t.PTL_CSWAP)
    (h3 : op ≠ ptl_op_t.PTL_MSWAP) :
    PtlSwap_op_check m len op dt = some ptl_ret.PTL_ARG_INVALID := by
  cases op <;> simp_all [PtlSwap_op_check]

theorem PtlAtomic_op_check_swap (op : ptl_op_t) (dt : ptl_datatype_t)
    (h : op = ptl_op_t.PTL_SWAP ∨ op = ptl_op_t.PTL_CSWAP ∨ op = ptl_op_t.PTL_MSWAP) :
    PtlAtomic_op_check op dt = some ptl_ret.PTL_ARG_INVALID := by
  rcases h with h | h | h <;> subst h <;> simp [PtlAtomic_op_check]

theorem PtlAtomic_op_check_float (op : ptl_op_t) (dt : ptl_datatype_t)
    (hop : is_logical_or_binary op)
    (hdt : dt = ptl_datatype_t.PTL_FLOAT ∨ dt = ptl_datatype_t.PTL_DOUBLE) :
    PtlAtomic_op_check op dt = some ptl_ret.PTL_ARG_INVALID := by
  unfold is_logical_or_binary at hop
  rcases hop with h | h | h | h | h | h <;> rcases hdt with h2 | h2 <;> subst h <;> subst h2 <;>
    simp [PtlAtomic_op_check]

theorem PtlFetchAtomic_op_check_float (op : ptl_op_t) (dt : ptl_datatype_t)
    (hop : is_logical_or_binary op)
    (hdt : dt = ptl_datatype_t.PTL_FLOAT ∨ dt = ptl_datatype_t.PTL_DOUBLE) :
    PtlFetchAtomic_op_check op dt = some ptl_ret.PTL_ARG_INVALID := by
  unfold is_logical_or_binary at hop
  rcases hop with h | h | h | h | h | h <;> rcases hdt with h2 | h2 <;> subst h <;> subst h2 <;>
    simp [PtlFetchAtomic_op_check]

theorem PtlFetchAtomic_op_check_cswap (op : ptl_op_t) (dt : ptl_datatype_t)
    (h : op = ptl_op_t.PTL_CSWAP ∨ op = ptl_op_t.PTL_MSWAP) :
    PtlFetchAtomic_op_check op dt = some ptl_ret.PTL_ARG_INVALID := by
  rcases h with h | h <;> subst h <;> simp [PtlFetchAtomic_op_check]

/-- When the library is initialised and the operation switch of `PtlSwap` rejects
the call, the validation block returns `PTL_ARG_INVALID`. -/
theorem PtlSwap_validate_of_op_check (env : LibEnv) (a : SwapArgs)
    (hi : env.initialized = true)
    (h : PtlSwap_op_check (env.max_atomic_size (env.handle_ni a.get_md_handle)) a.length
      a.operation a.datatype = some ptl_ret.PTL_ARG_INVALID) :
    PtlSwap_validate env a = some ptl_ret.PTL_ARG_INVALID := by
  unfold PtlSwap_validate
  simp only [hi, h]
  split_ifs <;> first | rfl | contradiction

/-- The same for `PtlAtomic`. -/
theorem PtlAtomic_validate_of_op_check (env : LibEnv) (a : AtomicArgs)
    (hi : env.initialized = true)
    (h : PtlAtomic_op_check a.operation a.datatype = some ptl_ret.PTL_ARG_INVALID) :
    PtlAtomic_validate env a = some ptl_ret.PTL_ARG_INVALID := by
  unfold PtlAtomic_validate
  simp only [hi, h]
  split_ifs <;> first | rfl | contradiction

/-- The same for `PtlFetchAtomic`. -/
theorem PtlFetchAtomic_validate_of_op_check (env : LibEnv) (a : FetchAtomicArgs)
    (hi : env.initialized = true)
    (h : PtlFetchAtomic_op_check a.operation a.datatype = some ptl_ret.PTL_ARG_INVALID) :
    PtlFetchAtomic_validate env a = some ptl_ret.PTL_ARG_INVALID := by
  unfold PtlFetchAtomic_validate
  simp only [hi, h]
  split_ifs <;> first | rfl | contradiction

/-- C7 (swap datatype rejection): with validation compiled in and the library
initialised, `PtlSwap` with operation `PTL_CSWAP` or `PTL_MSWAP` and datatype
`PTL_FLOAT` or `PTL_DOUBLE` returns `PTL_ARG_INVALID` whatever the other arguments
and the collaborators are, and neither `ptl_cq_entry_alloc` nor
`ptl_cq_entry_send_block` has been called. -/
theorem PtlSwap_float_rejected (env : LibEnv) (a : SwapArgs)
    (hv : env.NO_ARG_VALIDATION = false) (hi : env.initialized = true)
    (hop : a.operation = ptl_op_t.PTL_CSWAP ∨ a.operation = ptl_op_t.PTL_MSWAP)
    (hdt : a.datatype = ptl_datatype_t.PTL_FLOAT ∨ a.datatype = ptl_datatype_t.PTL_DOUBLE) :
    (PtlSwap env a).ret = ptl_ret.PTL_ARG_INVALID ∧ (PtlSwap env a).alloc_calls = 0 ∧
      (PtlSwap env a).sent = [] := by
  have key := PtlSwap_validate_of_op_check env a hi (PtlSwap_op_check_float _ _ _ _ hop hdt)
  simp [PtlSwap, hv, key, rejected]

/-- Witness of C7: the scenario of the spec, `PTL_CSWAP` on `PTL_FLOAT`. -/
theorem PtlSwap_float_rejected_witness :
    (PtlSwap envAccept (swapCall .PTL_CSWAP .PTL_FLOAT)).ret = ptl_ret.PTL_ARG_INVALID ∧
    (PtlSwap envAccept (swapCall .PTL_CSWAP .PTL_FLOAT)).alloc_calls = 0 ∧
    (PtlSwap envAccept (swapCall .PTL_CSWAP .PTL_FLOAT)).sent = [] :=
  PtlSwap_float_rejected envAccept (swapCall .PTL_CSWAP .PTL_FLOAT) rfl rfl (Or.inl rfl)
    (Or.inl rfl)

/-- C8, the claim as it stands fails in a build with `NO_ARG_VALIDATION` defined:
with the library initialised, `PtlAtomic` with `PTL_BXOR` on `PTL_DOUBLE` and
`PtlFetchAtomic` with `PTL_LAND` on `PTL_FLOAT` send their command entry and return
`PTL_OK`. -/
theorem logical_ops_on_float_pass_unvalidated :
    envNoValidation.NO_ARG_VALIDATION = true ∧ envNoValidation.initialized = true ∧
    (PtlAtomic envNoValidation (atomicCall .PTL_BXOR .PTL_DOUBLE)).ret = ptl_ret.PTL_OK ∧
    (PtlAtomic envNoValidation (atomicCall .PTL_BXOR .PTL_DOUBLE)).sent.length = 1 ∧
    (PtlFetchAtomic envNoValidation (fetchCall .PTL_LAND .PTL_FLOAT)).ret = ptl_ret.PTL_OK ∧
    (PtlFetchAtomic envNoValidation (fetchCall .PTL_LAND .PTL_FLOAT)).sent.length = 1 := by
  decide

/-- C8, amended (logical and binary operations forbid float and double): in a build
with validation compiled in (`NO_ARG_VALIDATION` not defined) and with the library
initialised, `PtlAtomic` and `PtlFetchAtomic` return
`PTL_ARG_INVALID` for every call whose operation is one of `PTL_LOR`, `PTL_LAND`,
`PTL_LXOR`, `PTL_BOR`, `PTL_BAND`, `PTL_BXOR` and whose datatype is `PTL_FLOAT` or
`PTL_DOUBLE`. -/
theorem logical_ops_forbid_float (env : LibEnv) (a : AtomicArgs) (f : FetchAtomicArgs)
    (hv : env.NO_ARG_VALIDATION = false) (hi : env.initialized = true)
    (hop : is_logical_or_binary a.operation)
    (hdt : a.datatype = ptl_datatype_t.PTL_FLOAT ∨ a.datatype = ptl_datatype_t.PTL_DOUBLE)
    (hopf : is_logical_or_binary f.operation)
    (hdtf : f.datatype = ptl_datatype_t.PTL_FLOAT ∨ f.datatype = ptl_datatype_t.PTL_DOUBLE) :
    (PtlAtomic env a).ret = ptl_ret.PTL_ARG_INVALID ∧
      (PtlFetchAtomic env f).ret = ptl_ret.PTL_ARG_INVALID := by
  have k1 := PtlAtomic_validate_of_op_check env a hi (PtlAtomic_op_check_float _ _ hop hdt)
  have k2 := PtlFetchAtomic_validate_of_op_check env f hi
    (PtlFetchAtomic_op_check_float _ _ hopf hdtf)
  simp [PtlAtomic, PtlFetchAtomic, hv, k1, k2, rejected]

/-- Witness of the amended C8: `PTL_BXOR` on `PTL_DOUBLE` and `PTL_LAND` on `PTL_FLOAT`. -/
theorem logical_ops_forbid_float_witness :
    (PtlAtomic envAccept (atomicCall .PTL_BXOR .PTL_DOUBLE)).ret = ptl_ret.PTL_ARG_INVALID ∧
    (PtlFetchAtomic envAccept (fetchCall .PTL_LAND .PTL_FLOAT)).ret = ptl_ret.PTL_ARG_INVALID :=
  logical_ops_forbid_float envAccept (atomicCall .PTL_BXOR .PTL_DOUBLE)
    (fetchCall .PTL_LAND .PTL_FLOAT) rfl rfl
    (Or.inr (Or.inr (Or.inr (Or.inr (Or.inr rfl))))) (Or.inr rfl)
    (Or.inr (Or.inl rfl)) (Or.inl rfl)

/-- C9, the claim as it stands fails in a build with `NO_ARG_VALIDATION` defined:
with the library initialised, `PtlAtomic` with `PTL_SWAP` and `PtlSwap` with
`PTL_BOR` send their command entry and return `PTL_OK`. -/
theorem swap_ops_pass_unvalidated :
    envNoValidation.NO_ARG_VALIDATION = true ∧ envNoValidation.initialized = true ∧
    (PtlAtomic envNoValidation (atomicCall .PTL_SWAP .PTL_INT64_T)).ret = ptl_ret.PTL_OK ∧
    (PtlAtomic envNoValidation (atomicCall .PTL_SWAP .PTL_INT64_T)).sent.length = 1 ∧
    (PtlSwap envNoValidation (swapCall .PTL_BOR .PTL_INT64_T)).ret = ptl_ret.PTL_OK ∧
    (PtlSwap envNoValidation (swapCall .PTL_BOR .PTL_INT64_T)).sent.length = 1 := by
  decide

/-- C9, amended (swap operations only through the swap entry): in a build with
validation compiled in (`NO_ARG_VALIDATION` not defined) and with the library
initialised, `PtlAtomic` returns `PTL_ARG_INVALID` for every call
whose operation is `PTL_SWAP`, `PTL_CSWAP` or `PTL_MSWAP`, and `PtlSwap` returns
`PTL_ARG_INVALID` for every call whose operation is none of the three. -/
theorem swap_ops_only_via_PtlSwap (env : LibEnv) (a : AtomicArgs) (w : SwapArgs)
    (hv : env.NO_ARG_VALIDATION = false) (hi : env.initialized = true)
    (hop : a.operation = ptl_op_t.PTL_SWAP ∨ a.operation = ptl_op_t.PTL_CSWAP ∨
      a.operation = ptl_op_t.PTL_MSWAP)
    (hw1 : w.operation ≠ ptl_op_t.PTL_SWAP) (hw2 : w.operation ≠ ptl_op_t.PTL_CSWAP)
    (hw3 : w.operation ≠ ptl_op_t.PTL_MSWAP) :
    (PtlAtomic env a).ret = ptl_ret.PTL_ARG_INVALID ∧
      (PtlSwap env w).ret = ptl_ret.PTL_ARG_INVALID := by
  have k1 := PtlAtomic_validate_of_op_check env a hi (PtlAtomic_op_check_swap _ _ hop)
  have k2 := PtlSwap_validate_of_op_check env w hi
    (PtlSwap_op_check_not_swap _ _ _ _ hw1 hw2 hw3)
  simp [PtlAtomic, PtlSwap, hv, k1, k2, rejected]

/-- Witness of the amended C9: `PtlAtomic` with `PTL_SWAP`, `PtlSwap` with `PTL_BOR`. -/
theorem swap_ops_only_via_PtlSwap_witness :
    (PtlAtomic envAccept (atomicCall .PTL_SWAP .PTL_INT64_T)).ret = ptl_ret.PTL_ARG_INVALID ∧
    (PtlSwap envAccept (swapCall .PTL_BOR .PTL_INT64_T)).ret = ptl_ret.PTL_ARG_INVALID :=
  swap_ops_only_via_PtlSwap envAccept (atomicCall .PTL_SWAP .PTL_INT64_T)
    (swapCall .PTL_BOR .PTL_INT64_T) rfl rfl (Or.inl rfl) (by decide) (by decide) (by decide)

/-- C10, as stated, fails: with validation compiled in, the library initialised and
every other argument valid, `PtlFetchAtomic` with operation `PTL_SWAP` allocates
and sends a command entry and returns `PTL_OK`. -/
theorem PtlFetchAtomic_accepts_PTL_SWAP :
    envAccept.NO_ARG_VALIDATION = false ∧ envAccept.initialized = true ∧
    (fetchCall .PTL_SWAP .PTL_INT64_T).operation = ptl_op_t.PTL_SWAP ∧
    (PtlFetchAtomic envAccept (fetchCall .PTL_SWAP .PTL_INT64_T)).ret = ptl_ret.PTL_OK ∧
    (PtlFetchAtomic envAccept (fetchCall .PTL_SWAP .PTL_INT64_T)).sent.length = 1 := by
  decide

/-- C10, amended: with validation compiled in and the library initialised,
`PtlFetchAtomic` returns `PTL_ARG_INVALID` for every call whose operation is
`PTL_CSWAP` or `PTL_MSWAP`; the operation switch lets `PTL_SWAP` through, whatever
the datatype. -/
theorem PtlFetchAtomic_rejects_cswap_mswap (env : LibEnv) (f : FetchAtomicArgs)
    (hv : env.NO_ARG_VALIDATION = false) (hi : env.initialized = true)
    (hop : f.operation = ptl_op_t.PTL_CSWAP ∨ f.operation = ptl_op_t.PTL_MSWAP) :
    (PtlFetchAtomic env f).ret = ptl_ret.PTL_ARG_INVALID ∧
      PtlFetchAtomic_op_check ptl_op_t.PTL_SWAP f.datatype = none := by
  have k := PtlFetchAtomic_validate_of_op_check env f hi
    (PtlFetchAtomic_op_check_cswap _ _ hop)
  exact ⟨by simp [PtlFetchAtomic, hv, k, rejected], by simp [PtlFetchAtomic_op_check]⟩

/-- Witness of the amended C10: `PTL_MSWAP` on `PTL_UINT32_T`. -/
theorem PtlFetchAtomic_rejects_cswap_mswap_witness :
    (PtlFetchAtomic envAccept (fetchCall .PTL_MSWAP .PTL_UINT32_T)).ret =
      ptl_ret.PTL_ARG_INVALID ∧
    PtlFetchAtomic_op_check ptl_op_t.PTL_SWAP (fetchCall .PTL_MSWAP .PTL_UINT32_T).datatype =
      none :=
  PtlFetchAtomic_rejects_cswap_mswap envAccept (fetchCall .PTL_MSWAP .PTL_UINT32_T) rfl rfl
    (Or.inr rfl)

/-! ## Limits and return codes in `atomic.c` -/

theorem ite_some_eq_none {c : Prop} [Decidable c] {r : ptl_ret} {rest : Option ptl_ret} :
    (if c then some r else rest) = none ↔ ¬ c ∧ rest = none := by
  by_cases h : c
  · simp [h]
  · simp [h]

theorem ite_some_eq_some {c : Prop} [Decidable c] {r0 r : ptl_ret} {rest : Option ptl_ret} :
    (if c then some r0 else rest) = some r ↔ (c ∧ r0 = r) ∨ (¬ c ∧ rest = some r) := by
  by_cases h : c
  · simp [h]
  · simp [h]

theorem PtlAtomic_op_check_cases (op : ptl_op_t) (dt : ptl_datatype_t) :
    PtlAtomic_op_check op dt = none ∨
      PtlAtomic_op_check op dt = some ptl_ret.PTL_ARG_INVALID := by
  cases op <;> cases dt <;> simp [PtlAtomic_op_check]

theorem PtlFetchAtomic_op_check_cases (op : ptl_op_t) (dt : ptl_datatype_t) :
    PtlFetchAtomic_op_check op dt = none ∨
      PtlFetchAtomic_op_check op dt = some ptl_ret.PTL_ARG_INVALID := by
  cases op <;> cases dt <;> simp [PtlFetchAtomic_op_check]

theorem PtlSwap_op_check_cases (m len : Nat) (op : ptl_op_t) (dt : ptl_datatype_t) :
    PtlSwap_op_check m len op dt = none ∨
      PtlSwap_op_check m len op dt = some ptl_ret.PTL_ARG_INVALID := by
  cases op <;> simp only [PtlSwap_op_check] <;> (try split_ifs) <;> (try cases dt) <;> simp

/-- The validation block of `PtlAtomic` lets a call through exactly when every one
of its checks passes. -/
theorem PtlAtomic_validate_eq_none (env : LibEnv) (a : AtomicArgs) :
    PtlAtomic_validate env a = none ↔
      (env.initialized = true ∧
        a.length ≤ env.max_atomic_size (env.handle_ni a.md_handle) ∧
        env.MDHandleValidator a.md_handle 1 = 0 ∧
        a.length % datatype_multiple a.datatype = 0 ∧
        target_rejected env (env.handle_ni a.md_handle) a.target_id = false ∧
        PtlAtomic_op_check a.operation a.datatype = none ∧
        a.pt_index ≤ env.max_pt_index (env.handle_ni a.md_handle) ∧
        a.local_offset < 2 ^ 48 ∧ a.remote_offset < 2 ^ 48) := by
  unfold PtlAtomic_validate
  generalize (2 ^ 48 : Nat) = B
  generalize PtlAtomic_op_check a.operation a.datatype = oc
  cases oc <;> simp only [ite_some_eq_none] <;> simp

/-- The validation block of `PtlFetchAtomic` lets a call through exactly when every
one of its checks passes. -/
theorem PtlFetchAtomic_validate_eq_none (env : LibEnv) (a : FetchAtomicArgs) :
    PtlFetchAtomic_validate env a = none ↔
      (env.initialized = true ∧
        env.MDHandleValidator a.get_md_handle 1 = 0 ∧
        env.MDHandleValidator a.put_md_handle 1 = 0 ∧
        a.length ≤ env.max_atomic_size (env.handle_ni a.get_md_handle) ∧
        a.length % datatype_multiple a.datatype = 0 ∧
        env.handle_ni a.get_md_handle = env.handle_ni a.put_md_handle ∧
        target_rejected env (env.handle_ni a.get_md_handle) a.target_id = false ∧
        PtlFetchAtomic_op_check a.operation a.datatype = none ∧
        a.pt_index ≤ env.max_pt_index (env.handle_ni a.get_md_handle) ∧
        a.local_put_offset < 2 ^ 48 ∧ a.local_get_offset < 2 ^ 48 ∧
        a.remote_offset < 2 ^ 48) := by
  unfold PtlFetchAtomic_validate
  generalize (2 ^ 48 : Nat) = B
  generalize PtlFetchAtomic_op_check a.operation a.datatype = oc
  cases oc <;> simp only [ite_some_eq_none] <;> simp

/-- The validation block of `PtlSwap` lets a call through exactly when every one of
its checks passes. -/
theorem PtlSwap_validate_eq_none (env : LibEnv) (a : SwapArgs) :
    PtlSwap_validate env a = none ↔
      (env.initialized = true ∧
        env.MDHandleValidator a.get_md_handle 1 = 0 ∧
        env.MDHandleValidator a.put_md_handle 1 = 0 ∧
        a.length % datatype_multiple a.datatype = 0 ∧
        env.handle_ni a.get_md_handle = env.handle_ni a.put_md_handle ∧
        target_rejected env (env.handle_ni a.get_md_handle) a.target_id = false ∧
        PtlSwap_op_check (env.max_atomic_size (env.handle_ni a.get_md_handle)) a.length
          a.operation a.datatype = none ∧
        a.pt_index ≤ env.max_pt_index (env.handle_ni a.get_md_handle) ∧
        a.local_put_offset < 2 ^ 48 ∧ a.local_get_offset < 2 ^ 48 ∧
        a.remote_offset < 2 ^ 48) := by
  unfold PtlSwap_validate
  dsimp only
  generalize (2 ^ 48 : Nat) = B
  generalize PtlSwap_op_check (env.max_atomic_size (env.handle_ni a.get_md_handle)) a.length
    a.operation a.datatype = oc
  cases oc <;> simp only [ite_some_eq_none] <;> simp

/-- What the validation block of `PtlAtomic` can return. -/
theorem PtlAtomic_validate_some (env : LibEnv) (a : AtomicArgs) (r : ptl_ret)
    (h : PtlAtomic_validate env a = some r) :
    (r = ptl_ret.PTL_NO_INIT ∧ env.initialized = false) ∨
      (r = ptl_ret.PTL_ARG_INVALID ∧ env.initialized = true) := by
  unfold PtlAtomic_validate at h
  generalize (2 ^ 48 : Nat) = B at h
  rcases PtlAtomic_op_check_cases a.operation a.datatype with h1 | h1 <;>
    simp only [h1, ite_some_eq_some] at h <;> simp at h <;> tauto

theorem PtlFetchAtomic_validate_some (env : LibEnv) (a : FetchAtomicArgs) (r : ptl_ret)
    (h : PtlFetchAtomic_validate env a = some r) :
    (r = ptl_ret.PTL_NO_INIT ∧ env.initialized = false) ∨
      (r = ptl_ret.PTL_ARG_INVALID ∧ env.initialized = true) := by
  unfold PtlFetchAtomic_validate at h
  generalize (2 ^ 48 : Nat) = B at h
  rcases PtlFetchAtomic_op_check_cases a.operation a.datatype with h1 | h1 <;>
    simp only [h1, ite_some_eq_some] at h <;> simp at h <;> tauto

theorem PtlSwap_validate_some (env : LibEnv) (a : SwapArgs) (r : ptl_ret)
    (h : PtlSwap_validate env a = some r) :
    (r = ptl_ret.PTL_NO_INIT ∧ env.initialized = false) ∨
      (r = ptl_ret.PTL_ARG_INVALID ∧ env.initialized = true) := by
  unfold PtlSwap_validate at h
  dsimp only at h
  generalize (2 ^ 48 : Nat) = B at h
  rcases PtlSwap_op_check_cases (env.max_atomic_size (env.handle_ni a.get_md_handle)) a.length
    a.operation a.datatype with h1 | h1 <;>
    simp only [h1, ite_some_eq_some] at h <;> simp at h <;> tauto


/-- A call of `PtlAtomic` that the validation block stops, in an initialised
library, returns `PTL_ARG_INVALID` before anything is allocated or sent. -/
theorem PtlAtomic_stopped (env : LibEnv) (a : AtomicArgs)
    (hv : env.NO_ARG_VALIDATION = false) (hi : env.initialized = true)
    (h : PtlAtomic_validate env a ≠ none) :
    PtlAtomic env a = rejected ptl_ret.PTL_ARG_INVALID := by
  cases hval : PtlAtomic_validate env a with
  | none => exact absurd hval h
  | some r =>
    rcases PtlAtomic_validate_some env a r hval with ⟨_, h2⟩ | ⟨h1, _⟩
    · rw [hi] at h2; cases h2
    · subst h1; simp [PtlAtomic, hv, hval]

/-- The same for `PtlFetchAtomic`. -/
theorem PtlFetchAtomic_stopped (env : LibEnv) (a : FetchAtomicArgs)
    (hv : env.NO_ARG_VALIDATION = false) (hi : env.initialized = true)
    (h : PtlFetchAtomic_validate env a ≠ none) :
    PtlFetchAtomic env a = rejected ptl_ret.PTL_ARG_INVALID := by
  cases hval : PtlFetchAtomic_validate env a with
  | none => exact absurd hval h
  | some r =>
    rcases PtlFetchAtomic_validate_some env a r hval with ⟨_, h2⟩ | ⟨h1, _⟩
    · rw [hi] at h2; cases h2
    · subst h1; simp [PtlFetchAtomic, hv, hval]

/-- The same for `PtlSwap`. -/
theorem PtlSwap_stopped (env : LibEnv) (a : SwapArgs)
    (hv : env.NO_ARG_VALIDATION = false) (hi : env.initialized = true)
    (h : PtlSwap_validate env a ≠ none) :
    PtlSwap env a = rejected ptl_ret.PTL_ARG_INVALID := by
  cases hval : PtlSwap_validate env a with
  | none => exact absurd hval h
  | some r =>
    rcases PtlSwap_validate_some env a r hval with ⟨_, h2⟩ | ⟨h1, _⟩
    · rw [hi] at h2; cases h2
    · subst h1; simp [PtlSwap, hv, hval]

/-- The length check of the operation switch of `PtlSwap`: `PTL_SWAP` is held to
`max_size`, `PTL_CSWAP` and `PTL_MSWAP` to 32 bytes. -/
theorem PtlSwap_op_check_length (m len : Nat) (op : ptl_op_t) (dt : ptl_datatype_t)
    (h : PtlSwap_op_check m len op dt = none) :
    (op = ptl_op_t.PTL_SWAP ∧ len ≤ m) ∨
      ((op = ptl_op_t.PTL_CSWAP ∨ op = ptl_op_t.PTL_MSWAP) ∧ len ≤ 32) := by
  cases op <;> simp only [PtlSwap_op_check] at h <;> (try split_ifs at h) <;> simp_all

/-- C11, as stated, fails for `PtlSwap`: on an NI whose `max_atomic_size` is 8, a
`PTL_CSWAP` of 16 bytes on `PTL_INT64_T` is longer than `max_atomic_size` and is
accepted and sent. -/
theorem PtlSwap_cswap_above_max_atomic_size :
    envAtomic8.NO_ARG_VALIDATION = false ∧ envAtomic8.initialized = true ∧
    (swapCallLen 16 .PTL_CSWAP .PTL_INT64_T).length >
      envAtomic8.max_atomic_size
        (envAtomic8.handle_ni (swapCallLen 16 .PTL_CSWAP .PTL_INT64_T).get_md_handle) ∧
    (PtlSwap envAtomic8 (swapCallLen 16 .PTL_CSWAP .PTL_INT64_T)).ret = ptl_ret.PTL_OK ∧
    (PtlSwap envAtomic8 (swapCallLen 16 .PTL_CSWAP .PTL_INT64_T)).sent.length = 1 := by
  decide

/-- C11, amended: in a build with validation compiled in (`NO_ARG_VALIDATION` not
defined) and with the library initialised,
`PtlAtomic` and `PtlFetchAtomic` return `PTL_ARG_INVALID` for every call whose
length is greater than `max_atomic_size` of the NI of the (get) MD handle;
`PtlSwap` does so for every such call whose operation is not `PTL_CSWAP` or
`PTL_MSWAP`, and for these two operations it returns `PTL_ARG_INVALID` whenever the
length is greater than 32. -/
theorem length_limit_enforced (env : LibEnv) (a : AtomicArgs) (f : FetchAtomicArgs)
    (w : SwapArgs)
    (hv : env.NO_ARG_VALIDATION = false) (hi : env.initialized = true) :
    (a.length > env.max_atomic_size (env.handle_ni a.md_handle) →
      (PtlAtomic env a).ret = ptl_ret.PTL_ARG_INVALID) ∧
    (f.length > env.max_atomic_size (env.handle_ni f.get_md_handle) →
      (PtlFetchAtomic env f).ret = ptl_ret.PTL_ARG_INVALID) ∧
    (w.length > env.max_atomic_size (env.handle_ni w.get_md_handle) →
      w.operation ≠ ptl_op_t.PTL_CSWAP → w.operation ≠ ptl_op_t.PTL_MSWAP →
      (PtlSwap env w).ret = ptl_ret.PTL_ARG_INVALID) ∧
    (w.operation = ptl_op_t.PTL_CSWAP ∨ w.operation = ptl_op_t.PTL_MSWAP → w.length > 32 →
      (PtlSwap env w).ret = ptl_ret.PTL_ARG_INVALID) := by
  refine ⟨fun ha => ?_, fun hf => ?_, fun hw hw1 hw2 => ?_, fun hc hc32 => ?_⟩
  · rw [PtlAtomic_stopped env a hv hi]; rfl
    intro h
    have := ((PtlAtomic_validate_eq_none env a).mp h).2.1
    omega
  · rw [PtlFetchAtomic_stopped env f hv hi]; rfl
    intro h
    have := ((PtlFetchAtomic_validate_eq_none env f).mp h).2.2.2.1
    omega
  · rw [PtlSwap_stopped env w hv hi]; rfl
    intro h
    have h7 := ((PtlSwap_validate_eq_none env w).mp h).2.2.2.2.2.2.1
    rcases PtlSwap_op_check_length _ _ _ _ h7 with ⟨_, h2⟩ | ⟨h1 | h1, _⟩
    · omega
    · exact hw1 h1
    · exact hw2 h1
  · rw [PtlSwap_stopped env w hv hi]; rfl
    intro h
    have h7 := ((PtlSwap_validate_eq_none env w).mp h).2.2.2.2.2.2.1
    rcases PtlSwap_op_check_length _ _ _ _ h7 with ⟨h1, _⟩ | ⟨_, h2⟩
    · rcases hc with hc | hc <;> rw [hc] at h1 <;> cases h1
    · omega

/-- Witness of the amended C11: lengths of 1024 bytes against a limit of 512, and
a `PTL_CSWAP` of 40 bytes. -/
theorem length_limit_enforced_witness :
    (PtlAtomic envAccept { atomicCall (.other 0) .PTL_INT64_T with length := 1024 }).ret =
      ptl_ret.PTL_ARG_INVALID ∧
    (PtlFetchAtomic envAccept { fetchCall (.other 0) .PTL_INT64_T with length := 1024 }).ret =
      ptl_ret.PTL_ARG_INVALID ∧
    (PtlSwap envAccept (swapCallLen 1024 .PTL_SWAP .PTL_INT64_T)).ret =
      ptl_ret.PTL_ARG_INVALID ∧
    (PtlSwap envAccept (swapCallLen 40 .PTL_CSWAP .PTL_INT64_T)).ret =
      ptl_ret.PTL_ARG_INVALID :=
  ⟨(length_limit_enforced envAccept { atomicCall (.other 0) .PTL_INT64_T with length := 1024 }
      (fetchCall (.other 0) .PTL_INT64_T) (swapCall .PTL_SWAP .PTL_INT64_T) rfl rfl).1
      (by decide),
    (length_limit_enforced envAccept (atomicCall (.other 0) .PTL_INT64_T)
      { fetchCall (.other 0) .PTL_INT64_T with length := 1024 }
      (swapCall .PTL_SWAP .PTL_INT64_T) rfl rfl).2.1 (by decide),
    (length_limit_enforced envAccept (atomicCall (.other 0) .PTL_INT64_T)
      (fetchCall (.other 0) .PTL_INT64_T) (swapCallLen 1024 .PTL_SWAP .PTL_INT64_T)
      rfl rfl).2.2.1 (by decide) (by decide) (by decide),
    (length_limit_enforced envAccept (atomicCall (.other 0) .PTL_INT64_T)
      (fetchCall (.other 0) .PTL_INT64_T) (swapCallLen 40 .PTL_CSWAP .PTL_INT64_T)
      rfl rfl).2.2.2 (Or.inl rfl) (by decide)⟩

/-- C12, the claim as it stands fails in a build with `NO_ARG_VALIDATION` defined:
with the library initialised, `PtlAtomic` with 12 bytes of `PTL_INT64_T`, whose
width is 8, sends its command entry and returns `PTL_OK`. -/
theorem odd_length_passes_unvalidated :
    envNoValidation.NO_ARG_VALIDATION = true ∧ envNoValidation.initialized = true ∧
    (12 : Nat) % datatype_multiple .PTL_INT64_T ≠ 0 ∧
    (PtlAtomic envNoValidation { atomicCall (.other 0) .PTL_INT64_T with length := 12 }).ret =
      ptl_ret.PTL_OK ∧
    (PtlAtomic envNoValidation
      { atomicCall (.other 0) .PTL_INT64_T with length := 12 }).sent.length = 1 := by
  decide

/-- C12, amended (length is a multiple of the datatype width): in a build with
validation compiled in (`NO_ARG_VALIDATION` not defined) and with the library
initialised, each of `PtlAtomic`, `PtlFetchAtomic` and `PtlSwap`
returns `PTL_ARG_INVALID` for every call whose length is not a multiple of the
width of its datatype; the width table, shared by the three entry points, gives 1
for INT8/UINT8, 2 for INT16/UINT16, 4 for INT32/UINT32/FLOAT, 8 for
INT64/UINT64/DOUBLE/FLOAT_COMPLEX, 16 for LONG_DOUBLE/DOUBLE_COMPLEX and 32 for
LONG_DOUBLE_COMPLEX. -/
theorem length_multiple_of_datatype_width (env : LibEnv) (a : AtomicArgs)
    (f : FetchAtomicArgs) (w : SwapArgs)
    (hv : env.NO_ARG_VALIDATION = false) (hi : env.initialized = true) :
    (a.length % datatype_multiple a.datatype ≠ 0 →
      (PtlAtomic env a).ret = ptl_ret.PTL_ARG_INVALID) ∧
    (f.length % datatype_multiple f.datatype ≠ 0 →
      (PtlFetchAtomic env f).ret = ptl_ret.PTL_ARG_INVALID) ∧
    (w.length % datatype_multiple w.datatype ≠ 0 →
      (PtlSwap env w).ret = ptl_ret.PTL_ARG_INVALID) ∧
    (datatype_multiple .PTL_INT8_T = 1 ∧ datatype_multiple .PTL_UINT8_T = 1 ∧
      datatype_multiple .PTL_INT16_T = 2 ∧ datatype_multiple .PTL_UINT16_T = 2 ∧
      datatype_multiple .PTL_INT32_T = 4 ∧ datatype_multiple .PTL_UINT32_T = 4 ∧
      datatype_multiple .PTL_FLOAT = 4 ∧
      datatype_multiple .PTL_INT64_T = 8 ∧ datatype_multiple .PTL_UINT64_T = 8 ∧
      datatype_multiple .PTL_DOUBLE = 8 ∧ datatype_multiple .PTL_FLOAT_COMPLEX = 8 ∧
      datatype_multiple .PTL_LONG_DOUBLE = 16 ∧ datatype_multiple .PTL_DOUBLE_COMPLEX = 16 ∧
      datatype_multiple .PTL_LONG_DOUBLE_COMPLEX = 32) := by
  refine ⟨fun ha => ?_, fun hf => ?_, fun hw => ?_, by decide⟩
  · rw [PtlAtomic_stopped env a hv hi]; rfl
    intro h
    exact ha ((PtlAtomic_validate_eq_none env a).mp h).2.2.2.1
  · rw [PtlFetchAtomic_stopped env f hv hi]; rfl
    intro h
    exact hf ((PtlFetchAtomic_validate_eq_none env f).mp h).2.2.2.2.1
  · rw [PtlSwap_stopped env w hv hi]; rfl
    intro h
    exact hw ((PtlSwap_validate_eq_none env w).mp h).2.2.2.1

/-- Witness of the amended C12: 12 bytes of `PTL_INT64_T`, 6 bytes of `PTL_FLOAT`, 24 bytes of
`PTL_LONG_DOUBLE`. -/
theorem length_multiple_of_datatype_width_witness :
    (PtlAtomic envAccept { atomicCall (.other 0) .PTL_INT64_T with length := 12 }).ret =
      ptl_ret.PTL_ARG_INVALID ∧
    (PtlFetchAtomic envAccept { fetchCall (.other 0) .PTL_FLOAT with length := 6 }).ret =
      ptl_ret.PTL_ARG_INVALID ∧
    (PtlSwap envAccept (swapCallLen 24 .PTL_SWAP .PTL_LONG_DOUBLE)).ret =
      ptl_ret.PTL_ARG_INVALID :=
  ⟨(length_multiple_of_datatype_width envAccept
      { atomicCall (.other 0) .PTL_INT64_T with length := 12 }
      { fetchCall (.other 0) .PTL_FLOAT with length := 6 }
      (swapCallLen 24 .PTL_SWAP .PTL_LONG_DOUBLE) rfl rfl).1 (by decide),
    (length_multiple_of_datatype_width envAccept
      { atomicCall (.other 0) .PTL_INT64_T with length := 12 }
      { fetchCall (.other 0) .PTL_FLOAT with length := 6 }
      (swapCallLen 24 .PTL_SWAP .PTL_LONG_DOUBLE) rfl rfl).2.1 (by decide),
    (length_multiple_of_datatype_width envAccept
      { atomicCall (.other 0) .PTL_INT64_T with length := 12 }
      { fetchCall (.other 0) .PTL_FLOAT with length := 6 }
      (swapCallLen 24 .PTL_SWAP .PTL_LONG_DOUBLE) rfl rfl).2.2.1 (by decide)⟩

/-- The tail of the entry points succeeds when both command-queue calls do. -/
theorem send_command_ok (env : LibEnv) (e : ptl_cqe_t) (h1 : env.ptl_cq_entry_alloc = 0)
    (h2 : env.ptl_cq_entry_send_block e = 0) :
    send_command env e = { ret := ptl_ret.PTL_OK, alloc_calls := 1, sent := [e] } := by
  simp [send_command, h1, h2]

/-- C13, the claim as it stands fails in a build with `NO_ARG_VALIDATION` defined:
with the library initialised and `max_pt_index = 63`, `PtlAtomic` with `pt_index`
64 sends its command entry and returns `PTL_OK`. -/
theorem pt_index_above_limit_passes_unvalidated :
    envNoValidation.NO_ARG_VALIDATION = true ∧ envNoValidation.initialized = true ∧
    (64 : Nat) > envNoValidation.max_pt_index
      (envNoValidation.handle_ni (atomicCall (.other 0) .PTL_INT64_T).md_handle) ∧
    (PtlAtomic envNoValidation { atomicCall (.other 0) .PTL_INT64_T with pt_index := 64 }).ret =
      ptl_ret.PTL_OK ∧
    (PtlAtomic envNoValidation
      { atomicCall (.other 0) .PTL_INT64_T with pt_index := 64 }).sent.length = 1 := by
  decide

/-- C13, amended (portal index limit): in a build with validation compiled in
(`NO_ARG_VALIDATION` not defined) and with the library initialised, each of `PtlAtomic`, `PtlFetchAtomic` and `PtlSwap` returns
`PTL_ARG_INVALID` for every call whose `pt_index` is greater than `max_pt_index`
of the NI of the (get) MD handle; and a call that passes validation with some
`pt_index` still passes it when its `pt_index` is replaced by `max_pt_index`, and
then returns `PTL_OK` when `ptl_cq_entry_alloc` and `ptl_cq_entry_send_block`
return 0. -/
theorem pt_index_limit (env : LibEnv) (a : AtomicArgs) (f : FetchAtomicArgs) (w : SwapArgs)
    (hv : env.NO_ARG_VALIDATION = false) (hi : env.initialized = true) :
    ((a.pt_index > env.max_pt_index (env.handle_ni a.md_handle) →
        (PtlAtomic env a).ret = ptl_ret.PTL_ARG_INVALID) ∧
      (f.pt_index > env.max_pt_index (env.handle_ni f.get_md_handle) →
        (PtlFetchAtomic env f).ret = ptl_ret.PTL_ARG_INVALID) ∧
      (w.pt_index > env.max_pt_index (env.handle_ni w.get_md_handle) →
        (PtlSwap env w).ret = ptl_ret.PTL_ARG_INVALID)) ∧
    (PtlAtomic_validate env a = none →
      PtlAtomic_validate env
        { a with pt_index := env.max_pt_index (env.handle_ni a.md_handle) } = none ∧
      (env.ptl_cq_entry_alloc = 0 → (∀ e, env.ptl_cq_entry_send_block e = 0) →
        (PtlAtomic env
          { a with pt_index := env.max_pt_index (env.handle_ni a.md_handle) }).ret =
            ptl_ret.PTL_OK)) ∧
    (PtlFetchAtomic_validate env f = none →
      PtlFetchAtomic_validate env
        { f with pt_index := env.max_pt_index (env.handle_ni f.get_md_handle) } = none ∧
      (env.ptl_cq_entry_alloc = 0 → (∀ e, env.ptl_cq_entry_send_block e = 0) →
        (PtlFetchAtomic env
          { f with pt_index := env.max_pt_index (env.handle_ni f.get_md_handle) }).ret =
            ptl_ret.PTL_OK)) ∧
    (PtlSwap_validate env w = none →
      PtlSwap_validate env
        { w with pt_index := env.max_pt_index (env.handle_ni w.get_md_handle) } = none ∧
      (env.ptl_cq_entry_alloc = 0 → (∀ e, env.ptl_cq_entry_send_block e = 0) →
        (PtlSwap env
          { w with pt_index := env.max_pt_index (env.handle_ni w.get_md_handle) }).ret =
            ptl_ret.PTL_OK)) := by
  refine ⟨⟨fun ha => ?_, fun hf => ?_, fun hw => ?_⟩, fun ha0 => ?_, fun hf0 => ?_,
    fun hw0 => ?_⟩
  · rw [PtlAtomic_stopped env a hv hi]; rfl
    intro h
    have := ((PtlAtomic_validate_eq_none env a).mp h).2.2.2.2.2.2.1
    omega
  · rw [PtlFetchAtomic_stopped env f hv hi]; rfl
    intro h
    have := ((PtlFetchAtomic_validate_eq_none env f).mp h).2.2.2.2.2.2.2.2.1
    omega
  · rw [PtlSwap_stopped env w hv hi]; rfl
    intro h
    have := ((PtlSwap_validate_eq_none env w).mp h).2.2.2.2.2.2.2.1
    omega
  · obtain ⟨h1, h2, h3, h4, h5, h6, _, h8, h9⟩ := (PtlAtomic_validate_eq_none env a).mp ha0
    have hn : PtlAtomic_validate env
        { a with pt_index := env.max_pt_index (env.handle_ni a.md_handle) } = none :=
      (PtlAtomic_validate_eq_none env _).mpr ⟨h1, h2, h3, h4, h5, h6, le_refl _, h8, h9⟩
    refine ⟨hn, fun halloc hsend => ?_⟩
    unfold PtlAtomic
    simp only [hv, hn, Bool.false_eq_true, if_false]
    rw [send_command_ok env _ halloc (hsend _)]
  · obtain ⟨h1, h2, h3, h4, h5, h6, h7, h8, _, h10, h11, h12⟩ :=
      (PtlFetchAtomic_validate_eq_none env f).mp hf0
    have hn : PtlFetchAtomic_validate env
        { f with pt_index := env.max_pt_index (env.handle_ni f.get_md_handle) } = none :=
      (PtlFetchAtomic_validate_eq_none env _).mpr
        ⟨h1, h2, h3, h4, h5, h6, h7, h8, le_refl _, h10, h11, h12⟩
    refine ⟨hn, fun halloc hsend => ?_⟩
    unfold PtlFetchAtomic
    simp only [hv, hn, Bool.false_eq_true, if_false]
    rw [send_command_ok env _ halloc (hsend _)]
  · obtain ⟨h1, h2, h3, h4, h5, h6, h7, _, h9, h10, h11⟩ :=
      (PtlSwap_validate_eq_none env w).mp hw0
    have hn : PtlSwap_validate env
        { w with pt_index := env.max_pt_index (env.handle_ni w.get_md_handle) } = none :=
      (PtlSwap_validate_eq_none env _).mpr
        ⟨h1, h2, h3, h4, h5, h6, h7, le_refl _, h9, h10, h11⟩
    refine ⟨hn, fun halloc hsend => ?_⟩
    unfold PtlSwap
    simp only [hv, hn, Bool.false_eq_true, if_false]
    rw [send_command_ok env _ halloc (hsend _)]

/-- Witness of the amended C13: index 64 against a limit of 63, and the calls of the samples
moved to index 63. -/
theorem pt_index_limit_witness :
    ((PtlAtomic envAccept { atomicCall (.other 0) .PTL_INT64_T with pt_index := 64 }).ret =
        ptl_ret.PTL_ARG_INVALID ∧
      (PtlFetchAtomic envAccept { fetchCall (.other 0) .PTL_INT64_T with pt_index := 64 }).ret =
        ptl_ret.PTL_ARG_INVALID ∧
      (PtlSwap envAccept { swapCall .PTL_SWAP .PTL_INT64_T with pt_index := 64 }).ret =
        ptl_ret.PTL_ARG_INVALID) ∧
    (PtlAtomic envAccept { atomicCall (.other 0) .PTL_INT64_T with pt_index := 63 }).ret =
      ptl_ret.PTL_OK ∧
    (PtlFetchAtomic envAccept { fetchCall (.other 0) .PTL_INT64_T with pt_index := 63 }).ret =
      ptl_ret.PTL_OK ∧
    (PtlSwap envAccept { swapCall .PTL_SWAP .PTL_INT64_T with pt_index := 63 }).ret =
      ptl_ret.PTL_OK :=
  ⟨⟨(pt_index_limit envAccept { atomicCall (.other 0) .PTL_INT64_T with pt_index := 64 }
        { fetchCall (.other 0) .PTL_INT64_T with pt_index := 64 }
        { swapCall .PTL_SWAP .PTL_INT64_T with pt_index := 64 } rfl rfl).1.1 (by decide),
      (pt_index_limit envAccept { atomicCall (.other 0) .PTL_INT64_T with pt_index := 64 }
        { fetchCall (.other 0) .PTL_INT64_T with pt_index := 64 }
        { swapCall .PTL_SWAP .PTL_INT64_T with pt_index := 64 } rfl rfl).1.2.1 (by decide),
      (pt_index_limit envAccept { atomicCall (.other 0) .PTL_INT64_T with pt_index := 64 }
        { fetchCall (.other 0) .PTL_INT64_T with pt_index := 64 }
        { swapCall .PTL_SWAP .PTL_INT64_T with pt_index := 64 } rfl rfl).1.2.2 (by decide)⟩,
    ((pt_index_limit envAccept (atomicCall (.other 0) .PTL_INT64_T)
        (fetchCall (.other 0) .PTL_INT64_T) (swapCall .PTL_SWAP .PTL_INT64_T) rfl rfl).2.1
        (by decide)).2 rfl (fun _ => rfl),
    ((pt_index_limit envAccept (atomicCall (.other 0) .PTL_INT64_T)
        (fetchCall (.other 0) .PTL_INT64_T) (swapCall .PTL_SWAP .PTL_INT64_T) rfl rfl).2.2.1
        (by decide)).2 rfl (fun _ => rfl),
    ((pt_index_limit envAccept (atomicCall (.other 0) .PTL_INT64_T)
        (fetchCall (.other 0) .PTL_INT64_T) (swapCall .PTL_SWAP .PTL_INT64_T) rfl rfl).2.2.2
        (by decide)).2 rfl (fun _ => rfl)⟩

/-- A return from the validation block observes the return-code discipline. -/
theorem FailsFast_rejected (env : LibEnv) (passed : Prop) (r : ptl_ret) (hp : ¬ passed)
    (hr : (r = ptl_ret.PTL_NO_INIT ∧ env.initialized = false) ∨
      (r = ptl_ret.PTL_ARG_INVALID ∧ env.initialized = true)) :
    FailsFast env passed (rejected r) := by
  unfold FailsFast rejected
  rcases hr with ⟨h1, h2⟩ | ⟨h1, h2⟩ <;> subst h1 <;> simp [h2, hp]

/-- The tail of the entry points observes the return-code discipline. -/
theorem FailsFast_send_command (env : LibEnv) (passed : Prop) (e : ptl_cqe_t) (hp : passed)
    (hi : env.initialized = true) : FailsFast env passed (send_command env e) := by
  unfold FailsFast send_command
  by_cases h1 : env.ptl_cq_entry_alloc = 0
  · by_cases h2 : env.ptl_cq_entry_send_block e = 0
    · simp [h1, h2, hi, hp]
    · simp [h1, h2, hi, hp]
  · simp [h1, hi, hp]

/-- C14, the claim as it stands fails in a build with `NO_ARG_VALIDATION` defined:
with the library not initialised, `PtlAtomic` and `PtlAtomicSync` do not return
`PTL_NO_INIT`; they send their command entry and return `PTL_OK`. -/
theorem uninitialised_call_passes_unvalidated :
    envNoValidationNoInit.NO_ARG_VALIDATION = true ∧
    envNoValidationNoInit.initialized = false ∧
    (PtlAtomic envNoValidationNoInit (atomicCall (.other 0) .PTL_INT64_T)).ret =
      ptl_ret.PTL_OK ∧
    (PtlAtomic envNoValidationNoInit (atomicCall (.other 0) .PTL_INT64_T)).sent.length = 1 ∧
    (PtlAtomicSync envNoValidationNoInit).ret = ptl_ret.PTL_OK ∧
    (PtlAtomicSync envNoValidationNoInit).sent.length = 1 := by
  decide

/-- C14, amended (validation fails fast): in a build with validation compiled in
(`NO_ARG_VALIDATION` not defined), each of `PtlAtomic`,
`PtlFetchAtomic`, `PtlSwap` and `PtlAtomicSync` has allocated and sent nothing
whenever it returns `PTL_ARG_INVALID` or `PTL_NO_INIT`; returns `PTL_NO_INIT`
exactly when the library is not initialised; returns `PTL_FAIL` exactly when
validation passed and `ptl_cq_entry_alloc` or `ptl_cq_entry_send_block` returned
non-zero; and returns `PTL_OK` exactly when validation passed and both returned
0. -/
theorem validation_fails_fast (env : LibEnv) (a : AtomicArgs) (f : FetchAtomicArgs)
    (w : SwapArgs) (hv : env.NO_ARG_VALIDATION = false) :
    FailsFast env (PtlAtomic_validate env a = none) (PtlAtomic env a) ∧
      FailsFast env (PtlFetchAtomic_validate env f = none) (PtlFetchAtomic env f) ∧
      FailsFast env (PtlSwap_validate env w = none) (PtlSwap env w) ∧
      FailsFast env (env.initialized = true) (PtlAtomicSync env) := by
  refine ⟨?_, ?_, ?_, ?_⟩
  · cases hval : PtlAtomic_validate env a with
    | none =>
      have hi := ((PtlAtomic_validate_eq_none env a).mp hval).1
      unfold PtlAtomic
      simp only [hv, hval, Bool.false_eq_true, if_false]
      exact FailsFast_send_command env _ _ trivial hi
    | some r =>
      unfold PtlAtomic
      simp only [hv, hval, Bool.false_eq_true, if_false]
      exact FailsFast_rejected env _ r (by simp) (PtlAtomic_validate_some env a r hval)
  · cases hval : PtlFetchAtomic_validate env f with
    | none =>
      have hi := ((PtlFetchAtomic_validate_eq_none env f).mp hval).1
      unfold PtlFetchAtomic
      simp only [hv, hval, Bool.false_eq_true, if_false]
      exact FailsFast_send_command env _ _ trivial hi
    | some r =>
      unfold PtlFetchAtomic
      simp only [hv, hval, Bool.false_eq_true, if_false]
      exact FailsFast_rejected env _ r (by simp) (PtlFetchAtomic_validate_some env f r hval)
  · cases hval : PtlSwap_validate env w with
    | none =>
      have hi := ((PtlSwap_validate_eq_none env w).mp hval).1
      unfold PtlSwap
      simp only [hv, hval, Bool.false_eq_true, if_false]
      exact FailsFast_send_command env _ _ trivial hi
    | some r =>
      unfold PtlSwap
      simp only [hv, hval, Bool.false_eq_true, if_false]
      exact FailsFast_rejected env _ r (by simp) (PtlSwap_validate_some env w r hval)
  · unfold PtlAtomicSync
    by_cases hi : env.initialized = true
    · simp only [hv, hi, Bool.true_eq_false, and_false, if_false]
      exact FailsFast_send_command env _ _ trivial hi
    · have hi2 : env.initialized = false := by simpa using hi
      simp only [hv, hi2, and_self, if_true]
      exact FailsFast_rejected env _ _ (by simp [hi2]) (Or.inl ⟨rfl, hi2⟩)

/-- Witness of the amended C14: the sample calls in the accepting environment. -/
theorem validation_fails_fast_witness :
    FailsFast envAccept (PtlAtomic_validate envAccept (atomicCall .PTL_SWAP .PTL_INT64_T) = none)
        (PtlAtomic envAccept (atomicCall .PTL_SWAP .PTL_INT64_T)) ∧
      FailsFast envAccept
        (PtlFetchAtomic_validate envAccept (fetchCall .PTL_SWAP .PTL_INT64_T) = none)
        (PtlFetchAtomic envAccept (fetchCall .PTL_SWAP .PTL_INT64_T)) ∧
      FailsFast envAccept (PtlSwap_validate envAccept (swapCall .PTL_SWAP .PTL_INT64_T) = none)
        (PtlSwap envAccept (swapCall .PTL_SWAP .PTL_INT64_T)) ∧
      FailsFast envAccept (envAccept.initialized = true) (PtlAtomicSync envAccept) :=
  validation_fails_fast envAccept (atomicCall .PTL_SWAP .PTL_INT64_T)
    (fetchCall .PTL_SWAP .PTL_INT64_T) (swapCall .PTL_SWAP .PTL_INT64_T) rfl

/-! ## Completion coalescing in `post_rdma` -/

/-- C20 (completion coalescing in `post_rdma`), as the code has it.  A call with
`comp` set posts a request that is signaled and carries the address of the buf,
and leaves the connection counter alone.  A call with `comp = 0` whose increment
of the counter does not give `PTL_MAX_SEND_COMP_THRESHOLD` posts a request with
`wr_id = 0` and `send_flags = 0` and keeps the incremented counter.  A call with
`comp = 0` whose increment gives the threshold resets the counter to 0 and stores
`IBV_SEND_SIGNALED` in the `rdma.send_wr.send_flags` of the buf, while `wr_id` and
`send_flags` of the request handed to `ibv_post_send` are never assigned: that
request is not made a signaled one. -/
theorem post_rdma_completion_coalescing (env : RdmaEnv) (buf_id thr : Nat) (flags : Option Nat)
    (dir : data_dir_t) (raddr rkey : Nat) (sg : List ibv_sge) (n comp : Nat) :
    (comp ≠ 0 →
      (post_rdma env buf_id thr flags dir raddr rkey sg n comp).wr.wr_id = some buf_id ∧
      (post_rdma env buf_id thr flags dir raddr rkey sg n comp).wr.send_flags =
        some IBV_SEND_SIGNALED ∧
      (post_rdma env buf_id thr flags dir raddr rkey sg n comp).completion_threshold = thr ∧
      (post_rdma env buf_id thr flags dir raddr rkey sg n comp).send_wr_flags = flags) ∧
    (comp = 0 → atomic_inc thr ≠ env.PTL_MAX_SEND_COMP_THRESHOLD →
      (post_rdma env buf_id thr flags dir raddr rkey sg n comp).wr.wr_id = some 0 ∧
      (post_rdma env buf_id thr flags dir raddr rkey sg n comp).wr.send_flags = some 0 ∧
      (post_rdma env buf_id thr flags dir raddr rkey sg n comp).completion_threshold =
        thr + 1 ∧
      (post_rdma env buf_id thr flags dir raddr rkey sg n comp).send_wr_flags = flags) ∧
    (comp = 0 → atomic_inc thr = env.PTL_MAX_SEND_COMP_THRESHOLD →
      (post_rdma env buf_id thr flags dir raddr rkey sg n comp).wr.wr_id = none ∧
      (post_rdma env buf_id thr flags dir raddr rkey sg n comp).wr.send_flags = none ∧
      (post_rdma env buf_id thr flags dir raddr rkey sg n comp).completion_threshold = 0 ∧
      (post_rdma env buf_id thr flags dir raddr rkey sg n comp).send_wr_flags =
        some IBV_SEND_SIGNALED) := by
  refine ⟨fun h => ?_, fun h0 h => ?_, fun h0 h => ?_⟩
  · simp [post_rdma, h]
  · simp only [atomic_inc] at h
    simp [post_rdma, h0, h, atomic_inc]
  · simp [post_rdma, h0, h]

/-- The failing input of C20: `comp = 0` with the counter at 999 and a threshold of
1000.  The counter is reset, the flag goes to the buf, and the request posted has
neither `wr_id` nor `send_flags` assigned. -/
theorem post_rdma_completion_coalescing_witness :
    (envOk 16 8).PTL_MAX_SEND_COMP_THRESHOLD = 1000 ∧
    post_rdma (envOk 16 8) 7 999 none .DATA_DIR_OUT 50000 3 [⟨100000, 64, 100⟩] 1 0 =
      { status := .PTL_OK, completion_threshold := 0, send_wr_flags := some IBV_SEND_SIGNALED,
        wr := { wr_id := none, send_flags := none, sg_list := [⟨100000, 64, 100⟩], num_sge := 1,
                opcode := .IBV_WR_RDMA_WRITE, remote_addr := 50000, rkey := 3 } } ∧
    (post_rdma (envOk 16 8) 7 999 none .DATA_DIR_OUT 50000 3 [⟨100000, 64, 100⟩] 1 0).wr.send_flags
      = none :=
  ⟨rfl, by decide,
    ((post_rdma_completion_coalescing (envOk 16 8) 7 999 none .DATA_DIR_OUT 50000 3
      [⟨100000, 64, 100⟩] 1 0).2.2 rfl rfl).2.1⟩


/-! ## The PPE client: the free list of ppebufs -/

theorem ppe_offset_lt (ppe : ppe_t) : ppe_offset ppe < U64 := sub64_lt _ _

/-- C15, as the code has it: on a free list whose head pointer is `NULL`, and with
nobody else at work, `dequeue_free_obj` advances the counter, leaves the head
`NULL` and returns `NULL` plus the translation offset, that is the offset itself:
the result is `NULL` only when `ppebufs_addr` equals `ppebufs_ppeaddr`. -/
theorem dequeue_free_obj_empty (ppe : ppe_t) (m : shared_t)
    (h : m.ppebuf_pool.free_list.obj = 0) :
    dequeue_result (dequeue_free_obj ppe [] m) =
        some (ppe_offset ppe, ⟨0, add64 m.ppebuf_pool.free_list.counter 1⟩) ∧
      (dequeue_result (dequeue_free_obj ppe [] m) =
          some (0, ⟨0, add64 m.ppebuf_pool.free_list.counter 1⟩) ↔
        sub64 ppe.ppebufs_addr ppe.ppebufs_ppeaddr = 0) := by
  have key : dequeue_result (dequeue_free_obj ppe [] m) =
      some (ppe_offset ppe, ⟨0, add64 m.ppebuf_pool.free_list.counter 1⟩) := by
    simp only [dequeue_free_obj, dequeue_loop, dequeue_pass, PtlInternalAtomicCas128, h,
      id, if_true, ne_eq, not_true_eq_false, if_false, dequeue_result,
      shared_t.set_free_list, add64]
    simp [Nat.mod_eq_of_lt (ppe_offset_lt ppe)]
  refine ⟨key, ?_⟩
  rw [key]
  constructor
  · intro h1
    injection h1 with h1
    injection h1 with h1 _
  · intro h1
    simp [ppe_offset, h1]

/-- The failing input of C15: the free list is empty and the client maps the slab
of the PPE (at 4096) at 20480.  `dequeue_free_obj` returns 16384 and
`ppebuf_alloc` hands that address out as a buffer, with `PTL_OK`. -/
theorem dequeue_free_obj_empty_witness :
    memEmpty.ppebuf_pool.free_list.obj = 0 ∧
    dequeue_result (dequeue_free_obj lightReady.ppe [] memEmpty) = some (16384, ⟨0, 7⟩) ∧
    alloc_result (ppebuf_alloc lightEnvOk lightReadyEmpty) = some (ptl_ret.PTL_OK, 16384) :=
  ⟨rfl, (dequeue_free_obj_empty lightReady.ppe memEmpty rfl).1, by decide⟩

/-- C19, at its failing input: the free list is empty, the slab of the PPE (at
4096) is mapped at 20480, and two callers call `dequeue_free_obj` one after the
other.  Both are handed the address 16384, and both hold it at the same time. -/
theorem empty_pool_hands_same_pointer_twice :
    pool_held (run_pool_calls lightReady.ppe [.dequeue 1, .dequeue 2] memEmpty []) =
      some [(1, 16384), (2, 16384)] := by
  decide


/-! ## The PPE client: the use count of `PtlInit` and `PtlFini` -/

theorem SameUse_refl (s : LightState) : SameUse s s := ⟨rfl, rfl, rfl⟩

theorem SameUse_trans {a b c : LightState} (h1 : SameUse a b) (h2 : SameUse b c) :
    SameUse a c :=
  ⟨h2.1.trans h1.1, h2.2.1.trans h1.2.1, h2.2.2.trans h1.2.2⟩

theorem SameUse_emit (s : LightState) (e : light_event) : SameUse s (s.emit e) :=
  ⟨rfl, rfl, rfl⟩

theorem SameUse_with_mem (s : LightState) (m : shared_t) (o : List (shared_t → shared_t)) :
    SameUse s (s.with_mem m o) :=
  ⟨rfl, rfl, rfl⟩

theorem release_ppe_resources_frame (s : LightState) : SameUse s (release_ppe_resources s) := by
  unfold release_ppe_resources SameUse
  dsimp only
  split_ifs <;> simp

theorem setup_ppe_exit_fail_frame (s : LightState) (fd : Option Nat) :
    SameUse s (setup_ppe_exit_fail s fd).2 := by
  unfold setup_ppe_exit_fail
  cases fd with
  | none => exact release_ppe_resources_frame s
  | some fd => exact SameUse_trans (SameUse_emit s _) (release_ppe_resources_frame _)

theorem setup_ppe_hello_frame {env : LightEnv} {s s1 : LightState} {r : ptl_ret}
    (h : setup_ppe_hello env s = .ok (r, s1)) : SameUse s s1 := by
  unfold setup_ppe_hello at h
  cases hh : env.ppe_hello with
  | none => simp [hh] at h
  | some hello =>
    simp only [hh] at h
    have h0 : SameUse s (setup_ppe_reply (((s.emit (.switch_cmd_level 0 1)).emit
        (.write_pid env.getpid)).emit (.switch_cmd_level 1 2)) hello
        (env.map_segment hello.ppebufs_mapping)) := ⟨rfl, rfl, rfl⟩
    split_ifs at h
    · injection h with h
      have := setup_ppe_exit_fail_frame (setup_ppe_reply (((s.emit (.switch_cmd_level 0 1)).emit
        (.write_pid env.getpid)).emit (.switch_cmd_level 1 2)) hello
        (env.map_segment hello.ppebufs_mapping)) none
      rw [h] at this
      exact SameUse_trans h0 this
    · injection h with h
      injection h with h1 h2
      subst h2
      exact h0

theorem setup_ppe_frame {env : LightEnv} {s s1 : LightState} {r : ptl_ret}
    (h : setup_ppe env s = .ok (r, s1)) : SameUse s s1 := by
  unfold setup_ppe at h
  have h0 : SameUse s (setup_ppe_start s) := ⟨rfl, rfl, rfl⟩
  have h1 : SameUse s (setup_ppe_mmap env (setup_ppe_start s)) := ⟨rfl, rfl, rfl⟩
  cases ho : shm_open_loop env 100 0 with
  | none =>
    simp only [ho] at h
    injection h with h
    have := setup_ppe_exit_fail_frame (setup_ppe_start s) none
    rw [h] at this
    exact SameUse_trans h0 this
  | some fd =>
    simp only [ho] at h
    cases hf : fstat_loop env 100 0 with
    | none =>
      simp only [hf] at h
      injection h with h
      have := setup_ppe_exit_fail_frame (setup_ppe_start s) (some fd)
      rw [h] at this
      exact SameUse_trans h0 this
    | some t =>
      simp only [hf] at h
      split_ifs at h
      · injection h with h
        have := setup_ppe_exit_fail_frame (setup_ppe_start s) (some fd)
        rw [h] at this
        exact SameUse_trans h0 this
      · injection h with h
        have := setup_ppe_exit_fail_frame (setup_ppe_mmap env (setup_ppe_start s)) (some fd)
        rw [h] at this
        exact SameUse_trans h1 this
      · exact SameUse_trans (SameUse_trans h1 (SameUse_emit _ _)) (setup_ppe_hello_frame h)

theorem ppebuf_alloc_frame {env : LightEnv} {s s1 : LightState} {r : ptl_ret} {buf : Nat}
    (h : ppebuf_alloc env s = .ok (r, buf, s1)) : SameUse s s1 := by
  unfold ppebuf_alloc at h
  split_ifs at h
  · injection h with h
    injection h with _ h
    injection h with _ h
    subst h
    exact SameUse_refl s
  · cases hs : ppebuf_spin s.ppe (s.others.length + 1) s.others s.mem with
    | error f => simp [hs] at h
    | ok v =>
      obtain ⟨obj, m1, rest⟩ := v
      simp only [hs] at h
      injection h with h
      injection h with _ h
      injection h with _ h
      subst h
      exact ⟨rfl, rfl, rfl⟩

theorem ppebuf_release_frame {s s1 : LightState} {buf : Nat}
    (h : ppebuf_release s buf = .ok s1) : SameUse s s1 := by
  unfold ppebuf_release at h
  split_ifs at h
  cases hs : enqueue_free_obj s.ppe s.others s.mem buf with
  | error f => simp [hs] at h
  | ok v =>
    obtain ⟨m1, rest⟩ := v
    simp only [hs] at h
    injection h with h
    subst h
    exact ⟨rfl, rfl, rfl⟩

theorem transfer_msg_frame {env : LightEnv} {s s1 : LightState} {buf : Nat} {msg : ppe_msg}
    {r : ppe_reply_t} (h : transfer_msg env s buf msg = .ok (r, s1)) : SameUse s s1 := by
  unfold transfer_msg at h
  split_ifs at h
  cases hr : env.ppe_reply msg with
  | none => simp [hr] at h
  | some v =>
    simp only [hr] at h
    injection h with h
    injection h with _ h
    subst h
    exact ⟨rfl, rfl, rfl⟩


theorem PtlInit_call_effect {env : LightEnv} {s s1 : LightState} {r : ptl_ret}
    (h : PtlInit_call env s = .ok (r, s1)) :
    s1.ppe.finalized = s.ppe.finalized ∧ s.ppe.ref_cnt ≤ s1.ppe.ref_cnt := by
  unfold PtlInit_call at h
  cases ha : ppebuf_alloc env s with
  | error f => simp [ha] at h
  | ok v =>
    obtain ⟨ret, buf, sa⟩ := v
    have fa := ppebuf_alloc_frame ha
    simp only [ha] at h
    split_ifs at h with h1
    · injection h with h
      injection h with _ h
      subst h
      exact ⟨fa.2.1, le_of_eq fa.1.symm⟩
    · cases ht : transfer_msg env sa buf ppe_msg.OP_PtlInit with
      | error f => simp [ht] at h
      | ok v =>
        obtain ⟨reply, st⟩ := v
        have ft := transfer_msg_frame ht
        simp only [ht] at h
        cases hr : ppebuf_release st buf with
        | error f => simp [hr] at h
        | ok sr =>
          have fr := ppebuf_release_frame hr
          have fall := SameUse_trans (SameUse_trans fa ft) fr
          simp only [hr] at h
          split_ifs at h with h2 h3
          · injection h with h
            injection h with _ h
            subst h
            exact ⟨fall.2.1, le_of_eq fall.1.symm⟩
          · injection h with h
            injection h with _ h
            subst h
            refine ⟨fall.2.1, ?_⟩
            show s.ppe.ref_cnt ≤ sr.ppe.ref_cnt + 1
            rw [fall.1]
            omega

theorem PtlInit_effect {env : LightEnv} {s s1 : LightState} {r : ptl_ret}
    (h : PtlInit env s = .ok (r, s1)) :
    s.mutex_held = false ∧ s1.ppe.finalized = s.ppe.finalized ∧
      s.ppe.ref_cnt ≤ s1.ppe.ref_cnt ∧
      (s.ppe.finalized ≠ 0 →
        r = ptl_ret.PTL_FAIL ∧ s1.log = s.log ∧ s1.ppe = s.ppe ∧ s1.mutex_held = false) := by
  unfold PtlInit at h
  by_cases h0 : s.mutex_held = true
  · rw [if_pos h0] at h
    cases h
  rw [if_neg h0] at h
  have hm : s.mutex_held = false := by simpa using h0
  refine ⟨hm, ?_⟩
  by_cases h1 : env.pthread_mutex_lock ≠ 0
  · rw [if_pos h1] at h
    injection h with h
    injection h with hr h
    subst h
    exact ⟨rfl, le_refl _, fun _ => ⟨hr.symm, rfl, rfl, hm⟩⟩
  rw [if_neg h1] at h
  dsimp only at h
  by_cases h2 : (mutex_lock s).ppe.finalized ≠ 0
  · rw [if_pos h2] at h
    injection h with h
    injection h with hr h
    subst h
    exact ⟨rfl, le_refl _, fun _ => ⟨hr.symm, rfl, rfl, rfl⟩⟩
  rw [if_neg h2] at h
  have hf0 : s.ppe.finalized = 0 := by simpa [mutex_lock] using h2
  have key : s1.ppe.finalized = s.ppe.finalized ∧ s.ppe.ref_cnt ≤ s1.ppe.ref_cnt := by
    by_cases h3 : (mutex_lock s).ppe.ref_cnt = 0
    · rw [if_pos h3] at h
      by_cases h4 : env.misc_init_once ≠ ptl_ret.PTL_OK
      · rw [if_pos h4] at h
        injection h with h
        injection h with hr h
        subst h
        exact ⟨rfl, le_refl _⟩
      rw [if_neg h4] at h
      cases hs : setup_ppe env (mutex_lock s) with
      | error f => simp [hs] at h
      | ok v =>
        obtain ⟨ret, s2⟩ := v
        have fs := setup_ppe_frame hs
        simp only [hs] at h
        by_cases h5 : ret ≠ ptl_ret.PTL_OK
        · rw [if_pos h5] at h
          injection h with h
          injection h with hr h
          subst h
          exact ⟨fs.2.1, le_of_eq fs.1.symm⟩
        rw [if_neg h5] at h
        have e := PtlInit_call_effect h
        exact ⟨e.1.trans fs.2.1, le_trans (le_of_eq fs.1.symm) e.2⟩
    · rw [if_neg h3] at h
      have e := PtlInit_call_effect h
      exact ⟨e.1, e.2⟩
  exact ⟨key.1, key.2, fun hf => absurd hf0 hf⟩

theorem PtlInit_finalized (env : LightEnv) (s : LightState) (hf : s.ppe.finalized ≠ 0)
    (hm : s.mutex_held = false) :
    ∃ s1, PtlInit env s = .ok (ptl_ret.PTL_FAIL, s1) ∧ s1.log = s.log ∧ s1.ppe = s.ppe := by
  unfold PtlInit
  rw [if_neg (by simp [hm])]
  by_cases h1 : env.pthread_mutex_lock ≠ 0
  · rw [if_pos h1]
    exact ⟨s, rfl, rfl, rfl⟩
  rw [if_neg h1]
  dsimp only
  rw [if_pos (show (mutex_lock s).ppe.finalized ≠ 0 from hf)]
  exact ⟨_, rfl, rfl, rfl⟩

theorem PtlFini_effect {env : LightEnv} {s s1 : LightState} (h : PtlFini env s = .ok s1) :
    s.mutex_held = false ∧ s1.mutex_held = false ∧
      (s.ppe.ref_cnt = 0 → s1 = s) ∧
      (s.ppe.ref_cnt ≠ 0 → s1.ppe.ref_cnt = s.ppe.ref_cnt - 1 ∧
        s1.ppe.finalized = if s.ppe.ref_cnt = 1 then 1 else s.ppe.finalized) := by
  unfold PtlFini at h
  by_cases h0 : s.mutex_held = true
  · rw [if_pos h0] at h
    cases h
  rw [if_neg h0] at h
  have hm : s.mutex_held = false := by simpa using h0
  by_cases h1 : env.pthread_mutex_lock ≠ 0
  · rw [if_pos h1] at h
    cases h
  rw [if_neg h1] at h
  dsimp only at h
  by_cases h2 : (mutex_lock s).ppe.ref_cnt = 0
  · rw [if_pos h2] at h
    injection h with h
    subst h
    refine ⟨hm, rfl, fun _ => ?_, fun hne => absurd h2 hne⟩
    cases s
    simp only [mutex_lock, mutex_unlock] at hm ⊢
    simp [hm]
  rw [if_neg h2] at h
  by_cases h3 : (mutex_lock s).ppe.ref_cnt = INT_MIN
  · rw [if_pos h3] at h
    cases h
  rw [if_neg h3] at h
  have hne : s.ppe.ref_cnt ≠ 0 := h2
  by_cases h4 : (ref_cnt_add (mutex_lock s) (-1)).ppe.ref_cnt = 0
  · rw [if_pos h4] at h
    injection h with h
    subst h
    have h4' : s.ppe.ref_cnt + -1 = 0 := h4
    refine ⟨hm, rfl, fun h0 => absurd h0 hne, fun _ => ⟨?_, ?_⟩⟩
    · show s.ppe.ref_cnt + -1 = s.ppe.ref_cnt - 1
      omega
    · show (1 : Int) = if s.ppe.ref_cnt = 1 then 1 else s.ppe.finalized
      rw [if_pos (by omega)]
  · rw [if_neg h4] at h
    injection h with h
    subst h
    have h4' : ¬ s.ppe.ref_cnt + -1 = 0 := h4
    refine ⟨hm, rfl, fun h0 => absurd h0 hne, fun _ => ⟨?_, ?_⟩⟩
    · show s.ppe.ref_cnt + -1 = s.ppe.ref_cnt - 1
      omega
    · show s.ppe.finalized = if s.ppe.ref_cnt = 1 then 1 else s.ppe.finalized
      rw [if_neg (by omega)]

theorem UseCountInv_step {c : light_call} {s s1 : LightState} {r : Option ptl_ret}
    (hinv : UseCountInv s) (h : light_step c s = .ok (r, s1)) : UseCountInv s1 := by
  obtain ⟨i1, i2, i3⟩ := hinv
  cases c with
  | init env =>
    simp only [light_step] at h
    cases hp : PtlInit env s with
    | error f => simp [hp] at h
    | ok v =>
      obtain ⟨r0, s2⟩ := v
      simp only [hp] at h
      injection h with h
      injection h with _ h
      subst h
      obtain ⟨e1, e2, e3, e4⟩ := PtlInit_effect hp
      refine ⟨le_trans i1 e3, by rw [e2]; exact i2, fun hf => ?_⟩
      rw [e2] at hf
      obtain ⟨_, _, e5, e6⟩ := e4 hf
      rw [e5]
      exact ⟨(i3 hf).1, e6⟩
  | fini env =>
    simp only [light_step] at h
    cases hp : PtlFini env s with
    | error f => simp [hp] at h
    | ok s2 =>
      simp only [hp] at h
      injection h with h
      injection h with _ h
      subst h
      obtain ⟨e1, e2, e3, e4⟩ := PtlFini_effect hp
      by_cases h0 : s.ppe.ref_cnt = 0
      · rw [e3 h0]
        exact ⟨i1, i2, i3⟩
      · obtain ⟨e5, e6⟩ := e4 h0
        have hf0 : s.ppe.finalized = 0 := by
          by_contra hf
          exact h0 (i3 hf).1
        refine ⟨by rw [e5]; omega, ?_, fun _ => ⟨?_, e2⟩⟩
        · rw [e6]
          split_ifs
          · exact Or.inr rfl
          · exact Or.inl hf0
        · rw [e6] at *
          by_cases h1 : s.ppe.ref_cnt = 1
          · rw [e5, h1]; rfl
          · rw [if_neg h1] at *
            contradiction

theorem UseCountInv_run (cs : List light_call) :
    ∀ s s1, UseCountInv s → run_calls cs s = .ok s1 → UseCountInv s1 := by
  induction cs with
  | nil =>
    intro s s1 hinv h
    simp only [run_calls] at h
    injection h with h
    subst h
    exact hinv
  | cons c cs ih =>
    intro s s1 hinv h
    simp only [run_calls] at h
    cases hs : light_step c s with
    | error f => simp [hs] at h
    | ok v =>
      obtain ⟨r, s2⟩ := v
      simp only [hs] at h
      exact ih s2 s1 (UseCountInv_step hinv hs) h


theorem UseCountInv_init (m : shared_t) (others : List (shared_t → shared_t)) :
    UseCountInv (light_init m others) :=
  ⟨le_refl _, Or.inl rfl, fun h => absurd rfl h⟩

/-- C17 (use count of `PtlInit` and `PtlFini`): in the state `s` a process reaches
by any sequence of calls of `PtlInit` and `PtlFini` that return, whatever the
collaborators do, `ppe.ref_cnt` is not negative and is 0 once `ppe.finalized` is
set; a `PtlFini` at `ref_cnt = 0` returns the state unchanged; a `PtlFini` sets
`finalized` exactly when it takes `ref_cnt` from 1 to 0, and `PtlInit` never
changes `finalized`; and once `finalized` is set every `PtlInit` returns
`PTL_FAIL` with nothing added to the log of calls (no command is sent) and
`ref_cnt` still 0. -/
theorem init_fini_use_count (cs : List light_call) (m : shared_t)
    (others : List (shared_t → shared_t)) (s : LightState)
    (h : run_calls cs (light_init m others) = .ok s) :
    0 ≤ s.ppe.ref_cnt ∧ (s.ppe.finalized ≠ 0 → s.ppe.ref_cnt = 0) ∧
    (s.ppe.ref_cnt = 0 → s.mutex_held = false → ∀ env : LightEnv,
        env.pthread_mutex_lock = 0 → PtlFini env s = .ok s) ∧
    (∀ env s1, PtlFini env s = .ok s1 →
        (s.ppe.ref_cnt = 0 → s1 = s) ∧
        ((s.ppe.finalized = 0 ∧ s1.ppe.finalized ≠ 0) ↔
          (s.ppe.ref_cnt = 1 ∧ s1.ppe.ref_cnt = 0))) ∧
    (∀ env r s1, PtlInit env s = .ok (r, s1) → s1.ppe.finalized = s.ppe.finalized) ∧
    (s.ppe.finalized ≠ 0 → ∀ env, ∃ s1, PtlInit env s = .ok (ptl_ret.PTL_FAIL, s1) ∧
        s1.log = s.log ∧ s1.ppe.ref_cnt = 0 ∧ s1.ppe.finalized = s.ppe.finalized) := by
  obtain ⟨i1, i2, i3⟩ := UseCountInv_run cs _ _ (UseCountInv_init m others) h
  refine ⟨i1, fun hf => (i3 hf).1, ?_, ?_, ?_, ?_⟩
  · intro h0 hm env hl
    unfold PtlFini
    rw [if_neg (by simp [hm]), if_neg (by simp [hl])]
    dsimp only
    rw [if_pos (show (mutex_lock s).ppe.ref_cnt = 0 from h0)]
    cases s
    simp only [mutex_lock, mutex_unlock] at hm ⊢
    simp [hm]
  · intro env s1 hp
    obtain ⟨_, _, e3, e4⟩ := PtlFini_effect hp
    refine ⟨e3, ?_⟩
    by_cases h0 : s.ppe.ref_cnt = 0
    · rw [e3 h0]
      constructor
      · rintro ⟨a, b⟩
        exact absurd a b
      · rintro ⟨a, _⟩
        omega
    · obtain ⟨e5, e6⟩ := e4 h0
      have hf0 : s.ppe.finalized = 0 := by
        by_contra hf
        exact h0 (i3 hf).1
      rw [e5, e6]
      by_cases h1 : s.ppe.ref_cnt = 1
      · rw [if_pos h1]
        constructor
        · intro _
          exact ⟨h1, by omega⟩
        · intro _
          exact ⟨hf0, by decide⟩
      · rw [if_neg h1]
        constructor
        · rintro ⟨a, b⟩
          exact absurd a b
        · rintro ⟨a, _⟩
          exact absurd a h1
  · intro env r s1 hp
    exact (PtlInit_effect hp).2.1
  · intro hf env
    obtain ⟨s1, e1, e2, e3⟩ := PtlInit_finalized env s hf (i3 hf).2
    exact ⟨s1, e1, e2, by rw [e3]; exact (i3 hf).1, by rw [e3]⟩

/-- Witness of C17: two calls of `PtlInit`, two of `PtlFini` and a late `PtlInit`
leave the count at 0 with `finalized` set. -/
theorem init_fini_use_count_witness :
    run_calls callsInitFini (light_init memTwo []) =
        .ok (run_calls_state callsInitFini (light_init memTwo [])) ∧
    (run_calls_state callsInitFini (light_init memTwo [])).ppe.finalized = 1 ∧
    0 ≤ (run_calls_state callsInitFini (light_init memTwo [])).ppe.ref_cnt ∧
    ∃ s1, PtlInit lightEnvOk (run_calls_state callsInitFini (light_init memTwo [])) =
        .ok (ptl_ret.PTL_FAIL, s1) ∧
      s1.log = (run_calls_state callsInitFini (light_init memTwo [])).log ∧
      s1.ppe.ref_cnt = 0 ∧
      s1.ppe.finalized = (run_calls_state callsInitFini (light_init memTwo [])).ppe.finalized :=
  ⟨rfl, by decide,
    (init_fini_use_count callsInitFini memTwo []
      (run_calls_state callsInitFini (light_init memTwo [])) rfl).1,
    (init_fini_use_count callsInitFini memTwo []
      (run_calls_state callsInitFini (light_init memTwo [])) rfl).2.2.2.2.2 (by decide)
      lightEnvOk⟩


/-! ## The PPE client: clean-up of mappings in the marshal path -/

/-- C18, at its failing input: `PtlMDBind` on an iovec descriptor of two elements,
where `create_mapping` succeeds for element 0 and fails for element 1.  The call
returns `PTL_NO_SPACE`, sends no command and releases the ppebuf once; the error
loop of `create_iovec_mapping` runs over all `num_iov` slots, so `delete_mapping`
is applied to slot 0, which was created, and to slot 1, which never was. -/
theorem create_iovec_mapping_deletes_unmapped :
    call_trace (PtlMDBind lightEnvMapFail lightReady 1 mdIovecTwo iovTwo) =
      some (ptl_ret.PTL_NO_SPACE,
        [.alloc 20480, .calloc 2 36864,
         .create_mapping (.iov 0) 1000 10 .PTL_OK,
         .create_mapping (.iov 1) 2000 20 .PTL_FAIL,
         .delete_mapping (.iov 0), .delete_mapping (.iov 1),
         .free 36864, .release 20480]) := by
  decide


/-! ## The potato-passing test -/

theorem PotatoInv_init : PotatoInv potato_init := by
  simp [PotatoInv, PotatoRankInv, potato_init, potato_rank_init, potato_puts, LOOPS]

theorem PotatoInv_step {s s1 : potato_state} {a : potato_action} (h : PotatoInv s)
    (hs : potato_step s a = some s1) : PotatoInv s1 := by
  obtain ⟨⟨pc0, w0, ⟨ss0, sf0⟩, ⟨rs0, rf0⟩, sp0, rp0⟩, ⟨pc1, w1, ⟨ss1, sf1⟩, ⟨rs1, rf1⟩, sp1, rp1⟩⟩ := s
  simp only [PotatoInv, PotatoRankInv, potato_puts, LOOPS] at h
  obtain ⟨h1, h2, h3, h4, ⟨a1, a2, a3, a4, a5, a6, a7⟩, ⟨b1, b2, b3, b4, b5, b6, b7⟩⟩ := h
  subst a6 a7 b6 b7
  cases a with
  | run r =>
    simp only [potato_step, maxrank] at hs
    split_ifs at hs with hr
    have hr2 : r = 0 ∨ r = 1 := by omega
    rcases hr2 with rfl | rfl
    · cases pc0 <;>
        simp [potato_run_rank, potato_state.get, potato_state.set, potato_put, nextrank, maxrank,
          ct_reached, LOOPS] at hs <;>
        (try split_ifs at hs) <;> (try simp only [Option.some.injEq, reduceCtorEq] at hs) <;>
        (try obtain ⟨_, hs⟩ := hs) <;>
        (try subst hs) <;> simp_all [PotatoInv, PotatoRankInv, potato_puts, LOOPS] <;> omega
    · cases pc1 <;>
        simp [potato_run_rank, potato_state.get, potato_state.set, potato_put, nextrank, maxrank,
          ct_reached, LOOPS] at hs <;>
        (try split_ifs at hs) <;> (try simp only [Option.some.injEq, reduceCtorEq] at hs) <;>
        (try obtain ⟨_, hs⟩ := hs) <;>
        (try subst hs) <;> simp_all [PotatoInv, PotatoRankInv, potato_puts, LOOPS] <;> omega
  | send_event r =>
    simp only [potato_step, maxrank] at hs
    split_ifs at hs with hr
    have hr2 : r = 0 ∨ r = 1 := by omega
    rcases hr2 with rfl | rfl <;>
      simp [potato_state.get, potato_state.set] at hs hr <;> subst hs <;>
      simp_all [PotatoInv, PotatoRankInv, potato_puts, LOOPS] <;> omega
  | deliver r =>
    simp only [potato_step, maxrank] at hs
    split_ifs at hs with hr
    have hr2 : r = 0 ∨ r = 1 := by omega
    rcases hr2 with rfl | rfl <;>
      simp [potato_state.get, potato_state.set] at hs hr <;> subst hs <;>
      simp_all [PotatoInv, PotatoRankInv, potato_puts, LOOPS] <;> omega


theorem PotatoInv_exec (acts : List potato_action) :
    ∀ s, PotatoInv s → PotatoInv (potato_exec acts s) := by
  induction acts with
  | nil => intro s h; exact h
  | cons a as ih =>
    intro s h
    simp only [potato_exec]
    cases hs : potato_step s a with
    | none => exact ih s h
    | some s1 => exact ih s1 (PotatoInv_step h hs)

theorem potato_exec_append (a b : List potato_action) :
    ∀ s, potato_exec (a ++ b) s = potato_exec b (potato_exec a s) := by
  induction a with
  | nil => intro s; rfl
  | cons x xs ih =>
    intro s
    simp only [List.cons_append, potato_exec]
    cases potato_step s x with
    | none => exact ih s
    | some s1 => exact ih s1

theorem potato_rounds_add (a b : Nat) :
    potato_rounds (a + b) = potato_rounds a ++ potato_rounds b := by
  induction a with
  | zero => simp [potato_rounds]
  | succ n ih =>
    rw [Nat.succ_add]
    simp only [potato_rounds, ih, List.append_assoc]

theorem potato_round_mid (j : Nat) (h1 : 1 ≤ j) (h2 : j ≤ 998) :
    potato_exec potato_round (potato_mid j) = potato_mid (j + 1) := by
  have e1 : j < 1000 := by omega
  have e2 : j + 1 < 1000 := by omega
  simp [potato_round, potato_exec, potato_step, potato_run_rank, potato_mid, potato_state.get,
    potato_state.set, potato_put, nextrank, maxrank, ct_reached, LOOPS, e1, e2]

theorem potato_rounds_mid (n : Nat) :
    ∀ j, 1 ≤ j → j + n ≤ 999 → potato_exec (potato_rounds n) (potato_mid j) = potato_mid (j + n) := by
  induction n with
  | zero => intro j _ _; rfl
  | succ n ih =>
    intro j h1 h2
    simp only [potato_rounds]
    rw [potato_exec_append, potato_round_mid j h1 (by omega), ih (j + 1) (by omega) (by omega)]
    congr 1
    omega

theorem potato_fair_run : potato_exec (potato_rounds 1004) potato_init = potato_final := by
  have e : (1004 : Nat) = 2 + (998 + 4) := rfl
  rw [e, potato_rounds_add, potato_rounds_add, potato_exec_append, potato_exec_append]
  have h1 : potato_exec (potato_rounds 2) potato_init = potato_mid 1 := by decide
  rw [h1, potato_rounds_mid 998 1 (le_refl _) (by omega)]
  decide


/-- C16, as the code has it: in a run of the potato-passing block on two ranks,
under any schedule, with every put counted once at its sender and once at its
receiver, when both ranks have left the block and no put is pending, rank 0 has
counted 1000 sends but only 999 puts received (rank 1 passes the potato on 999
times: its loop runs for `waitfor` from 1 to `LOOPS - 1`), rank 1 has counted 999
sends and 1000 puts received, and no failure is recorded. -/
theorem potato_counts (acts : List potato_action)
    (h : potato_finished (potato_exec acts potato_init)) :
    (potato_exec acts potato_init).r0.send_ct = ⟨1000, 0⟩ ∧
    (potato_exec acts potato_init).r0.recv_ct = ⟨999, 0⟩ ∧
    (potato_exec acts potato_init).r1.send_ct = ⟨999, 0⟩ ∧
    (potato_exec acts potato_init).r1.recv_ct = ⟨1000, 0⟩ := by
  have inv := PotatoInv_exec acts potato_init PotatoInv_init
  generalize potato_exec acts potato_init = s at h inv
  obtain ⟨⟨pc0, w0, ⟨ss0, sf0⟩, ⟨rs0, rf0⟩, sp0, rp0⟩,
    ⟨pc1, w1, ⟨ss1, sf1⟩, ⟨rs1, rf1⟩, sp1, rp1⟩⟩ := s
  simp only [potato_finished] at h
  obtain ⟨f1, f2, f3, f4, f5, f6⟩ := h
  subst f1 f2 f3 f4 f5 f6
  simp only [PotatoInv, PotatoRankInv, potato_puts, LOOPS] at inv
  obtain ⟨h1, h2, h3, h4, ⟨a1, a2, a3, a4, a5, a6, a7⟩, ⟨b1, b2, b3, b4, b5, b6, b7⟩⟩ := inv
  have hw0 : w0 = 1000 := a4 (by simp)
  have hw1 : w1 = 1000 := b4 (by simp)
  subst hw0 hw1 a6 a7 b6 b7
  simp at h1 h2 h3 h4
  subst h1 h2 h3 h4
  exact ⟨rfl, rfl, rfl, rfl⟩

/-- The failing input of C16: the fair schedule of 1004 rounds runs the block to
its end on both ranks, and the counting events of rank 0 then read 1000 sends and
999 puts received. -/
theorem potato_counts_witness :
    potato_finished (potato_exec (potato_rounds 1004) potato_init) ∧
    (potato_exec (potato_rounds 1004) potato_init).r0.send_ct = ⟨1000, 0⟩ ∧
    (potato_exec (potato_rounds 1004) potato_init).r0.recv_ct = ⟨999, 0⟩ ∧
    (potato_exec (potato_rounds 1004) potato_init).r1.send_ct = ⟨999, 0⟩ ∧
    (potato_exec (potato_rounds 1004) potato_init).r1.recv_ct = ⟨1000, 0⟩ :=
  ⟨by rw [potato_fair_run]; exact ⟨rfl, rfl, rfl, rfl, rfl, rfl⟩,
    potato_counts (potato_rounds 1004) (by rw [potato_fair_run]; exact ⟨rfl, rfl, rfl, rfl, rfl, rfl⟩)⟩

/-! ## The PPE client: the status and the mutex of `PtlInit` -/

theorem mutex_unlock_lock (s : LightState) (h : s.mutex_held = false) :
    mutex_unlock (mutex_lock s) = s := by
  cases s
  simp only [mutex_lock, mutex_unlock] at h ⊢
  simp [h]

theorem PtlInit_call_outcome {env : LightEnv} {s s1 : LightState} {r : ptl_ret}
    (h : PtlInit_call env s = .ok (r, s1)) :
    (r = ptl_ret.PTL_OK ∧ s1.ppe.ref_cnt = s.ppe.ref_cnt + 1 ∧ s1.mutex_held = false ∧
        ∃ reply, env.ppe_reply ppe_msg.OP_PtlInit = some reply ∧ reply.ret = ptl_ret.PTL_OK) ∨
    (r ≠ ptl_ret.PTL_OK ∧ s1.ppe.ref_cnt = s.ppe.ref_cnt ∧ s1.mutex_held = false ∧
        ∃ buf sa, ppebuf_alloc env s = .ok (r, buf, sa)) ∨
    (r ≠ ptl_ret.PTL_OK ∧ s1.ppe.ref_cnt = s.ppe.ref_cnt ∧ s1.mutex_held = s.mutex_held ∧
        ∃ reply, env.ppe_reply ppe_msg.OP_PtlInit = some reply ∧ reply.ret = r) := by
  unfold PtlInit_call at h
  cases ha : ppebuf_alloc env s with
  | error f => simp [ha] at h
  | ok v =>
    obtain ⟨ret, buf, sa⟩ := v
    have fa := ppebuf_alloc_frame ha
    simp only [ha] at h
    split_ifs at h with h1
    · injection h with h
      injection h with hr h
      subst h hr
      exact Or.inr (Or.inl ⟨h1, fa.1, rfl, buf, sa, rfl⟩)
    · cases ht : transfer_msg env sa buf ppe_msg.OP_PtlInit with
      | error f => simp [ht] at h
      | ok v =>
        obtain ⟨reply, st⟩ := v
        have ft := transfer_msg_frame ht
        have hrep : env.ppe_reply ppe_msg.OP_PtlInit = some reply := by
          unfold transfer_msg at ht
          split_ifs at ht
          cases hr : env.ppe_reply ppe_msg.OP_PtlInit with
          | none => simp [hr] at ht
          | some v =>
            simp only [hr] at ht
            injection ht with ht
            injection ht with ht _
            rw [ht]
        simp only [ht] at h
        cases hr : ppebuf_release st buf with
        | error f => simp [hr] at h
        | ok sr =>
          have fr := ppebuf_release_frame hr
          have fall := SameUse_trans (SameUse_trans fa ft) fr
          simp only [hr] at h
          split_ifs at h with h2 h3
          · injection h with h
            injection h with hr h
            subst h hr
            exact Or.inr (Or.inr ⟨h2, fall.1, fall.2.2, reply, hrep, rfl⟩)
          · injection h with h
            injection h with hr h
            subst h hr
            refine Or.inl ⟨rfl, ?_, rfl, reply, hrep, by simpa using h2⟩
            show sr.ppe.ref_cnt + 1 = s.ppe.ref_cnt + 1
            rw [fall.1]



theorem PtlInit_outcome {env : LightEnv} {s s1 : LightState} {r : ptl_ret}
    (h : PtlInit env s = .ok (r, s1)) :
    s.mutex_held = false ∧
    ((env.pthread_mutex_lock ≠ 0 ∧ r = ptl_ret.PTL_FAIL ∧ s1 = s) ∨
     (env.pthread_mutex_lock = 0 ∧ s.ppe.finalized ≠ 0 ∧ r = ptl_ret.PTL_FAIL ∧ s1 = s) ∨
     (env.pthread_mutex_lock = 0 ∧ s.ppe.finalized = 0 ∧ s.ppe.ref_cnt = 0 ∧
        env.misc_init_once ≠ ptl_ret.PTL_OK ∧ r = ptl_ret.PTL_OK ∧ s1 = s) ∨
     (env.pthread_mutex_lock = 0 ∧ s.ppe.finalized = 0 ∧ s.ppe.ref_cnt = 0 ∧
        env.misc_init_once = ptl_ret.PTL_OK ∧ r ≠ ptl_ret.PTL_OK ∧
        ∃ s2, setup_ppe env (mutex_lock s) = .ok (r, s2) ∧ s1 = mutex_unlock s2) ∨
     (env.pthread_mutex_lock = 0 ∧ s.ppe.finalized = 0 ∧
        ∃ s2, ((s.ppe.ref_cnt ≠ 0 ∧ s2 = mutex_lock s) ∨
               (s.ppe.ref_cnt = 0 ∧ env.misc_init_once = ptl_ret.PTL_OK ∧
                 setup_ppe env (mutex_lock s) = .ok (ptl_ret.PTL_OK, s2))) ∧
          PtlInit_call env s2 = .ok (r, s1))) := by
  unfold PtlInit at h
  by_cases h0 : s.mutex_held = true
  · rw [if_pos h0] at h
    cases h
  rw [if_neg h0] at h
  have hm : s.mutex_held = false := by simpa using h0
  refine ⟨hm, ?_⟩
  by_cases h1 : env.pthread_mutex_lock ≠ 0
  · rw [if_pos h1] at h
    injection h with h
    injection h with hr h
    exact Or.inl ⟨h1, hr.symm, h.symm⟩
  rw [if_neg h1] at h
  have hl : env.pthread_mutex_lock = 0 := by simpa using h1
  dsimp only at h
  by_cases h2 : (mutex_lock s).ppe.finalized ≠ 0
  · rw [if_pos h2] at h
    injection h with h
    injection h with hr h
    rw [mutex_unlock_lock s hm] at h
    exact Or.inr (Or.inl ⟨hl, h2, hr.symm, h.symm⟩)
  rw [if_neg h2] at h
  have hf0 : s.ppe.finalized = 0 := by simpa [mutex_lock] using h2
  by_cases h3 : (mutex_lock s).ppe.ref_cnt = 0
  · rw [if_pos h3] at h
    have h3' : s.ppe.ref_cnt = 0 := h3
    by_cases h4 : env.misc_init_once ≠ ptl_ret.PTL_OK
    · rw [if_pos h4] at h
      injection h with h
      injection h with hr h
      rw [mutex_unlock_lock s hm] at h
      exact Or.inr (Or.inr (Or.inl ⟨hl, hf0, h3', h4, hr.symm, h.symm⟩))
    rw [if_neg h4] at h
    have h4' : env.misc_init_once = ptl_ret.PTL_OK := by simpa using h4
    cases hs : setup_ppe env (mutex_lock s) with
    | error f => simp [hs] at h
    | ok v =>
      obtain ⟨ret, s2⟩ := v
      simp only [hs] at h
      by_cases h5 : ret ≠ ptl_ret.PTL_OK
      · rw [if_pos h5] at h
        injection h with h
        injection h with hr h
        subst hr
        exact Or.inr (Or.inr (Or.inr (Or.inl ⟨hl, hf0, h3', h4', h5, s2, rfl, h.symm⟩)))
      rw [if_neg h5] at h
      have h5' : ret = ptl_ret.PTL_OK := by simpa using h5
      subst h5'
      exact Or.inr (Or.inr (Or.inr (Or.inr ⟨hl, hf0, s2, Or.inr ⟨h3', h4', rfl⟩, h⟩)))
  · rw [if_neg h3] at h
    exact Or.inr (Or.inr (Or.inr (Or.inr ⟨hl, hf0, mutex_lock s, Or.inl ⟨h3, rfl⟩, h⟩)))

theorem PtlInit_call_entry {env : LightEnv} {s s2 : LightState}
    (h : (s.ppe.ref_cnt ≠ 0 ∧ s2 = mutex_lock s) ∨
         (s.ppe.ref_cnt = 0 ∧ env.misc_init_once = ptl_ret.PTL_OK ∧
           setup_ppe env (mutex_lock s) = .ok (ptl_ret.PTL_OK, s2))) :
    SameUse (mutex_lock s) s2 ∧ (env.misc_init_once = ptl_ret.PTL_OK ∨ s.ppe.ref_cnt ≠ 0) := by
  rcases h with ⟨a, b⟩ | ⟨a, b, c⟩
  · subst b
    exact ⟨SameUse_refl _, Or.inr a⟩
  · exact ⟨setup_ppe_frame c, Or.inl b⟩

/-- C27, as the code has it: a call of `PtlInit` that returns `PTL_OK` has added
one to `ppe.ref_cnt`, except when it is a first call (`ref_cnt = 0`) and
`misc_init_once` fails: the `goto err1` there leaves `ret` at 0, the value
`pthread_mutex_lock` returned, so the call returns `PTL_OK` with the state as it
found it and the caller not counted.  When `setup_ppe` fails the call returns its
status, and when the PPE answers `OP_PtlInit` with an error the call returns that
error. -/
theorem PtlInit_ok_not_always_counted (env : LightEnv) (s s1 : LightState) (r : ptl_ret)
    (h : PtlInit env s = .ok (r, s1)) :
    (r = ptl_ret.PTL_OK →
      s1.ppe.ref_cnt = s.ppe.ref_cnt + 1 ∨
      (s.ppe.ref_cnt = 0 ∧ env.misc_init_once ≠ ptl_ret.PTL_OK ∧ s1 = s)) ∧
    (env.pthread_mutex_lock = 0 → s.ppe.finalized = 0 → s.ppe.ref_cnt = 0 →
      env.misc_init_once ≠ ptl_ret.PTL_OK → r = ptl_ret.PTL_OK ∧ s1.ppe.ref_cnt = 0) ∧
    (∀ ret s2, env.pthread_mutex_lock = 0 → s.ppe.finalized = 0 → s.ppe.ref_cnt = 0 →
      env.misc_init_once = ptl_ret.PTL_OK → setup_ppe env (mutex_lock s) = .ok (ret, s2) →
      ret ≠ ptl_ret.PTL_OK → r = ret ∧ s1.ppe.ref_cnt = s.ppe.ref_cnt) ∧
    (∀ reply, (env.misc_init_once = ptl_ret.PTL_OK ∨ s.ppe.ref_cnt ≠ 0) →
      env.ppe_reply ppe_msg.OP_PtlInit = some reply → reply.ret ≠ ptl_ret.PTL_OK →
      r ≠ ptl_ret.PTL_OK ∧ s1.ppe.ref_cnt = s.ppe.ref_cnt) := by
  obtain ⟨hm, hc⟩ := PtlInit_outcome h
  refine ⟨?_, ?_, ?_, ?_⟩
  · intro hr
    rcases hc with ⟨_, a, _⟩ | ⟨_, _, a, _⟩ | ⟨_, _, a, b, _, c⟩ | ⟨_, _, _, _, a, _⟩ |
      ⟨_, _, s2, e, c⟩
    · rw [hr] at a; cases a
    · rw [hr] at a; cases a
    · exact Or.inr ⟨a, b, c⟩
    · exact absurd hr a
    · obtain ⟨fs, _⟩ := PtlInit_call_entry e
      rcases PtlInit_call_outcome c with ⟨_, a, _⟩ | ⟨a, _⟩ | ⟨a, _⟩
      · left
        rw [a, fs.1]
        rfl
      · exact absurd hr a
      · exact absurd hr a
  · intro hl hf h0 h4
    rcases hc with ⟨a, _⟩ | ⟨_, a, _⟩ | ⟨_, _, _, _, a, c⟩ | ⟨_, _, _, a, _⟩ | ⟨_, _, s2, e, c⟩
    · exact absurd hl a
    · exact absurd hf a
    · subst c
      exact ⟨a, h0⟩
    · exact absurd a h4
    · rcases e with ⟨a, _⟩ | ⟨_, a, _⟩
      · exact absurd h0 a
      · exact absurd a h4
  · intro ret s2 hl hf h0 h4 hs hne
    rcases hc with ⟨a, _⟩ | ⟨_, a, _⟩ | ⟨_, _, _, a, _⟩ | ⟨_, _, _, _, _, s3, a, b⟩ |
      ⟨_, _, s3, e, c⟩
    · exact absurd hl a
    · exact absurd hf a
    · exact absurd h4 a
    · rw [hs] at a
      injection a with a
      injection a with a1 a2
      subst a1 a2 b
      exact ⟨rfl, (setup_ppe_frame hs).1⟩
    · rcases e with ⟨a, _⟩ | ⟨_, _, a⟩
      · exact absurd h0 a
      · rw [hs] at a
        injection a with a
        injection a with a1 a2
        exact absurd a1 hne
  · intro reply hpre hrep hne
    rcases hc with ⟨_, a, b⟩ | ⟨_, _, a, b⟩ | ⟨_, _, a, b, _⟩ | ⟨_, _, _, _, a, s2, b, c⟩ |
      ⟨_, _, s2, e, c⟩
    · subst a b
      exact ⟨by decide, rfl⟩
    · subst a b
      exact ⟨by decide, rfl⟩
    · rcases hpre with hpre | hpre
      · exact absurd hpre b
      · exact absurd a hpre
    · subst c
      exact ⟨a, (setup_ppe_frame b).1⟩
    · obtain ⟨fs, _⟩ := PtlInit_call_entry e
      rcases PtlInit_call_outcome c with ⟨_, _, _, rep, a, b⟩ | ⟨a, b, _⟩ | ⟨a, b, _⟩
      · rw [hrep] at a
        injection a with a
        subst a
        exact absurd b hne
      · exact ⟨a, by rw [b, fs.1]; rfl⟩
      · exact ⟨a, by rw [b, fs.1]; rfl⟩

/-- The failing input of C27: the first `PtlInit` of a process, with
`misc_init_once` failing, returns `PTL_OK` and leaves `ref_cnt` at 0. -/
theorem PtlInit_ok_not_always_counted_witness :
    PtlInit lightEnvMiscFail (light_init memTwo []) = .ok (ptl_ret.PTL_OK, light_init memTwo []) ∧
    (light_init memTwo []).ppe.ref_cnt = 0 ∧
    (ptl_ret.PTL_OK = ptl_ret.PTL_OK ∧ (light_init memTwo []).ppe.ref_cnt = 0) :=
  ⟨rfl, rfl,
    (PtlInit_ok_not_always_counted lightEnvMiscFail (light_init memTwo []) (light_init memTwo [])
      ptl_ret.PTL_OK rfl).2.1 rfl rfl rfl (by decide)⟩

/-- C28, as the code has it: `PtlFini` returns with the mutex released on every
path.  `PtlInit` returns with the mutex released on every path but one: when the
PPE answers `OP_PtlInit` with an error the code leaves by `goto err0`, past the
`pthread_mutex_unlock` at `err1`, and returns the error with the mutex still
held; the next `PtlInit` or `PtlFini` of the process then waits for ever. -/
theorem PtlInit_keeps_mutex_on_ppe_error (env : LightEnv) (s s1 : LightState) (r : ptl_ret)
    (h : PtlInit env s = .ok (r, s1)) :
    (s1.mutex_held = true →
      r ≠ ptl_ret.PTL_OK ∧ ∃ reply, env.ppe_reply ppe_msg.OP_PtlInit = some reply ∧
        reply.ret = r) ∧
    (∀ s2 buf sa reply st, env.pthread_mutex_lock = 0 → s.ppe.finalized = 0 →
      ((s.ppe.ref_cnt ≠ 0 ∧ s2 = mutex_lock s) ∨
        (s.ppe.ref_cnt = 0 ∧ env.misc_init_once = ptl_ret.PTL_OK ∧
          setup_ppe env (mutex_lock s) = .ok (ptl_ret.PTL_OK, s2))) →
      ppebuf_alloc env s2 = .ok (ptl_ret.PTL_OK, buf, sa) →
      transfer_msg env sa buf ppe_msg.OP_PtlInit = .ok (reply, st) →
      reply.ret ≠ ptl_ret.PTL_OK →
      r = reply.ret ∧ s1.mutex_held = true ∧
        (∀ env1, PtlInit env1 s1 = .error Fault.blocked) ∧
        (∀ env1, PtlFini env1 s1 = .error Fault.blocked)) ∧
    (∀ env1 s3 s4, PtlFini env1 s3 = .ok s4 → s4.mutex_held = false) := by
  obtain ⟨hm, hc⟩ := PtlInit_outcome h
  refine ⟨?_, ?_, fun env1 s3 s4 h3 => (PtlFini_effect h3).2.1⟩
  · intro hheld
    rcases hc with ⟨_, _, b⟩ | ⟨_, _, _, b⟩ | ⟨_, _, _, _, _, b⟩ | ⟨_, _, _, _, _, s2, _, b⟩ |
      ⟨_, _, s2, e, c⟩
    · subst b; rw [hm] at hheld; cases hheld
    · subst b; rw [hm] at hheld; cases hheld
    · subst b; rw [hm] at hheld; cases hheld
    · subst b; cases hheld
    · rcases PtlInit_call_outcome c with ⟨_, _, a, _⟩ | ⟨_, _, a, _⟩ | ⟨a, _, _, rep, b, d⟩
      · rw [a] at hheld; cases hheld
      · rw [a] at hheld; cases hheld
      · exact ⟨a, rep, b, d⟩
  · intro s2 buf sa reply st hl hf e ha ht hne
    have key : r = reply.ret ∧ s1.mutex_held = true := by
      rcases hc with ⟨a, _⟩ | ⟨_, a, _⟩ | ⟨_, _, a, b, _⟩ | ⟨_, _, a, _, b, s3, c, _⟩ |
        ⟨_, _, s3, e3, c⟩
      · exact absurd hl a
      · exact absurd hf a
      · rcases e with ⟨e1, _⟩ | ⟨_, e2, _⟩
        · exact absurd a e1
        · exact absurd e2 b
      · rcases e with ⟨e1, _⟩ | ⟨_, _, e2⟩
        · exact absurd a e1
        · rw [e2] at c
          injection c with c
          injection c with c _
          exact absurd c.symm b
      · have hs : s3 = s2 := by
          rcases e with ⟨e1, e2⟩ | ⟨e1, _, e2⟩ <;> rcases e3 with ⟨f1, f2⟩ | ⟨f1, _, f2⟩
          · rw [e2, f2]
          · exact absurd f1 e1
          · exact absurd e1 f1
          · rw [e2] at f2
            injection f2 with f2
            injection f2 with _ f2
            exact f2.symm
        subst hs
        obtain ⟨fs, _⟩ := PtlInit_call_entry e
        have fa := ppebuf_alloc_frame ha
        have ft := transfer_msg_frame ht
        unfold PtlInit_call at c
        simp only [ha, ne_eq, not_true_eq_false, if_false, ht] at c
        cases hr : ppebuf_release st buf with
        | error f => simp [hr] at c
        | ok sr =>
          have fr := ppebuf_release_frame hr
          simp only [hr] at c
          rw [if_pos hne] at c
          injection c with c
          injection c with c1 c2
          subst c1 c2
          refine ⟨rfl, ?_⟩
          rw [fr.2.2, ft.2.2, fa.2.2, fs.2.2]
          rfl
    refine ⟨key.1, key.2, fun env1 => ?_, fun env1 => ?_⟩
    · unfold PtlInit
      rw [if_pos key.2]
    · unfold PtlFini
      rw [if_pos key.2]

/-- The failing input of C28: the first `PtlInit` of a process, answered by the
PPE with `PTL_FAIL`, returns `PTL_FAIL` with the mutex held. -/
theorem PtlInit_keeps_mutex_on_ppe_error_witness :
    PtlInit lightEnvReplyFail (light_init memTwo []) =
      .ok (ptl_ret.PTL_FAIL, init_state (PtlInit lightEnvReplyFail (light_init memTwo []))) ∧
    (init_state (PtlInit lightEnvReplyFail (light_init memTwo []))).mutex_held = true ∧
    (ptl_ret.PTL_FAIL ≠ ptl_ret.PTL_OK ∧ ∃ reply,
        lightEnvReplyFail.ppe_reply ppe_msg.OP_PtlInit = some reply ∧
          reply.ret = ptl_ret.PTL_FAIL) :=
  ⟨rfl, rfl,
    (PtlInit_keeps_mutex_on_ppe_error lightEnvReplyFail (light_init memTwo [])
      (init_state (PtlInit lightEnvReplyFail (light_init memTwo []))) ptl_ret.PTL_FAIL rfl).1
      rfl⟩

/-! ## The PPE client: calls made while the comm pad is not mapped -/

theorem release_ppe_resources_pad (s : LightState) :
    (release_ppe_resources s).ppe.ppe_comm_pad = MAP_FAILED := by
  unfold release_ppe_resources
  dsimp only
  by_cases h : s.ppe.ppe_comm_pad ≠ MAP_FAILED
  · rw [if_pos h]
    split_ifs <;> rfl
  · rw [if_neg h]
    have h' : s.ppe.ppe_comm_pad = MAP_FAILED := by simpa using h
    split_ifs <;> simp [h']

theorem setup_ppe_exit_fail_pad (s : LightState) (fd : Option Nat) :
    (setup_ppe_exit_fail s fd).2.ppe.ppe_comm_pad = MAP_FAILED := by
  unfold setup_ppe_exit_fail
  exact release_ppe_resources_pad _

theorem setup_ppe_failed_pad {env : LightEnv} {s s1 : LightState} {ret : ptl_ret}
    (h : setup_ppe env s = .ok (ret, s1)) (hne : ret ≠ ptl_ret.PTL_OK) :
    s1.ppe.ppe_comm_pad = MAP_FAILED := by
  unfold setup_ppe at h
  cases ho : shm_open_loop env 100 0 with
  | none =>
    simp only [ho] at h
    injection h with h
    have := setup_ppe_exit_fail_pad (setup_ppe_start s) none
    rw [h] at this
    exact this
  | some fd =>
    simp only [ho] at h
    cases hf : fstat_loop env 100 0 with
    | none =>
      simp only [hf] at h
      injection h with h
      have := setup_ppe_exit_fail_pad (setup_ppe_start s) (some fd)
      rw [h] at this
      exact this
    | some t =>
      simp only [hf] at h
      split_ifs at h
      · injection h with h
        have := setup_ppe_exit_fail_pad (setup_ppe_start s) (some fd)
        rw [h] at this
        exact this
      · injection h with h
        have := setup_ppe_exit_fail_pad (setup_ppe_mmap env (setup_ppe_start s)) (some fd)
        rw [h] at this
        exact this
      · unfold setup_ppe_hello at h
        cases hh : env.ppe_hello with
        | none => simp [hh] at h
        | some hello =>
          simp only [hh] at h
          split_ifs at h
          · injection h with h
            have := setup_ppe_exit_fail_pad (setup_ppe_reply
              (((((setup_ppe_mmap env (setup_ppe_start s)).emit (.close fd)).emit
                (.switch_cmd_level 0 1)).emit (.write_pid env.getpid)).emit
                (.switch_cmd_level 1 2)) hello (env.map_segment hello.ppebufs_mapping)) none
            rw [h] at this
            exact this
          · injection h with h
            injection h with h1 _
            exact absurd h1.symm hne

theorem MAP_FAILED_ne_zero : MAP_FAILED ≠ 0 := by decide

/-- C30, as the code has it: with the check compiled in, the calls return
`PTL_NO_INIT` when `ppe.ppe_comm_pad` is `NULL`, as it is before any `PtlInit`,
and `ppebuf_alloc` then leaves the pool alone.  A `setup_ppe` that fails leaves
`ppe.ppe_comm_pad = MAP_FAILED`, which is not `NULL`: the test `!ppe.ppe_comm_pad`
then lets the call through, `ppebuf_alloc` reads the pool through the invalid
pointer, `PtlCTGet` never returns `PTL_NO_INIT`, and on the empty lists of such a
process the calls on counting events and event queues return `PTL_ARG_INVALID`
(the two polls may also return `PTL_NO_SPACE` or read past the array of
handles). -/
theorem no_init_reported_for_null_pad_only (env : LightEnv) (w : LightWorkEnv) (s : LightState)
    (hv : env.NO_ARG_VALIDATION = false) :
    (s.ppe.ppe_comm_pad = 0 →
      ppebuf_alloc env s = .ok (ptl_ret.PTL_NO_INIT, 0, s) ∧
      (∀ cts h, PtlCTGet env w s cts h = .ok (ptl_ret.PTL_NO_INIT, none)) ∧
      (∀ cts h t, PtlCTWait env w s cts h t = .ok (ptl_ret.PTL_NO_INIT, none)) ∧
      (∀ cts hs ts n t, PtlCTPoll env w s cts hs ts n t = .ok (ptl_ret.PTL_NO_INIT, none)) ∧
      (∀ eqs h, PtlEQGet env w s eqs h = .ok (ptl_ret.PTL_NO_INIT, none)) ∧
      (∀ eqs h, PtlEQWait env w s eqs h = .ok (ptl_ret.PTL_NO_INIT, none)) ∧
      (∀ eqs hs n t, PtlEQPoll env w s eqs hs n t = .ok (ptl_ret.PTL_NO_INIT, none))) ∧
    (s.ppe.ppe_comm_pad = MAP_FAILED →
      ppebuf_alloc env s = .error Fault.undefined ∧
      (∀ cts h, call_status (PtlCTGet env w s cts h) ≠ some ptl_ret.PTL_NO_INIT) ∧
      (∀ h, PtlCTGet env w s [] h = .ok (ptl_ret.PTL_ARG_INVALID, none)) ∧
      (∀ h t, PtlCTWait env w s [] h t = .ok (ptl_ret.PTL_ARG_INVALID, none)) ∧
      (∀ hs ts n t, call_status (PtlCTPoll env w s [] hs ts n t) ≠ some ptl_ret.PTL_NO_INIT) ∧
      (∀ h, PtlEQGet env w s [] h = .ok (ptl_ret.PTL_ARG_INVALID, none)) ∧
      (∀ h, PtlEQWait env w s [] h = .ok (ptl_ret.PTL_ARG_INVALID, none)) ∧
      (∀ hs n t, call_status (PtlEQPoll env w s [] hs n t) ≠ some ptl_ret.PTL_NO_INIT)) ∧
    (∀ ret s1, setup_ppe env s = .ok (ret, s1) → ret ≠ ptl_ret.PTL_OK →
      s1.ppe.ppe_comm_pad = MAP_FAILED) := by
  refine ⟨fun h0 => ?_, fun hM => ?_, fun ret s1 h hne => setup_ppe_failed_pad h hne⟩
  · refine ⟨?_, ?_, ?_, ?_, ?_, ?_, ?_⟩
    · unfold ppebuf_alloc
      rw [if_pos ⟨hv, h0⟩]
    · intro cts h
      unfold PtlCTGet
      rw [if_pos ⟨hv, h0⟩]
    · intro cts h t
      unfold PtlCTWait
      rw [if_pos ⟨hv, h0⟩]
    · intro cts hs ts n t
      unfold PtlCTPoll
      rw [if_pos ⟨hv, h0⟩]
    · intro eqs h
      unfold PtlEQGet
      rw [if_pos ⟨hv, h0⟩]
    · intro eqs h
      unfold PtlEQWait
      rw [if_pos ⟨hv, h0⟩]
    · intro eqs hs n t
      unfold PtlEQPoll
      rw [if_pos ⟨hv, h0⟩]
  · have hne : ¬ (env.NO_ARG_VALIDATION = false ∧ s.ppe.ppe_comm_pad = 0) := by
      rintro ⟨_, h⟩
      rw [hM] at h
      exact MAP_FAILED_ne_zero h
    refine ⟨?_, ?_, ?_, ?_, ?_, ?_, ?_, ?_⟩
    · unfold ppebuf_alloc
      rw [if_neg hne, if_pos]
      simp [pad_mapped, hM]
    · intro cts h
      unfold PtlCTGet
      rw [if_neg hne]
      cases get_light_ct cts h <;> simp [call_status]
    · intro h
      unfold PtlCTGet
      rw [if_neg hne]
      rfl
    · intro h t
      unfold PtlCTWait
      rw [if_neg hne]
      rfl
    · intro hs ts n t
      unfold PtlCTPoll
      rw [if_neg hne]
      split_ifs
      · simp [call_status]
      · simp [call_status]
      · cases n with
        | zero => contradiction
        | succ n =>
          simp only [ct_poll_loop]
          cases hs[0]? <;> simp [call_status, get_light_ct]
    · intro h
      unfold PtlEQGet
      rw [if_neg hne]
      rfl
    · intro h
      unfold PtlEQWait
      rw [if_neg hne]
      rfl
    · intro hs n t
      unfold PtlEQPoll
      rw [if_neg hne]
      split_ifs
      · simp [call_status]
      · simp [call_status]
      · cases n with
        | zero => contradiction
        | succ n =>
          simp only [eq_poll_loop]
          cases hs[0]? <;> simp [call_status, get_light_eq]

/-- The failing input of C30: no PPE is running, so the first `PtlInit` of the
process fails in `setup_ppe` and leaves `ppe.ppe_comm_pad = MAP_FAILED`; after
that `ppebuf_alloc` goes on to the pool through that pointer and `PtlCTGet`
answers `PTL_ARG_INVALID`, neither reports `PTL_NO_INIT`. -/
theorem no_init_reported_for_null_pad_only_witness :
    PtlInit lightEnvNoPpe (light_init memTwo []) =
      .ok (ptl_ret.PTL_FAIL, init_state (PtlInit lightEnvNoPpe (light_init memTwo []))) ∧
    (init_state (PtlInit lightEnvNoPpe (light_init memTwo []))).ppe.ppe_comm_pad = MAP_FAILED ∧
    ppebuf_alloc lightEnvNoPpe (init_state (PtlInit lightEnvNoPpe (light_init memTwo []))) =
      .error Fault.undefined ∧
    PtlCTGet lightEnvNoPpe lightWorkOk
      (init_state (PtlInit lightEnvNoPpe (light_init memTwo []))) [] 7 =
      .ok (ptl_ret.PTL_ARG_INVALID, none) :=
  ⟨rfl, rfl,
    ((no_init_reported_for_null_pad_only lightEnvNoPpe lightWorkOk
      (init_state (PtlInit lightEnvNoPpe (light_init memTwo []))) rfl).2.1 rfl).1,
    ((no_init_reported_for_null_pad_only lightEnvNoPpe lightWorkOk
      (init_state (PtlInit lightEnvNoPpe (light_init memTwo []))) rfl).2.1 rfl).2.2.1 7⟩

/-! ## The PPE client: the handshake of `setup_ppe` -/

theorem release_ppe_resources_log (s : LightState) :
    (release_ppe_resources s).log = s.log ++ release_events s := by
  unfold release_ppe_resources release_events
  dsimp only
  by_cases h : s.ppe.ppe_comm_pad ≠ MAP_FAILED
  · rw [if_pos h, if_pos h]
    by_cases h2 : s.ppe.comm_pad ≠ 0
    · rw [if_pos h2, if_pos h2]
      simp
    · rw [if_neg h2, if_neg h2]
      simp
  · rw [if_neg h, if_neg h]
    by_cases h2 : s.ppe.comm_pad ≠ 0
    · rw [if_pos h2, if_pos h2]
      simp
    · rw [if_neg h2, if_neg h2]
      simp

theorem setup_ppe_exit_fail_log (s : LightState) (fd : Option Nat) :
    (setup_ppe_exit_fail s fd).1 = ptl_ret.PTL_FAIL ∧
    (setup_ppe_exit_fail s fd).2.log =
      s.log ++ (match fd with | some d => [light_event.close d] | none => []) ++
        release_events s := by
  unfold setup_ppe_exit_fail
  cases fd with
  | none =>
    refine ⟨rfl, ?_⟩
    dsimp only
    rw [release_ppe_resources_log]
    simp
  | some d =>
    refine ⟨rfl, ?_⟩
    dsimp only
    rw [release_ppe_resources_log]
    simp [LightState.emit, release_events]

theorem release_events_not_handshake (s : LightState) :
    (release_events s).filter is_handshake_event = [] ∧
    ∀ a, light_event.mmap a ∉ release_events s := by
  unfold release_events
  split_ifs <;> simp [is_handshake_event]

theorem release_ppe_resources_fields (s : LightState) :
    (release_ppe_resources s).ppe.cookie = s.ppe.cookie ∧
    (release_ppe_resources s).ppe.ppebufs_ppeaddr = s.ppe.ppebufs_ppeaddr ∧
    (release_ppe_resources s).ppe.ppebufs_addr = s.ppe.ppebufs_addr := by
  unfold release_ppe_resources
  dsimp only
  split_ifs <;> exact ⟨rfl, rfl, rfl⟩

/-- C22 (handshake level sequence): a call of `setup_ppe` that maps the comm pad
and returns has made, after `mmap` and `close`, exactly the calls
`switch_cmd_level(0, 1)`, the store of `cmd.pid`, `switch_cmd_level(1, 2)`, the
wait for level 3, the reads of the reply (cookie, `ppebufs_ppeaddr`, and the
buffer mapping handed to `map_segment`) and `switch_cmd_level(3, 0)`, in that
order, and nothing else on the command field; it does so with status `PTL_OK`
when `map_segment` succeeds and with `PTL_FAIL` when it fails, the level being
given back before the clean-up.  A call that returns without mapping the pad
touches the command field not at all.  The call returns whenever the PPE
answers. -/
theorem handshake_level_sequence (env : LightEnv) (s : LightState) :
    (∀ ret s1, setup_ppe env s = .ok (ret, s1) →
      (ret = ptl_ret.PTL_FAIL ∧ ∃ new, s1.log = s.log ++ new ∧
          new.filter is_handshake_event = [] ∧ ∀ a, light_event.mmap a ∈ new → a = MAP_FAILED) ∨
      (∃ fd hello, env.mmap ≠ MAP_FAILED ∧ env.ppe_hello = some hello ∧
        s1.log = s.log ++ [light_event.mmap env.mmap, light_event.close fd] ++
          handshake_events env hello ++
          (if env.map_segment hello.ppebufs_mapping = 0 then
            light_event.munmap env.mmap :: (if s.ppe.comm_pad ≠ 0 then
              [light_event.free s.ppe.comm_pad] else [])
           else []) ∧
        ret = (if env.map_segment hello.ppebufs_mapping = 0 then ptl_ret.PTL_FAIL
               else ptl_ret.PTL_OK) ∧
        s1.ppe.cookie = hello.cookie ∧ s1.ppe.ppebufs_ppeaddr = hello.ppebufs_ppeaddr ∧
        s1.ppe.ppebufs_addr = env.map_segment hello.ppebufs_mapping)) ∧
    (env.ppe_hello ≠ none → ∃ ret s1, setup_ppe env s = .ok (ret, s1)) := by
  constructor
  · intro ret s1 h
    unfold setup_ppe at h
    dsimp only at h
    cases ho : shm_open_loop env 100 0 with
    | none =>
      simp only [ho] at h
      injection h with h
      obtain ⟨e1, e2⟩ := setup_ppe_exit_fail_log (setup_ppe_start s) none
      rw [h] at e1 e2
      left
      refine ⟨e1, release_events (setup_ppe_start s), ?_, ?_, ?_⟩
      · rw [e2]
        simp [setup_ppe_start]
      · exact (release_events_not_handshake _).1
      · intro a ha
        exact absurd ha ((release_events_not_handshake _).2 a)
    | some fd =>
      simp only [ho] at h
      cases hf : fstat_loop env 100 0 with
      | none =>
        simp only [hf] at h
        injection h with h
        obtain ⟨e1, e2⟩ := setup_ppe_exit_fail_log (setup_ppe_start s) (some fd)
        rw [h] at e1 e2
        left
        refine ⟨e1, [light_event.close fd] ++ release_events (setup_ppe_start s), ?_, ?_, ?_⟩
        · rw [e2]
          simp [setup_ppe_start]
        · simp [(release_events_not_handshake (setup_ppe_start s)).1, is_handshake_event]
        · intro a ha
          simp [(release_events_not_handshake (setup_ppe_start s)).2 a] at ha
      | some t =>
        simp only [hf] at h
        by_cases ht : t ≥ 100000
        · rw [if_pos ht] at h
          injection h with h
          obtain ⟨e1, e2⟩ := setup_ppe_exit_fail_log (setup_ppe_start s) (some fd)
          rw [h] at e1 e2
          left
          refine ⟨e1, [light_event.close fd] ++ release_events (setup_ppe_start s), ?_, ?_, ?_⟩
          · rw [e2]
            simp [setup_ppe_start]
          · simp [(release_events_not_handshake (setup_ppe_start s)).1, is_handshake_event]
          · intro a ha
            simp [(release_events_not_handshake (setup_ppe_start s)).2 a] at ha
        rw [if_neg ht] at h
        by_cases hm : env.mmap = MAP_FAILED
        · rw [if_pos hm] at h
          injection h with h
          obtain ⟨e1, e2⟩ := setup_ppe_exit_fail_log (setup_ppe_mmap env (setup_ppe_start s))
            (some fd)
          rw [h] at e1 e2
          left
          refine ⟨e1, [light_event.mmap env.mmap, light_event.close fd] ++
            release_events (setup_ppe_mmap env (setup_ppe_start s)), ?_, ?_, ?_⟩
          · rw [e2]
            simp [setup_ppe_start, setup_ppe_mmap]
          · simp [(release_events_not_handshake (setup_ppe_mmap env (setup_ppe_start s))).1,
              is_handshake_event]
          · intro a ha
            simp [(release_events_not_handshake (setup_ppe_mmap env (setup_ppe_start s))).2 a]
              at ha
            rw [ha, hm]
        rw [if_neg hm] at h
        unfold setup_ppe_hello at h
        cases hh : env.ppe_hello with
        | none => simp [hh] at h
        | some hello =>
          simp only [hh] at h
          right
          refine ⟨fd, hello, hm, rfl, ?_⟩
          by_cases ha : env.map_segment hello.ppebufs_mapping = 0
          · rw [if_pos ha] at h
            injection h with h
            rw [if_pos ha, if_pos ha]
            obtain ⟨e1, e2⟩ := setup_ppe_exit_fail_log (setup_ppe_reply
              (((((setup_ppe_mmap env (setup_ppe_start s)).emit (.close fd)).emit
                (.switch_cmd_level 0 1)).emit (.write_pid env.getpid)).emit
                (.switch_cmd_level 1 2)) hello (env.map_segment hello.ppebufs_mapping)) none
            obtain ⟨f1, f2, f3⟩ := release_ppe_resources_fields (setup_ppe_reply
              (((((setup_ppe_mmap env (setup_ppe_start s)).emit (.close fd)).emit
                (.switch_cmd_level 0 1)).emit (.write_pid env.getpid)).emit
                (.switch_cmd_level 1 2)) hello (env.map_segment hello.ppebufs_mapping))
            have e3 : (setup_ppe_exit_fail (setup_ppe_reply
              (((((setup_ppe_mmap env (setup_ppe_start s)).emit (.close fd)).emit
                (.switch_cmd_level 0 1)).emit (.write_pid env.getpid)).emit
                (.switch_cmd_level 1 2)) hello (env.map_segment hello.ppebufs_mapping)) none).2 =
                release_ppe_resources (setup_ppe_reply
              (((((setup_ppe_mmap env (setup_ppe_start s)).emit (.close fd)).emit
                (.switch_cmd_level 0 1)).emit (.write_pid env.getpid)).emit
                (.switch_cmd_level 1 2)) hello (env.map_segment hello.ppebufs_mapping)) := rfl
            rw [← e3] at f1 f2 f3
            rw [h] at e1 e2 f1 f2 f3
            refine ⟨?_, e1, f1, f2, f3⟩
            rw [e2]
            simp [release_events, setup_ppe_reply, setup_ppe_mmap, setup_ppe_start,
              LightState.emit, handshake_events, hm]
          · rw [if_neg ha] at h
            injection h with h
            injection h with h1 h2
            subst h1 h2
            rw [if_neg ha, if_neg ha]
            simp [setup_ppe_reply, setup_ppe_mmap, setup_ppe_start, LightState.emit,
              handshake_events]
  · intro hh
    unfold setup_ppe setup_ppe_hello
    dsimp only
    cases shm_open_loop env 100 0 with
    | none => exact ⟨_, _, rfl⟩
    | some fd =>
      cases fstat_loop env 100 0 with
      | none => exact ⟨_, _, rfl⟩
      | some t =>
        dsimp only
        split_ifs
        · exact ⟨_, _, rfl⟩
        · exact ⟨_, _, rfl⟩
        · cases h2 : env.ppe_hello with
          | none => exact absurd h2 hh
          | some hello =>
            dsimp only
            split_ifs
            · exact ⟨_, _, rfl⟩
            · exact ⟨_, _, rfl⟩

/-- Witness of C22: the PPE answers the handshake and `map_segment` fails; the call
returns `PTL_FAIL` after the whole sequence of levels, the level given back before
the comm pad is unmapped. -/
theorem handshake_level_sequence_witness :
    call_status (setup_ppe lightEnvSegFail (light_init memTwo [])) = some ptl_ret.PTL_FAIL ∧
    call_log (setup_ppe lightEnvSegFail (light_init memTwo [])) =
      [.mmap 28672, .close 3, .switch_cmd_level 0 1, .write_pid 77, .switch_cmd_level 1 2,
       .wait_level 3, .read_reply ⟨42, 4096, 9⟩, .map_segment 9 0, .switch_cmd_level 3 0,
       .munmap 28672] ∧
    ∃ ret s1, setup_ppe lightEnvSegFail (light_init memTwo []) = .ok (ret, s1) :=
  ⟨by decide, by decide,
    (handshake_level_sequence lightEnvSegFail (light_init memTwo [])).2 (by decide)⟩

/-! ## The dead size check of `setup_ppe` and `setup_shmem` -/

theorem fstat_loop_le (env : LightEnv) :
    ∀ n k t, fstat_loop env n k = some t → t ≤ n := by
  intro n
  induction n with
  | zero =>
    intro k t h
    simp only [fstat_loop] at h
    injection h with h
    omega
  | succ n ih =>
    intro k t h
    simp only [fstat_loop] at h
    cases hf : env.fstat k with
    | none => simp [hf] at h
    | some size =>
      simp only [hf] at h
      split_ifs at h
      · injection h with h
        omega
      · have := ih (k + 1) t h
        omega

theorem shmem_fstat_loop_le (env : ShmemEnv) (size : Nat) :
    ∀ n k t, shmem_fstat_loop env size n k = some t → t ≤ n := by
  intro n
  induction n with
  | zero =>
    intro k t h
    simp only [shmem_fstat_loop] at h
    injection h with h
    omega
  | succ n ih =>
    intro k t h
    simp only [shmem_fstat_loop] at h
    cases hf : env.fstat k with
    | none => simp [hf] at h
    | some sz =>
      simp only [hf] at h
      split_ifs at h
      · injection h with h
        omega
      · have := ih (k + 1) t h
        omega

theorem fstat_loop_small (env : LightEnv)
    (hs : ∀ k, ∃ size, env.fstat k = some size ∧ size < env.sizeof_ppe_comm_pad) :
    ∀ n k, fstat_loop env n k = some 0 := by
  intro n
  induction n with
  | zero => intro k; rfl
  | succ n ih =>
    intro k
    obtain ⟨size, h1, h2⟩ := hs k
    simp only [fstat_loop, h1]
    rw [if_neg (by omega)]
    exact ih (k + 1)

theorem shmem_fstat_loop_small (env : ShmemEnv) (need : Nat)
    (hs : ∀ k, ∃ size, env.fstat k = some size ∧ size < need) :
    ∀ n k, shmem_fstat_loop env need n k = some 0 := by
  intro n
  induction n with
  | zero => intro k; rfl
  | succ n ih =>
    intro k
    obtain ⟨size, h1, h2⟩ := hs k
    simp only [shmem_fstat_loop, h1]
    rw [if_neg (by omega)]
    exact ih (k + 1)

/-- C23 (dead size check): in `setup_ppe` and in `setup_shmem` on a rank other
than 0, the loop that waits for the size of the file ends with `try_count`
between 0 and 100, so the test `try_count >= 100000` is false and the function,
once the file is open and `fstat` has not failed, goes on to `mmap` whatever size
the file has; when the file stays smaller than required at each of the 100 polls
the loop ends with `try_count = 0` and the function still goes on to `mmap`. -/
theorem dead_size_check :
    (∀ (env : LightEnv) k t, fstat_loop env 100 k = some t → t ≤ 100 ∧ ¬ t ≥ 100000) ∧
    (∀ (env : ShmemEnv) need k t,
      shmem_fstat_loop env need 100 k = some t → t ≤ 100 ∧ ¬ t ≥ 100000) ∧
    (∀ (env : LightEnv) s fd t, shm_open_loop env 100 0 = some fd →
      fstat_loop env 100 0 = some t →
      setup_ppe env s =
        if env.mmap = MAP_FAILED then
          .ok (setup_ppe_exit_fail (setup_ppe_mmap env (setup_ppe_start s)) (some fd))
        else setup_ppe_hello env ((setup_ppe_mmap env (setup_ppe_start s)).emit (.close fd))) ∧
    (∀ (env : ShmemEnv) s fd t, env.knem_init = 0 → s.ni.comm_pad = MAP_FAILED →
      s.ni.index ≠ 0 → shmem_open_loop env 100 0 = some fd →
      shmem_fstat_loop env (setup_shmem_prepare env s.ni).comm_pad_size 100 0 = some t →
      setup_shmem env s = setup_shmem_map env { s with ni := setup_shmem_prepare env s.ni } fd) ∧
    (∀ (env : LightEnv),
      (∀ k, ∃ size, env.fstat k = some size ∧ size < env.sizeof_ppe_comm_pad) →
      fstat_loop env 100 0 = some 0) ∧
    (∀ (env : ShmemEnv) need, (∀ k, ∃ size, env.fstat k = some size ∧ size < need) →
      shmem_fstat_loop env need 100 0 = some 0) := by
  refine ⟨?_, ?_, ?_, ?_, ?_, ?_⟩
  · intro env k t h
    have := fstat_loop_le env 100 k t h
    omega
  · intro env need k t h
    have := shmem_fstat_loop_le env need 100 k t h
    omega
  · intro env s fd t ho hf
    have ht := fstat_loop_le env 100 0 t hf
    unfold setup_ppe
    simp only [ho, hf]
    rw [if_neg (by omega)]
  · intro env s fd t hk hc hi ho hf
    have ht := shmem_fstat_loop_le env _ 100 0 t hf
    have hc' : (setup_shmem_prepare env s.ni).comm_pad = MAP_FAILED := hc
    have hi' : (setup_shmem_prepare env s.ni).index ≠ 0 := hi
    unfold setup_shmem
    dsimp only
    rw [if_neg (by simp [hk]), if_neg (by simp [hc']), if_neg hi']
    simp only [ho, hf]
    rw [if_neg (by omega)]
  · intro env hs
    exact fstat_loop_small env hs 100 0
  · intro env need hs
    exact shmem_fstat_loop_small env need hs 100 0

/-- Witness of C23: the file never grows beyond 0 bytes.  `setup_ppe` and
`setup_shmem` of rank 1 poll its size 100 times and then map it and return
`PTL_OK`. -/
theorem dead_size_check_witness :
    fstat_loop lightEnvSmall 100 0 = some 0 ∧
    call_status (setup_ppe lightEnvSmall (light_init memTwo [])) = some ptl_ret.PTL_OK ∧
    shmem_fstat_loop (shmemEnvSmall 2097152) 8320 100 0 = some 0 ∧
    shmem_trace (setup_shmem (shmemEnvSmall 2097152) ⟨shmemNi 1 2, []⟩) =
      some (ptl_ret.PTL_OK,
        [.mmap 8320 2097152, .close 3, .queue_init 2103360, .pool_init 2103424,
         .announce 1 ⟨1, 0, 0⟩, .connect 7000 (some 0), .conn_put 7000,
         .connect 7001 (some 1), .conn_put 7001, .shm_unlink (.logical 99 1), .free_name]) :=
  ⟨dead_size_check.2.2.2.2.1 lightEnvSmall (fun _ => ⟨0, rfl, by decide⟩), by decide,
    dead_size_check.2.2.2.2.2 (shmemEnvSmall 2097152) 8320 (fun _ => ⟨0, rfl, by decide⟩),
    by decide⟩

/-! ## The shared-memory transport: the layout of the comm pad -/

theorem round_up_bounds (x y : Nat) (hy : 0 < y) :
    x ≤ (x + y - 1) / y * y ∧ (x + y - 1) / y * y < x + y ∧ y ∣ (x + y - 1) / y * y := by
  have h1 : y * ((x + y - 1) / y) + (x + y - 1) % y = x + y - 1 := Nat.div_add_mod _ _
  have h2 : (x + y - 1) % y < y := Nat.mod_lt _ hy
  rw [Nat.mul_comm] at h1
  refine ⟨by omega, by omega, Dvd.intro_left _ rfl⟩

theorem to_int_of_lt {n : Nat} (h : n < 2 ^ 31) : to_int n = (n : Int) := by
  unfold to_int
  have h1 : n % U32 = n := Nat.mod_eq_of_lt (lt_trans h (by decide))
  rw [h1, if_pos h]

theorem int_to_u64_of_lt {n : Nat} (h : n < U64) : int_to_u64 (n : Int) = n := by
  unfold int_to_u64
  have h1 : ((n : Int) % (2 ^ 64 : Int)) = (n : Int) := by
    apply Int.emod_eq_of_lt
    · exact Int.ofNat_nonneg n
    · have : (n : Int) < (U64 : Int) := by exact_mod_cast h
      simpa [U64] using this
  rw [h1]
  simp

theorem pid_table_size_eq (env : ShmemEnv) (ni : shmem_ni_t) (hp : 0 < env.pagesize)
    (hpu : env.pagesize < U64) (hT : layout_T env ni.node_size < 2 ^ 31) :
    pid_table_size env ni = (layout_T env ni.node_size : Int) := by
  obtain ⟨b1, b2, _⟩ := round_up_bounds (ni.node_size * env.sizeof_shmem_pid_table)
    env.pagesize hp
  unfold layout_T at hT
  have hx : ni.node_size * env.sizeof_shmem_pid_table < 2 ^ 31 := lt_of_le_of_lt b1 hT
  have hx64 : ni.node_size * env.sizeof_shmem_pid_table < U64 :=
    lt_trans hx (by decide)
  have hsum : ni.node_size * env.sizeof_shmem_pid_table + env.pagesize - 1 < U64 := by
    by_cases h0 : ni.node_size * env.sizeof_shmem_pid_table = 0
    · rw [h0]
      omega
    · have hq : 0 < (ni.node_size * env.sizeof_shmem_pid_table + env.pagesize - 1) /
          env.pagesize := Nat.div_pos (by omega) hp
      have hge : env.pagesize ≤ (ni.node_size * env.sizeof_shmem_pid_table + env.pagesize - 1) /
          env.pagesize * env.pagesize := Nat.le_mul_of_pos_left _ hq
      have e : U64 = 2 ^ 64 := rfl
      omega
  unfold pid_table_size ROUND_UP layout_T
  rw [Nat.mod_eq_of_lt hx64, to_int_of_lt hx, int_to_u64_of_lt hx64, Nat.mod_eq_of_lt hsum,
    Nat.mod_eq_of_lt (lt_trans hT (by decide)), to_int_of_lt hT]

theorem shmem_connect_loop_ni (env : ShmemEnv) (ni : shmem_ni_t) :
    ∀ n i s b s1, shmem_connect_loop env ni n i s = .ok (b, s1) → s1.ni = s.ni := by
  intro n
  induction n with
  | zero =>
    intro i s b s1 h
    simp only [shmem_connect_loop] at h
    injection h with h
    injection h with _ h
    rw [h]
  | succ n ih =>
    intro i s b s1 h
    simp only [shmem_connect_loop] at h
    by_cases hc : i ≠ ni.index ∧ env.pid_table_valid i = false
    · rw [if_pos hc] at h
      cases h
    rw [if_neg hc] at h
    generalize env.get_conn (if i = ni.index then ni.id else env.pid_table_id i) = g at h
    cases g with
    | none =>
      injection h with h
      injection h with _ h
      rw [h]
    | some conn =>
      have := ih _ _ _ _ h
      exact this

theorem setup_shmem_exit_fail_status (s : ShmemState) (fd : Option Nat) :
    (setup_shmem_exit_fail s fd).1 = ptl_ret.PTL_FAIL := rfl

theorem setup_shmem_exit_fail_not_ok {s s1 : ShmemState} {fd : Option Nat}
    (h : (Except.ok (setup_shmem_exit_fail s fd) : Except Fault (ptl_ret × ShmemState)) =
      .ok (ptl_ret.PTL_OK, s1)) : False := by
  injection h with h
  have := setup_shmem_exit_fail_status s fd
  rw [h] at this
  cases this

theorem setup_shmem_connect_ok {env : ShmemEnv} {s s1 : ShmemState}
    (h : setup_shmem_connect env s = .ok (ptl_ret.PTL_OK, s1)) :
    ∃ nm, s1.ni = { s.ni with comm_pad_shm_name := nm } := by
  unfold setup_shmem_connect at h
  split_ifs at h
  · cases hl : shmem_connect_loop env s.ni s.ni.node_size 0
        (s.emit (.announce s.ni.index s.ni.id)) with
    | error f => simp [hl] at h
    | ok v =>
      obtain ⟨b, s2⟩ := v
      have hni : s2.ni = s.ni := by
        have := shmem_connect_loop_ni env s.ni _ _ _ _ _ hl
        exact this
      simp only [hl] at h
      cases b with
      | false => exact absurd h (fun h => setup_shmem_exit_fail_not_ok h)
      | true =>
        dsimp only at h
        cases hn : s2.ni.comm_pad_shm_name with
        | none => simp [hn] at h
        | some name =>
          simp only [hn] at h
          injection h with h
          injection h with _ h
          subst h
          exact ⟨none, by rw [hni]⟩
  · cases hg : env.get_conn s.ni.id with
    | none =>
      simp only [hg] at h
      exact absurd h (fun h => setup_shmem_exit_fail_not_ok h)
    | some conn =>
      simp only [hg] at h
      injection h with h
      injection h with _ h
      subst h
      exact ⟨s.ni.comm_pad_shm_name, rfl⟩

theorem setup_shmem_map_ok {env : ShmemEnv} {s s1 : ShmemState} {fd : Nat}
    (h : setup_shmem_map env s fd = .ok (ptl_ret.PTL_OK, s1)) :
    env.mmap ≠ MAP_FAILED ∧
    ∃ nm, s1.ni = { setup_shmem_queue env { s.ni with comm_pad := env.mmap } with
      comm_pad_shm_name := nm } := by
  unfold setup_shmem_map at h
  dsimp only at h
  split_ifs at h with h1 h2
  · exact absurd h (fun h => setup_shmem_exit_fail_not_ok h)
  · exact absurd h (fun h => setup_shmem_exit_fail_not_ok h)
  · exact ⟨h1, setup_shmem_connect_ok h⟩

theorem setup_shmem_ok {env : ShmemEnv} {s s1 : ShmemState}
    (h : setup_shmem env s = .ok (ptl_ret.PTL_OK, s1)) :
    env.mmap ≠ MAP_FAILED ∧
    ∃ nm, s1.ni = { setup_shmem_queue env { setup_shmem_prepare env s.ni with
      comm_pad := env.mmap } with comm_pad_shm_name := nm } := by
  unfold setup_shmem at h
  dsimp only at h
  by_cases h1 : env.knem_init ≠ 0
  · rw [if_pos h1] at h
    exact absurd h (fun h => setup_shmem_exit_fail_not_ok h)
  rw [if_neg h1] at h
  by_cases h2 : (setup_shmem_prepare env s.ni).comm_pad ≠ MAP_FAILED
  · rw [if_pos h2] at h
    cases h
  rw [if_neg h2] at h
  by_cases h3 : (setup_shmem_prepare env s.ni).index = 0
  · rw [if_pos h3] at h
    cases ho : env.shm_open_creat with
    | none => simp [ho] at h
    | some fd =>
      simp only [ho] at h
      split_ifs at h
      · exact absurd h (fun h => setup_shmem_exit_fail_not_ok h)
      · exact setup_shmem_map_ok h
  · rw [if_neg h3] at h
    cases ho : shmem_open_loop env 100 0 with
    | none =>
      simp only [ho] at h
      exact absurd h (fun h => setup_shmem_exit_fail_not_ok h)
    | some fd =>
      simp only [ho] at h
      cases hf : shmem_fstat_loop env (setup_shmem_prepare env s.ni).comm_pad_size 100 0 with
      | none =>
        simp only [hf] at h
        exact absurd h (fun h => setup_shmem_exit_fail_not_ok h)
      | some t =>
        simp only [hf] at h
        split_ifs at h
        · exact absurd h (fun h => setup_shmem_exit_fail_not_ok h)
        · exact setup_shmem_map_ok h

theorem layout_P_lt {env : ShmemEnv} {n : Nat} (hn : 1 ≤ n)
    (hsz : layout_T env n + n * layout_P env < U64) : layout_P env < U64 := by
  have : layout_P env ≤ n * layout_P env := Nat.le_mul_of_pos_left _ hn
  omega

theorem setup_shmem_layout {env : ShmemEnv} {s s1 : ShmemState}
    (h : setup_shmem env s = .ok (ptl_ret.PTL_OK, s1)) (hn : 1 ≤ s.ni.node_size)
    (hp : 0 < env.pagesize) (hpu : env.pagesize < U64)
    (hT : layout_T env s.ni.node_size < 2 ^ 31)
    (hsz : layout_T env s.ni.node_size + s.ni.node_size * layout_P env < U64) :
    s1.ni.comm_pad = env.mmap ∧ s1.ni.index = s.ni.index ∧ s1.ni.node_size = s.ni.node_size ∧
    s1.ni.per_proc_comm_buf_size = layout_P env ∧
    s1.ni.slab_size = env.PTL_NUM_SBUF * env.real_buf_t_size ∧
    s1.ni.comm_pad_size = layout_T env s.ni.node_size + s.ni.node_size * layout_P env ∧
    s1.ni.first_queue = add64 env.mmap (layout_T env s.ni.node_size) ∧
    s1.ni.queue = add64 env.mmap (layout_T env s.ni.node_size + s.ni.index * layout_P env) ∧
    s1.ni.pre_alloc_buffer = add64 s1.ni.queue env.sizeof_queue_t := by
  obtain ⟨_, nm, e⟩ := setup_shmem_ok h
  have hP := layout_P_lt hn hsz
  have hP' : env.sizeof_queue_t + env.PTL_NUM_SBUF * env.real_buf_t_size < U64 := hP
  have hslab : (env.PTL_NUM_SBUF * env.real_buf_t_size) % U64 =
      env.PTL_NUM_SBUF * env.real_buf_t_size := Nat.mod_eq_of_lt (by omega)
  have hper : (env.sizeof_queue_t + (env.PTL_NUM_SBUF * env.real_buf_t_size) % U64) % U64 =
      layout_P env := by
    rw [hslab]
    exact Nat.mod_eq_of_lt hP
  have hpt : to_int (ROUND_UP (int_to_u64 (to_int
      ((s.ni.node_size * env.sizeof_shmem_pid_table) % U64))) env.pagesize) =
      (layout_T env s.ni.node_size : Int) := pid_table_size_eq env s.ni hp hpu hT
  have hT64 : layout_T env s.ni.node_size < U64 := lt_trans hT (by decide)
  have hnP : s.ni.node_size * layout_P env < U64 := by omega
  rw [e]
  refine ⟨rfl, rfl, rfl, ?_, ?_, ?_, ?_, ?_, rfl⟩
  · simp only [setup_shmem_queue, setup_shmem_prepare, setup_shmem_sizes, setup_shmem_pool]
    exact hper
  · simp only [setup_shmem_queue, setup_shmem_prepare, setup_shmem_sizes, setup_shmem_pool]
    exact hslab
  · simp only [setup_shmem_queue, setup_shmem_prepare, setup_shmem_sizes, setup_shmem_pool,
      pid_table_size]
    rw [hpt, hper, Nat.mul_comm (layout_P env), Nat.mod_eq_of_lt hnP]
    have : ((layout_T env s.ni.node_size : Int) + ((s.ni.node_size * layout_P env : Nat) : Int)) =
        ((layout_T env s.ni.node_size + s.ni.node_size * layout_P env : Nat) : Int) := by
      push_cast
      rfl
    rw [this, int_to_u64_of_lt hsz]
  · simp only [setup_shmem_queue, setup_shmem_prepare, setup_shmem_sizes, setup_shmem_pool,
      pid_table_size]
    rw [hpt, int_to_u64_of_lt hT64]
  · simp only [setup_shmem_queue, setup_shmem_prepare, setup_shmem_sizes, setup_shmem_pool,
      pid_table_size]
    rw [hpt, hper, int_to_u64_of_lt hT64, Nat.mul_comm (layout_P env)]
    simp only [add64, U64]
    omega

/-- C25 (layout of the shared region): after a `setup_shmem` that returns `PTL_OK`
on a node of `n >= 1` ranks, with the sizes in the range of their C types (the
page size is positive, the rounded size `T` of the pid table fits the `int` that
holds it, and `T + n * P` fits 64 bits), `T` is the size of `n` pid table entries
rounded up to a multiple of the page size, `P` is `sizeof(queue_t)` plus
`PTL_NUM_SBUF` buffers, and `comm_pad_size = T + n * P`; the parts
`[T + i*P, T + (i+1)*P)` of distinct ranks are disjoint, start at or after the end
of the pid table `[0, T)` and, for `i < n`, end inside `[0, comm_pad_size)`; the
own queue of the rank is at `T + index * P` of the comm pad with the slab of
buffers right after the queue header.  The queue `shmem_enqueue` computes for
`dest` is at `T + dest * P` of the comm pad; for the rank's own index it is the
address `setup_shmem` stored in `queue`; and for a destination that ran
`setup_shmem` on the same node it is the place of the shared region where the
destination has its own queue: the two addresses are at the same offset of the
comm pad, which `shmem_enqueue` hands to `enqueue` as the base of its links, and
are equal where the two pads are mapped at the same address. -/
theorem shared_region_layout (env : ShmemEnv) (s s1 : ShmemState)
    (h : setup_shmem env s = .ok (ptl_ret.PTL_OK, s1)) (hn : 1 ≤ s.ni.node_size)
    (hp : 0 < env.pagesize) (hpu : env.pagesize < U64)
    (hT : layout_T env s.ni.node_size < 2 ^ 31)
    (hsz : layout_T env s.ni.node_size + s.ni.node_size * layout_P env < U64) :
    (env.pagesize ∣ layout_T env s.ni.node_size ∧
      s.ni.node_size * env.sizeof_shmem_pid_table ≤ layout_T env s.ni.node_size ∧
      layout_T env s.ni.node_size < s.ni.node_size * env.sizeof_shmem_pid_table + env.pagesize) ∧
    s1.ni.comm_pad_size = layout_T env s.ni.node_size + s.ni.node_size * layout_P env ∧
    (s1.ni.per_proc_comm_buf_size = layout_P env ∧
      env.sizeof_queue_t + s1.ni.slab_size = layout_P env) ∧
    (∀ i j, i ≠ j →
      ranges_disjoint (rank_range env s.ni.node_size i) (rank_range env s.ni.node_size j)) ∧
    (∀ i, i < s.ni.node_size →
      layout_T env s.ni.node_size ≤ (rank_range env s.ni.node_size i).1 ∧
      (rank_range env s.ni.node_size i).2 ≤ s1.ni.comm_pad_size) ∧
    (s1.ni.queue = add64 s1.ni.comm_pad (rank_range env s.ni.node_size s1.ni.index).1 ∧
      s1.ni.pre_alloc_buffer = add64 s1.ni.queue env.sizeof_queue_t) ∧
    (∀ dest, shmem_enqueue_queue s1.ni dest =
      add64 s1.ni.comm_pad (rank_range env s.ni.node_size dest).1) ∧
    shmem_enqueue_queue s1.ni s1.ni.index = s1.ni.queue ∧
    (∀ env2 s2 s3, setup_shmem env2 s2 = .ok (ptl_ret.PTL_OK, s3) → same_constants env env2 →
      s2.ni.node_size = s.ni.node_size →
      sub64 (shmem_enqueue_queue s1.ni s3.ni.index) s1.ni.comm_pad =
          sub64 s3.ni.queue s3.ni.comm_pad ∧
        (s3.ni.comm_pad = s1.ni.comm_pad →
          shmem_enqueue_queue s1.ni s3.ni.index = s3.ni.queue)) := by
  obtain ⟨a1, a2, a3, a4, a5, a6, a7, a8, a9⟩ := setup_shmem_layout h hn hp hpu hT hsz
  obtain ⟨b1, b2, b3⟩ := round_up_bounds (s.ni.node_size * env.sizeof_shmem_pid_table)
    env.pagesize hp
  have henq : ∀ dest, shmem_enqueue_queue s1.ni dest =
      add64 s1.ni.comm_pad (rank_range env s.ni.node_size dest).1 := by
    intro dest
    unfold shmem_enqueue_queue rank_range
    rw [a7, a4, a1, Nat.mul_comm (layout_P env)]
    simp only [add64, U64]
    omega
  have hown : s1.ni.queue =
      add64 s1.ni.comm_pad (rank_range env s.ni.node_size s1.ni.index).1 := by
    rw [a8, a1, a2]
    rfl
  refine ⟨⟨b3, b1, b2⟩, a6, ⟨a4, ?_⟩, ?_, ?_, ⟨hown, a9⟩, henq, ?_, ?_⟩
  · rw [a5]
    rfl
  · intro i j hij
    unfold ranges_disjoint rank_range
    dsimp only
    rcases Nat.lt_or_gt_of_ne hij with hlt | hgt
    · left
      have : (i + 1) * layout_P env ≤ j * layout_P env := Nat.mul_le_mul_right _ hlt
      omega
    · right
      have : (j + 1) * layout_P env ≤ i * layout_P env := Nat.mul_le_mul_right _ hgt
      omega
  · intro i hi
    unfold rank_range
    dsimp only
    rw [a6]
    have : (i + 1) * layout_P env ≤ s.ni.node_size * layout_P env := Nat.mul_le_mul_right _ hi
    omega
  · rw [henq s1.ni.index, ← hown]
  · intro env2 s2 s3 h2 hc hn2
    obtain ⟨c1, c2, c3, c4, c5⟩ := hc
    have eT : layout_T env2 s2.ni.node_size = layout_T env s.ni.node_size := by
      unfold layout_T
      rw [hn2, ← c4, ← c5]
    have eP : layout_P env2 = layout_P env := by
      unfold layout_P
      rw [← c1, ← c2, ← c3]
    obtain ⟨d1, d2, _, _, _, _, _, d8, _⟩ := setup_shmem_layout h2 (by rw [hn2]; exact hn)
      (by rw [← c5]; exact hp) (by rw [← c5]; exact hpu) (by rw [eT]; exact hT)
      (by rw [eT, eP, hn2]; exact hsz)
    rw [eT, eP, ← d2] at d8
    have e1 := henq s3.ni.index
    unfold rank_range at e1
    dsimp only at e1
    constructor
    · rw [e1, d8, d1]
      simp only [sub64, add64, U64]
      omega
    · intro hpad
      rw [e1, d8, ← hpad, d1]

/-- Witness of C25: the two ranks of a node, with 4 buffers of 512 bytes, a queue
header of 64 bytes, pid table entries of 16 bytes and pages of 4096 bytes:
`T = 4096`, `P = 2112`, the comm pad has 8320 bytes, and the queue rank 0 computes
for destination 1 is where rank 1 has its own queue, at offset 6208. -/
theorem shared_region_layout_witness :
    setup_shmem (shmemEnvOk 1048576) ⟨shmemNi 0 2, []⟩ = .ok (ptl_ret.PTL_OK, shmemRank0) ∧
    layout_T (shmemEnvOk 1048576) 2 = 4096 ∧ layout_P (shmemEnvOk 1048576) = 2112 ∧
    shmemRank0.ni.comm_pad_size = 4096 + 2 * 2112 ∧
    shmemRank1.ni.index = 1 ∧
    sub64 shmemRank1.ni.queue shmemRank1.ni.comm_pad = 6208 ∧
    sub64 (shmem_enqueue_queue shmemRank0.ni shmemRank1.ni.index) shmemRank0.ni.comm_pad =
      sub64 shmemRank1.ni.queue shmemRank1.ni.comm_pad :=
  ⟨rfl, by decide, by decide,
    (shared_region_layout (shmemEnvOk 1048576) ⟨shmemNi 0 2, []⟩ shmemRank0 rfl (by decide)
      (by decide) (by decide) (by decide) (by decide)).2.1,
    by decide, by decide,
    ((shared_region_layout (shmemEnvOk 1048576) ⟨shmemNi 0 2, []⟩ shmemRank0 rfl (by decide)
      (by decide) (by decide) (by decide) (by decide)).2.2.2.2.2.2.2.2
      (shmemEnvOk 2097152) ⟨shmemNi 1 2, []⟩ shmemRank1 rfl ⟨rfl, rfl, rfl, rfl, rfl⟩ rfl).1⟩

/-! ## The KNEM descriptors: the indirect descriptor and `iov_start` -/

theorem int_to_u64_shift (M : Nat) (p : Int) (hM : M < U64) (h1 : -(2 ^ 63 : Int) < p)
    (h2 : p < 2 ^ 63) : int_to_u64 ((M : Int) + p) = M ↔ p = 0 := by
  unfold int_to_u64
  simp only [U64] at hM
  omega

/-- C24 (the indirect KNEM descriptor ignores `iov_start`):
`append_init_data_shmem_iovec_indirect` writes one element with the cookie of
`md->sge_list_mr`, the offset `md->mem_iovecs - md->sge_list_mr->addr` and the
length `num_iov * sizeof(struct mem_iovec)`, and adds the size of a descriptor and
of one element to `buf->length`, the same for every `iov_start`.  The bytes it
describes are those of the elements `iov_start .. iov_start + num_iov` of the
array, the ones `append_init_data_shmem_iovec_direct` copies for the same
arguments, if and only if `iov_start = 0`. -/
theorem indirect_ignores_iov_start (env : KnemEnv) (md : md_t) (iov_start num_iov : Int)
    (length buf_length : Nat) :
    append_init_data_shmem_iovec_indirect env md iov_start num_iov length buf_length =
      ({ data_fmt := .DATA_FMT_KNEM_INDIRECT, num_mem_iovecs := num_iov,
         mem_iovec := [⟨md.sge_list_mr.knem_cookie, sub64 md.mem_iovecs md.sge_list_mr.addr,
           int_to_u64 (num_iov * (env.sizeof_mem_iovec : Int))⟩] },
       buf_length + env.sizeof_data_t + env.sizeof_mem_iovec) ∧
    (∀ other : Int,
      append_init_data_shmem_iovec_indirect env md other num_iov length buf_length =
        append_init_data_shmem_iovec_indirect env md iov_start num_iov length buf_length) ∧
    (md.mem_iovecs < U64 → 0 < env.sizeof_mem_iovec → env.sizeof_mem_iovec < 2 ^ 32 →
      -(2 ^ 31 : Int) ≤ iov_start → iov_start < 2 ^ 31 →
      ∀ e ∈ (append_init_data_shmem_iovec_indirect env md iov_start num_iov length
          buf_length).1.mem_iovec,
        (described_range md.sge_list_mr e = entries_range env md iov_start num_iov ↔
          iov_start = 0)) ∧
    (∀ d l, append_init_data_shmem_iovec_direct env md iov_start num_iov length buf_length =
        .ok (d, l) →
      0 ≤ iov_start ∧ 0 ≤ num_iov ∧
      d.mem_iovec = (md.mem_iovec_list.drop iov_start.toNat).take num_iov.toNat ∧
      d.mem_iovec.length = num_iov.toNat) := by
  refine ⟨rfl, fun _ => rfl, ?_, ?_⟩
  · intro hM hS0 hS hlo hhi e he
    simp only [append_init_data_shmem_iovec_indirect, List.mem_singleton] at he
    subst he
    have hstart : add64 md.sge_list_mr.addr (sub64 md.mem_iovecs md.sge_list_mr.addr) =
        md.mem_iovecs := by
      simp only [add64, sub64, U64] at hM ⊢
      omega
    have hS0' : (0 : Int) < (env.sizeof_mem_iovec : Int) := by exact_mod_cast hS0
    have hS' : (env.sizeof_mem_iovec : Int) < 2 ^ 32 := by exact_mod_cast hS
    have hb1 : -(2 ^ 63 : Int) < iov_start * (env.sizeof_mem_iovec : Int) := by nlinarith
    have hb2 : iov_start * (env.sizeof_mem_iovec : Int) < 2 ^ 63 := by nlinarith
    unfold described_range entries_range
    dsimp only
    rw [hstart]
    constructor
    · intro h
      injection h with h _
      have := (int_to_u64_shift md.mem_iovecs _ hM hb1 hb2).1 h.symm
      rcases mul_eq_zero.1 this with h0 | h0
      · exact h0
      · omega
    · intro h
      subst h
      simp [int_to_u64_of_lt hM]
  · intro d l h
    unfold append_init_data_shmem_iovec_direct at h
    split_ifs at h with hc
    injection h with h
    injection h with h1 _
    subst h1
    have hc' : ¬ iov_start < 0 ∧ ¬ num_iov < 0 ∧
        ¬ iov_start.toNat + num_iov.toNat > md.mem_iovec_list.length := by
      simpa [not_or] using hc
    refine ⟨by omega, by omega, rfl, ?_⟩
    simp only [List.length_take, List.length_drop]
    omega

/-- Witness of C24: on the sample descriptor, for the elements 1 and 2 of an array
at 8192 with elements of 24 bytes, the indirect descriptor describes the 48
bytes from 8192 on, which hold the elements 0 and 1, while the direct descriptor
copies the elements 1 and 2, which are the 48 bytes from 8216 on. -/
theorem indirect_ignores_iov_start_witness :
    (append_init_data_shmem_iovec_indirect knemEnv mdFour 1 2 0 0).1.mem_iovec =
      [⟨77, 4096, 48⟩] ∧
    described_range mdFour.sge_list_mr ⟨77, 4096, 48⟩ = (8192, 48) ∧
    entries_range knemEnv mdFour 1 2 = (8216, 48) ∧
    append_init_data_shmem_iovec_direct knemEnv mdFour 1 2 0 0 =
      .ok (⟨.DATA_FMT_KNEM_DMA, 2, [⟨2, 0, 200⟩, ⟨3, 0, 300⟩]⟩, 64) ∧
    ¬ (described_range mdFour.sge_list_mr ⟨77, 4096, 48⟩ = entries_range knemEnv mdFour 1 2) :=
  ⟨by decide, by decide, by decide, rfl,
    fun h => absurd (((indirect_ignores_iov_start knemEnv mdFour 1 2 0 0).2.2.1 (by decide)
      (by decide) (by decide) (by decide) (by decide) ⟨77, 4096, 48⟩ (by decide)).1 h)
      (by decide)⟩

/-! ## The PPE client: a round trip through the free list -/

theorem translate_back (obj a p : Nat) (h : obj < U64) :
    add64 (add64 (sub64 obj a) p) (sub64 a p) = obj := by
  simp only [add64, sub64, U64] at h ⊢
  omega

theorem free_chain_update (ppe : ppe_t) (m : shared_t) (obj v : Nat) :
    ∀ (l : List Nat) (head : Nat), obj ∉ l → free_chain ppe m head l →
      free_chain ppe { m with obj_next := Function.update m.obj_next obj v } head l := by
  intro l
  induction l with
  | nil => intro head _ h; exact h
  | cons a l ih =>
    intro head hn h
    obtain ⟨h1, h2, h3⟩ := h
    have ha : a ≠ obj := fun e => hn (by rw [e]; exact List.mem_cons_self _ _)
    refine ⟨h1, h2, ?_⟩
    show free_chain ppe _ (Function.update m.obj_next obj v a) l
    rw [Function.update_noteq ha]
    exact ih _ (fun hm => hn (List.mem_cons_of_mem _ hm)) h3

theorem free_chain_congr (ppe : ppe_t) (m m1 : shared_t) (h : m1.obj_next = m.obj_next) :
    ∀ (l : List Nat) (head : Nat), free_chain ppe m head l → free_chain ppe m1 head l := by
  intro l
  induction l with
  | nil => intro head hc; exact hc
  | cons a l ih =>
    intro head hc
    refine ⟨hc.1, hc.2.1, ?_⟩
    rw [h]
    exact ih _ hc.2.2

theorem free_chain_of_next {ppe : ppe_t} {m m1 : shared_t} {l : List Nat} {head : Nat}
    (hc : free_chain ppe m head l) (h : m1.obj_next = m.obj_next) : free_chain ppe m1 head l :=
  free_chain_congr ppe m m1 h l head hc

theorem enqueue_free_obj_alone (ppe : ppe_t) (m : shared_t) (obj : Nat) :
    enqueue_free_obj ppe [] m obj =
      .ok (({ m with obj_next := Function.update m.obj_next obj m.ppebuf_pool.free_list.obj } :
          shared_t).set_free_list
        ⟨ppe_address ppe obj, add64 m.ppebuf_pool.free_list.counter 1⟩, []) := by
  simp [enqueue_free_obj, enqueue_loop, enqueue_pass, PtlInternalAtomicCas128,
    shared_t.set_free_list, ppe_address]

theorem dequeue_free_obj_alone (ppe : ppe_t) (m : shared_t)
    (h : m.ppebuf_pool.free_list.obj ≠ 0) :
    dequeue_free_obj ppe [] m =
      .ok (add64 m.ppebuf_pool.free_list.obj (ppe_offset ppe),
        m.set_free_list
          ⟨m.obj_next (add64 m.ppebuf_pool.free_list.obj (ppe_offset ppe)),
           add64 m.ppebuf_pool.free_list.counter 1⟩, []) := by
  simp [dequeue_free_obj, dequeue_loop, dequeue_pass, PtlInternalAtomicCas128,
    shared_t.set_free_list, h]

/-- C21 (round trip through the free list): with nobody else at work, for every
state of the free list and every object at a 64-bit client address `obj` whose
address on the PPE, `obj - ppebufs_addr + ppebufs_ppeaddr`, is not `NULL` (as for
every object of the mapped slab), `enqueue_free_obj` returns, stores that PPE
address as head with the counter advanced by one, and stores the previous head in
`obj->next`, changing no other `next` field; `dequeue_free_obj` on the result
returns `obj`, puts the previous head back and leaves the counter advanced by
two in all (modulo 2^64) and every `next` field as the push left it.  Where the
list holds the objects `l` and `obj` is not among them, it holds `obj :: l` after
the push and `l` again after the pop: last in, first out. -/
theorem free_list_round_trip (ppe : ppe_t) (m : shared_t) (obj : Nat) (hobj : obj < U64)
    (hne : ppe_address ppe obj ≠ 0) :
    enqueue_free_obj ppe [] m obj =
      .ok (enqueue_mem (enqueue_free_obj ppe [] m obj) m, []) ∧
    (enqueue_mem (enqueue_free_obj ppe [] m obj) m).ppebuf_pool.free_list =
      ⟨ppe_address ppe obj, add64 m.ppebuf_pool.free_list.counter 1⟩ ∧
    (enqueue_mem (enqueue_free_obj ppe [] m obj) m).obj_next =
      Function.update m.obj_next obj m.ppebuf_pool.free_list.obj ∧
    dequeue_free_obj ppe [] (enqueue_mem (enqueue_free_obj ppe [] m obj) m) =
      .ok (obj, dequeue_mem (dequeue_free_obj ppe []
          (enqueue_mem (enqueue_free_obj ppe [] m obj) m))
        (enqueue_mem (enqueue_free_obj ppe [] m obj) m), []) ∧
    (dequeue_mem (dequeue_free_obj ppe [] (enqueue_mem (enqueue_free_obj ppe [] m obj) m))
        (enqueue_mem (enqueue_free_obj ppe [] m obj) m)).ppebuf_pool.free_list =
      ⟨m.ppebuf_pool.free_list.obj, (m.ppebuf_pool.free_list.counter + 2) % U64⟩ ∧
    (dequeue_mem (dequeue_free_obj ppe [] (enqueue_mem (enqueue_free_obj ppe [] m obj) m))
        (enqueue_mem (enqueue_free_obj ppe [] m obj) m)).obj_next =
      Function.update m.obj_next obj m.ppebuf_pool.free_list.obj ∧
    (∀ l, free_chain ppe m m.ppebuf_pool.free_list.obj l → obj ∉ l →
      free_chain ppe (enqueue_mem (enqueue_free_obj ppe [] m obj) m)
        (enqueue_mem (enqueue_free_obj ppe [] m obj) m).ppebuf_pool.free_list.obj (obj :: l) ∧
      free_chain ppe
        (dequeue_mem (dequeue_free_obj ppe [] (enqueue_mem (enqueue_free_obj ppe [] m obj) m))
          (enqueue_mem (enqueue_free_obj ppe [] m obj) m))
        (dequeue_mem (dequeue_free_obj ppe [] (enqueue_mem (enqueue_free_obj ppe [] m obj) m))
          (enqueue_mem (enqueue_free_obj ppe [] m obj) m)).ppebuf_pool.free_list.obj l) := by
  have hback : add64 (ppe_address ppe obj) (ppe_offset ppe) = obj :=
    translate_back obj ppe.ppebufs_addr ppe.ppebufs_ppeaddr hobj
  rw [enqueue_free_obj_alone]
  simp only [enqueue_mem]
  have hhead : (shared_t.set_free_list
      { m with obj_next := Function.update m.obj_next obj m.ppebuf_pool.free_list.obj }
      ⟨ppe_address ppe obj, add64 m.ppebuf_pool.free_list.counter 1⟩).ppebuf_pool.free_list.obj
      ≠ 0 := hne
  rw [dequeue_free_obj_alone _ _ hhead]
  simp only [dequeue_mem, shared_t.set_free_list, hback, Function.update_same]
  refine ⟨trivial, trivial, trivial, trivial, ?_, trivial, ?_⟩
  · congr 1
    simp only [add64, U64]
    omega
  · intro l hl hn
    have h1 := free_chain_update ppe m obj m.ppebuf_pool.free_list.obj l _ hn hl
    refine ⟨⟨hne, hback.symm, ?_⟩, ?_⟩
    · simp only [Function.update_same]
      exact free_chain_of_next h1 rfl
    · exact free_chain_of_next h1 rfl

/-- Witness of C21: the sample client pushes the object it sees at 20992 (4608 on
the PPE) on the free list headed by 4096 with counter 0, and pops it again: the
pop returns 20992 and leaves the head 4096 with counter 2. -/
theorem free_list_round_trip_witness :
    dequeue_result (dequeue_free_obj lightReady.ppe []
      (enqueue_mem (enqueue_free_obj lightReady.ppe [] memTwo objThird) memTwo)) =
      some (20992, ⟨4096, 2⟩) ∧
    (enqueue_mem (enqueue_free_obj lightReady.ppe [] memTwo objThird) memTwo).ppebuf_pool.free_list =
      ⟨4608, 1⟩ :=
  ⟨by decide,
    (free_list_round_trip lightReady.ppe memTwo objThird (by decide) (by decide)).2.1⟩

/-! ## Marshalling in `atomic.c`: the argument `local_put_offset` -/

/-- C26, as the code has it: the command entries `PtlFetchAtomic` and `PtlSwap` of
`atomic.c` build have no field for `local_put_offset`: the argument is checked
against 2^48 and then dropped.  A call that passes validation still passes it
with any other `local_put_offset` below 2^48 and then leaves exactly the same
behind: the same status and the same entry.  Every other argument is kept: two
calls that pass validation and build the same entry differ in `local_put_offset`
at most.  The stubs of the same names in `ptl_light_lib.c` do store
`local_put_offset`, and their messages determine every argument. -/
theorem atomic_entries_drop_local_put_offset (env : LibEnv) (f : FetchAtomicArgs)
    (w : SwapArgs) (x : Nat) (hx : x < 2 ^ 48) :
    (PtlFetchAtomic_validate env f = none →
      PtlFetchAtomic_validate env { f with local_put_offset := x } = none ∧
      PtlFetchAtomic env { f with local_put_offset := x } = PtlFetchAtomic env f) ∧
    (PtlSwap_validate env w = none →
      PtlSwap_validate env { w with local_put_offset := x } = none ∧
      PtlSwap env { w with local_put_offset := x } = PtlSwap env w) ∧
    (∀ g : FetchAtomicArgs, PtlFetchAtomic_validate env f = none →
      PtlFetchAtomic_validate env g = none → env.ptl_cq_entry_alloc = 0 →
      (PtlFetchAtomic env g).sent = (PtlFetchAtomic env f).sent →
      g = { f with local_put_offset := g.local_put_offset }) ∧
    (∀ v : SwapArgs, PtlSwap_validate env w = none → PtlSwap_validate env v = none →
      env.ptl_cq_entry_alloc = 0 → (PtlSwap env v).sent = (PtlSwap env w).sent →
      v = { w with local_put_offset := v.local_put_offset }) ∧
    (∀ g : FetchAtomicArgs, light_PtlFetchAtomic_msg g = light_PtlFetchAtomic_msg f → g = f) ∧
    (∀ v : SwapArgs, light_PtlSwap_msg v = light_PtlSwap_msg w → v = w) := by
  refine ⟨?_, ?_, ?_, ?_, ?_, ?_⟩
  · intro h
    have h2 : PtlFetchAtomic_validate env { f with local_put_offset := x } = none := by
      rw [PtlFetchAtomic_validate_eq_none] at h ⊢
      obtain ⟨a1, a2, a3, a4, a5, a6, a7, a8, a9, a10, a11, a12⟩ := h
      exact ⟨a1, a2, a3, a4, a5, a6, a7, a8, a9, hx, a11, a12⟩
    refine ⟨h2, ?_⟩
    unfold PtlFetchAtomic
    rw [h, h2]
  · intro h
    have h2 : PtlSwap_validate env { w with local_put_offset := x } = none := by
      rw [PtlSwap_validate_eq_none] at h ⊢
      obtain ⟨a1, a2, a3, a4, a5, a6, a7, a8, a9, a10, a11⟩ := h
      exact ⟨a1, a2, a3, a4, a5, a6, a7, a8, hx, a10, a11⟩
    refine ⟨h2, ?_⟩
    unfold PtlSwap
    rw [h, h2]
  · intro g hf hg ha hs
    unfold PtlFetchAtomic at hs
    rw [hf, hg] at hs
    simp only [ite_self, send_command, ha] at hs
    cases f
    cases g
    split_ifs at hs <;> simp_all
  · intro v hw hv ha hs
    unfold PtlSwap at hs
    rw [hw, hv] at hs
    simp only [ite_self, send_command, ha] at hs
    cases w
    cases v
    split_ifs at hs <;> simp_all
  · intro g h
    cases f
    cases g
    simp only [light_PtlFetchAtomic_msg, ppe_msg.OP_PtlFetchAtomic.injEq] at h
    exact h
  · intro v h
    cases w
    cases v
    simp only [light_PtlSwap_msg, ppe_msg.OP_PtlSwap.injEq] at h
    exact h

/-- The failing input of C26: two calls of `PtlFetchAtomic` that differ in
`local_put_offset` alone, 0 and 8, pass validation and hand the same entry to the
command queue; so do two such calls of `PtlSwap`. -/
theorem atomic_entries_drop_local_put_offset_witness :
    fetchCallPut 0 ≠ fetchCallPut 8 ∧
    PtlFetchAtomic_validate envAccept (fetchCallPut 0) = none ∧
    PtlFetchAtomic_validate envAccept (fetchCallPut 8) = none ∧
    PtlFetchAtomic envAccept (fetchCallPut 8) = PtlFetchAtomic envAccept (fetchCallPut 0) ∧
    PtlSwap envAccept (swapCallPut 8) = PtlSwap envAccept (swapCallPut 0) ∧
    light_PtlFetchAtomic_msg (fetchCallPut 8) ≠ light_PtlFetchAtomic_msg (fetchCallPut 0) :=
  ⟨by decide, by decide, by decide,
    ((atomic_entries_drop_local_put_offset envAccept (fetchCallPut 0) (swapCallPut 0) 8
      (by decide)).1 (by decide)).2,
    ((atomic_entries_drop_local_put_offset envAccept (fetchCallPut 0) (swapCallPut 0) 8
      (by decide)).2.1 (by decide)).2,
    by decide⟩

/-! ## The rdma engine: the MR references of `build_sge` -/

theorem sge_segment_contig {me : me_t} {s : SgeState} {addr bytes : Nat}
    {iov : Option ptl_iovec_t} (h : sge_segment me s = .ok (addr, bytes, iov))
    (hc : me.num_iov = 0) : bytes = s.resid := by
  unfold sge_segment at h
  rw [if_neg (by simp [hc])] at h
  split_ifs at h
  simp only [Except.ok.injEq, Prod.mk.injEq] at h
  exact h.2.1.symm

theorem build_sge_loop_mr (env : RdmaEnv) (me : me_t) (sge_size : Nat) :
    ∀ (fuel : Nat) (s s1 : SgeState) (st : ptl_ret), MrInv me s →
      build_sge_loop env me sge_size fuel s = .ok (st, s1) → MrInv me s1 := by
  intro fuel
  induction fuel with
  | zero => intro s s1 st _ h; simp [build_sge_loop] at h
  | succ n ih =>
    intro s s1 st hinv h
    rw [build_sge_loop] at h
    split_ifs at h with h0
    · simp only [Except.ok.injEq, Prod.mk.injEq] at h
      rw [← h.2]
      exact hinv
    · split at h
      · cases h
      · rename_i addr bytes iov hseg
        simp only at h
        split_ifs at h with h1 h2 h3
        · simp only [Except.ok.injEq, Prod.mk.injEq] at h
          rw [← h.2]
          exact hinv
        · simp only [Except.ok.injEq, Prod.mk.injEq] at h
          rw [← h.2]
          refine ⟨?_, fun hc => ?_⟩
          · simp [sge_update]
            exact hinv.1
          · simp [sge_update]
            exact hinv.2 hc
        · refine ih _ _ _ ⟨?_, fun hc => ?_⟩ h
          · simp [sge_update]
            exact hinv.1
          · simp [sge_update]
            exact hinv.2 hc
        · have hz : bytes = 0 := by simpa using h2
          refine ih _ _ _ ⟨?_, fun hc => ?_⟩ h
          · simp [sge_update]
            exact Nat.le_succ_of_le hinv.1
          · have := sge_segment_contig hseg hc
            rw [hz] at this
            exact absurd this.symm h0

/-- C29, as the code has it: when `build_sge` returns `PTL_OK` every entry it
counts in `num_sge` has its MR reference in `mr_list`, but the list can hold more:
a pass of the loop that finds nothing to transfer in the current iovec element
(an element of length 0) stores the MR it looked up through `*mr_list++` and
leaves `num_sge` alone.  The two numbers are equal when the ME is contiguous. -/
theorem build_sge_mr_references (env : RdmaEnv) (me : me_t)
    (cur_index cur_off sge_size length : Nat) (r : SgeResult)
    (h : build_sge env me cur_index cur_off sge_size length = .ok r)
    (hok : r.status = ptl_ret.PTL_OK) :
    r.num_sge ≤ r.mr_list.length ∧ (me.num_iov = 0 → r.mr_list.length = r.num_sge) := by
  unfold build_sge at h
  simp only at h
  split at h
  · cases h
  · rename_i st s hloop
    have hinv := build_sge_loop_mr env me sge_size _ _ _ _
      (show MrInv me _ from ⟨by simp, fun _ => by simp⟩) hloop
    split_ifs at h with hst
    · simp only [Except.ok.injEq] at h
      subst h
      exact absurd hok hst
    · simp only [Except.ok.injEq] at h
      subst h
      exact hinv

/-- The failing input of C29: 25 bytes on an iovec of three elements of 10, 0 and
20 bytes.  `build_sge` returns `PTL_OK` with two entries and three MR references,
and `process_rdma` counts two (`num_mr = 2`) for the rdma buf that holds the
three. -/
theorem build_sge_mr_references_witness :
    build_sge (envOk 16 2) meIovec 0 0 16 25 = .ok sgeIovec25 ∧
    sgeIovec25.num_sge = 2 ∧ sgeIovec25.mr_list = [1, 2, 3] ∧
    sgeIovec25.num_sge ≤ sgeIovec25.mr_list.length ∧
    rdma_mr_counts (process_rdma (envOk 16 2) (bufStart meIovec remOne 25)) =
      some [(2, [1, 2, 3])] :=
  ⟨rfl, rfl, rfl,
    (build_sge_mr_references (envOk 16 2) meIovec 0 0 16 25 sgeIovec25 rfl rfl).1, by decide⟩

end Portals4
